import Mathlib

/-! # Finch: the parser and the bytecode interpreter

A shallow embedding of `src/Syntax/FinchParser.cpp` (the recursive-descent
parser) and of the message opcodes of `src/Interpreter/Interpreter.cpp`,
followed by theorems about them.

Conventions of the embedding.

* The parser object is an explicit state `Parser` threaded through every
  function: the unread tokens, the error flag and the messages reported so far.
* Recursive functions and loops take a fuel argument; `none` means the fuel ran
  out before the C++ function would have returned. The lemma `fuelMono` shows
  that a result, once produced, is the same for every larger fuel.
* `Ref<Expr>` results are never null in the parser (every path allocates a
  node), so expressions are plain values of `Expr`; only `Parse` can return the
  null reference, modelled as `Option Expr`.
-/

set_option linter.unusedTactic false
set_option linter.unreachableTactic false
set_option linter.unnecessarySeqFocus false
set_option linter.unusedVariables false

namespace Finch

/-! ## Tokens and expressions -/

/-- Token kinds produced by the lexer. -/
inductive TokenType where
  | TOKEN_NAME
  | TOKEN_NUMBER
  | TOKEN_STRING
  | TOKEN_OPERATOR
  | TOKEN_SEMICOLON
  | TOKEN_COMMA
  | TOKEN_DOT
  | TOKEN_EQ
  | TOKEN_ARROW
  | TOKEN_LEFT_PAREN
  | TOKEN_RIGHT_PAREN
  | TOKEN_LEFT_BRACE
  | TOKEN_RIGHT_BRACE
  | TOKEN_LEFT_BRACKET
  | TOKEN_RIGHT_BRACKET
  | TOKEN_DEF
  | TOKEN_OBJ
  | TOKEN_VAR
  | TOKEN_RETURN
  | TOKEN_SELF
  | TOKEN_UNDEFINED
  | TOKEN_EOF
  deriving DecidableEq, Repr, Inhabited

open TokenType

/-- A token: its kind, its text (`Text()`) and its numeric payload
(`Number()`). The parser only copies the numeric payload into the tree, so it
is kept as an integer here. -/
structure Token where
  type : TokenType
  text : String
  number : Int
  deriving DecidableEq, Repr, Inhabited

/-- The expression tree. `DefExpr` and `ObjectExpr` carry the definitions
recorded through `DefineExpr::Define(isMethod, name, body)`, in call order. -/
inductive Expr where
  | ArrayExpr (exprs : List Expr)
  | BlockExpr (params : List String) (body : Expr)
  | DefExpr (name : String) (defs : List (Bool × String × Expr))
  | MessageExpr (receiver : Expr) (name : String) (args : List Expr)
  | NameExpr (name : String)
  | NumberExpr (value : Int)
  | ObjectExpr (parent : Expr) (defs : List (Bool × String × Expr))
  | ReturnExpr (result : Expr)
  | SelfExpr
  | SequenceExpr (exprs : List Expr)
  | SetExpr (name : String) (value : Expr)
  | StringExpr (text : String)
  | UndefineExpr (name : String)
  | VarExpr (name : String) (value : Expr)
  deriving Inhabited

open Expr

/-- One entry recorded by `DefineExpr::Define`: the method flag, the name and
the body. -/
abbrev Definition := Bool × String × Expr

/-! ## The parser state and the helpers of the `Parser` base class -/

/-- The state of a `FinchParser`: the tokens not yet consumed (the lexer yields
`TOKEN_EOF` for ever once they are exhausted), the `HadError()` flag, the
messages handed to the error reporter, and the mode. -/
structure Parser where
  tokens : List Token
  hadError : Bool
  errors : List String
  infinite : Bool
  deriving Inhabited

/-- The token the lexer yields once the source is exhausted. -/
def eofToken : Token := ⟨TOKEN_EOF, "", 0⟩

/-- Modelled from the spec: the base class `Parser` is not among the sources.
The kind of the token `offset` places ahead; past the end of the stream every
token is `TOKEN_EOF`. -/
def peekType (p : Parser) (offset : Nat) : TokenType :=
  match p.tokens.get? offset with
  | some t => t.type
  | none => TOKEN_EOF

/-- Modelled from the spec: `Parser::IsInfinite()`, the REPL mode. -/
def IsInfinite (p : Parser) : Bool := p.infinite

/-- Modelled from the spec: `Parser::HadError()`. -/
def HadError (p : Parser) : Bool := p.hadError

/-- Modelled from the spec: `Parser::LookAhead(type)`, one token of
lookahead. -/
def LookAhead (p : Parser) (type : TokenType) : Bool :=
  decide (peekType p 0 = type)

/-- Modelled from the spec: `Parser::LookAhead(current, next)`, two tokens of
lookahead. -/
def LookAhead2 (p : Parser) (current next : TokenType) : Bool :=
  decide (peekType p 0 = current) && decide (peekType p 1 = next)

/-- Modelled from the spec: `Parser::LookAhead(offset, type)`, the kind of the
token `offset` places ahead. -/
def LookAheadAt (p : Parser) (offset : Nat) (type : TokenType) : Bool :=
  decide (peekType p offset = type)

/-- Modelled from the spec: `Parser::Consume()`, take the next token. At the
end of the stream the token is `TOKEN_EOF` and the stream stays exhausted. -/
def Consume (p : Parser) : Token × Parser :=
  match p.tokens with
  | [] => (eofToken, p)
  | t :: ts => (t, { p with tokens := ts })

/-- Modelled from the spec: `Parser::Error(message)`, report the message to the
sink and raise the error flag; parsing continues. -/
def Error (p : Parser) (message : String) : Parser :=
  { p with hadError := true, errors := p.errors ++ [message] }

/-- Modelled from the spec: `Parser::Match(type)`, consume the next token when
it has the given kind and say whether it did. -/
def Match (p : Parser) (type : TokenType) : Bool × Parser :=
  if LookAhead p type then (true, (Consume p).2) else (false, p)

/-- Modelled from the spec: `Parser::Expect(type, message)`, report an error
unless the next token has the given kind; nothing is consumed. -/
def Expect (p : Parser) (type : TokenType) (message : String) : Parser :=
  if LookAhead p type then p else Error p message

/-- Modelled from the spec: `Parser::Consume(type, message)`. When the next
token has the expected kind it is consumed; otherwise the error is reported and
the offending token is consumed all the same, so that parsing can go on. -/
def ConsumeExpected (p : Parser) (type : TokenType) (message : String) :
    Token × Parser :=
  if LookAhead p type then Consume p else Consume (Error p message)

/-- Modelled from the spec: `Expr::IsField(name)`, a field name begins with an
underscore. -/
def IsField (name : String) : Bool :=
  match name.data with
  | c :: _ => decide (c = '_')
  | [] => false

/-- The `while` loop of `ParseBlock` that counts the leading `TOKEN_NAME`
tokens: `while (LookAhead(numArgs, TOKEN_NAME)) numArgs++`. -/
def countNames : List Token → Nat
  | [] => 0
  | t :: ts => if t.type = TOKEN_NAME then countNames ts + 1 else 0

/-- The `for` loop of `ParseBlock` that consumes `numArgs` parameter names. -/
def consumeParams : Nat → Parser → List String → List String × Parser
  | 0, p, params => (params, p)
  | k + 1, p, params =>
    consumeParams k (Consume p).2 (params ++ [(Consume p).1.text])

/-- The closing step of `Sequence`: a single expression is returned as it is,
anything else is wrapped in a `SequenceExpr`. -/
def finishSequence (exprs : List Expr) : Expr :=
  match exprs with
  | [e] => e
  | _ => SequenceExpr exprs

/-- The inner `do ... while (Match(TOKEN_COMMA))` loop of the mixfix case of
`ParseDefine`: one parameter name per round, one space added to the selector
per parameter. -/
def ParseDefineParams : Nat → Parser → String → List String →
    Option (String × List String × Parser)
  | 0, _, _, _ => none
  | n + 1, p, name, params =>
    let param := ConsumeExpected p TOKEN_NAME "Expect parameter name after '('."
    if (Match param.2 TOKEN_COMMA).1 then
      ParseDefineParams n (Match param.2 TOKEN_COMMA).2 (name ++ " ")
        (params ++ [param.1.text])
    else
      some (name ++ " ", params ++ [param.1.text], param.2)

/-- The `while (LookAhead(TOKEN_NAME))` loop of the mixfix case of
`ParseDefine`: one `name(params)` part per round. -/
def ParseDefineMixfix : Nat → Parser → String → List String →
    Option (String × List String × Parser)
  | 0, _, _, _ => none
  | n + 1, p, name, params =>
    if LookAhead p TOKEN_NAME then
      let p1 := (ConsumeExpected (Consume p).2 TOKEN_LEFT_PAREN
        "Expect '(' after method name.").2
      match ParseDefineParams n p1 (name ++ (Consume p).1.text) params with
      | none => none
      | some (name1, params1, p2) =>
        ParseDefineMixfix n
          (ConsumeExpected p2 TOKEN_RIGHT_PAREN "Expect ')' after parameter.").2
          name1 params1
    else
      some (name, params, p)

/-! ## The recursive-descent functions of `FinchParser` -/

mutual

/-- `FinchParser::Expression`: a sequence, then an optional `;`. -/
def Expression : Nat → Parser → Option (Expr × Parser)
  | 0, _ => none
  | n + 1, p =>
    match Sequence n p with
    | none => none
    | some (expr, p1) => some (expr, (Match p1 TOKEN_SEMICOLON).2)

/-- `FinchParser::Sequence`: starts the loop with an empty `exprs`. -/
def Sequence : Nat → Parser → Option (Expr × Parser)
  | 0, _ => none
  | n + 1, p => SequenceLoop n p []

/-- The `while (true)` loop of `Sequence`, one statement per round; `exprs`
holds the statements collected so far. -/
def SequenceLoop : Nat → Parser → List Expr → Option (Expr × Parser)
  | 0, _, _ => none
  | n + 1, p, exprs =>
    match Statement n p with
    | none => none
    | some (expr, p1) =>
      if (Match p1 TOKEN_SEMICOLON).1 = false then
        some (finishSequence (exprs ++ [expr]), p1)
      else
        let p2 := (Match p1 TOKEN_SEMICOLON).2
        if LookAhead p2 TOKEN_RIGHT_PAREN then
          some (finishSequence (exprs ++ [expr]), p2)
        else if LookAhead p2 TOKEN_RIGHT_BRACKET then
          some (finishSequence (exprs ++ [expr]), p2)
        else if LookAhead p2 TOKEN_RIGHT_BRACE then
          some (finishSequence (exprs ++ [expr]), p2)
        else if LookAhead p2 TOKEN_EOF then
          some (finishSequence (exprs ++ [expr]), p2)
        else
          SequenceLoop n p2 (exprs ++ [expr])

/-- `FinchParser::Statement`. -/
def Statement : Nat → Parser → Option (Expr × Parser)
  | 0, _ => none
  | n + 1, p =>
    if (Match p TOKEN_DEF).1 then
      let name := ConsumeExpected (Match p TOKEN_DEF).2 TOKEN_NAME
        "Expect name after 'def'."
      let p1 := (ConsumeExpected name.2 TOKEN_LEFT_BRACE
        "Expect '\x7b' after definition receiver.").2
      match ParseDefines n p1 [] TOKEN_RIGHT_BRACE with
      | none => none
      | some (defs, p2) => some (DefExpr name.1.text defs, p2)
    else if LookAhead2 p TOKEN_OBJ TOKEN_NAME then
      let name := (Consume (Consume p).2).1.text
      let p1 := (Consume (Consume p).2).2
      match (if (Match p1 TOKEN_ARROW).1 then Primary n (Match p1 TOKEN_ARROW).2
             else some (NameExpr "Object", p1)) with
      | none => none
      | some (parent, p2) =>
        let p3 := (ConsumeExpected p2 TOKEN_LEFT_BRACE
          "Expect '\x7b' after 'obj'.").2
        if (Match p3 TOKEN_RIGHT_BRACE).1 then
          some (VarExpr name (ObjectExpr parent []),
            (Match p3 TOKEN_RIGHT_BRACE).2)
        else
          match ParseDefines n p3 [] TOKEN_RIGHT_BRACE with
          | none => none
          | some (defs, p4) => some (VarExpr name (ObjectExpr parent defs), p4)
    else if (Match p TOKEN_VAR).1 then
      let name := ConsumeExpected (Match p TOKEN_VAR).2 TOKEN_NAME
        "Expect name after 'var'."
      let p1 := (ConsumeExpected name.2 TOKEN_EQ
        "Expect '=' after variable name.").2
      if (Match p1 TOKEN_UNDEFINED).1 then
        some (UndefineExpr name.1.text, (Match p1 TOKEN_UNDEFINED).2)
      else
        match Assignment n p1 with
        | none => none
        | some (value, p2) => some (VarExpr name.1.text value, p2)
    else if (Match p TOKEN_RETURN).1 then
      let p1 := (Match p TOKEN_RETURN).2
      if LookAhead p1 TOKEN_SEMICOLON || LookAhead p1 TOKEN_RIGHT_PAREN ||
          LookAhead p1 TOKEN_RIGHT_BRACE || LookAhead p1 TOKEN_RIGHT_BRACKET then
        some (ReturnExpr (NameExpr "nil"), p1)
      else
        match Assignment n p1 with
        | none => none
        | some (result, p2) => some (ReturnExpr result, p2)
    else
      Assignment n p

/-- `FinchParser::Assignment`. -/
def Assignment : Nat → Parser → Option (Expr × Parser)
  | 0, _ => none
  | n + 1, p =>
    if LookAhead2 p TOKEN_NAME TOKEN_EQ then
      match Assignment n (Consume (Consume p).2).2 with
      | none => none
      | some (value, p1) => some (SetExpr (Consume p).1.text value, p1)
    else
      Operator n p

/-- `FinchParser::Operator`: the first operand, then the operator loop. -/
def Operator : Nat → Parser → Option (Expr × Parser)
  | 0, _ => none
  | n + 1, p =>
    match Message n p with
    | none => none
    | some (object, p1) => OperatorLoop n p1 object

/-- The `while (LookAhead(TOKEN_OPERATOR))` loop of `Operator`; `object` is
the tree built so far. -/
def OperatorLoop : Nat → Parser → Expr → Option (Expr × Parser)
  | 0, _, _ => none
  | n + 1, p, object =>
    if LookAhead p TOKEN_OPERATOR then
      match Message n (Consume p).2 with
      | none => none
      | some (arg, p1) =>
        OperatorLoop n p1 (MessageExpr object (Consume p).1.text [arg])
    else
      some (object, p)

/-- `FinchParser::Message`: the receiver, then the `.` loop. -/
def Message : Nat → Parser → Option (Expr × Parser)
  | 0, _ => none
  | n + 1, p =>
    match (if LookAhead2 p TOKEN_NAME TOKEN_LEFT_PAREN ||
              LookAhead2 p TOKEN_NAME TOKEN_LEFT_BRACE then
             ParseMessage n p (NameExpr "Ether")
           else Primary n p) with
    | none => none
    | some (object, p1) => MessageLoop n p1 object

/-- The `while (Match(TOKEN_DOT))` loop of `Message`. -/
def MessageLoop : Nat → Parser → Expr → Option (Expr × Parser)
  | 0, _, _ => none
  | n + 1, p, object =>
    if (Match p TOKEN_DOT).1 then
      let p1 := (Match p TOKEN_DOT).2
      if LookAhead2 p1 TOKEN_NAME TOKEN_LEFT_PAREN ||
          LookAhead2 p1 TOKEN_NAME TOKEN_LEFT_BRACE then
        match ParseMessage n p1 object with
        | none => none
        | some (object1, p2) => MessageLoop n p2 object1
      else
        let name := ConsumeExpected p1 TOKEN_NAME "Expect message name after '.'"
        MessageLoop n name.2 (MessageExpr object name.1.text [])
    else
      some (object, p)

/-- `FinchParser::Primary`. -/
def Primary : Nat → Parser → Option (Expr × Parser)
  | 0, _ => none
  | n + 1, p =>
    if LookAhead p TOKEN_NAME then
      some (NameExpr (Consume p).1.text, (Consume p).2)
    else if LookAhead p TOKEN_NUMBER then
      some (NumberExpr (Consume p).1.number, (Consume p).2)
    else if LookAhead p TOKEN_STRING then
      some (StringExpr (Consume p).1.text, (Consume p).2)
    else if (Match p TOKEN_SELF).1 then
      some (SelfExpr, (Match p TOKEN_SELF).2)
    else if (Match p TOKEN_LEFT_PAREN).1 then
      match Assignment n (Match p TOKEN_LEFT_PAREN).2 with
      | none => none
      | some (expr, p1) =>
        some (expr, (ConsumeExpected p1 TOKEN_RIGHT_PAREN "Expect closing ')'.").2)
    else if (Match p TOKEN_OBJ).1 then
      let p1 := (Match p TOKEN_OBJ).2
      match (if (Match p1 TOKEN_ARROW).1 then Primary n (Match p1 TOKEN_ARROW).2
             else some (NameExpr "Object", p1)) with
      | none => none
      | some (parent, p2) =>
        let p3 := (ConsumeExpected p2 TOKEN_LEFT_BRACE
          "Expect '\x7b' after 'obj'.").2
        if (Match p3 TOKEN_RIGHT_BRACE).1 then
          some (ObjectExpr parent [], (Match p3 TOKEN_RIGHT_BRACE).2)
        else
          match ParseDefines n p3 [] TOKEN_RIGHT_BRACE with
          | none => none
          | some (defs, p4) => some (ObjectExpr parent defs, p4)
    else if (Match p TOKEN_LEFT_BRACKET).1 then
      let p1 := (Match p TOKEN_LEFT_BRACKET).2
      if LookAhead p1 TOKEN_RIGHT_BRACKET = false then
        match PrimaryArray n p1 [] with
        | none => none
        | some (exprs, p2) =>
          some (ArrayExpr exprs,
            (ConsumeExpected p2 TOKEN_RIGHT_BRACKET "Expect closing ']'.").2)
      else
        some (ArrayExpr [],
          (ConsumeExpected p1 TOKEN_RIGHT_BRACKET "Expect closing ']'.").2)
    else if (Match p TOKEN_LEFT_BRACE).1 then
      ParseBlock n (Match p TOKEN_LEFT_BRACE).2
    else
      some (StringExpr "ERROR", Error p "Unexpected token.")

/-- The `do ... while (Match(TOKEN_COMMA))` loop of the array literal in
`Primary`. -/
def PrimaryArray : Nat → Parser → List Expr → Option (List Expr × Parser)
  | 0, _, _ => none
  | n + 1, p, exprs =>
    match Assignment n p with
    | none => none
    | some (expr, p1) =>
      if (Match p1 TOKEN_COMMA).1 then
        PrimaryArray n (Match p1 TOKEN_COMMA).2 (exprs ++ [expr])
      else
        some (exprs ++ [expr], p1)

/-- `FinchParser::ParseMessage`: the parts loop, then the message node. -/
def ParseMessage : Nat → Parser → Expr → Option (Expr × Parser)
  | 0, _, _ => none
  | n + 1, p, receiver =>
    match ParseMessageParts n p "" [] with
    | none => none
    | some (name, args, p1) => some (MessageExpr receiver name args, p1)

/-- The outer `do ... while` loop of `ParseMessage`, one `name(args)` or
`name { block }` part per round; `name` and `args` are the selector and the
arguments built so far. -/
def ParseMessageParts : Nat → Parser → String → List Expr →
    Option (String × List Expr × Parser)
  | 0, _, _, _ => none
  | n + 1, p, name, args =>
    let name1 := name ++ (Consume p).1.text
    let p1 := (Consume p).2
    match (if (Match p1 TOKEN_LEFT_BRACE).1 then
             match ParseBlock n (Match p1 TOKEN_LEFT_BRACE).2 with
             | none => none
             | some (block, p2) => some (name1 ++ " ", args ++ [block], p2)
           else
             match ParseMessageArgs n
                 (ConsumeExpected p1 TOKEN_LEFT_PAREN
                   "Expect '(' after method name.").2 name1 args with
             | none => none
             | some (name2, args2, p2) =>
               some (name2, args2,
                 (ConsumeExpected p2 TOKEN_RIGHT_PAREN
                   "Expect ')' after argument.").2)) with
    | none => none
    | some (name3, args3, p3) =>
      if LookAhead2 p3 TOKEN_NAME TOKEN_LEFT_PAREN ||
          LookAhead2 p3 TOKEN_NAME TOKEN_LEFT_BRACE then
        ParseMessageParts n p3 name3 args3
      else
        some (name3, args3, p3)

/-- The inner `do ... while (Match(TOKEN_COMMA))` loop of `ParseMessage`: one
argument per round, one space added to the selector per argument. -/
def ParseMessageArgs : Nat → Parser → String → List Expr →
    Option (String × List Expr × Parser)
  | 0, _, _, _ => none
  | n + 1, p, name, args =>
    match Assignment n p with
    | none => none
    | some (arg, p1) =>
      if (Match p1 TOKEN_COMMA).1 then
        ParseMessageArgs n (Match p1 TOKEN_COMMA).2 (name ++ " ") (args ++ [arg])
      else
        some (name ++ " ", args ++ [arg], p1)

/-- `FinchParser::ParseBlock`: an optional parameter list `names ->`, the body,
the closing brace. -/
def ParseBlock : Nat → Parser → Option (Expr × Parser)
  | 0, _ => none
  | n + 1, p =>
    let numArgs := countNames p.tokens
    let params :=
      if decide (numArgs > 0) && LookAheadAt p numArgs TOKEN_ARROW then
        ((consumeParams numArgs p []).1,
          (Consume (consumeParams numArgs p []).2).2)
      else ([], p)
    match Expression n params.2 with
    | none => none
    | some (body, p1) =>
      some (BlockExpr params.1 body,
        (ConsumeExpected p1 TOKEN_RIGHT_BRACE
          "Expect closing '\x7d' after block.").2)

/-- `FinchParser::ParseDefines`: the `while (true)` loop over the entries of a
definition body; `defs` holds the entries recorded so far. -/
def ParseDefines : Nat → Parser → List Definition → TokenType →
    Option (List Definition × Parser)
  | 0, _, _, _ => none
  | n + 1, p, defs, endToken =>
    match ParseDefine n p defs with
    | none => none
    | some (defs1, p1) =>
      if (Match p1 endToken).1 then
        some (defs1, (Match p1 endToken).2)
      else
        let p2 := (ConsumeExpected p1 TOKEN_SEMICOLON
          "Definitions should be separated by newlines (or ';').").2
        if (Match p2 endToken).1 then
          some (defs1, (Match p2 endToken).2)
        else
          ParseDefines n p2 defs1 endToken

/-- `FinchParser::ParseDefine`: one entry of a definition body. -/
def ParseDefine : Nat → Parser → List Definition →
    Option (List Definition × Parser)
  | 0, _, _ => none
  | n + 1, p, defs =>
    if LookAhead2 p TOKEN_NAME TOKEN_EQ then
      let name := (Consume p).1.text
      match Assignment n (Consume (Consume p).2).2 with
      | none => none
      | some (body, p1) =>
        if IsField name = false then
          some ((defs ++ [(true, name, BlockExpr [] (NameExpr ("_" ++ name)))])
            ++ [(false, "_" ++ name, body)], p1)
        else
          some (defs ++ [(false, name, body)], p1)
    else if LookAhead2 p TOKEN_NAME TOKEN_LEFT_BRACE then
      ParseDefineBody n (Consume p).2 defs (Consume p).1.text []
    else if LookAhead p TOKEN_NAME then
      match ParseDefineMixfix n p "" [] with
      | none => none
      | some (name, params, p1) => ParseDefineBody n p1 defs name params
    else if LookAhead p TOKEN_OPERATOR then
      let param := ConsumeExpected (Consume p).2 TOKEN_NAME
        "Expect parameter name after operator in a bind expression."
      ParseDefineBody n param.2 defs (Consume p).1.text [param.1.text]
    else
      some (defs, Error p "Expect definition.")

/-- `FinchParser::ParseDefineBody`: the braced body of a method definition,
recorded as a block with the declared parameters. -/
def ParseDefineBody : Nat → Parser → List Definition → String → List String →
    Option (List Definition × Parser)
  | 0, _, _, _, _ => none
  | n + 1, p, defs, name, params =>
    match Expression n (ConsumeExpected p TOKEN_LEFT_BRACE
        "Expect '\x7b' to begin bound block.").2 with
    | none => none
    | some (body, p1) =>
      some (defs ++ [(true, name, BlockExpr params body)],
        (ConsumeExpected p1 TOKEN_RIGHT_BRACE
          "Expect '\x7d' to close block.").2)

end

/-- `FinchParser::Parse`. The result is `none` when the fuel ran out; otherwise
the returned reference (`none` for the null reference) and the final state. -/
def Parse (n : Nat) (p : Parser) : Option (Option Expr × Parser) :=
  if IsInfinite p then
    match Statement n p with
    | none => none
    | some (expr, p1) =>
      let p2 := (Match p1 TOKEN_SEMICOLON).2
      if HadError p2 then some (none, p2) else some (some expr, p2)
  else
    match Expression n p with
    | none => none
    | some (expr, p1) =>
      let p2 := Expect p1 TOKEN_EOF
        "Parser ended unexpectedly before reaching end of file."
      if HadError p2 then some (none, p2) else some (some expr, p2)


/-! ## The interpreter: operands and the message opcodes -/

/-- The opcodes of the bytecode. -/
inductive OpCode where
  | OP_NOTHING
  | OP_NUMBER_LITERAL
  | OP_STRING_LITERAL
  | OP_BLOCK_LITERAL
  | OP_POP
  | OP_DEF_GLOBAL
  | OP_DEF_OBJECT
  | OP_DEF_LOCAL
  | OP_SET_LOCAL
  | OP_LOAD_GLOBAL
  | OP_LOAD_OBJECT
  | OP_LOAD_LOCAL
  | OP_MESSAGE_0
  | OP_MESSAGE_1
  | OP_MESSAGE_2
  | OP_MESSAGE_3
  | OP_MESSAGE_4
  | OP_MESSAGE_5
  | OP_MESSAGE_6
  | OP_MESSAGE_7
  | OP_MESSAGE_8
  | OP_MESSAGE_9
  | OP_MESSAGE_10
  | OP_LOOP_1
  | OP_LOOP_2
  | OP_LOOP_3
  | OP_LOOP_4
  | OP_END_BLOCK
  deriving DecidableEq, Repr, Inhabited

open OpCode

/-- Modelled from the spec: the numeric value of an opcode. The enumeration is
declared in a header that is not among the sources; the values follow the order
in which the spec lists the opcode set, so that `OP_MESSAGE_0 .. OP_MESSAGE_10`
are consecutive, as `instruction.op - OP_MESSAGE_0` requires. -/
def OpCode.value : OpCode → Nat
  | OP_NOTHING => 0
  | OP_NUMBER_LITERAL => 1
  | OP_STRING_LITERAL => 2
  | OP_BLOCK_LITERAL => 3
  | OP_POP => 4
  | OP_DEF_GLOBAL => 5
  | OP_DEF_OBJECT => 6
  | OP_DEF_LOCAL => 7
  | OP_SET_LOCAL => 8
  | OP_LOAD_GLOBAL => 9
  | OP_LOAD_OBJECT => 10
  | OP_LOAD_LOCAL => 11
  | OP_MESSAGE_0 => 12
  | OP_MESSAGE_1 => 13
  | OP_MESSAGE_2 => 14
  | OP_MESSAGE_3 => 15
  | OP_MESSAGE_4 => 16
  | OP_MESSAGE_5 => 17
  | OP_MESSAGE_6 => 18
  | OP_MESSAGE_7 => 19
  | OP_MESSAGE_8 => 20
  | OP_MESSAGE_9 => 21
  | OP_MESSAGE_10 => 22
  | OP_LOOP_1 => 23
  | OP_LOOP_2 => 24
  | OP_LOOP_3 => 25
  | OP_LOOP_4 => 26
  | OP_END_BLOCK => 27

/-- The opcodes handled by the `case OP_MESSAGE_0: ... case OP_MESSAGE_10:`
labels of `Execute`, in order: entry `N` is `OP_MESSAGE_N`. -/
def messageOps : List OpCode :=
  [OP_MESSAGE_0, OP_MESSAGE_1, OP_MESSAGE_2, OP_MESSAGE_3, OP_MESSAGE_4, OP_MESSAGE_5,
    OP_MESSAGE_6, OP_MESSAGE_7, OP_MESSAGE_8, OP_MESSAGE_9, OP_MESSAGE_10]

/-- A non-null `Ref<Object>`, identified by the object it points to. -/
abbrev ObjRef := Nat

/-- The operand stack `mOperands`; the head of the list is the top of the
stack. -/
abbrev Operands := List ObjRef

/-- `Interpreter::PushOperand`, for a non-null reference. -/
def PushOperand (operands : Operands) (object : ObjRef) : Operands :=
  object :: operands

/-- `Interpreter::PopOperand`: the top of the stack and the stack without it;
`none` when the stack is empty. -/
def PopOperand (operands : Operands) : Option (ObjRef × Operands) :=
  match operands with
  | [] => none
  | object :: rest => some (object, rest)

/-- The call `receiver->Receive(thisRef, interpreter, message, args)` that a
message opcode ends with: the object whose `Receive` runs, and its arguments. -/
structure ReceiveCall where
  receiver : ObjRef
  thisRef : ObjRef
  message : String
  args : List ObjRef
  deriving DecidableEq, Repr

/-- The loop `for (i = 0; i < count; i++) args.push_back(PopOperand())` of the
message opcodes. -/
def popArguments : Nat → List ObjRef → Operands → Option (List ObjRef × Operands)
  | 0, args, operands => some (args, operands)
  | count + 1, args, operands =>
    match PopOperand operands with
    | none => none
    | some (object, rest) => popArguments count (args ++ [object]) rest

/-- The body of `case OP_MESSAGE_0: ... case OP_MESSAGE_10:` of
`Interpreter::Execute`, up to and including the call of `Receive`: pop
`op - OP_MESSAGE_0` arguments, reverse them, look the selector up in the string
table (`strings` is `mEnvironment.Strings().Find`), pop the receiver and call
its `Receive` with the receiver itself as `thisRef`. The result is the call
made and the operands left; `none` when the stack runs empty. -/
def ExecuteMessage (strings : Nat → String) (op : OpCode) (id : Nat)
    (operands : Operands) : Option (ReceiveCall × Operands) :=
  match popArguments (op.value - OP_MESSAGE_0.value) [] operands with
  | none => none
  | some (args, rest) =>
    match PopOperand rest with
    | none => none
    | some (receiver, rest1) =>
      some (⟨receiver, receiver, strings id, args.reverse⟩, rest1)

/-- Pushing the listed objects one after the other, the first one first. -/
def pushAll (operands : Operands) (objects : List ObjRef) : Operands :=
  objects.foldl PushOperand operands

/-! ## The interpreter: objects, scopes, call frames -/

/-- Modelled from the spec: `Instruction`, declared in a header that is not
among the sources: the opcode and its argument, read as `arg.id` (an interned
string or block) or as `arg.number` (a literal). -/
structure Instruction where
  op : OpCode
  id : Nat
  number : Int
  deriving DecidableEq, Repr, Inhabited

/-- Modelled from the spec: `CodeBlock`, an ordered list of parameter names and
an ordered sequence of instructions. -/
structure CodeBlock where
  params : List String
  instructions : List Instruction
  deriving DecidableEq, Repr, Inhabited

/-- A non-null `Ref<Scope>`, identified by the scope it points to. -/
abbrev ScopeRef := Nat

/-- A `PrimitiveMethod`, the pointer to a host function. -/
abbrev PrimitiveMethod := Nat

/-- Modelled from the spec: `Dictionary::Find` (and `map::find`), the value
stored under `key`, absent when there is none. -/
def dictFind {α : Type} (table : List (String × α)) (key : String) : Option α :=
  match table with
  | [] => none
  | (k, v) :: rest => if k = key then some v else dictFind rest key

/-- Modelled from the spec: `Dictionary::Insert` (and `map::operator[]=`), which
replaces any existing entry for `key`. -/
def dictInsert {α : Type} (table : List (String × α)) (key : String) (value : α) :
    List (String × α) :=
  (key, value) :: table.filter (fun entry => decide (entry.1 ≠ key))

/-- Modelled from the spec: `Scope`, a mapping from name to object and an
optional parent scope. -/
structure Scope where
  parent : Option ScopeRef
  vars : List (String × ObjRef)
  deriving DecidableEq, Repr, Inhabited

/-- Modelled from the spec: `BlockObject`, an interned `CodeBlock` with the
scope captured as its closure; `Params()` is the parameter list of the code. -/
structure BlockObject where
  code : CodeBlock
  closure : ScopeRef
  deriving DecidableEq, Repr, Inhabited

/-- The data members of `DynamicObject`: the display name, the method table
`mMethods`, the primitive table `mPrimitives` and the object-scope `mScope`. -/
structure DynamicObject where
  name : String
  methods : List (String × ObjRef)
  primitives : List (String × PrimitiveMethod)
  scope : Option ScopeRef
  deriving DecidableEq, Repr, Inhabited

/-- Modelled from the spec: the contents of a Finch `String` as the string
primitives see them, a sequence of `char`s: `Length()` is the number of
`char`s and `operator[]` reads one `char`. A `char` is one byte, so a character
outside ASCII takes more than one place. -/
abbrev Chars := List UInt8

/-- The `char`s of a text: the bytes of its UTF-8 form. -/
def charsOf (text : String) : Chars := text.data.flatMap String.utf8EncodeChar

/-- The variants of `Object` that the sources mention: `DynamicObject`,
`NumberObject` (integer-valued here), `StringObject` (its `char`s) and
`BlockObject`. -/
inductive Variant where
  | dynamic (object : DynamicObject)
  | number (value : Int)
  | string (value : Chars)
  | block (object : BlockObject)
  deriving DecidableEq, Repr, Inhabited

/-- An `Object`: its prototype `mPrototype`, which may be null, and its
variant. -/
structure Object where
  prototype : Option ObjRef
  variant : Variant
  deriving DecidableEq, Repr, Inhabited

/-- `Object::AsBlock`: the block behind a reference, null when the object is not
a block. -/
def AsBlock (objects : List Object) (ref : ObjRef) : Option BlockObject :=
  match objects.get? ref with
  | some ⟨_, Variant.block b⟩ => some b
  | _ => none

/-- `Object::ObjectScope`: `mScope` for a dynamic object, the null reference
for every other object (`Object::ObjectScope` returns `Ref<Scope>()`). -/
def ObjectScope (objects : List Object) (ref : ObjRef) : Option ScopeRef :=
  match objects.get? ref with
  | some ⟨_, Variant.dynamic d⟩ => d.scope
  | _ => none

/-- What a call of `Receive` ends in: the method block it evaluates, the
primitive it invokes, each with the `thisRef` and the arguments handed over, or
the null reference returned for a message nobody handles. -/
inductive Handler where
  | method (thisRef : ObjRef) (block : ObjRef) (args : List ObjRef)
  | primitive (thisRef : ObjRef) (method : PrimitiveMethod) (message : String)
      (args : List ObjRef)
  | unhandled
  deriving DecidableEq, Repr, Inhabited

/-- The ways a run of the interpreter stops without a result: a failed
assertion, a null reference that is dereferenced, a pop from an empty stack, a
read outside a container, the error of `Scope::Set` for a name that no scope of
the chain has, a conversion `static_cast<int>` whose result C++ leaves
undefined, and the end of the fuel. -/
inductive Fault where
  | assertion (message : String)
  | nullReference
  | emptyStack
  | badAddress
  | undefinedName
  | undefinedCast
  | noFuel
  deriving DecidableEq, Repr, Inhabited

/-- `DynamicObject::Receive` and `Object::Receive`, which call each other along
the prototype chain; `self` is the object whose `Receive` runs. A dynamic object
looks in `mMethods` first (the entry must be a block: `ASSERT_NOT_NULL`), then
in `mPrimitives`, then calls `Object::Receive`, which hands the message with the
same `thisRef` to the prototype, or returns the null reference when there is
none. Objects of the other variants inherit `Object::Receive`. One unit of fuel
is used per object visited. -/
def Receive : Nat → List Object → ObjRef → ObjRef → String → List ObjRef →
    Except Fault Handler
  | 0, _, _, _, _, _ => Except.error Fault.noFuel
  | n + 1, objects, self, thisRef, message, args =>
    match objects.get? self with
    | none => Except.error Fault.nullReference
    | some object =>
      let base : Except Fault Handler :=
        match object.prototype with
        | some prototype => Receive n objects prototype thisRef message args
        | none => Except.ok Handler.unhandled
      match object.variant with
      | Variant.dynamic d =>
        match dictFind d.methods message with
        | some found =>
          match AsBlock objects found with
          | some _ => Except.ok (Handler.method thisRef found args)
          | none => Except.error (Fault.assertion "ASSERT_NOT_NULL(block)")
        | none =>
          match dictFind d.primitives message with
          | some method => Except.ok (Handler.primitive thisRef method message args)
          | none => base
      | _ => base

/-- `DynamicObject::AddMethod`: the new method table and what is written to
`cout`. An empty name or a body that is not a block is reported and changes
nothing. -/
def AddMethod (objects : List Object) (d : DynamicObject) (name : String) (body : ObjRef) :
    DynamicObject × List String :=
  if name.length = 0 then
    (d, ["oops. need a name to add a method."])
  else if (AsBlock objects body).isNone then
    (d, ["oops. 'body:' argument must be a block."])
  else
    ({ d with methods := dictInsert d.methods name body }, [])

/-- `DynamicObject::RegisterPrimitive`: `mPrimitives[message] = method`. -/
def RegisterPrimitive (d : DynamicObject) (message : String) (method : PrimitiveMethod) :
    DynamicObject :=
  { d with primitives := dictInsert d.primitives message method }

/-- Modelled from the spec: `CallFrame`, `(code, address, scope, self)`. The
address is an `int` (`OP_LOOP_4` sets it to `-1`); `self` may be null. -/
structure CallFrame where
  code : CodeBlock
  address : Int
  scope : ScopeRef
  self : Option ObjRef
  deriving DecidableEq, Repr, Inhabited

/-- The state of `Interpreter` together with the parts of `Environment` it
reads: the call stack and the operand stack (heads are the tops), the scopes
and objects allocated so far (a reference is an index), the lines written to
`cout`, the global scope, the singletons `Nil`, `True`, `False` and the
prototypes `Number`, `String`, `Block`. -/
structure Interpreter where
  callStack : List CallFrame
  operands : Operands
  scopes : List Scope
  objects : List Object
  output : List String
  globals : ScopeRef
  nilObject : ObjRef
  trueObject : ObjRef
  falseObject : ObjRef
  numberProto : ObjRef
  stringProto : ObjRef
  blockProto : ObjRef
  deriving DecidableEq, Repr, Inhabited

/-- Applies `f` to the element at `index`, when there is one. -/
def modifyAt {α : Type} (f : α → α) : Nat → List α → List α
  | _, [] => []
  | 0, x :: rest => f x :: rest
  | index + 1, x :: rest => x :: modifyAt f index rest

/-- Modelled from the spec: `Scope::Define`, which writes into the scope
itself. -/
def Scope.Define (scopes : List Scope) (scope : ScopeRef) (name : String) (value : ObjRef) :
    List Scope :=
  modifyAt (fun s => { s with vars := dictInsert s.vars name value }) scope scopes

/-- Modelled from the spec: `Scope::LookUp`, which walks the chain of parents;
the null reference when no scope of the chain has the name. One unit of fuel is
used per scope visited. -/
def Scope.LookUpFrom : Nat → List Scope → ScopeRef → String → Option ObjRef
  | 0, _, _, _ => none
  | n + 1, scopes, scope, name =>
    match scopes.get? scope with
    | none => none
    | some s =>
      match dictFind s.vars name with
      | some value => some value
      | none =>
        match s.parent with
        | some parent => Scope.LookUpFrom n scopes parent name
        | none => none

/-- `Scope::LookUp` with one unit of fuel per allocated scope: enough for every
chain of parents, which never visits a scope twice (a scope is created with an
existing parent and keeps it). -/
def Scope.LookUp (scopes : List Scope) (scope : ScopeRef) (name : String) : Option ObjRef :=
  Scope.LookUpFrom scopes.length scopes scope name

/-- Modelled from the spec: `Scope::Set`, which writes into the nearest scope of
the chain in which the name exists. When no scope of the chain has the name it
is an error: nothing is written and the result is `none`. One unit of fuel is
used per scope visited. -/
def Scope.SetFrom : Nat → List Scope → ScopeRef → String → ObjRef → Option (List Scope)
  | 0, _, _, _, _ => none
  | n + 1, scopes, scope, name, value =>
    match scopes.get? scope with
    | none => none
    | some s =>
      if (dictFind s.vars name).isSome then some (Scope.Define scopes scope name value)
      else
        match s.parent with
        | some parent => Scope.SetFrom n scopes parent name value
        | none => none

/-- `Scope::Set` with one unit of fuel per allocated scope: enough for every
chain of parents, as for `Scope::LookUp`. -/
def Scope.Set (scopes : List Scope) (scope : ScopeRef) (name : String) (value : ObjRef) :
    Option (List Scope) :=
  Scope.SetFrom scopes.length scopes scope name value

/-- `Interpreter::RuntimeError`: the message goes to `cout` behind the prefix
`Runtime error: `. -/
def RuntimeError (s : Interpreter) (message : String) : Interpreter :=
  { s with output := s.output ++ ["Runtime error: " ++ message] }

/-- `Interpreter::PushOperand` for a reference that may be null: the assertion
`!object.IsNull()` stops the run on a null reference. -/
def PushOperandRef (s : Interpreter) (object : Option ObjRef) : Except Fault Interpreter :=
  match object with
  | none => Except.error
      (Fault.assertion "Cannot push a null object. (Should be Nil instead.)")
  | some ref => Except.ok { s with operands := PushOperand s.operands ref }

/-- `Interpreter::Push`, for a non-null reference. -/
def Push (s : Interpreter) (object : ObjRef) : Interpreter :=
  { s with operands := PushOperand s.operands object }

/-- `Interpreter::PushNil`. -/
def PushNil (s : Interpreter) : Interpreter := Push s s.nilObject

/-- `Interpreter::PushBool`. -/
def PushBool (s : Interpreter) (value : Bool) : Interpreter :=
  Push s (if value then s.trueObject else s.falseObject)

/-- Allocates `object` and returns the reference to it. -/
def allocate (s : Interpreter) (object : Object) : ObjRef × Interpreter :=
  (s.objects.length, { s with objects := s.objects ++ [object] })

/-- `Object::NewNumber`: a number object whose prototype is `Number`. -/
def NewNumber (s : Interpreter) (value : Int) : ObjRef × Interpreter :=
  allocate s ⟨some s.numberProto, Variant.number value⟩

/-- `Object::NewString`: a string object whose prototype is `String`. -/
def NewString (s : Interpreter) (value : Chars) : ObjRef × Interpreter :=
  allocate s ⟨some s.stringProto, Variant.string value⟩

/-- `Object::NewBlock(environment, code, closure)`, as `OP_BLOCK_LITERAL` calls
it: a block object whose prototype is `Block`. -/
def NewBlock (s : Interpreter) (code : CodeBlock) (closure : ScopeRef) :
    ObjRef × Interpreter :=
  allocate s ⟨some s.blockProto, Variant.block ⟨code, closure⟩⟩

/-- `Interpreter::PushNumber`. -/
def PushNumber (s : Interpreter) (value : Int) : Interpreter :=
  Push (NewNumber s value).2 (NewNumber s value).1

/-- The loop `for (i = 0; i < args.size(); i++) scope->Define(params[i],
args[i])` of `CallMethod`. -/
def bindArguments (scopes : List Scope) (scope : ScopeRef) :
    List String → List ObjRef → List Scope
  | param :: params, arg :: args => bindArguments (Scope.Define scopes scope param arg) scope params args
  | _, _ => scopes

/-- `Interpreter::CallMethod`. With the wrong number of arguments: a runtime
error and `Nil`. Otherwise a new scope whose parent is the closure of the
block, the arguments bound in it, and a new frame at address 0. -/
def CallMethod (s : Interpreter) (self : Option ObjRef) (block : BlockObject)
    (args : List ObjRef) : Interpreter :=
  if block.code.params.length ≠ args.length then
    PushNil (RuntimeError s
      ("Block expects " ++ toString block.code.params.length ++
        " arguments, but was passed " ++ toString args.length ++ "."))
  else
    let scope := s.scopes.length
    let scopes := bindArguments (s.scopes ++ [Scope.mk (some block.closure) []]) scope
      block.code.params args
    { s with scopes := scopes, callStack := ⟨block.code, 0, scope, self⟩ :: s.callStack }

/-- `mCallStack.Peek()`. -/
def PeekFrame (s : Interpreter) : Except Fault CallFrame :=
  match s.callStack with
  | [] => Except.error Fault.emptyStack
  | frame :: _ => Except.ok frame

/-- `Interpreter::CallBlock`: the block is called with the `self` of the frame
on top. -/
def CallBlock (s : Interpreter) (block : BlockObject) (args : List ObjRef) :
    Except Fault Interpreter :=
  match PeekFrame s with
  | Except.error fault => Except.error fault
  | Except.ok frame => Except.ok (CallMethod s frame.self block args)

/-- The synthetic code `mLoopCode` built by the constructor. -/
def loopCode : CodeBlock :=
  ⟨[], [⟨OP_LOOP_1, 0, 0⟩, ⟨OP_LOOP_2, 0, 0⟩, ⟨OP_LOOP_3, 0, 0⟩, ⟨OP_LOOP_4, 0, 0⟩,
    ⟨OP_END_BLOCK, 0, 0⟩]⟩

/-- The synthetic code `mDiscardCode` built by the constructor. -/
def discardCode : CodeBlock :=
  ⟨[], [⟨OP_POP, 0, 0⟩, ⟨OP_END_BLOCK, 0, 0⟩]⟩

/-- `Interpreter::WhileLoop`: push the body, push the condition, push a frame
on the loop code with the scope and the `self` of the frame on top. -/
def WhileLoop (s : Interpreter) (condition body : ObjRef) : Except Fault Interpreter :=
  match PeekFrame s with
  | Except.error fault => Except.error fault
  | Except.ok frame =>
    Except.ok { Push (Push s body) condition with
      callStack := ⟨loopCode, 0, frame.scope, frame.self⟩ :: s.callStack }

/-- `Interpreter::DiscardReturn`: push a frame on the discard code. -/
def DiscardReturn (s : Interpreter) : Except Fault Interpreter :=
  match PeekFrame s with
  | Except.error fault => Except.error fault
  | Except.ok frame =>
    Except.ok { s with callStack := ⟨discardCode, 0, frame.scope, frame.self⟩ :: s.callStack }

/-! ## The interpreter: the instruction loop -/

/-- What `Execute` reads besides the state: the string table
(`Strings().Find`), the block table (`Blocks().Find`) and the host functions
behind the primitives, which act on the interpreter. -/
structure Tables where
  strings : Nat → String
  blocks : Nat → CodeBlock
  primitive : PrimitiveMethod → ObjRef → String → List ObjRef → Interpreter →
    Except Fault Interpreter

/-- The call `receiver->Receive(thisRef, *this, message, args)` as the opcodes
make it, its result dropped. A method found is run by `CallMethod` with
`thisRef` as `self` (the sources hand it to `EvaluateMethod(thisRef, block,
args)`, which is not among them), a primitive is the host function, and a
message nobody handles leaves the interpreter as it is. -/
def Send (t : Tables) (s : Interpreter) (call : ReceiveCall) : Except Fault Interpreter :=
  match Receive s.objects.length s.objects call.receiver call.thisRef call.message
      call.args with
  | Except.error fault => Except.error fault
  | Except.ok (Handler.method thisRef block args) =>
    match AsBlock s.objects block with
    | none => Except.error (Fault.assertion "ASSERT_NOT_NULL(block)")
    | some b => Except.ok (CallMethod s (some thisRef) b args)
  | Except.ok (Handler.primitive thisRef method message args) =>
    t.primitive method thisRef message args s
  | Except.ok Handler.unhandled => Except.ok s

/-- The frame a `CallFrame &` designates: the frame in the slot `slot` of the
call stack, slots counted from the bottom, changed by `f`; nothing when the
stack no longer reaches that slot. -/
def modifySlot (f : CallFrame → CallFrame) (slot : Nat) (stack : List CallFrame) :
    List CallFrame :=
  if slot < stack.length then modifyAt f (stack.length - 1 - slot) stack else stack

/-- `mOperands.Peek()`. -/
def PeekOperand (s : Interpreter) : Except Fault ObjRef :=
  match s.operands with
  | [] => Except.error Fault.emptyStack
  | object :: _ => Except.ok object

/-- `PopOperand()` on the state. -/
def Pop (s : Interpreter) : Except Fault (ObjRef × Interpreter) :=
  match PopOperand s.operands with
  | none => Except.error Fault.emptyStack
  | some (object, rest) => Except.ok (object, { s with operands := rest })

/-- The null reference becomes `Nil`: `value.IsNull() ? mEnvironment.Nil() :
value`. -/
def orNil (s : Interpreter) (value : Option ObjRef) : ObjRef :=
  match value with
  | some object => object
  | none => s.nilObject

/-- The `switch (instruction.op)` of `Interpreter::Execute`; `slot` is the
slot of the call stack that `frame` refers to. -/
def ExecuteInstruction (t : Tables) (s : Interpreter) (slot : Nat)
    (instruction : Instruction) : Except Fault Interpreter :=
  match PeekFrame s with
  | Except.error fault => Except.error fault
  | Except.ok top =>
  match instruction.op with
  | OP_NOTHING => Except.ok s
  | OP_NUMBER_LITERAL => Except.ok (PushNumber s instruction.number)
  | OP_STRING_LITERAL =>
    Except.ok (Push (NewString s (charsOf (t.strings instruction.id))).2
      (NewString s (charsOf (t.strings instruction.id))).1)
  | OP_BLOCK_LITERAL =>
    Except.ok (Push (NewBlock s (t.blocks instruction.id) top.scope).2
      (NewBlock s (t.blocks instruction.id) top.scope).1)
  | OP_POP =>
    match Pop s with
    | Except.error fault => Except.error fault
    | Except.ok (_, s1) => Except.ok s1
  | OP_DEF_GLOBAL =>
    match PeekOperand s with
    | Except.error fault => Except.error fault
    | Except.ok value =>
      Except.ok { s with
        scopes := Scope.Define s.scopes s.globals (t.strings instruction.id) value }
  | OP_DEF_OBJECT =>
    match PeekOperand s with
    | Except.error fault => Except.error fault
    | Except.ok value =>
      match top.self with
      | none => Except.ok s
      | some self =>
        match ObjectScope s.objects self with
        | none => Except.error Fault.nullReference
        | some scope =>
          Except.ok { s with
            scopes := Scope.Define s.scopes scope (t.strings instruction.id) value }
  | OP_DEF_LOCAL =>
    match PeekOperand s with
    | Except.error fault => Except.error fault
    | Except.ok value =>
      Except.ok { s with
        scopes := Scope.Define s.scopes top.scope (t.strings instruction.id) value }
  | OP_SET_LOCAL =>
    match PeekOperand s with
    | Except.error fault => Except.error fault
    | Except.ok value =>
      match Scope.Set s.scopes top.scope (t.strings instruction.id) value with
      | none => Except.error Fault.undefinedName
      | some scopes => Except.ok { s with scopes := scopes }
  | OP_LOAD_GLOBAL =>
    Except.ok (Push s (orNil s (Scope.LookUp s.scopes s.globals (t.strings instruction.id))))
  | OP_LOAD_OBJECT =>
    match top.self with
    | some self =>
      match ObjectScope s.objects self with
      | none => Except.error Fault.nullReference
      | some scope =>
        Except.ok (Push s (orNil s (Scope.LookUp s.scopes scope (t.strings instruction.id))))
    | none => PushOperandRef s none
  | OP_LOAD_LOCAL =>
    if t.strings instruction.id = "self" then PushOperandRef s top.self
    else
      Except.ok (Push s (orNil s (Scope.LookUp s.scopes top.scope (t.strings instruction.id))))
  | OP_MESSAGE_0 | OP_MESSAGE_1 | OP_MESSAGE_2 | OP_MESSAGE_3 | OP_MESSAGE_4 | OP_MESSAGE_5
  | OP_MESSAGE_6 | OP_MESSAGE_7 | OP_MESSAGE_8 | OP_MESSAGE_9 | OP_MESSAGE_10 =>
    match ExecuteMessage t.strings instruction.op instruction.id s.operands with
    | none => Except.error Fault.emptyStack
    | some (call, rest) => Send t { s with operands := rest } call
  | OP_LOOP_1 =>
    match PeekOperand s with
    | Except.error fault => Except.error fault
    | Except.ok condition => Send t s ⟨condition, condition, "call", []⟩
  | OP_LOOP_2 =>
    match Pop s with
    | Except.error fault => Except.error fault
    | Except.ok (result, s1) =>
      if result ≠ s1.trueObject then
        match Pop s1 with
        | Except.error fault => Except.error fault
        | Except.ok (_, s2) =>
          match Pop s2 with
          | Except.error fault => Except.error fault
          | Except.ok (_, s3) => Except.ok (PushNil { s3 with callStack := s3.callStack.tail })
      else Except.ok s1
  | OP_LOOP_3 =>
    match s.operands.get? 1 with
    | none => Except.error Fault.emptyStack
    | some body => Send t s ⟨body, body, "call", []⟩
  | OP_LOOP_4 =>
    match Pop s with
    | Except.error fault => Except.error fault
    | Except.ok (_, s1) =>
      Except.ok { s1 with
        callStack := modifySlot (fun frame => { frame with address := -1 }) slot s1.callStack }
  | OP_END_BLOCK => Except.ok { s with callStack := s.callStack.tail }

/-- The instruction `(*frame.code)[frame.address]`. -/
def fetch (frame : CallFrame) : Except Fault Instruction :=
  if frame.address < 0 then Except.error Fault.badAddress
  else
    match frame.code.instructions.get? frame.address.toNat with
    | none => Except.error Fault.badAddress
    | some instruction => Except.ok instruction

/-- One round of the `while` loop of `Interpreter::Execute`: `frame` is bound to
the frame on top, its instruction is fetched and executed, and then
`frame.address++` advances the frame that `frame` was bound to, whatever the
instruction did to the call stack. -/
def Step (t : Tables) (s : Interpreter) : Except Fault Interpreter :=
  match PeekFrame s with
  | Except.error fault => Except.error fault
  | Except.ok frame =>
    match fetch frame with
    | Except.error fault => Except.error fault
    | Except.ok instruction =>
      match ExecuteInstruction t s (s.callStack.length - 1) instruction with
      | Except.error fault => Except.error fault
      | Except.ok s1 =>
        Except.ok { s1 with
          callStack := modifySlot (fun f => { f with address := f.address + 1 })
            (s.callStack.length - 1) s1.callStack }

/-- The `while (mCallStack.Count() > 0)` loop of `Interpreter::Execute`, one
unit of fuel per round. -/
def Run (t : Tables) : Nat → Interpreter → Except Fault Interpreter
  | 0, _ => Except.error Fault.noFuel
  | n + 1, s =>
    match s.callStack with
    | [] => Except.ok s
    | _ :: _ =>
      match Step t s with
      | Except.error fault => Except.error fault
      | Except.ok s1 => Run t n s1

/-- `Interpreter::Execute`: push the starting frame (global scope, `Nil` as
`self`), run the loop, pop the result. -/
def Execute (t : Tables) (fuel : Nat) (s : Interpreter) (code : CodeBlock) :
    Except Fault (ObjRef × Interpreter) :=
  match Run t fuel { s with callStack := ⟨code, 0, s.globals, some s.nilObject⟩ :: s.callStack } with
  | Except.error fault => Except.error fault
  | Except.ok s1 => Pop s1

/-- The first `count` rounds of the loop of `Execute`. -/
def Steps (t : Tables) : Nat → Interpreter → Except Fault Interpreter
  | 0, s => Except.ok s
  | count + 1, s =>
    match Step t s with
    | Except.error fault => Except.error fault
    | Except.ok s1 => Steps t count s1

/-! ## The string primitives -/

/-- A parser state holding the given unread tokens, with no error recorded, in
file (non-infinite) mode. -/
def freshParser (tokens : List Token) : Parser := ⟨tokens, false, [], false⟩

/-- The tree `Operator` is claimed to build from a first operand and the
following `(operator text, operand)` pairs: every operator is a one-argument
message sent to everything on its left. -/
def leftNested (first : Expr) (rest : List (String × Expr)) : Expr :=
  rest.foldl (fun object pair => MessageExpr object pair.1 [pair.2]) first

/-- The token stream at `p` reads `op1 m1 ... opn mn` and then a token that is
not an operator, leaving the parser at `q`: each `opi` is a `TOKEN_OPERATOR`
with the listed text and each `mi` is what `Message` parses after it. -/
def OperandsFrom : Parser → List (String × Expr) → Parser → Prop
  | p, [], q => q = p ∧ LookAhead p TOKEN_OPERATOR = false
  | p, (op, m) :: rest, q =>
    LookAhead p TOKEN_OPERATOR = true ∧ (Consume p).1.text = op ∧
      ∃ k p1, Message k (Consume p).2 = some (m, p1) ∧ OperandsFrom p1 rest q

/-- One more unit of fuel keeps every result of the recursive functions. -/
structure FuelMono (n : Nat) : Prop where
  expression : ∀ p r, Expression n p = some r → Expression (n + 1) p = some r
  sequence : ∀ p r, Sequence n p = some r → Sequence (n + 1) p = some r
  sequenceLoop : ∀ p es r, SequenceLoop n p es = some r → SequenceLoop (n + 1) p es = some r
  statement : ∀ p r, Statement n p = some r → Statement (n + 1) p = some r
  assignment : ∀ p r, Assignment n p = some r → Assignment (n + 1) p = some r
  operator : ∀ p r, Operator n p = some r → Operator (n + 1) p = some r
  operatorLoop : ∀ p o r, OperatorLoop n p o = some r → OperatorLoop (n + 1) p o = some r
  message : ∀ p r, Message n p = some r → Message (n + 1) p = some r
  messageLoop : ∀ p o r, MessageLoop n p o = some r → MessageLoop (n + 1) p o = some r
  primary : ∀ p r, Primary n p = some r → Primary (n + 1) p = some r
  primaryArray : ∀ p es r, PrimaryArray n p es = some r → PrimaryArray (n + 1) p es = some r
  parseMessage : ∀ p o r, ParseMessage n p o = some r → ParseMessage (n + 1) p o = some r
  parseMessageParts : ∀ p s as r, ParseMessageParts n p s as = some r →
    ParseMessageParts (n + 1) p s as = some r
  parseMessageArgs : ∀ p s as r, ParseMessageArgs n p s as = some r →
    ParseMessageArgs (n + 1) p s as = some r
  parseBlock : ∀ p r, ParseBlock n p = some r → ParseBlock (n + 1) p = some r
  parseDefines : ∀ p ds t r, ParseDefines n p ds t = some r →
    ParseDefines (n + 1) p ds t = some r
  parseDefine : ∀ p ds r, ParseDefine n p ds = some r → ParseDefine (n + 1) p ds = some r
  parseDefineBody : ∀ p ds s ps r, ParseDefineBody n p ds s ps = some r →
    ParseDefineBody (n + 1) p ds s ps = some r


/-- The tokens of `a b + c d`, with the closing `TOKEN_EOF`. -/
def tokensUnarySpaces : List Token :=
  [⟨TOKEN_NAME, "a", 0⟩, ⟨TOKEN_NAME, "b", 0⟩, ⟨TOKEN_OPERATOR, "+", 0⟩,
    ⟨TOKEN_NAME, "c", 0⟩, ⟨TOKEN_NAME, "d", 0⟩, ⟨TOKEN_EOF, "", 0⟩]

/-- The tokens of `a.b + c.d`, with the closing `TOKEN_EOF`. -/
def tokensUnaryDots : List Token :=
  [⟨TOKEN_NAME, "a", 0⟩, ⟨TOKEN_DOT, ".", 0⟩, ⟨TOKEN_NAME, "b", 0⟩, ⟨TOKEN_OPERATOR, "+", 0⟩,
    ⟨TOKEN_NAME, "c", 0⟩, ⟨TOKEN_DOT, ".", 0⟩, ⟨TOKEN_NAME, "d", 0⟩, ⟨TOKEN_EOF, "", 0⟩]

/-- The tree `(a b) + (c d)`. -/
def treeUnaryPlusUnary : Expr :=
  MessageExpr (MessageExpr (NameExpr "a") "b" []) "+" [MessageExpr (NameExpr "c") "d" []]


/-- A run of `count` space characters. -/
def spaces : Nat → String
  | 0 => ""
  | count + 1 => spaces count ++ " "

/-- The selector the claim gives a keyword send: every part's name followed by
one space per argument of that part, concatenated in source order. -/
def keywordSelector : List (String × List Expr) → String
  | [] => ""
  | part :: parts => part.1 ++ spaces part.2.length ++ keywordSelector parts

/-- The arguments of a keyword send: those of all parts, in source order. -/
def keywordArgs : List (String × List Expr) → List Expr
  | [] => []
  | part :: parts => part.2 ++ keywordArgs parts

/-- The token stream at `p` reads a comma-separated, non-empty list of
argument expressions, each parsed by `Assignment`, and ends at `q` before a
token that is not a comma. -/
def ArgsFrom : Parser → List Expr → Parser → Prop
  | _, [], _ => False
  | p, arg :: rest, q =>
    ∃ k p1, Assignment k p = some (arg, p1) ∧
      ((rest = [] ∧ LookAhead p1 TOKEN_COMMA = false ∧ q = p1) ∨
        (LookAhead p1 TOKEN_COMMA = true ∧ ArgsFrom (Consume p1).2 rest q))

/-- The token stream at `p` reads one part of a keyword send and ends at `q`:
a `TOKEN_NAME` with text `name`, then either one brace-enclosed block (a single
argument) or a parenthesised comma-separated argument list. -/
def PartFrom (p : Parser) (name : String) (args : List Expr) (q : Parser) : Prop :=
  LookAhead p TOKEN_NAME = true ∧ (Consume p).1.text = name ∧
    ((LookAhead (Consume p).2 TOKEN_LEFT_BRACE = true ∧
        ∃ k block, ParseBlock k (Consume (Consume p).2).2 = some (block, q) ∧
          args = [block]) ∨
      (LookAhead (Consume p).2 TOKEN_LEFT_PAREN = true ∧
        ∃ q1, ArgsFrom (Consume (Consume p).2).2 args q1 ∧
          LookAhead q1 TOKEN_RIGHT_PAREN = true ∧ q = (Consume q1).2))

/-- The token stream at `p` reads the parts of one keyword send, one after the
other, and ends at `q` before something that does not start a further part. -/
def PartsFrom : Parser → List (String × List Expr) → Parser → Prop
  | _, [], _ => False
  | p, part :: parts, q =>
    ∃ p1, PartFrom p part.1 part.2 p1 ∧
      ((parts = [] ∧ (LookAhead2 p1 TOKEN_NAME TOKEN_LEFT_PAREN ||
          LookAhead2 p1 TOKEN_NAME TOKEN_LEFT_BRACE) = false ∧ q = p1) ∨
        ((LookAhead2 p1 TOKEN_NAME TOKEN_LEFT_PAREN ||
          LookAhead2 p1 TOKEN_NAME TOKEN_LEFT_BRACE) = true ∧ PartsFrom p1 parts q))

/-- The tokens of the keyword part of `x.foo(1) bar(2)`: `foo(1) bar(2)`. -/
def tokensFooBar : List Token :=
  [⟨TOKEN_NAME, "foo", 0⟩, ⟨TOKEN_LEFT_PAREN, "(", 0⟩, ⟨TOKEN_NUMBER, "1", 1⟩,
    ⟨TOKEN_RIGHT_PAREN, ")", 0⟩, ⟨TOKEN_NAME, "bar", 0⟩, ⟨TOKEN_LEFT_PAREN, "(", 0⟩,
    ⟨TOKEN_NUMBER, "2", 2⟩, ⟨TOKEN_RIGHT_PAREN, ")", 0⟩]

/-- The tokens of the entry `x = 0` inside a definition body, up to the
closing brace. -/
def tokensDefineX : List Token :=
  [⟨TOKEN_NAME, "x", 0⟩, ⟨TOKEN_EQ, "=", 0⟩, ⟨TOKEN_NUMBER, "0", 0⟩,
    ⟨TOKEN_RIGHT_BRACE, "\x7d", 0⟩]

/-- What running parser code from state `p` to state `q` can do: tokens are
only consumed from the front, reports are only appended, the error flag is
raised exactly when it was raised before or a report was added, and the mode
is untouched. -/
structure Evolves (p q : Parser) : Prop where
  tokens : q.tokens <:+ p.tokens
  errors : p.errors <+: q.errors
  flag : q.hadError = true ↔ (p.hadError = true ∨ p.errors.length < q.errors.length)
  mode : q.infinite = p.infinite

/-- Every result of the recursive functions with fuel `n` is reached by
consuming tokens and reporting errors only. -/
structure EvolvesAll (n : Nat) : Prop where
  expression : ∀ p e q, Expression n p = some (e, q) → Evolves p q
  sequence : ∀ p e q, Sequence n p = some (e, q) → Evolves p q
  sequenceLoop : ∀ p es e q, SequenceLoop n p es = some (e, q) → Evolves p q
  statement : ∀ p e q, Statement n p = some (e, q) → Evolves p q
  assignment : ∀ p e q, Assignment n p = some (e, q) → Evolves p q
  operator : ∀ p e q, Operator n p = some (e, q) → Evolves p q
  operatorLoop : ∀ p o e q, OperatorLoop n p o = some (e, q) → Evolves p q
  message : ∀ p e q, Message n p = some (e, q) → Evolves p q
  messageLoop : ∀ p o e q, MessageLoop n p o = some (e, q) → Evolves p q
  primary : ∀ p e q, Primary n p = some (e, q) → Evolves p q
  primaryArray : ∀ p es e q, PrimaryArray n p es = some (e, q) → Evolves p q
  parseMessage : ∀ p o e q, ParseMessage n p o = some (e, q) → Evolves p q
  parseMessageParts : ∀ p s as s1 as1 q, ParseMessageParts n p s as = some (s1, as1, q) →
    Evolves p q
  parseMessageArgs : ∀ p s as s1 as1 q, ParseMessageArgs n p s as = some (s1, as1, q) →
    Evolves p q
  parseBlock : ∀ p e q, ParseBlock n p = some (e, q) → Evolves p q
  parseDefines : ∀ p ds t ds1 q, ParseDefines n p ds t = some (ds1, q) → Evolves p q
  parseDefine : ∀ p ds ds1 q, ParseDefine n p ds = some (ds1, q) → Evolves p q
  parseDefineBody : ∀ p ds s ps ds1 q, ParseDefineBody n p ds s ps = some (ds1, q) →
    Evolves p q

/-- The token stream at `p` reads the rest of an object literal after `obj`
(and after the name of a named object): an optional `-> parent` parsed by
`Primary` (the parent is the name `Object` when there is no arrow), then
`{ defines }` or the empty body `{ }`; it ends at `q`. -/
def ObjectLiteralFrom (p : Parser) (parent : Expr) (defs : List Definition)
    (q : Parser) : Prop :=
  ∃ p2,
    ((LookAhead p TOKEN_ARROW = true ∧ ∃ k, Primary k (Consume p).2 = some (parent, p2)) ∨
      (LookAhead p TOKEN_ARROW = false ∧ parent = NameExpr "Object" ∧ p2 = p)) ∧
    LookAhead p2 TOKEN_LEFT_BRACE = true ∧
    ((LookAhead (Consume p2).2 TOKEN_RIGHT_BRACE = true ∧ defs = [] ∧
        q = (Consume (Consume p2).2).2) ∨
      (LookAhead (Consume p2).2 TOKEN_RIGHT_BRACE = false ∧
        ∃ k, ParseDefines k (Consume p2).2 [] TOKEN_RIGHT_BRACE = some (defs, q)))

/-- The tokens of `-> Animal { }`, the rest of `obj Dog -> Animal { }` after
the name. -/
def tokensArrowAnimal : List Token :=
  [⟨TOKEN_ARROW, "->", 0⟩, ⟨TOKEN_NAME, "Animal", 0⟩, ⟨TOKEN_LEFT_BRACE, "\x7b", 0⟩,
    ⟨TOKEN_RIGHT_BRACE, "\x7d", 0⟩]

/-- The kinds before which a bare `return` yields `nil`, and before which
`Sequence` drops a trailing `;` that it has consumed. -/
def returnStops : List TokenType :=
  [TOKEN_SEMICOLON, TOKEN_RIGHT_PAREN, TOKEN_RIGHT_BRACE, TOKEN_RIGHT_BRACKET]

/-- The kinds that close a sequence: `)`, `]`, the closing brace and the end
of the stream. -/
def closers : List TokenType :=
  [TOKEN_RIGHT_PAREN, TOKEN_RIGHT_BRACKET, TOKEN_RIGHT_BRACE, TOKEN_EOF]

/-- The token stream at `p` reads the statements `s1 ; s2 ; ... ; sn`, each
parsed by `Statement`, with exactly one `TOKEN_SEMICOLON` between two
statements and the next statement not starting with a closer; it ends at `q`,
just after the last statement. -/
def StatementsFrom : Parser → List Expr → Parser → Prop
  | _, [], _ => False
  | p, s :: rest, q =>
    ∃ k p1, Statement k p = some (s, p1) ∧
      ((rest = [] ∧ q = p1) ∨
        (LookAhead p1 TOKEN_SEMICOLON = true ∧ peekType (Consume p1).2 0 ∉ closers ∧
          StatementsFrom (Consume p1).2 rest q))

/-- The tokens of `a ; b ;` followed by the end of the stream. -/
def tokensTwoStatements : List Token :=
  [⟨TOKEN_NAME, "a", 0⟩, ⟨TOKEN_SEMICOLON, ";", 0⟩, ⟨TOKEN_NAME, "b", 0⟩,
    ⟨TOKEN_SEMICOLON, ";", 0⟩]

/-- The state `p` with the token `semi` inserted in front of the last
`suf.length` unread tokens (in front of `suf`, when the unread tokens end with
`suf`). -/
def insertBefore (semi : Token) (suf : List Token) (p : Parser) : Parser :=
  { p with tokens := p.tokens.take (p.tokens.length - suf.length) ++ semi :: suf }

/-- No error has been recorded and the tokens `suf` at the end of the stream
are all still unread. -/
structure Good (suf : List Token) (p : Parser) : Prop where
  clean : p.hadError = false
  suffix : suf <:+ p.tokens

/-- As `Good`, with at least one token still unread in front of `suf`. -/
structure Strict (suf : List Token) (p : Parser) : Prop where
  clean : p.hadError = false
  suffix : suf <:+ p.tokens
  more : suf.length < p.tokens.length

/-- The first token of `suf` is a closer: `)`, `]`, the closing brace or
`TOKEN_EOF`, or `suf` is empty, so that the lexer yields `TOKEN_EOF` next. -/
def closerHead (suf : List Token) : Prop :=
  peekType ⟨suf, false, [], false⟩ 0 ∈ closers

/-- Every result of the recursive functions with fuel `n` that leaves `suf`
unread and no error recorded is reproduced when `semi` is inserted in front of
`suf`: same value, and the same final state with `semi` inserted. For
`Expression` and `Sequence`, which may consume a `;`, this is required only
when they stop before the last token in front of `suf`. -/
structure InsertAll (semi : Token) (suf : List Token) (n : Nat) : Prop where
  expression : ∀ p e q, Expression n p = some (e, q) → Strict suf q →
    Expression n (insertBefore semi suf p)= some (e, insertBefore semi suf q)
  sequence : ∀ p e q, Sequence n p = some (e, q) → Strict suf q →
    Sequence n (insertBefore semi suf p)= some (e, insertBefore semi suf q)
  sequenceLoop : ∀ p es e q, SequenceLoop n p es = some (e, q) → Strict suf q →
    SequenceLoop n (insertBefore semi suf p) es = some (e, insertBefore semi suf q)
  statement : ∀ p e q, Statement n p = some (e, q) → Good suf q →
    Statement n (insertBefore semi suf p)= some (e, insertBefore semi suf q)
  assignment : ∀ p e q, Assignment n p = some (e, q) → Good suf q →
    Assignment n (insertBefore semi suf p)= some (e, insertBefore semi suf q)
  operator : ∀ p e q, Operator n p = some (e, q) → Good suf q →
    Operator n (insertBefore semi suf p)= some (e, insertBefore semi suf q)
  operatorLoop : ∀ p o e q, OperatorLoop n p o = some (e, q) → Good suf q →
    OperatorLoop n (insertBefore semi suf p) o = some (e, insertBefore semi suf q)
  message : ∀ p e q, Message n p = some (e, q) → Good suf q →
    Message n (insertBefore semi suf p)= some (e, insertBefore semi suf q)
  messageLoop : ∀ p o e q, MessageLoop n p o = some (e, q) → Good suf q →
    MessageLoop n (insertBefore semi suf p) o = some (e, insertBefore semi suf q)
  primary : ∀ p e q, Primary n p = some (e, q) → Good suf q →
    Primary n (insertBefore semi suf p)= some (e, insertBefore semi suf q)
  primaryArray : ∀ p es e q, PrimaryArray n p es = some (e, q) → Good suf q →
    PrimaryArray n (insertBefore semi suf p) es = some (e, insertBefore semi suf q)
  parseMessage : ∀ p o e q, LookAhead p TOKEN_NAME = true → ParseMessage n p o = some (e, q) → Good suf q →
    ParseMessage n (insertBefore semi suf p) o = some (e, insertBefore semi suf q)
  parseMessageParts : ∀ p s as s1 as1 q, LookAhead p TOKEN_NAME = true → ParseMessageParts n p s as = some (s1, as1, q) → Good suf q →
    ParseMessageParts n (insertBefore semi suf p) s as = some (s1, as1, insertBefore semi suf q)
  parseMessageArgs : ∀ p s as s1 as1 q, ParseMessageArgs n p s as = some (s1, as1, q) → Good suf q →
    ParseMessageArgs n (insertBefore semi suf p) s as = some (s1, as1, insertBefore semi suf q)
  parseBlock : ∀ p e q, ParseBlock n p = some (e, q) → Good suf q →
    ParseBlock n (insertBefore semi suf p)= some (e, insertBefore semi suf q)
  parseDefines : ∀ p ds t ds1 q, t = TOKEN_RIGHT_BRACE → ParseDefines n p ds t = some (ds1, q) → Good suf q →
    ParseDefines n (insertBefore semi suf p) ds t = some (ds1, insertBefore semi suf q)
  parseDefine : ∀ p ds ds1 q, ParseDefine n p ds = some (ds1, q) → Good suf q →
    ParseDefine n (insertBefore semi suf p) ds = some (ds1, insertBefore semi suf q)
  parseDefineBody : ∀ p ds s ps ds1 q, ParseDefineBody n p ds s ps = some (ds1, q) → Good suf q →
    ParseDefineBody n (insertBefore semi suf p) ds s ps = some (ds1, insertBefore semi suf q)

/-- The tokens of `a ; b` followed by `TOKEN_EOF`: the canonical form. -/
def tokensOneSeparator : List Token :=
  [⟨TOKEN_NAME, "a", 0⟩, ⟨TOKEN_SEMICOLON, ";", 0⟩, ⟨TOKEN_NAME, "b", 0⟩, ⟨TOKEN_EOF, "", 0⟩]

/-- The tokens of `a ; ; b` followed by `TOKEN_EOF`. -/
def tokensTwoSeparators : List Token :=
  [⟨TOKEN_NAME, "a", 0⟩, ⟨TOKEN_SEMICOLON, ";", 0⟩, ⟨TOKEN_SEMICOLON, ";", 0⟩,
    ⟨TOKEN_NAME, "b", 0⟩, ⟨TOKEN_EOF, "", 0⟩]

/-- The tokens of `a ; ;` followed by `TOKEN_EOF`. -/
def tokensTwoTrailing : List Token :=
  [⟨TOKEN_NAME, "a", 0⟩, ⟨TOKEN_SEMICOLON, ";", 0⟩, ⟨TOKEN_SEMICOLON, ";", 0⟩,
    ⟨TOKEN_EOF, "", 0⟩]

/-- The tokens of `( a )` followed by `TOKEN_EOF`. -/
def tokensParen : List Token :=
  [⟨TOKEN_LEFT_PAREN, "(", 0⟩, ⟨TOKEN_NAME, "a", 0⟩, ⟨TOKEN_RIGHT_PAREN, ")", 0⟩,
    ⟨TOKEN_EOF, "", 0⟩]

/-- The tokens of `( a ; )` followed by `TOKEN_EOF`. -/
def tokensParenSemicolon : List Token :=
  [⟨TOKEN_LEFT_PAREN, "(", 0⟩, ⟨TOKEN_NAME, "a", 0⟩, ⟨TOKEN_SEMICOLON, ";", 0⟩,
    ⟨TOKEN_RIGHT_PAREN, ")", 0⟩, ⟨TOKEN_EOF, "", 0⟩]

/-- No token stands between the state `p` and the unread tokens `suf` that is a
`TOKEN_SEMICOLON` directly in front of `suf`. -/
def NoSemicolonBefore (suf : List Token) (p : Parser) : Prop :=
  ∀ X t, p.tokens = X ++ t :: suf → t.type ≠ TOKEN_SEMICOLON

/-- The tokens of a comma-separated list of parameter names. -/
def paramTokens : List String → List Token
  | [] => []
  | [param] => [⟨TOKEN_NAME, param, 0⟩]
  | param :: next :: params =>
    ⟨TOKEN_NAME, param, 0⟩ :: ⟨TOKEN_COMMA, ",", 0⟩ :: paramTokens (next :: params)

/-- The tokens of the head of a mixfix definition, `name_1(p, ...) name_2(p,
...) ...`: each part is a name and its parenthesised parameter names. -/
def defineTokens : List (String × List String) → List Token
  | [] => []
  | part :: parts =>
    ⟨TOKEN_NAME, part.1, 0⟩ :: ⟨TOKEN_LEFT_PAREN, "(", 0⟩ ::
      (paramTokens part.2 ++ ⟨TOKEN_RIGHT_PAREN, ")", 0⟩ :: defineTokens parts)

/-- The selector the claim gives a mixfix definition: every part's name
followed by one space per parameter of that part. -/
def defineSelector : List (String × List String) → String
  | [] => ""
  | part :: parts => part.1 ++ spaces part.2.length ++ defineSelector parts

/-- The parameters of a mixfix definition: those of all parts, in source
order. -/
def defineParams : List (String × List String) → List String
  | [] => []
  | part :: parts => part.2 ++ defineParams parts

/-- The names and the arities of the parts of a definition and of a send
agree, part by part. -/
def SameShape : List (String × List String) → List (String × List Expr) → Prop
  | [], [] => True
  | d :: ds, s :: ss => d.1 = s.1 ∧ d.2.length = s.2.length ∧ SameShape ds ss
  | _, _ => False

/-- The tokens of `def Foo` and an opening brace that is never closed, followed
by `TOKEN_EOF`. -/
def tokensUnclosedDef : List Token :=
  [⟨TOKEN_DEF, "def", 0⟩, ⟨TOKEN_NAME, "Foo", 0⟩, ⟨TOKEN_LEFT_BRACE, "\x7b", 0⟩,
    ⟨TOKEN_EOF, "", 0⟩]

/-- The parser has reached the end of the stream: every token left is a
`TOKEN_EOF`. -/
def AtEnd (p : Parser) : Prop := ∀ t ∈ p.tokens, t.type = TOKEN_EOF

/-- The tokens of the block `x y -> x` behind its opening brace, up to and
with the closing brace. -/
def tokensBlockXY : List Token :=
  [⟨TOKEN_NAME, "x", 0⟩, ⟨TOKEN_NAME, "y", 0⟩, ⟨TOKEN_ARROW, "->", 0⟩,
    ⟨TOKEN_NAME, "x", 0⟩, ⟨TOKEN_RIGHT_BRACE, "\x7d", 0⟩]

/-- The tokens of the entry `foo(a) bar(b)` with the body `a` inside a
definition body: the head, the braced body. -/
def tokensDefineFooBar : List Token :=
  [⟨TOKEN_NAME, "foo", 0⟩, ⟨TOKEN_LEFT_PAREN, "(", 0⟩, ⟨TOKEN_NAME, "a", 0⟩,
    ⟨TOKEN_RIGHT_PAREN, ")", 0⟩, ⟨TOKEN_NAME, "bar", 0⟩, ⟨TOKEN_LEFT_PAREN, "(", 0⟩,
    ⟨TOKEN_NAME, "b", 0⟩, ⟨TOKEN_RIGHT_PAREN, ")", 0⟩, ⟨TOKEN_LEFT_BRACE, "\x7b", 0⟩,
    ⟨TOKEN_NAME, "a", 0⟩, ⟨TOKEN_RIGHT_BRACE, "\x7d", 0⟩]

/-- The checks at the end of a round of the loop of `Sequence`: the next token
is `)`, `]`, the closing brace or `TOKEN_EOF`. -/
def atCloser (p : Parser) : Bool :=
  LookAhead p TOKEN_RIGHT_PAREN || LookAhead p TOKEN_RIGHT_BRACKET ||
    LookAhead p TOKEN_RIGHT_BRACE || LookAhead p TOKEN_EOF

/-- The state behind two `;` that follow a statement ending at `p1`: the first
`;` consumed, "Unexpected token." reported at the second, the second
consumed. -/
def afterTwoSemicolons (p1 : Parser) : Parser :=
  (Consume (Error (Consume p1).2 "Unexpected token.")).2

/-! ## Vocabulary of the interpreter claims -/

/-- A dynamic object with the given prototype, name, tables and object-scope. -/
def dynamicObject (prototype : Option ObjRef) (name : String)
    (methods : List (String × ObjRef)) (primitives : List (String × PrimitiveMethod))
    (scope : Option ScopeRef) : Object :=
  ⟨prototype, Variant.dynamic ⟨name, methods, primitives, scope⟩⟩

/-- The code of the block `{ }`: it ends at once. -/
def sampleBody : CodeBlock := ⟨[], [⟨OP_END_BLOCK, 0, 0⟩]⟩

/-- The code of a block with one parameter, `{ x -> x }`. -/
def sampleUnary : CodeBlock := ⟨["x"], [⟨OP_LOAD_LOCAL, 1, 0⟩, ⟨OP_END_BLOCK, 0, 0⟩]⟩

/-- The code of a block that names its two parameters alike, `{ x x -> x }`. -/
def sampleTwice : CodeBlock := ⟨["x", "x"], [⟨OP_LOAD_LOCAL, 1, 0⟩, ⟨OP_END_BLOCK, 0, 0⟩]⟩

/-- A small world: the singletons `nil`, `true`, `false` (objects 0 to 2), the
prototypes `Number`, `String`, `Block` (3 to 5), the root `Object` (6) with the
method `copy` and the primitive `length`, the block `{ }` (7) that `copy` runs,
and `point` (8), whose prototype is `Object`. Scope 0 is the global scope,
scopes 1 and 2 are the object-scopes of `Object` and `point`. -/
def sampleInterpreter : Interpreter :=
  { callStack := []
    operands := []
    scopes := [⟨none, [("x", 7)]⟩, ⟨some 0, []⟩, ⟨some 1, [("_x", 8)]⟩]
    objects :=
      [dynamicObject (some 6) "nil" [] [] none, dynamicObject (some 6) "true" [] [] none,
        dynamicObject (some 6) "false" [] [] none, dynamicObject (some 6) "Number" [] [] none,
        dynamicObject (some 6) "String" [] [] none,
        dynamicObject (some 6) "Block" [] [("call", 0)] none,
        dynamicObject none "Object" [("copy", 7)] [("length", 1)] (some 1),
        ⟨some 5, Variant.block ⟨sampleBody, 0⟩⟩,
        dynamicObject (some 6) "point" [] [] (some 2)]
    output := []
    globals := 0
    nilObject := 0
    trueObject := 1
    falseObject := 2
    numberProto := 3
    stringProto := 4
    blockProto := 5 }

/-- The tables of the small world: the strings `foo`, `x`, `copy`, `self`,
`_x` under the ids 0 to 4, the blocks `{ }` and `{ x -> x }` under the ids 0
and 1, and host functions that do nothing. -/
def sampleTables : Tables :=
  { strings := fun id => ["foo", "x", "copy", "self", "_x"].getD id ""
    blocks := fun id => [sampleBody, sampleUnary].getD id sampleBody
    primitive := fun _ _ _ _ s => Except.ok s }

/-- A main program: load `x`, send `foo`, send `copy`, a block literal, the
end. -/
def sampleMain : CodeBlock :=
  ⟨[], [⟨OP_LOAD_GLOBAL, 1, 0⟩, ⟨OP_MESSAGE_0, 0, 0⟩, ⟨OP_MESSAGE_0, 2, 0⟩,
    ⟨OP_BLOCK_LITERAL, 1, 0⟩, ⟨OP_END_BLOCK, 0, 0⟩]⟩

/-- A heap of two objects: the dynamic object `d`, without prototype, and the
block `{ }`. -/
def sampleHeap (d : DynamicObject) : List Object :=
  [⟨none, Variant.dynamic d⟩, ⟨none, Variant.block ⟨sampleBody, 0⟩⟩]

/-- The object `o` after `AddMethod("m", block)` and then
`RegisterPrimitive("m", 5)`; the block is object 1 of `sampleHeap`. -/
def sampleMethodThenPrimitive : DynamicObject :=
  RegisterPrimitive
    (AddMethod (sampleHeap ⟨"o", [], [], none⟩) ⟨"o", [], [], none⟩ "m" 1).1 "m" 5

/-- The object `o` after `RegisterPrimitive("m", 5)` and then
`AddMethod("m", block)`. -/
def samplePrimitiveThenMethod : DynamicObject :=
  (AddMethod (sampleHeap (RegisterPrimitive ⟨"o", [], [], none⟩ "m" 5))
    (RegisterPrimitive ⟨"o", [], [], none⟩ "m" 5) "m" 1).1

/-- The object `o` does not handle `message` itself and has the prototype
`next`: it is not dynamic, or neither of its tables has the message. -/
def Silent (objects : List Object) (message : String) (o next : ObjRef) : Prop :=
  ∃ object, objects.get? o = some object ∧ object.prototype = some next ∧
    ∀ d, object.variant = Variant.dynamic d →
      dictFind d.methods message = none ∧ dictFind d.primitives message = none

/-- Every object of the chain but the last is silent for `message` and has the
next object of the chain as its prototype. -/
def Delegates (objects : List Object) (message : String) : List ObjRef → Prop
  | o :: next :: rest => Silent objects message o next ∧ Delegates objects message (next :: rest)
  | _ => True

/-- The scope `scope` itself binds `name` to `value`. -/
def Binds (scopes : List Scope) (scope : ScopeRef) (name : String) (value : ObjRef) : Prop :=
  ∃ s, scopes.get? scope = some s ∧ dictFind s.vars name = some value

/-- Every parent is a scope allocated earlier, as `new Scope(parent)` makes
it. -/
def ScopesOrdered (scopes : List Scope) : Prop :=
  ∀ i s parent, scopes.get? i = some s → s.parent = some parent → parent < i

/-- The nearest scope that binds `name`, walking the parents from `scope`; one
unit of fuel per scope visited. -/
def nearestFrom : Nat → List Scope → ScopeRef → String → Option ScopeRef
  | 0, _, _, _ => none
  | n + 1, scopes, scope, name =>
    match scopes.get? scope with
    | none => none
    | some s =>
      if (dictFind s.vars name).isSome then some scope
      else
        match s.parent with
        | some parent => nearestFrom n scopes parent name
        | none => none

/-- The table of a scope after the parameters have been defined in it one
after the other, each with its argument. -/
def boundVars (table : List (String × ObjRef)) : List String → List ObjRef →
    List (String × ObjRef)
  | param :: params, arg :: args => boundVars (dictInsert table param arg) params args
  | _, _ => table

/-- The object `o` does not handle `message` itself and has no prototype. -/
def SilentRoot (objects : List Object) (message : String) (o : ObjRef) : Prop :=
  ∃ object, objects.get? o = some object ∧ object.prototype = none ∧
    ∀ d, object.variant = Variant.dynamic d →
      dictFind d.methods message = none ∧ dictFind d.primitives message = none

/-- The code of a block that loads the global `t`: `{ t }`. -/
def sampleLoad : CodeBlock := ⟨[], [⟨OP_LOAD_GLOBAL, 0, 0⟩, ⟨OP_END_BLOCK, 0, 0⟩]⟩

/-- A world for the loop: the singletons and prototypes as in
`sampleInterpreter`, the global `t` bound to `true`, `Block` with the primitive
`call`, and the blocks 6 (the condition) and 7 (the body), both `{ t }`. The
frame on top is the loop frame at `LOOP_1`, above a frame of the main program;
the operands are the condition and the body on top of the object 9. -/
def sampleLoop : Interpreter :=
  { callStack := [⟨loopCode, 0, 0, some 0⟩, ⟨sampleMain, 3, 0, some 0⟩]
    operands := [6, 7, 9]
    scopes := [⟨none, [("t", 1)]⟩]
    objects :=
      [dynamicObject none "nil" [] [] none, dynamicObject none "true" [] [] none,
        dynamicObject none "false" [] [] none, dynamicObject none "Number" [] [] none,
        dynamicObject none "String" [] [] none,
        dynamicObject none "Block" [] [("call", 0)] none,
        ⟨some 5, Variant.block ⟨sampleLoad, 0⟩⟩, ⟨some 5, Variant.block ⟨sampleLoad, 0⟩⟩]
    output := []
    globals := 0
    nilObject := 0
    trueObject := 1
    falseObject := 2
    numberProto := 3
    stringProto := 4
    blockProto := 5 }

/-- The tables for the loop: the string `t`, and a host function `call` that
calls the receiving block with `CallBlock`. -/
def sampleLoopTables : Tables :=
  { strings := fun _ => "t"
    blocks := fun _ => sampleLoad
    primitive := fun _ thisRef _ args s =>
      match AsBlock s.objects thisRef with
      | some block => CallBlock s block args
      | none => Except.error Fault.nullReference }

/-! ## Fuel: a result does not change when more fuel is given -/

theorem fuelMono_zero : FuelMono 0 := by
  constructor <;> intros <;> rename_i h <;>
    simp [Expression, Sequence, SequenceLoop, Statement, Assignment, Operator, OperatorLoop,
      Message, MessageLoop, Primary, PrimaryArray, ParseMessage, ParseMessageParts,
      ParseMessageArgs, ParseBlock, ParseDefines, ParseDefine, ParseDefineBody] at h



theorem ParseDefineParams_mono (n : Nat) : ∀ p name params r,
    ParseDefineParams n p name params = some r →
    ParseDefineParams (n + 1) p name params = some r := by
  induction n with
  | zero => intro p name params r h; simp [ParseDefineParams] at h
  | succ n ih =>
    intro p name params r h
    rw [ParseDefineParams] at h ⊢
    split at h
    · rename_i hc
      simp only [hc, if_true]
      exact ih _ _ _ _ h
    · rename_i hc
      simp only [hc]
      exact h

theorem ParseDefineMixfix_mono (n : Nat) : ∀ p name params r,
    ParseDefineMixfix n p name params = some r →
    ParseDefineMixfix (n + 1) p name params = some r := by
  induction n with
  | zero => intro p name params r h; simp [ParseDefineMixfix] at h
  | succ n ih =>
    intro p name params r h
    rw [ParseDefineMixfix] at h ⊢
    dsimp only at h ⊢
    split at h
    · rename_i hc
      simp only [hc, if_true]
      split at h
      · cases h
      · rename_i hs
        rw [ParseDefineParams_mono _ _ _ _ _ hs]
        exact ih _ _ _ _ h
    · rename_i hc
      simp only [hc]
      exact h

theorem fuelMono_succ_expression (n : Nat) (ih : FuelMono n) :
    ∀ a1 r, Expression (n + 1) a1 = some r → Expression (n + 1 + 1) a1 = some r := by
  intros
  rename_i h
  rw [Expression] at h ⊢
  try dsimp only at h ⊢
  repeat' split at h
  all_goals ((try split_ifs at *) <;> simp_all [ih.sequence])

theorem fuelMono_succ_sequence (n : Nat) (ih : FuelMono n) :
    ∀ a1 r, Sequence (n + 1) a1 = some r → Sequence (n + 1 + 1) a1 = some r := by
  intros
  rename_i h
  rw [Sequence] at h ⊢
  try dsimp only at h ⊢
  repeat' split at h
  all_goals ((try split_ifs at *) <;> simp_all [ih.sequenceLoop])

theorem fuelMono_succ_sequenceLoop (n : Nat) (ih : FuelMono n) :
    ∀ a1 a2 r, SequenceLoop (n + 1) a1 a2 = some r → SequenceLoop (n + 1 + 1) a1 a2 = some r := by
  intros
  rename_i h
  rw [SequenceLoop] at h ⊢
  try dsimp only at h ⊢
  repeat' split at h
  all_goals ((try split_ifs at *) <;> simp_all [ih.statement, ih.sequenceLoop])

theorem fuelMono_succ_statement (n : Nat) (ih : FuelMono n) :
    ∀ a1 r, Statement (n + 1) a1 = some r → Statement (n + 1 + 1) a1 = some r := by
  intros
  rename_i h
  rw [Statement] at h ⊢
  try dsimp only at h ⊢
  repeat' split at h
  all_goals ((try split_ifs at *) <;> simp_all [ih.parseDefines, ih.primary, ih.assignment])

theorem fuelMono_succ_assignment (n : Nat) (ih : FuelMono n) :
    ∀ a1 r, Assignment (n + 1) a1 = some r → Assignment (n + 1 + 1) a1 = some r := by
  intros
  rename_i h
  rw [Assignment] at h ⊢
  try dsimp only at h ⊢
  repeat' split at h
  all_goals ((try split_ifs at *) <;> simp_all [ih.assignment, ih.operator])

theorem fuelMono_succ_operator (n : Nat) (ih : FuelMono n) :
    ∀ a1 r, Operator (n + 1) a1 = some r → Operator (n + 1 + 1) a1 = some r := by
  intros
  rename_i h
  rw [Operator] at h ⊢
  try dsimp only at h ⊢
  repeat' split at h
  all_goals ((try split_ifs at *) <;> simp_all [ih.message, ih.operatorLoop])

theorem fuelMono_succ_operatorLoop (n : Nat) (ih : FuelMono n) :
    ∀ a1 a2 r, OperatorLoop (n + 1) a1 a2 = some r → OperatorLoop (n + 1 + 1) a1 a2 = some r := by
  intros
  rename_i h
  rw [OperatorLoop] at h ⊢
  try dsimp only at h ⊢
  repeat' split at h
  all_goals ((try split_ifs at *) <;> simp_all [ih.message, ih.operatorLoop])

theorem fuelMono_succ_message (n : Nat) (ih : FuelMono n) :
    ∀ a1 r, Message (n + 1) a1 = some r → Message (n + 1 + 1) a1 = some r := by
  intros
  rename_i h
  rw [Message] at h ⊢
  try dsimp only at h ⊢
  repeat' split at h
  all_goals ((try split_ifs at *) <;> simp_all [ih.parseMessage, ih.primary, ih.messageLoop])

theorem fuelMono_succ_messageLoop (n : Nat) (ih : FuelMono n) :
    ∀ a1 a2 r, MessageLoop (n + 1) a1 a2 = some r → MessageLoop (n + 1 + 1) a1 a2 = some r := by
  intros
  rename_i h
  rw [MessageLoop] at h ⊢
  try dsimp only at h ⊢
  repeat' split at h
  all_goals ((try split_ifs at *) <;> simp_all [ih.parseMessage, ih.messageLoop])

theorem fuelMono_succ_primary (n : Nat) (ih : FuelMono n) :
    ∀ a1 r, Primary (n + 1) a1 = some r → Primary (n + 1 + 1) a1 = some r := by
  intros
  rename_i h
  rw [Primary] at h ⊢
  try dsimp only at h ⊢
  repeat' split at h
  all_goals ((try split_ifs at *) <;> simp_all [ih.assignment, ih.primary, ih.parseDefines, ih.primaryArray, ih.parseBlock])

theorem fuelMono_succ_primaryArray (n : Nat) (ih : FuelMono n) :
    ∀ a1 a2 r, PrimaryArray (n + 1) a1 a2 = some r → PrimaryArray (n + 1 + 1) a1 a2 = some r := by
  intros
  rename_i h
  rw [PrimaryArray] at h ⊢
  try dsimp only at h ⊢
  repeat' split at h
  all_goals ((try split_ifs at *) <;> simp_all [ih.assignment, ih.primaryArray])

theorem fuelMono_succ_parseMessage (n : Nat) (ih : FuelMono n) :
    ∀ a1 a2 r, ParseMessage (n + 1) a1 a2 = some r → ParseMessage (n + 1 + 1) a1 a2 = some r := by
  intros
  rename_i h
  rw [ParseMessage] at h ⊢
  try dsimp only at h ⊢
  repeat' split at h
  all_goals ((try split_ifs at *) <;> simp_all [ih.parseMessageParts])

theorem fuelMono_succ_parseMessageParts (n : Nat) (ih : FuelMono n) :
    ∀ a1 a2 a3 r, ParseMessageParts (n + 1) a1 a2 a3 = some r →
      ParseMessageParts (n + 1 + 1) a1 a2 a3 = some r := by
  intro p name args r h
  rw [ParseMessageParts] at h ⊢
  try dsimp only at h ⊢
  split at h
  · cases h
  · rename_i heq
    split_ifs at heq with hc
    · split at heq
      · cases heq
      · rename_i hb
        rw [if_pos hc, ih.parseBlock _ _ hb]
        simp only [Option.some.injEq, Prod.mk.injEq] at heq
        obtain ⟨rfl, rfl, rfl⟩ := heq
        dsimp only
        split_ifs at h ⊢
        · exact ih.parseMessageParts _ _ _ _ h
        · exact h
    · split at heq
      · cases heq
      · rename_i hb
        rw [if_neg hc, ih.parseMessageArgs _ _ _ _ hb]
        simp only [Option.some.injEq, Prod.mk.injEq] at heq
        obtain ⟨rfl, rfl, rfl⟩ := heq
        dsimp only
        split_ifs at h ⊢
        · exact ih.parseMessageParts _ _ _ _ h
        · exact h

theorem fuelMono_succ_parseMessageArgs (n : Nat) (ih : FuelMono n) :
    ∀ a1 a2 a3 r, ParseMessageArgs (n + 1) a1 a2 a3 = some r → ParseMessageArgs (n + 1 + 1) a1 a2 a3 = some r := by
  intros
  rename_i h
  rw [ParseMessageArgs] at h ⊢
  try dsimp only at h ⊢
  repeat' split at h
  all_goals ((try split_ifs at *) <;> simp_all [ih.assignment, ih.parseMessageArgs])

theorem fuelMono_succ_parseBlock (n : Nat) (ih : FuelMono n) :
    ∀ a1 r, ParseBlock (n + 1) a1 = some r → ParseBlock (n + 1 + 1) a1 = some r := by
  intros
  rename_i h
  rw [ParseBlock] at h ⊢
  try dsimp only at h ⊢
  repeat' split at h
  all_goals ((try split_ifs at *) <;> simp_all [ih.expression])

theorem fuelMono_succ_parseDefines (n : Nat) (ih : FuelMono n) :
    ∀ a1 a2 a3 r, ParseDefines (n + 1) a1 a2 a3 = some r → ParseDefines (n + 1 + 1) a1 a2 a3 = some r := by
  intros
  rename_i h
  rw [ParseDefines] at h ⊢
  try dsimp only at h ⊢
  repeat' split at h
  all_goals ((try split_ifs at *) <;> simp_all [ih.parseDefine, ih.parseDefines])

theorem fuelMono_succ_parseDefine (n : Nat) (ih : FuelMono n) :
    ∀ a1 a2 r, ParseDefine (n + 1) a1 a2 = some r → ParseDefine (n + 1 + 1) a1 a2 = some r := by
  intros
  rename_i h
  rw [ParseDefine] at h ⊢
  try dsimp only at h ⊢
  repeat' split at h
  all_goals ((try split_ifs at *) <;> simp_all [ih.assignment, ih.parseDefineBody, ParseDefineMixfix_mono])

theorem fuelMono_succ_parseDefineBody (n : Nat) (ih : FuelMono n) :
    ∀ a1 a2 a3 a4 r, ParseDefineBody (n + 1) a1 a2 a3 a4 = some r → ParseDefineBody (n + 1 + 1) a1 a2 a3 a4 = some r := by
  intros
  rename_i h
  rw [ParseDefineBody] at h ⊢
  try dsimp only at h ⊢
  repeat' split at h
  all_goals ((try split_ifs at *) <;> simp_all [ih.expression])

theorem fuelMono_succ (n : Nat) (ih : FuelMono n) : FuelMono (n + 1) :=
  ⟨fuelMono_succ_expression n ih,
    fuelMono_succ_sequence n ih,
    fuelMono_succ_sequenceLoop n ih,
    fuelMono_succ_statement n ih,
    fuelMono_succ_assignment n ih,
    fuelMono_succ_operator n ih,
    fuelMono_succ_operatorLoop n ih,
    fuelMono_succ_message n ih,
    fuelMono_succ_messageLoop n ih,
    fuelMono_succ_primary n ih,
    fuelMono_succ_primaryArray n ih,
    fuelMono_succ_parseMessage n ih,
    fuelMono_succ_parseMessageParts n ih,
    fuelMono_succ_parseMessageArgs n ih,
    fuelMono_succ_parseBlock n ih,
    fuelMono_succ_parseDefines n ih,
    fuelMono_succ_parseDefine n ih,
    fuelMono_succ_parseDefineBody n ih⟩

theorem fuelMono (n : Nat) : FuelMono n := by
  induction n with
  | zero => exact fuelMono_zero
  | succ n ih => exact fuelMono_succ n ih


/-! ## Small facts about the helpers -/

/-- A result obtained with some fuel is obtained with every larger fuel. -/
theorem fuel_le {α : Type} (f : Nat → Option α)
    (hf : ∀ n r, f n = some r → f (n + 1) = some r) :
    ∀ {n m : Nat} {r : α}, n ≤ m → f n = some r → f m = some r := by
  intro n m r hnm h
  induction hnm with
  | refl => exact h
  | step _ ih => exact hf _ _ ih

theorem Message_fuel_le {n m : Nat} {p : Parser} {r : Expr × Parser} (hnm : n ≤ m)
    (h : Message n p = some r) : Message m p = some r :=
  fuel_le (fun k => Message k p) (fun k r => (fuelMono k).message p r) hnm h

theorem Expression_fuel_le {n m : Nat} {p : Parser} {r : Expr × Parser} (hnm : n ≤ m)
    (h : Expression n p = some r) : Expression m p = some r :=
  fuel_le (fun k => Expression k p) (fun k r => (fuelMono k).expression p r) hnm h

theorem Statement_fuel_le {n m : Nat} {p : Parser} {r : Expr × Parser} (hnm : n ≤ m)
    (h : Statement n p = some r) : Statement m p = some r :=
  fuel_le (fun k => Statement k p) (fun k r => (fuelMono k).statement p r) hnm h

theorem Assignment_fuel_le {n m : Nat} {p : Parser} {r : Expr × Parser} (hnm : n ≤ m)
    (h : Assignment n p = some r) : Assignment m p = some r :=
  fuel_le (fun k => Assignment k p) (fun k r => (fuelMono k).assignment p r) hnm h

theorem ParseBlock_fuel_le {n m : Nat} {p : Parser} {r : Expr × Parser} (hnm : n ≤ m)
    (h : ParseBlock n p = some r) : ParseBlock m p = some r :=
  fuel_le (fun k => ParseBlock k p) (fun k r => (fuelMono k).parseBlock p r) hnm h

theorem LookAhead_consumeExpected {p : Parser} {type : TokenType} (message : String)
    (h : LookAhead p type = true) : ConsumeExpected p type message = Consume p := by
  simp [ConsumeExpected, h]

theorem LookAhead_match {p : Parser} {type : TokenType}
    (h : LookAhead p type = true) : Match p type = (true, (Consume p).2) := by
  simp [Match, h]

theorem not_LookAhead_match {p : Parser} {type : TokenType}
    (h : LookAhead p type = false) : Match p type = (false, p) := by
  simp [Match, h]

/-- Two different kinds are never both the kind of the next token. -/
theorem LookAhead_ne {p : Parser} {a b : TokenType} (ha : LookAhead p a = true)
    (hab : a ≠ b) : LookAhead p b = false := by
  simp only [LookAhead, decide_eq_true_eq, decide_eq_false_iff_not] at ha ⊢
  rw [ha]; exact hab

theorem Primary_fuel_le {n m : Nat} {p : Parser} {r : Expr × Parser} (hnm : n ≤ m)
    (h : Primary n p = some r) : Primary m p = some r :=
  fuel_le (fun k => Primary k p) (fun k r => (fuelMono k).primary p r) hnm h

theorem ParseDefines_fuel_le {n m : Nat} {p : Parser} {ds : List Definition} {t : TokenType}
    {r : List Definition × Parser} (hnm : n ≤ m)
    (h : ParseDefines n p ds t = some r) : ParseDefines m p ds t = some r :=
  fuel_le (fun k => ParseDefines k p ds t) (fun k r => (fuelMono k).parseDefines p ds t r) hnm h

@[simp] theorem LookAhead_cons (t : Token) (ts : List Token) (e : Bool) (es : List String)
    (i : Bool) (type : TokenType) :
    LookAhead ⟨t :: ts, e, es, i⟩ type = decide (t.type = type) := rfl

@[simp] theorem LookAhead2_cons (t u : Token) (ts : List Token) (e : Bool) (es : List String)
    (i : Bool) (a b : TokenType) :
    LookAhead2 ⟨t :: u :: ts, e, es, i⟩ a b = (decide (t.type = a) && decide (u.type = b)) := rfl

@[simp] theorem Consume_cons (t : Token) (ts : List Token) (e : Bool) (es : List String)
    (i : Bool) : Consume ⟨t :: ts, e, es, i⟩ = (t, ⟨ts, e, es, i⟩) := rfl

/-- Whether the token after a consumed `;` is a closer decides the four
lookahead tests of the loop of `Sequence`. -/
theorem closers_lookAhead (p : Parser) :
    (LookAhead p TOKEN_RIGHT_PAREN = true ∨ LookAhead p TOKEN_RIGHT_BRACKET = true ∨
      LookAhead p TOKEN_RIGHT_BRACE = true ∨ LookAhead p TOKEN_EOF = true) ↔
      peekType p 0 ∈ closers := by
  simp [LookAhead, closers]

/-! ## The state only moves forward -/

theorem Evolves.refl (p : Parser) : Evolves p p :=
  ⟨List.suffix_refl _, List.prefix_refl _, by simp, rfl⟩

theorem Evolves.trans {p q r : Parser} (h1 : Evolves p q) (h2 : Evolves q r) : Evolves p r := by
  refine ⟨h2.tokens.trans h1.tokens, h1.errors.trans h2.errors, ?_, h2.mode.trans h1.mode⟩
  have l1 := h1.errors.length_le
  have l2 := h2.errors.length_le
  rw [h2.flag, h1.flag]
  constructor
  · rintro ((h | h) | h)
    · exact Or.inl h
    · exact Or.inr (by omega)
    · exact Or.inr (by omega)
  · rintro (h | h)
    · exact Or.inl (Or.inl h)
    · by_cases hq : p.errors.length < q.errors.length
      · exact Or.inl (Or.inr hq)
      · exact Or.inr (by omega)

theorem Evolves.consume {p q : Parser} (h : Evolves p q) : Evolves p (Consume q).2 := by
  refine h.trans ?_
  unfold Consume
  split
  · exact Evolves.refl _
  · rename_i t ts ht
    exact ⟨by simp [ht], List.prefix_refl _, by simp, rfl⟩

theorem Evolves.error {p q : Parser} (message : String) (h : Evolves p q) :
    Evolves p (Error q message) :=
  h.trans ⟨List.suffix_refl _, by simp [Error], by simp [Error], rfl⟩

theorem Evolves.matchStep {p q : Parser} (type : TokenType) (h : Evolves p q) :
    Evolves p (Match q type).2 := by
  unfold Match
  split_ifs
  · exact h.consume
  · exact h

theorem Evolves.expect {p q : Parser} (type : TokenType) (message : String)
    (h : Evolves p q) : Evolves p (Expect q type message) := by
  unfold Expect
  split_ifs
  · exact h
  · exact h.error _

theorem Evolves.consumeExpected {p q : Parser} (type : TokenType) (message : String)
    (h : Evolves p q) : Evolves p (ConsumeExpected q type message).2 := by
  unfold ConsumeExpected
  split_ifs
  · exact h.consume
  · exact (h.error _).consume

theorem Evolves.consumeParams (k : Nat) : ∀ {p q : Parser} (params : List String),
    Evolves p q → Evolves p (consumeParams k q params).2 := by
  induction k with
  | zero => intro p q params h; exact h
  | succ k ih => intro p q params h; exact ih _ h.consume

theorem evolvesAll_zero : EvolvesAll 0 := by
  constructor <;> intros <;> rename_i h <;>
    simp [Expression, Sequence, SequenceLoop, Statement, Assignment, Operator, OperatorLoop,
      Message, MessageLoop, Primary, PrimaryArray, ParseMessage, ParseMessageParts,
      ParseMessageArgs, ParseBlock, ParseDefines, ParseDefine, ParseDefineBody] at h

theorem ParseDefineParams_evolves (n : Nat) : ∀ p s ps s1 ps1 q,
    ParseDefineParams n p s ps = some (s1, ps1, q) → Evolves p q := by
  induction n with
  | zero => intro p s ps s1 ps1 q h; simp [ParseDefineParams] at h
  | succ n ih =>
    intro p s ps s1 ps1 q h
    rw [ParseDefineParams] at h
    split at h
    · exact (((Evolves.refl p).consumeExpected _ _).matchStep _).trans (ih _ _ _ _ _ _ h)
    · cases h
      exact (Evolves.refl p).consumeExpected _ _

theorem ParseDefineMixfix_evolves (n : Nat) : ∀ p s ps s1 ps1 q,
    ParseDefineMixfix n p s ps = some (s1, ps1, q) → Evolves p q := by
  induction n with
  | zero => intro p s ps s1 ps1 q h; simp [ParseDefineMixfix] at h
  | succ n ih =>
    intro p s ps s1 ps1 q h
    rw [ParseDefineMixfix] at h
    try dsimp only at h
    split at h
    · split at h
      · cases h
      · rename_i hs
        exact ((((Evolves.refl p).consume.consumeExpected _ _).trans
          (ParseDefineParams_evolves _ _ _ _ _ _ _ hs)).consumeExpected _ _).trans
            (ih _ _ _ _ _ _ h)
    · cases h
      exact Evolves.refl _

theorem evolves_succ_expression (n : Nat) (ih : EvolvesAll n) :
    ∀ p e q, Expression (n + 1) p = some (e, q) → Evolves p q := by
  intro p e q h
  rw [Expression] at h
  try dsimp only at h
  repeat' split at h
  all_goals try cases h
  all_goals try split_ifs at *
  all_goals try simp only [Option.some.injEq, Prod.mk.injEq] at *
  all_goals try cases_type* And
  all_goals try subst_vars
  all_goals
    repeat (with_reducible first
      | exact Evolves.refl _
      | apply Evolves.consumeExpected
      | apply Evolves.consume
      | apply Evolves.matchStep
      | apply Evolves.error
      | apply Evolves.expect
      | apply Evolves.consumeParams
      | refine Evolves.trans ?_ (ParseDefineMixfix_evolves _ _ _ _ _ _ _ (by assumption))
      | refine Evolves.trans ?_ (ih.expression _ _ _ (by assumption))
      | refine Evolves.trans ?_ (ih.sequence _ _ _ (by assumption))
      | refine Evolves.trans ?_ (ih.sequenceLoop _ _ _ _ (by assumption))
      | refine Evolves.trans ?_ (ih.statement _ _ _ (by assumption))
      | refine Evolves.trans ?_ (ih.assignment _ _ _ (by assumption))
      | refine Evolves.trans ?_ (ih.operator _ _ _ (by assumption))
      | refine Evolves.trans ?_ (ih.operatorLoop _ _ _ _ (by assumption))
      | refine Evolves.trans ?_ (ih.message _ _ _ (by assumption))
      | refine Evolves.trans ?_ (ih.messageLoop _ _ _ _ (by assumption))
      | refine Evolves.trans ?_ (ih.primary _ _ _ (by assumption))
      | refine Evolves.trans ?_ (ih.primaryArray _ _ _ _ (by assumption))
      | refine Evolves.trans ?_ (ih.parseMessage _ _ _ _ (by assumption))
      | refine Evolves.trans ?_ (ih.parseMessageParts _ _ _ _ _ _ (by assumption))
      | refine Evolves.trans ?_ (ih.parseMessageArgs _ _ _ _ _ _ (by assumption))
      | refine Evolves.trans ?_ (ih.parseBlock _ _ _ (by assumption))
      | refine Evolves.trans ?_ (ih.parseDefines _ _ _ _ _ (by assumption))
      | refine Evolves.trans ?_ (ih.parseDefine _ _ _ _ (by assumption))
      | refine Evolves.trans ?_ (ih.parseDefineBody _ _ _ _ _ _ (by assumption)))

theorem evolves_succ_sequence (n : Nat) (ih : EvolvesAll n) :
    ∀ p e q, Sequence (n + 1) p = some (e, q) → Evolves p q := by
  intro p e q h
  rw [Sequence] at h
  try dsimp only at h
  repeat' split at h
  all_goals try cases h
  all_goals try split_ifs at *
  all_goals try simp only [Option.some.injEq, Prod.mk.injEq] at *
  all_goals try cases_type* And
  all_goals try subst_vars
  all_goals
    repeat (with_reducible first
      | exact Evolves.refl _
      | apply Evolves.consumeExpected
      | apply Evolves.consume
      | apply Evolves.matchStep
      | apply Evolves.error
      | apply Evolves.expect
      | apply Evolves.consumeParams
      | refine Evolves.trans ?_ (ParseDefineMixfix_evolves _ _ _ _ _ _ _ (by assumption))
      | refine Evolves.trans ?_ (ih.expression _ _ _ (by assumption))
      | refine Evolves.trans ?_ (ih.sequence _ _ _ (by assumption))
      | refine Evolves.trans ?_ (ih.sequenceLoop _ _ _ _ (by assumption))
      | refine Evolves.trans ?_ (ih.statement _ _ _ (by assumption))
      | refine Evolves.trans ?_ (ih.assignment _ _ _ (by assumption))
      | refine Evolves.trans ?_ (ih.operator _ _ _ (by assumption))
      | refine Evolves.trans ?_ (ih.operatorLoop _ _ _ _ (by assumption))
      | refine Evolves.trans ?_ (ih.message _ _ _ (by assumption))
      | refine Evolves.trans ?_ (ih.messageLoop _ _ _ _ (by assumption))
      | refine Evolves.trans ?_ (ih.primary _ _ _ (by assumption))
      | refine Evolves.trans ?_ (ih.primaryArray _ _ _ _ (by assumption))
      | refine Evolves.trans ?_ (ih.parseMessage _ _ _ _ (by assumption))
      | refine Evolves.trans ?_ (ih.parseMessageParts _ _ _ _ _ _ (by assumption))
      | refine Evolves.trans ?_ (ih.parseMessageArgs _ _ _ _ _ _ (by assumption))
      | refine Evolves.trans ?_ (ih.parseBlock _ _ _ (by assumption))
      | refine Evolves.trans ?_ (ih.parseDefines _ _ _ _ _ (by assumption))
      | refine Evolves.trans ?_ (ih.parseDefine _ _ _ _ (by assumption))
      | refine Evolves.trans ?_ (ih.parseDefineBody _ _ _ _ _ _ (by assumption)))

theorem evolves_succ_sequenceLoop (n : Nat) (ih : EvolvesAll n) :
    ∀ p es e q, SequenceLoop (n + 1) p es = some (e, q) → Evolves p q := by
  intro p es e q h
  rw [SequenceLoop] at h
  try dsimp only at h
  repeat' split at h
  all_goals try cases h
  all_goals try split_ifs at *
  all_goals try simp only [Option.some.injEq, Prod.mk.injEq] at *
  all_goals try cases_type* And
  all_goals try subst_vars
  all_goals
    repeat (with_reducible first
      | exact Evolves.refl _
      | apply Evolves.consumeExpected
      | apply Evolves.consume
      | apply Evolves.matchStep
      | apply Evolves.error
      | apply Evolves.expect
      | apply Evolves.consumeParams
      | refine Evolves.trans ?_ (ParseDefineMixfix_evolves _ _ _ _ _ _ _ (by assumption))
      | refine Evolves.trans ?_ (ih.expression _ _ _ (by assumption))
      | refine Evolves.trans ?_ (ih.sequence _ _ _ (by assumption))
      | refine Evolves.trans ?_ (ih.sequenceLoop _ _ _ _ (by assumption))
      | refine Evolves.trans ?_ (ih.statement _ _ _ (by assumption))
      | refine Evolves.trans ?_ (ih.assignment _ _ _ (by assumption))
      | refine Evolves.trans ?_ (ih.operator _ _ _ (by assumption))
      | refine Evolves.trans ?_ (ih.operatorLoop _ _ _ _ (by assumption))
      | refine Evolves.trans ?_ (ih.message _ _ _ (by assumption))
      | refine Evolves.trans ?_ (ih.messageLoop _ _ _ _ (by assumption))
      | refine Evolves.trans ?_ (ih.primary _ _ _ (by assumption))
      | refine Evolves.trans ?_ (ih.primaryArray _ _ _ _ (by assumption))
      | refine Evolves.trans ?_ (ih.parseMessage _ _ _ _ (by assumption))
      | refine Evolves.trans ?_ (ih.parseMessageParts _ _ _ _ _ _ (by assumption))
      | refine Evolves.trans ?_ (ih.parseMessageArgs _ _ _ _ _ _ (by assumption))
      | refine Evolves.trans ?_ (ih.parseBlock _ _ _ (by assumption))
      | refine Evolves.trans ?_ (ih.parseDefines _ _ _ _ _ (by assumption))
      | refine Evolves.trans ?_ (ih.parseDefine _ _ _ _ (by assumption))
      | refine Evolves.trans ?_ (ih.parseDefineBody _ _ _ _ _ _ (by assumption)))

theorem evolves_succ_statement (n : Nat) (ih : EvolvesAll n) :
    ∀ p e q, Statement (n + 1) p = some (e, q) → Evolves p q := by
  intro p e q h
  rw [Statement] at h
  try dsimp only at h
  repeat' split at h
  all_goals try cases h
  all_goals try split_ifs at *
  all_goals try simp only [Option.some.injEq, Prod.mk.injEq] at *
  all_goals try cases_type* And
  all_goals try subst_vars
  all_goals
    repeat (with_reducible first
      | exact Evolves.refl _
      | apply Evolves.consumeExpected
      | apply Evolves.consume
      | apply Evolves.matchStep
      | apply Evolves.error
      | apply Evolves.expect
      | apply Evolves.consumeParams
      | refine Evolves.trans ?_ (ParseDefineMixfix_evolves _ _ _ _ _ _ _ (by assumption))
      | refine Evolves.trans ?_ (ih.expression _ _ _ (by assumption))
      | refine Evolves.trans ?_ (ih.sequence _ _ _ (by assumption))
      | refine Evolves.trans ?_ (ih.sequenceLoop _ _ _ _ (by assumption))
      | refine Evolves.trans ?_ (ih.statement _ _ _ (by assumption))
      | refine Evolves.trans ?_ (ih.assignment _ _ _ (by assumption))
      | refine Evolves.trans ?_ (ih.operator _ _ _ (by assumption))
      | refine Evolves.trans ?_ (ih.operatorLoop _ _ _ _ (by assumption))
      | refine Evolves.trans ?_ (ih.message _ _ _ (by assumption))
      | refine Evolves.trans ?_ (ih.messageLoop _ _ _ _ (by assumption))
      | refine Evolves.trans ?_ (ih.primary _ _ _ (by assumption))
      | refine Evolves.trans ?_ (ih.primaryArray _ _ _ _ (by assumption))
      | refine Evolves.trans ?_ (ih.parseMessage _ _ _ _ (by assumption))
      | refine Evolves.trans ?_ (ih.parseMessageParts _ _ _ _ _ _ (by assumption))
      | refine Evolves.trans ?_ (ih.parseMessageArgs _ _ _ _ _ _ (by assumption))
      | refine Evolves.trans ?_ (ih.parseBlock _ _ _ (by assumption))
      | refine Evolves.trans ?_ (ih.parseDefines _ _ _ _ _ (by assumption))
      | refine Evolves.trans ?_ (ih.parseDefine _ _ _ _ (by assumption))
      | refine Evolves.trans ?_ (ih.parseDefineBody _ _ _ _ _ _ (by assumption)))

theorem evolves_succ_assignment (n : Nat) (ih : EvolvesAll n) :
    ∀ p e q, Assignment (n + 1) p = some (e, q) → Evolves p q := by
  intro p e q h
  rw [Assignment] at h
  try dsimp only at h
  repeat' split at h
  all_goals try cases h
  all_goals try split_ifs at *
  all_goals try simp only [Option.some.injEq, Prod.mk.injEq] at *
  all_goals try cases_type* And
  all_goals try subst_vars
  all_goals
    repeat (with_reducible first
      | exact Evolves.refl _
      | apply Evolves.consumeExpected
      | apply Evolves.consume
      | apply Evolves.matchStep
      | apply Evolves.error
      | apply Evolves.expect
      | apply Evolves.consumeParams
      | refine Evolves.trans ?_ (ParseDefineMixfix_evolves _ _ _ _ _ _ _ (by assumption))
      | refine Evolves.trans ?_ (ih.expression _ _ _ (by assumption))
      | refine Evolves.trans ?_ (ih.sequence _ _ _ (by assumption))
      | refine Evolves.trans ?_ (ih.sequenceLoop _ _ _ _ (by assumption))
      | refine Evolves.trans ?_ (ih.statement _ _ _ (by assumption))
      | refine Evolves.trans ?_ (ih.assignment _ _ _ (by assumption))
      | refine Evolves.trans ?_ (ih.operator _ _ _ (by assumption))
      | refine Evolves.trans ?_ (ih.operatorLoop _ _ _ _ (by assumption))
      | refine Evolves.trans ?_ (ih.message _ _ _ (by assumption))
      | refine Evolves.trans ?_ (ih.messageLoop _ _ _ _ (by assumption))
      | refine Evolves.trans ?_ (ih.primary _ _ _ (by assumption))
      | refine Evolves.trans ?_ (ih.primaryArray _ _ _ _ (by assumption))
      | refine Evolves.trans ?_ (ih.parseMessage _ _ _ _ (by assumption))
      | refine Evolves.trans ?_ (ih.parseMessageParts _ _ _ _ _ _ (by assumption))
      | refine Evolves.trans ?_ (ih.parseMessageArgs _ _ _ _ _ _ (by assumption))
      | refine Evolves.trans ?_ (ih.parseBlock _ _ _ (by assumption))
      | refine Evolves.trans ?_ (ih.parseDefines _ _ _ _ _ (by assumption))
      | refine Evolves.trans ?_ (ih.parseDefine _ _ _ _ (by assumption))
      | refine Evolves.trans ?_ (ih.parseDefineBody _ _ _ _ _ _ (by assumption)))

theorem evolves_succ_operator (n : Nat) (ih : EvolvesAll n) :
    ∀ p e q, Operator (n + 1) p = some (e, q) → Evolves p q := by
  intro p e q h
  rw [Operator] at h
  try dsimp only at h
  repeat' split at h
  all_goals try cases h
  all_goals try split_ifs at *
  all_goals try simp only [Option.some.injEq, Prod.mk.injEq] at *
  all_goals try cases_type* And
  all_goals try subst_vars
  all_goals
    repeat (with_reducible first
      | exact Evolves.refl _
      | apply Evolves.consumeExpected
      | apply Evolves.consume
      | apply Evolves.matchStep
      | apply Evolves.error
      | apply Evolves.expect
      | apply Evolves.consumeParams
      | refine Evolves.trans ?_ (ParseDefineMixfix_evolves _ _ _ _ _ _ _ (by assumption))
      | refine Evolves.trans ?_ (ih.expression _ _ _ (by assumption))
      | refine Evolves.trans ?_ (ih.sequence _ _ _ (by assumption))
      | refine Evolves.trans ?_ (ih.sequenceLoop _ _ _ _ (by assumption))
      | refine Evolves.trans ?_ (ih.statement _ _ _ (by assumption))
      | refine Evolves.trans ?_ (ih.assignment _ _ _ (by assumption))
      | refine Evolves.trans ?_ (ih.operator _ _ _ (by assumption))
      | refine Evolves.trans ?_ (ih.operatorLoop _ _ _ _ (by assumption))
      | refine Evolves.trans ?_ (ih.message _ _ _ (by assumption))
      | refine Evolves.trans ?_ (ih.messageLoop _ _ _ _ (by assumption))
      | refine Evolves.trans ?_ (ih.primary _ _ _ (by assumption))
      | refine Evolves.trans ?_ (ih.primaryArray _ _ _ _ (by assumption))
      | refine Evolves.trans ?_ (ih.parseMessage _ _ _ _ (by assumption))
      | refine Evolves.trans ?_ (ih.parseMessageParts _ _ _ _ _ _ (by assumption))
      | refine Evolves.trans ?_ (ih.parseMessageArgs _ _ _ _ _ _ (by assumption))
      | refine Evolves.trans ?_ (ih.parseBlock _ _ _ (by assumption))
      | refine Evolves.trans ?_ (ih.parseDefines _ _ _ _ _ (by assumption))
      | refine Evolves.trans ?_ (ih.parseDefine _ _ _ _ (by assumption))
      | refine Evolves.trans ?_ (ih.parseDefineBody _ _ _ _ _ _ (by assumption)))

theorem evolves_succ_operatorLoop (n : Nat) (ih : EvolvesAll n) :
    ∀ p o e q, OperatorLoop (n + 1) p o = some (e, q) → Evolves p q := by
  intro p o e q h
  rw [OperatorLoop] at h
  try dsimp only at h
  repeat' split at h
  all_goals try cases h
  all_goals try split_ifs at *
  all_goals try simp only [Option.some.injEq, Prod.mk.injEq] at *
  all_goals try cases_type* And
  all_goals try subst_vars
  all_goals
    repeat (with_reducible first
      | exact Evolves.refl _
      | apply Evolves.consumeExpected
      | apply Evolves.consume
      | apply Evolves.matchStep
      | apply Evolves.error
      | apply Evolves.expect
      | apply Evolves.consumeParams
      | refine Evolves.trans ?_ (ParseDefineMixfix_evolves _ _ _ _ _ _ _ (by assumption))
      | refine Evolves.trans ?_ (ih.expression _ _ _ (by assumption))
      | refine Evolves.trans ?_ (ih.sequence _ _ _ (by assumption))
      | refine Evolves.trans ?_ (ih.sequenceLoop _ _ _ _ (by assumption))
      | refine Evolves.trans ?_ (ih.statement _ _ _ (by assumption))
      | refine Evolves.trans ?_ (ih.assignment _ _ _ (by assumption))
      | refine Evolves.trans ?_ (ih.operator _ _ _ (by assumption))
      | refine Evolves.trans ?_ (ih.operatorLoop _ _ _ _ (by assumption))
      | refine Evolves.trans ?_ (ih.message _ _ _ (by assumption))
      | refine Evolves.trans ?_ (ih.messageLoop _ _ _ _ (by assumption))
      | refine Evolves.trans ?_ (ih.primary _ _ _ (by assumption))
      | refine Evolves.trans ?_ (ih.primaryArray _ _ _ _ (by assumption))
      | refine Evolves.trans ?_ (ih.parseMessage _ _ _ _ (by assumption))
      | refine Evolves.trans ?_ (ih.parseMessageParts _ _ _ _ _ _ (by assumption))
      | refine Evolves.trans ?_ (ih.parseMessageArgs _ _ _ _ _ _ (by assumption))
      | refine Evolves.trans ?_ (ih.parseBlock _ _ _ (by assumption))
      | refine Evolves.trans ?_ (ih.parseDefines _ _ _ _ _ (by assumption))
      | refine Evolves.trans ?_ (ih.parseDefine _ _ _ _ (by assumption))
      | refine Evolves.trans ?_ (ih.parseDefineBody _ _ _ _ _ _ (by assumption)))

theorem evolves_succ_message (n : Nat) (ih : EvolvesAll n) :
    ∀ p e q, Message (n + 1) p = some (e, q) → Evolves p q := by
  intro p e q h
  rw [Message] at h
  try dsimp only at h
  repeat' split at h
  all_goals try cases h
  all_goals try split_ifs at *
  all_goals try simp only [Option.some.injEq, Prod.mk.injEq] at *
  all_goals try cases_type* And
  all_goals try subst_vars
  all_goals
    repeat (with_reducible first
      | exact Evolves.refl _
      | apply Evolves.consumeExpected
      | apply Evolves.consume
      | apply Evolves.matchStep
      | apply Evolves.error
      | apply Evolves.expect
      | apply Evolves.consumeParams
      | refine Evolves.trans ?_ (ParseDefineMixfix_evolves _ _ _ _ _ _ _ (by assumption))
      | refine Evolves.trans ?_ (ih.expression _ _ _ (by assumption))
      | refine Evolves.trans ?_ (ih.sequence _ _ _ (by assumption))
      | refine Evolves.trans ?_ (ih.sequenceLoop _ _ _ _ (by assumption))
      | refine Evolves.trans ?_ (ih.statement _ _ _ (by assumption))
      | refine Evolves.trans ?_ (ih.assignment _ _ _ (by assumption))
      | refine Evolves.trans ?_ (ih.operator _ _ _ (by assumption))
      | refine Evolves.trans ?_ (ih.operatorLoop _ _ _ _ (by assumption))
      | refine Evolves.trans ?_ (ih.message _ _ _ (by assumption))
      | refine Evolves.trans ?_ (ih.messageLoop _ _ _ _ (by assumption))
      | refine Evolves.trans ?_ (ih.primary _ _ _ (by assumption))
      | refine Evolves.trans ?_ (ih.primaryArray _ _ _ _ (by assumption))
      | refine Evolves.trans ?_ (ih.parseMessage _ _ _ _ (by assumption))
      | refine Evolves.trans ?_ (ih.parseMessageParts _ _ _ _ _ _ (by assumption))
      | refine Evolves.trans ?_ (ih.parseMessageArgs _ _ _ _ _ _ (by assumption))
      | refine Evolves.trans ?_ (ih.parseBlock _ _ _ (by assumption))
      | refine Evolves.trans ?_ (ih.parseDefines _ _ _ _ _ (by assumption))
      | refine Evolves.trans ?_ (ih.parseDefine _ _ _ _ (by assumption))
      | refine Evolves.trans ?_ (ih.parseDefineBody _ _ _ _ _ _ (by assumption)))

theorem evolves_succ_messageLoop (n : Nat) (ih : EvolvesAll n) :
    ∀ p o e q, MessageLoop (n + 1) p o = some (e, q) → Evolves p q := by
  intro p o e q h
  rw [MessageLoop] at h
  try dsimp only at h
  repeat' split at h
  all_goals try cases h
  all_goals try split_ifs at *
  all_goals try simp only [Option.some.injEq, Prod.mk.injEq] at *
  all_goals try cases_type* And
  all_goals try subst_vars
  all_goals
    repeat (with_reducible first
      | exact Evolves.refl _
      | apply Evolves.consumeExpected
      | apply Evolves.consume
      | apply Evolves.matchStep
      | apply Evolves.error
      | apply Evolves.expect
      | apply Evolves.consumeParams
      | refine Evolves.trans ?_ (ParseDefineMixfix_evolves _ _ _ _ _ _ _ (by assumption))
      | refine Evolves.trans ?_ (ih.expression _ _ _ (by assumption))
      | refine Evolves.trans ?_ (ih.sequence _ _ _ (by assumption))
      | refine Evolves.trans ?_ (ih.sequenceLoop _ _ _ _ (by assumption))
      | refine Evolves.trans ?_ (ih.statement _ _ _ (by assumption))
      | refine Evolves.trans ?_ (ih.assignment _ _ _ (by assumption))
      | refine Evolves.trans ?_ (ih.operator _ _ _ (by assumption))
      | refine Evolves.trans ?_ (ih.operatorLoop _ _ _ _ (by assumption))
      | refine Evolves.trans ?_ (ih.message _ _ _ (by assumption))
      | refine Evolves.trans ?_ (ih.messageLoop _ _ _ _ (by assumption))
      | refine Evolves.trans ?_ (ih.primary _ _ _ (by assumption))
      | refine Evolves.trans ?_ (ih.primaryArray _ _ _ _ (by assumption))
      | refine Evolves.trans ?_ (ih.parseMessage _ _ _ _ (by assumption))
      | refine Evolves.trans ?_ (ih.parseMessageParts _ _ _ _ _ _ (by assumption))
      | refine Evolves.trans ?_ (ih.parseMessageArgs _ _ _ _ _ _ (by assumption))
      | refine Evolves.trans ?_ (ih.parseBlock _ _ _ (by assumption))
      | refine Evolves.trans ?_ (ih.parseDefines _ _ _ _ _ (by assumption))
      | refine Evolves.trans ?_ (ih.parseDefine _ _ _ _ (by assumption))
      | refine Evolves.trans ?_ (ih.parseDefineBody _ _ _ _ _ _ (by assumption)))

theorem evolves_succ_primary (n : Nat) (ih : EvolvesAll n) :
    ∀ p e q, Primary (n + 1) p = some (e, q) → Evolves p q := by
  intro p e q h
  rw [Primary] at h
  try dsimp only at h
  repeat' split at h
  all_goals try cases h
  all_goals try split_ifs at *
  all_goals try simp only [Option.some.injEq, Prod.mk.injEq] at *
  all_goals try cases_type* And
  all_goals try subst_vars
  all_goals
    repeat (with_reducible first
      | exact Evolves.refl _
      | apply Evolves.consumeExpected
      | apply Evolves.consume
      | apply Evolves.matchStep
      | apply Evolves.error
      | apply Evolves.expect
      | apply Evolves.consumeParams
      | refine Evolves.trans ?_ (ParseDefineMixfix_evolves _ _ _ _ _ _ _ (by assumption))
      | refine Evolves.trans ?_ (ih.expression _ _ _ (by assumption))
      | refine Evolves.trans ?_ (ih.sequence _ _ _ (by assumption))
      | refine Evolves.trans ?_ (ih.sequenceLoop _ _ _ _ (by assumption))
      | refine Evolves.trans ?_ (ih.statement _ _ _ (by assumption))
      | refine Evolves.trans ?_ (ih.assignment _ _ _ (by assumption))
      | refine Evolves.trans ?_ (ih.operator _ _ _ (by assumption))
      | refine Evolves.trans ?_ (ih.operatorLoop _ _ _ _ (by assumption))
      | refine Evolves.trans ?_ (ih.message _ _ _ (by assumption))
      | refine Evolves.trans ?_ (ih.messageLoop _ _ _ _ (by assumption))
      | refine Evolves.trans ?_ (ih.primary _ _ _ (by assumption))
      | refine Evolves.trans ?_ (ih.primaryArray _ _ _ _ (by assumption))
      | refine Evolves.trans ?_ (ih.parseMessage _ _ _ _ (by assumption))
      | refine Evolves.trans ?_ (ih.parseMessageParts _ _ _ _ _ _ (by assumption))
      | refine Evolves.trans ?_ (ih.parseMessageArgs _ _ _ _ _ _ (by assumption))
      | refine Evolves.trans ?_ (ih.parseBlock _ _ _ (by assumption))
      | refine Evolves.trans ?_ (ih.parseDefines _ _ _ _ _ (by assumption))
      | refine Evolves.trans ?_ (ih.parseDefine _ _ _ _ (by assumption))
      | refine Evolves.trans ?_ (ih.parseDefineBody _ _ _ _ _ _ (by assumption)))

theorem evolves_succ_primaryArray (n : Nat) (ih : EvolvesAll n) :
    ∀ p es e q, PrimaryArray (n + 1) p es = some (e, q) → Evolves p q := by
  intro p es e q h
  rw [PrimaryArray] at h
  try dsimp only at h
  repeat' split at h
  all_goals try cases h
  all_goals try split_ifs at *
  all_goals try simp only [Option.some.injEq, Prod.mk.injEq] at *
  all_goals try cases_type* And
  all_goals try subst_vars
  all_goals
    repeat (with_reducible first
      | exact Evolves.refl _
      | apply Evolves.consumeExpected
      | apply Evolves.consume
      | apply Evolves.matchStep
      | apply Evolves.error
      | apply Evolves.expect
      | apply Evolves.consumeParams
      | refine Evolves.trans ?_ (ParseDefineMixfix_evolves _ _ _ _ _ _ _ (by assumption))
      | refine Evolves.trans ?_ (ih.expression _ _ _ (by assumption))
      | refine Evolves.trans ?_ (ih.sequence _ _ _ (by assumption))
      | refine Evolves.trans ?_ (ih.sequenceLoop _ _ _ _ (by assumption))
      | refine Evolves.trans ?_ (ih.statement _ _ _ (by assumption))
      | refine Evolves.trans ?_ (ih.assignment _ _ _ (by assumption))
      | refine Evolves.trans ?_ (ih.operator _ _ _ (by assumption))
      | refine Evolves.trans ?_ (ih.operatorLoop _ _ _ _ (by assumption))
      | refine Evolves.trans ?_ (ih.message _ _ _ (by assumption))
      | refine Evolves.trans ?_ (ih.messageLoop _ _ _ _ (by assumption))
      | refine Evolves.trans ?_ (ih.primary _ _ _ (by assumption))
      | refine Evolves.trans ?_ (ih.primaryArray _ _ _ _ (by assumption))
      | refine Evolves.trans ?_ (ih.parseMessage _ _ _ _ (by assumption))
      | refine Evolves.trans ?_ (ih.parseMessageParts _ _ _ _ _ _ (by assumption))
      | refine Evolves.trans ?_ (ih.parseMessageArgs _ _ _ _ _ _ (by assumption))
      | refine Evolves.trans ?_ (ih.parseBlock _ _ _ (by assumption))
      | refine Evolves.trans ?_ (ih.parseDefines _ _ _ _ _ (by assumption))
      | refine Evolves.trans ?_ (ih.parseDefine _ _ _ _ (by assumption))
      | refine Evolves.trans ?_ (ih.parseDefineBody _ _ _ _ _ _ (by assumption)))

theorem evolves_succ_parseMessage (n : Nat) (ih : EvolvesAll n) :
    ∀ p o e q, ParseMessage (n + 1) p o = some (e, q) → Evolves p q := by
  intro p o e q h
  rw [ParseMessage] at h
  try dsimp only at h
  repeat' split at h
  all_goals try cases h
  all_goals try split_ifs at *
  all_goals try simp only [Option.some.injEq, Prod.mk.injEq] at *
  all_goals try cases_type* And
  all_goals try subst_vars
  all_goals
    repeat (with_reducible first
      | exact Evolves.refl _
      | apply Evolves.consumeExpected
      | apply Evolves.consume
      | apply Evolves.matchStep
      | apply Evolves.error
      | apply Evolves.expect
      | apply Evolves.consumeParams
      | refine Evolves.trans ?_ (ParseDefineMixfix_evolves _ _ _ _ _ _ _ (by assumption))
      | refine Evolves.trans ?_ (ih.expression _ _ _ (by assumption))
      | refine Evolves.trans ?_ (ih.sequence _ _ _ (by assumption))
      | refine Evolves.trans ?_ (ih.sequenceLoop _ _ _ _ (by assumption))
      | refine Evolves.trans ?_ (ih.statement _ _ _ (by assumption))
      | refine Evolves.trans ?_ (ih.assignment _ _ _ (by assumption))
      | refine Evolves.trans ?_ (ih.operator _ _ _ (by assumption))
      | refine Evolves.trans ?_ (ih.operatorLoop _ _ _ _ (by assumption))
      | refine Evolves.trans ?_ (ih.message _ _ _ (by assumption))
      | refine Evolves.trans ?_ (ih.messageLoop _ _ _ _ (by assumption))
      | refine Evolves.trans ?_ (ih.primary _ _ _ (by assumption))
      | refine Evolves.trans ?_ (ih.primaryArray _ _ _ _ (by assumption))
      | refine Evolves.trans ?_ (ih.parseMessage _ _ _ _ (by assumption))
      | refine Evolves.trans ?_ (ih.parseMessageParts _ _ _ _ _ _ (by assumption))
      | refine Evolves.trans ?_ (ih.parseMessageArgs _ _ _ _ _ _ (by assumption))
      | refine Evolves.trans ?_ (ih.parseBlock _ _ _ (by assumption))
      | refine Evolves.trans ?_ (ih.parseDefines _ _ _ _ _ (by assumption))
      | refine Evolves.trans ?_ (ih.parseDefine _ _ _ _ (by assumption))
      | refine Evolves.trans ?_ (ih.parseDefineBody _ _ _ _ _ _ (by assumption)))

theorem evolves_succ_parseMessageParts (n : Nat) (ih : EvolvesAll n) :
    ∀ p s as s1 as1 q, ParseMessageParts (n + 1) p s as = some (s1, as1, q) → Evolves p q := by
  intro p s as s1 as1 q h
  rw [ParseMessageParts] at h
  split at h
  · cases h
  rename_i heq
  split_ifs at heq h
  all_goals split at heq
  all_goals try cases heq
  all_goals try cases h
  all_goals
    repeat (with_reducible first
      | exact Evolves.refl _
      | apply Evolves.consumeExpected
      | apply Evolves.consume
      | apply Evolves.matchStep
      | apply Evolves.error
      | apply Evolves.expect
      | apply Evolves.consumeParams
      | refine Evolves.trans ?_ (ParseDefineMixfix_evolves _ _ _ _ _ _ _ (by assumption))
      | refine Evolves.trans ?_ (ih.expression _ _ _ (by assumption))
      | refine Evolves.trans ?_ (ih.sequence _ _ _ (by assumption))
      | refine Evolves.trans ?_ (ih.sequenceLoop _ _ _ _ (by assumption))
      | refine Evolves.trans ?_ (ih.statement _ _ _ (by assumption))
      | refine Evolves.trans ?_ (ih.assignment _ _ _ (by assumption))
      | refine Evolves.trans ?_ (ih.operator _ _ _ (by assumption))
      | refine Evolves.trans ?_ (ih.operatorLoop _ _ _ _ (by assumption))
      | refine Evolves.trans ?_ (ih.message _ _ _ (by assumption))
      | refine Evolves.trans ?_ (ih.messageLoop _ _ _ _ (by assumption))
      | refine Evolves.trans ?_ (ih.primary _ _ _ (by assumption))
      | refine Evolves.trans ?_ (ih.primaryArray _ _ _ _ (by assumption))
      | refine Evolves.trans ?_ (ih.parseMessage _ _ _ _ (by assumption))
      | refine Evolves.trans ?_ (ih.parseMessageParts _ _ _ _ _ _ (by assumption))
      | refine Evolves.trans ?_ (ih.parseMessageArgs _ _ _ _ _ _ (by assumption))
      | refine Evolves.trans ?_ (ih.parseBlock _ _ _ (by assumption))
      | refine Evolves.trans ?_ (ih.parseDefines _ _ _ _ _ (by assumption))
      | refine Evolves.trans ?_ (ih.parseDefine _ _ _ _ (by assumption))
      | refine Evolves.trans ?_ (ih.parseDefineBody _ _ _ _ _ _ (by assumption)))

theorem evolves_succ_parseMessageArgs (n : Nat) (ih : EvolvesAll n) :
    ∀ p s as s1 as1 q, ParseMessageArgs (n + 1) p s as = some (s1, as1, q) → Evolves p q := by
  intro p s as s1 as1 q h
  rw [ParseMessageArgs] at h
  try dsimp only at h
  repeat' split at h
  all_goals try cases h
  all_goals try split_ifs at *
  all_goals try simp only [Option.some.injEq, Prod.mk.injEq] at *
  all_goals try cases_type* And
  all_goals try subst_vars
  all_goals
    repeat (with_reducible first
      | exact Evolves.refl _
      | apply Evolves.consumeExpected
      | apply Evolves.consume
      | apply Evolves.matchStep
      | apply Evolves.error
      | apply Evolves.expect
      | apply Evolves.consumeParams
      | refine Evolves.trans ?_ (ParseDefineMixfix_evolves _ _ _ _ _ _ _ (by assumption))
      | refine Evolves.trans ?_ (ih.expression _ _ _ (by assumption))
      | refine Evolves.trans ?_ (ih.sequence _ _ _ (by assumption))
      | refine Evolves.trans ?_ (ih.sequenceLoop _ _ _ _ (by assumption))
      | refine Evolves.trans ?_ (ih.statement _ _ _ (by assumption))
      | refine Evolves.trans ?_ (ih.assignment _ _ _ (by assumption))
      | refine Evolves.trans ?_ (ih.operator _ _ _ (by assumption))
      | refine Evolves.trans ?_ (ih.operatorLoop _ _ _ _ (by assumption))
      | refine Evolves.trans ?_ (ih.message _ _ _ (by assumption))
      | refine Evolves.trans ?_ (ih.messageLoop _ _ _ _ (by assumption))
      | refine Evolves.trans ?_ (ih.primary _ _ _ (by assumption))
      | refine Evolves.trans ?_ (ih.primaryArray _ _ _ _ (by assumption))
      | refine Evolves.trans ?_ (ih.parseMessage _ _ _ _ (by assumption))
      | refine Evolves.trans ?_ (ih.parseMessageParts _ _ _ _ _ _ (by assumption))
      | refine Evolves.trans ?_ (ih.parseMessageArgs _ _ _ _ _ _ (by assumption))
      | refine Evolves.trans ?_ (ih.parseBlock _ _ _ (by assumption))
      | refine Evolves.trans ?_ (ih.parseDefines _ _ _ _ _ (by assumption))
      | refine Evolves.trans ?_ (ih.parseDefine _ _ _ _ (by assumption))
      | refine Evolves.trans ?_ (ih.parseDefineBody _ _ _ _ _ _ (by assumption)))

theorem evolves_succ_parseBlock (n : Nat) (ih : EvolvesAll n) :
    ∀ p e q, ParseBlock (n + 1) p = some (e, q) → Evolves p q := by
  intro p e q h
  rw [ParseBlock] at h
  try dsimp only at h
  repeat' split at h
  all_goals try cases h
  all_goals try split_ifs at *
  all_goals try simp only [Option.some.injEq, Prod.mk.injEq] at *
  all_goals try cases_type* And
  all_goals try subst_vars
  all_goals
    repeat (with_reducible first
      | exact Evolves.refl _
      | apply Evolves.consumeExpected
      | apply Evolves.consume
      | apply Evolves.matchStep
      | apply Evolves.error
      | apply Evolves.expect
      | apply Evolves.consumeParams
      | refine Evolves.trans ?_ (ParseDefineMixfix_evolves _ _ _ _ _ _ _ (by assumption))
      | refine Evolves.trans ?_ (ih.expression _ _ _ (by assumption))
      | refine Evolves.trans ?_ (ih.sequence _ _ _ (by assumption))
      | refine Evolves.trans ?_ (ih.sequenceLoop _ _ _ _ (by assumption))
      | refine Evolves.trans ?_ (ih.statement _ _ _ (by assumption))
      | refine Evolves.trans ?_ (ih.assignment _ _ _ (by assumption))
      | refine Evolves.trans ?_ (ih.operator _ _ _ (by assumption))
      | refine Evolves.trans ?_ (ih.operatorLoop _ _ _ _ (by assumption))
      | refine Evolves.trans ?_ (ih.message _ _ _ (by assumption))
      | refine Evolves.trans ?_ (ih.messageLoop _ _ _ _ (by assumption))
      | refine Evolves.trans ?_ (ih.primary _ _ _ (by assumption))
      | refine Evolves.trans ?_ (ih.primaryArray _ _ _ _ (by assumption))
      | refine Evolves.trans ?_ (ih.parseMessage _ _ _ _ (by assumption))
      | refine Evolves.trans ?_ (ih.parseMessageParts _ _ _ _ _ _ (by assumption))
      | refine Evolves.trans ?_ (ih.parseMessageArgs _ _ _ _ _ _ (by assumption))
      | refine Evolves.trans ?_ (ih.parseBlock _ _ _ (by assumption))
      | refine Evolves.trans ?_ (ih.parseDefines _ _ _ _ _ (by assumption))
      | refine Evolves.trans ?_ (ih.parseDefine _ _ _ _ (by assumption))
      | refine Evolves.trans ?_ (ih.parseDefineBody _ _ _ _ _ _ (by assumption)))

theorem evolves_succ_parseDefines (n : Nat) (ih : EvolvesAll n) :
    ∀ p ds t ds1 q, ParseDefines (n + 1) p ds t = some (ds1, q) → Evolves p q := by
  intro p ds t ds1 q h
  rw [ParseDefines] at h
  try dsimp only at h
  repeat' split at h
  all_goals try cases h
  all_goals try split_ifs at *
  all_goals try simp only [Option.some.injEq, Prod.mk.injEq] at *
  all_goals try cases_type* And
  all_goals try subst_vars
  all_goals
    repeat (with_reducible first
      | exact Evolves.refl _
      | apply Evolves.consumeExpected
      | apply Evolves.consume
      | apply Evolves.matchStep
      | apply Evolves.error
      | apply Evolves.expect
      | apply Evolves.consumeParams
      | refine Evolves.trans ?_ (ParseDefineMixfix_evolves _ _ _ _ _ _ _ (by assumption))
      | refine Evolves.trans ?_ (ih.expression _ _ _ (by assumption))
      | refine Evolves.trans ?_ (ih.sequence _ _ _ (by assumption))
      | refine Evolves.trans ?_ (ih.sequenceLoop _ _ _ _ (by assumption))
      | refine Evolves.trans ?_ (ih.statement _ _ _ (by assumption))
      | refine Evolves.trans ?_ (ih.assignment _ _ _ (by assumption))
      | refine Evolves.trans ?_ (ih.operator _ _ _ (by assumption))
      | refine Evolves.trans ?_ (ih.operatorLoop _ _ _ _ (by assumption))
      | refine Evolves.trans ?_ (ih.message _ _ _ (by assumption))
      | refine Evolves.trans ?_ (ih.messageLoop _ _ _ _ (by assumption))
      | refine Evolves.trans ?_ (ih.primary _ _ _ (by assumption))
      | refine Evolves.trans ?_ (ih.primaryArray _ _ _ _ (by assumption))
      | refine Evolves.trans ?_ (ih.parseMessage _ _ _ _ (by assumption))
      | refine Evolves.trans ?_ (ih.parseMessageParts _ _ _ _ _ _ (by assumption))
      | refine Evolves.trans ?_ (ih.parseMessageArgs _ _ _ _ _ _ (by assumption))
      | refine Evolves.trans ?_ (ih.parseBlock _ _ _ (by assumption))
      | refine Evolves.trans ?_ (ih.parseDefines _ _ _ _ _ (by assumption))
      | refine Evolves.trans ?_ (ih.parseDefine _ _ _ _ (by assumption))
      | refine Evolves.trans ?_ (ih.parseDefineBody _ _ _ _ _ _ (by assumption)))

theorem evolves_succ_parseDefine (n : Nat) (ih : EvolvesAll n) :
    ∀ p ds ds1 q, ParseDefine (n + 1) p ds = some (ds1, q) → Evolves p q := by
  intro p ds ds1 q h
  rw [ParseDefine] at h
  try dsimp only at h
  repeat' split at h
  all_goals try cases h
  all_goals try split_ifs at *
  all_goals try simp only [Option.some.injEq, Prod.mk.injEq] at *
  all_goals try cases_type* And
  all_goals try subst_vars
  all_goals
    repeat (with_reducible first
      | exact Evolves.refl _
      | apply Evolves.consumeExpected
      | apply Evolves.consume
      | apply Evolves.matchStep
      | apply Evolves.error
      | apply Evolves.expect
      | apply Evolves.consumeParams
      | refine Evolves.trans ?_ (ParseDefineMixfix_evolves _ _ _ _ _ _ _ (by assumption))
      | refine Evolves.trans ?_ (ih.expression _ _ _ (by assumption))
      | refine Evolves.trans ?_ (ih.sequence _ _ _ (by assumption))
      | refine Evolves.trans ?_ (ih.sequenceLoop _ _ _ _ (by assumption))
      | refine Evolves.trans ?_ (ih.statement _ _ _ (by assumption))
      | refine Evolves.trans ?_ (ih.assignment _ _ _ (by assumption))
      | refine Evolves.trans ?_ (ih.operator _ _ _ (by assumption))
      | refine Evolves.trans ?_ (ih.operatorLoop _ _ _ _ (by assumption))
      | refine Evolves.trans ?_ (ih.message _ _ _ (by assumption))
      | refine Evolves.trans ?_ (ih.messageLoop _ _ _ _ (by assumption))
      | refine Evolves.trans ?_ (ih.primary _ _ _ (by assumption))
      | refine Evolves.trans ?_ (ih.primaryArray _ _ _ _ (by assumption))
      | refine Evolves.trans ?_ (ih.parseMessage _ _ _ _ (by assumption))
      | refine Evolves.trans ?_ (ih.parseMessageParts _ _ _ _ _ _ (by assumption))
      | refine Evolves.trans ?_ (ih.parseMessageArgs _ _ _ _ _ _ (by assumption))
      | refine Evolves.trans ?_ (ih.parseBlock _ _ _ (by assumption))
      | refine Evolves.trans ?_ (ih.parseDefines _ _ _ _ _ (by assumption))
      | refine Evolves.trans ?_ (ih.parseDefine _ _ _ _ (by assumption))
      | refine Evolves.trans ?_ (ih.parseDefineBody _ _ _ _ _ _ (by assumption)))

theorem evolves_succ_parseDefineBody (n : Nat) (ih : EvolvesAll n) :
    ∀ p ds s ps ds1 q, ParseDefineBody (n + 1) p ds s ps = some (ds1, q) → Evolves p q := by
  intro p ds s ps ds1 q h
  rw [ParseDefineBody] at h
  try dsimp only at h
  repeat' split at h
  all_goals try cases h
  all_goals try split_ifs at *
  all_goals try simp only [Option.some.injEq, Prod.mk.injEq] at *
  all_goals try cases_type* And
  all_goals try subst_vars
  all_goals
    repeat (with_reducible first
      | exact Evolves.refl _
      | apply Evolves.consumeExpected
      | apply Evolves.consume
      | apply Evolves.matchStep
      | apply Evolves.error
      | apply Evolves.expect
      | apply Evolves.consumeParams
      | refine Evolves.trans ?_ (ParseDefineMixfix_evolves _ _ _ _ _ _ _ (by assumption))
      | refine Evolves.trans ?_ (ih.expression _ _ _ (by assumption))
      | refine Evolves.trans ?_ (ih.sequence _ _ _ (by assumption))
      | refine Evolves.trans ?_ (ih.sequenceLoop _ _ _ _ (by assumption))
      | refine Evolves.trans ?_ (ih.statement _ _ _ (by assumption))
      | refine Evolves.trans ?_ (ih.assignment _ _ _ (by assumption))
      | refine Evolves.trans ?_ (ih.operator _ _ _ (by assumption))
      | refine Evolves.trans ?_ (ih.operatorLoop _ _ _ _ (by assumption))
      | refine Evolves.trans ?_ (ih.message _ _ _ (by assumption))
      | refine Evolves.trans ?_ (ih.messageLoop _ _ _ _ (by assumption))
      | refine Evolves.trans ?_ (ih.primary _ _ _ (by assumption))
      | refine Evolves.trans ?_ (ih.primaryArray _ _ _ _ (by assumption))
      | refine Evolves.trans ?_ (ih.parseMessage _ _ _ _ (by assumption))
      | refine Evolves.trans ?_ (ih.parseMessageParts _ _ _ _ _ _ (by assumption))
      | refine Evolves.trans ?_ (ih.parseMessageArgs _ _ _ _ _ _ (by assumption))
      | refine Evolves.trans ?_ (ih.parseBlock _ _ _ (by assumption))
      | refine Evolves.trans ?_ (ih.parseDefines _ _ _ _ _ (by assumption))
      | refine Evolves.trans ?_ (ih.parseDefine _ _ _ _ (by assumption))
      | refine Evolves.trans ?_ (ih.parseDefineBody _ _ _ _ _ _ (by assumption)))

theorem evolvesAll_succ (n : Nat) (ih : EvolvesAll n) : EvolvesAll (n + 1) :=
  ⟨evolves_succ_expression n ih,
    evolves_succ_sequence n ih,
    evolves_succ_sequenceLoop n ih,
    evolves_succ_statement n ih,
    evolves_succ_assignment n ih,
    evolves_succ_operator n ih,
    evolves_succ_operatorLoop n ih,
    evolves_succ_message n ih,
    evolves_succ_messageLoop n ih,
    evolves_succ_primary n ih,
    evolves_succ_primaryArray n ih,
    evolves_succ_parseMessage n ih,
    evolves_succ_parseMessageParts n ih,
    evolves_succ_parseMessageArgs n ih,
    evolves_succ_parseBlock n ih,
    evolves_succ_parseDefines n ih,
    evolves_succ_parseDefine n ih,
    evolves_succ_parseDefineBody n ih⟩

/-- The recursive functions only consume tokens and report errors. -/
theorem evolvesAll (n : Nat) : EvolvesAll n := by
  induction n with
  | zero => exact evolvesAll_zero
  | succ n ih => exact evolvesAll_succ n ih

/-! ## Inserting one token in front of the unread end of the stream -/

theorem Strict.good {suf : List Token} {p : Parser} (h : Strict suf p) : Good suf p :=
  ⟨h.clean, h.suffix⟩

theorem Good.of_evolves {suf : List Token} {p q : Parser} (hq : Good suf q)
    (h : Evolves p q) : Good suf p := by
  refine ⟨?_, hq.suffix.trans h.tokens⟩
  have := h.flag
  rw [hq.clean] at this
  cases hp : p.hadError with
  | false => rfl
  | true => exact absurd (this.mpr (Or.inl hp)) (by simp)

theorem Strict.of_later {suf : List Token} {p q : Parser} (hq : Strict suf q)
    (h : Evolves p q) : Strict suf p :=
  ⟨(hq.good.of_evolves h).clean, (hq.good.of_evolves h).suffix,
    lt_of_lt_of_le hq.more h.tokens.length_le⟩

theorem Good.not_error {suf : List Token} {p : Parser} {message : String}
    (h : Good suf (Error p message)) : False := by
  have := h.clean
  simp [Error] at this

/-- A good state, written out: its unread tokens are some `X` followed by
`suf`. -/
theorem Good.eq_mk {suf : List Token} {p : Parser} (h : Good suf p) :
    ∃ X, p = ⟨X ++ suf, false, p.errors, p.infinite⟩ := by
  obtain ⟨X, hX⟩ := h.suffix
  refine ⟨X, ?_⟩
  cases p
  simp only [Parser.mk.injEq, and_true]
  exact ⟨hX.symm, h.clean⟩

theorem Strict.eq_cons {suf : List Token} {p : Parser} (h : Strict suf p) :
    ∃ t X, p = ⟨t :: (X ++ suf), false, p.errors, p.infinite⟩ := by
  obtain ⟨X, hX⟩ := h.good.eq_mk
  cases X with
  | nil =>
    have := h.more
    rw [hX] at this
    simp at this
  | cons t X => exact ⟨t, X, hX⟩

@[simp] theorem insertBefore_mk (semi : Token) (suf X : List Token) (e : Bool)
    (es : List String) (i : Bool) :
    insertBefore semi suf ⟨X ++ suf, e, es, i⟩ = ⟨X ++ semi :: suf, e, es, i⟩ := by
  simp [insertBefore]

@[simp] theorem insertBefore_mk_cons (semi : Token) (suf X : List Token) (t : Token) (e : Bool)
    (es : List String) (i : Bool) :
    insertBefore semi suf ⟨t :: (X ++ suf), e, es, i⟩ = ⟨t :: (X ++ semi :: suf), e, es, i⟩ :=
  insertBefore_mk semi suf (t :: X) e es i

@[simp] theorem insertBefore_mk_nil (semi : Token) (suf : List Token) (e : Bool)
    (es : List String) (i : Bool) :
    insertBefore semi suf ⟨suf, e, es, i⟩ = ⟨semi :: suf, e, es, i⟩ :=
  insertBefore_mk semi suf [] e es i

theorem LookAhead_nil (e : Bool) (es : List String) (i : Bool) (type : TokenType) :
    LookAhead ⟨[], e, es, i⟩ type = decide (TOKEN_EOF = type) := rfl

theorem closerHead_lookAhead {suf : List Token} (hsuf : closerHead suf) (e : Bool)
    (es : List String) (i : Bool) {type : TokenType} (hty : type ∉ closers) :
    LookAhead ⟨suf, e, es, i⟩ type = false := by
  cases suf with
  | nil =>
    rw [LookAhead_nil]
    simp only [decide_eq_false_iff_not]
    rintro rfl
    exact hty (by decide)
  | cons t ts =>
    rw [LookAhead_cons]
    simp only [decide_eq_false_iff_not]
    rintro rfl
    exact hty hsuf

theorem LookAhead_insertBefore_strict {semi : Token} {suf : List Token} {p : Parser}
    (type : TokenType) (h : Strict suf p) :
    LookAhead (insertBefore semi suf p) type = LookAhead p type := by
  obtain ⟨t, X, hp⟩ := h.eq_cons
  rw [hp]
  simp

theorem LookAhead_insertBefore {semi : Token} {suf : List Token} {p : Parser}
    (hsemi : semi.type = TOKEN_SEMICOLON) (hsuf : closerHead suf) (type : TokenType)
    (hty : type ∉ closers) (hty2 : type ≠ TOKEN_SEMICOLON) (h : Good suf p) :
    LookAhead (insertBefore semi suf p) type = LookAhead p type := by
  obtain ⟨X, hp⟩ := h.eq_mk
  rw [hp]
  cases X with
  | nil =>
    simp only [List.nil_append, insertBefore_mk_nil, LookAhead_cons, hsemi]
    rw [closerHead_lookAhead hsuf _ _ _ hty]
    simpa using fun h => hty2 h.symm
  | cons t X => simp

theorem Consume_insertBefore {semi : Token} {suf : List Token} {p : Parser}
    (h : Strict suf p) :
    Consume (insertBefore semi suf p) = ((Consume p).1, insertBefore semi suf (Consume p).2) := by
  obtain ⟨t, X, hp⟩ := h.eq_cons
  rw [hp]
  simp

theorem Strict.of_consume {suf : List Token} {p : Parser} (h : Good suf (Consume p).2)
    (hne : p.tokens ≠ []) : Strict suf p := by
  obtain ⟨ts, e, es, i⟩ := p
  cases ts with
  | nil => exact absurd rfl hne
  | cons t ts =>
    rw [Consume_cons] at h
    exact ⟨h.clean, h.suffix.trans (List.suffix_cons t ts),
      by simpa using Nat.lt_succ_of_le h.suffix.length_le⟩

theorem LookAhead_tokens_ne {p : Parser} {type : TokenType} (h : LookAhead p type = true)
    (hty : type ≠ TOKEN_EOF) : p.tokens ≠ [] := by
  intro hnil
  obtain ⟨ts, e, es, i⟩ := p
  simp only at hnil
  subst hnil
  rw [LookAhead_nil] at h
  simp at h
  exact hty h.symm

theorem Consume_insertBefore_of_lookAhead {semi : Token} {suf : List Token} {p : Parser}
    {type : TokenType} (h : Good suf (Consume p).2) (hla : LookAhead p type = true)
    (hty : type ≠ TOKEN_EOF) :
    Consume (insertBefore semi suf p) = ((Consume p).1, insertBefore semi suf (Consume p).2) :=
  Consume_insertBefore (Strict.of_consume h (LookAhead_tokens_ne hla hty))

theorem Match_insertBefore_strict {semi : Token} {suf : List Token} {p : Parser}
    (type : TokenType) (h : Strict suf p) :
    Match (insertBefore semi suf p) type =
      ((Match p type).1, insertBefore semi suf (Match p type).2) := by
  unfold Match
  rw [LookAhead_insertBefore_strict type h, Consume_insertBefore h]
  split_ifs <;> rfl

theorem Match_insertBefore {semi : Token} {suf : List Token} {p : Parser}
    (hsemi : semi.type = TOKEN_SEMICOLON) (type : TokenType)
    (hty : type ≠ TOKEN_SEMICOLON) (hty2 : type ≠ TOKEN_EOF) (h : Good suf (Match p type).2) :
    Match (insertBefore semi suf p) type =
      ((Match p type).1, insertBefore semi suf (Match p type).2) := by
  by_cases hla : LookAhead p type = true
  · rw [LookAhead_match hla] at h
    exact Match_insertBefore_strict type (Strict.of_consume h (LookAhead_tokens_ne hla hty2))
  · rw [Bool.not_eq_true] at hla
    rw [not_LookAhead_match hla] at h ⊢
    dsimp only at h ⊢
    obtain ⟨X, hp⟩ := h.eq_mk
    cases X with
    | nil =>
      rw [not_LookAhead_match]
      rw [hp]
      simp only [List.nil_append, insertBefore_mk_nil, LookAhead_cons, hsemi]
      simpa using fun h => hty h.symm
    | cons t X =>
      have hs : Strict suf p := ⟨h.clean, h.suffix, by rw [hp]; simp; omega⟩
      rw [not_LookAhead_match]
      rw [LookAhead_insertBefore_strict type hs, hla]

theorem ConsumeExpected_insertBefore {semi : Token} {suf : List Token} {p : Parser}
    {message : String} (type : TokenType) (hty : type ≠ TOKEN_EOF)
    (h : Good suf (ConsumeExpected p type message).2) :
    ConsumeExpected (insertBefore semi suf p) type message =
      ((ConsumeExpected p type message).1,
        insertBefore semi suf (ConsumeExpected p type message).2) := by
  by_cases hla : LookAhead p type = true
  · rw [LookAhead_consumeExpected _ hla] at h ⊢
    have hs := Strict.of_consume h (LookAhead_tokens_ne hla hty)
    rw [LookAhead_consumeExpected _ (by rw [LookAhead_insertBefore_strict type hs, hla])]
    exact Consume_insertBefore hs
  · exfalso
    have hev : Evolves (Error p message) (ConsumeExpected p type message).2 := by
      simp only [ConsumeExpected, hla, if_false, Bool.false_eq_true]
      exact (Evolves.refl _).consume
    exact (h.of_evolves hev).not_error

theorem LookAhead2_insertBefore {semi : Token} {suf : List Token} {p : Parser}
    (hsemi : semi.type = TOKEN_SEMICOLON) (hsuf : closerHead suf) (a b : TokenType)
    (ha : a ∉ closers) (ha2 : a ≠ TOKEN_SEMICOLON)
    (hb : b ∉ closers) (hb2 : b ≠ TOKEN_SEMICOLON) (h : Good suf p) :
    LookAhead2 (insertBefore semi suf p) a b = LookAhead2 p a b := by
  obtain ⟨X, hp⟩ := h.eq_mk
  rw [hp]
  have hfst : ∀ (ts : List Token) (e : Bool) (es : List String) (i : Bool),
      LookAhead2 ⟨ts, e, es, i⟩ a b =
        (LookAhead ⟨ts, e, es, i⟩ a && LookAhead ⟨ts.tail, e, es, i⟩ b) := by
    intro ts e es i
    cases ts with
    | nil => rfl
    | cons t ts =>
      cases ts with
      | nil => rfl
      | cons u us => rfl
  rw [insertBefore_mk, hfst, hfst]
  cases X with
  | nil =>
    simp only [List.nil_append, LookAhead_cons, hsemi, List.tail_cons]
    rw [closerHead_lookAhead hsuf _ _ _ ha]
    simpa using fun h => (ha2 h.symm).elim
  | cons t X =>
    cases X with
    | nil =>
      simp only [List.cons_append, List.nil_append, LookAhead_cons, List.tail_cons, hsemi]
      rw [closerHead_lookAhead hsuf _ _ _ hb]
      have : decide (TOKEN_SEMICOLON = b) = false := by simpa using fun h => hb2 h.symm
      simp [this]
    | cons u X => simp


theorem keywordStart {p : Parser}
    (h : (LookAhead2 p TOKEN_NAME TOKEN_LEFT_PAREN ||
      LookAhead2 p TOKEN_NAME TOKEN_LEFT_BRACE) = true) : LookAhead p TOKEN_NAME = true := by
  simp only [LookAhead2, Bool.or_eq_true, Bool.and_eq_true] at h
  rcases h with h | h <;> exact h.1

theorem LookAhead2_fst {p : Parser} {a b : TokenType} (h : LookAhead2 p a b = true) :
    LookAhead p a = true := by
  simp only [LookAhead2, Bool.and_eq_true] at h
  exact h.1

theorem LookAhead2_snd {p : Parser} {a b : TokenType} (h : LookAhead2 p a b = true)
    (ha : a ≠ TOKEN_EOF) : LookAhead (Consume p).2 b = true := by
  obtain ⟨ts, e, es, i⟩ := p
  cases ts with
  | nil =>
    simp only [LookAhead2, Bool.and_eq_true, decide_eq_true_eq] at h
    exact absurd h.1.symm ha
  | cons t ts =>
    simp only [LookAhead2, Bool.and_eq_true] at h
    exact h.2

theorem Good.match_of_not {suf : List Token} {p : Parser} {type : TokenType}
    (hno : ¬(Match p type).1 = true) (h : Good suf p) : Good suf (Match p type).2 := by
  unfold Match at hno ⊢
  split_ifs at hno ⊢ with hla
  · simp at hno
  · exact h

theorem Strict.of_consumeExpected {suf : List Token} {p : Parser} {type : TokenType}
    {message : String} (h : Good suf (ConsumeExpected p type message).2)
    (hty : type ≠ TOKEN_EOF) : Strict suf p := by
  by_cases hla : LookAhead p type = true
  · rw [LookAhead_consumeExpected _ hla] at h
    exact Strict.of_consume h (LookAhead_tokens_ne hla hty)
  · exfalso
    have hev : Evolves (Error p message) (ConsumeExpected p type message).2 := by
      simp only [ConsumeExpected, hla, if_false, Bool.false_eq_true]
      exact (Evolves.refl _).consume
    exact (h.of_evolves hev).not_error


theorem Evolves.hadError {p q : Parser} (h : Evolves p q) (hp : p.hadError = true) :
    q.hadError = true :=
  h.flag.mpr (Or.inl hp)

theorem LookAhead_eq_true {p : Parser} {type : TokenType} :
    LookAhead p type = true ↔ peekType p 0 = type := by
  simp [LookAhead]

/-- At the end of the stream no expression starts: `Primary` reports an
error. -/
theorem Primary_eof {n : Nat} {p q : Parser} {e : Expr} (heof : LookAhead p TOKEN_EOF = true)
    (h : Primary n p = some (e, q)) : q.hadError = true := by
  have hk : ∀ type, type ≠ TOKEN_EOF → LookAhead p type = false := fun type hty =>
    LookAhead_ne heof (Ne.symm hty)
  cases n with
  | zero => simp [Primary] at h
  | succ n =>
    rw [Primary] at h
    simp only [hk TOKEN_NAME (by decide), hk TOKEN_NUMBER (by decide),
      hk TOKEN_STRING (by decide), not_LookAhead_match (hk TOKEN_SELF (by decide)),
      not_LookAhead_match (hk TOKEN_LEFT_PAREN (by decide)),
      not_LookAhead_match (hk TOKEN_OBJ (by decide)),
      not_LookAhead_match (hk TOKEN_LEFT_BRACKET (by decide)),
      not_LookAhead_match (hk TOKEN_LEFT_BRACE (by decide)),
      Bool.false_eq_true, if_false, Option.some.injEq, Prod.mk.injEq] at h
    rw [← h.2]
    rfl

/-- At the end of the stream no expression starts: `Assignment` ends with the
error flag raised. -/
theorem Assignment_eof {n : Nat} {p q : Parser} {e : Expr}
    (heof : LookAhead p TOKEN_EOF = true) (h : Assignment n p = some (e, q)) :
    q.hadError = true := by
  have h2 : ∀ a b, a ≠ TOKEN_EOF → LookAhead2 p a b = false := by
    intro a b ha
    have := LookAhead_ne heof (Ne.symm ha)
    simp only [LookAhead2, LookAhead] at this ⊢
    simp [this]
  cases n with
  | zero => simp [Assignment] at h
  | succ n =>
    rw [Assignment, h2 _ _ (by decide)] at h
    simp only [Bool.false_eq_true, if_false] at h
    cases n with
    | zero => simp [Operator] at h
    | succ n =>
      rw [Operator] at h
      split at h
      · cases h
      · rename_i object p1 hm
        have hp1 : p1.hadError = true := by
          cases n with
          | zero => simp [Message] at hm
          | succ n =>
            rw [Message, h2 _ _ (by decide), h2 _ _ (by decide)] at hm
            simp only [Bool.or_self, Bool.false_eq_true, if_false] at hm
            split at hm
            · cases hm
            · rename_i o2 p2 hprim
              exact ((evolvesAll n).messageLoop _ _ _ _ hm).hadError (Primary_eof heof hprim)
        exact ((evolvesAll n).operatorLoop _ _ _ _ h).hadError hp1

theorem returnStops_insertBefore_true {semi : Token} {suf : List Token} {p : Parser}
    (hsemi : semi.type = TOKEN_SEMICOLON) (h : Good suf p)
    (hstop : (LookAhead p TOKEN_SEMICOLON || LookAhead p TOKEN_RIGHT_PAREN ||
      LookAhead p TOKEN_RIGHT_BRACE || LookAhead p TOKEN_RIGHT_BRACKET) = true) :
    (LookAhead (insertBefore semi suf p) TOKEN_SEMICOLON ||
      LookAhead (insertBefore semi suf p) TOKEN_RIGHT_PAREN ||
      LookAhead (insertBefore semi suf p) TOKEN_RIGHT_BRACE ||
      LookAhead (insertBefore semi suf p) TOKEN_RIGHT_BRACKET) = true := by
  obtain ⟨X, hp⟩ := h.eq_mk
  cases X with
  | nil =>
    rw [hp]
    simp [hsemi]
  | cons t X =>
    have hs : Strict suf p := ⟨h.clean, h.suffix, by rw [hp]; simp; omega⟩
    simp only [LookAhead_insertBefore_strict _ hs]
    exact hstop

theorem returnStops_insertBefore_false {semi : Token} {suf : List Token} {p q : Parser}
    {n : Nat} {e : Expr} (hsuf : closerHead suf)
    (ha : Assignment n p = some (e, q)) (hq : Good suf q)
    (hstop : ¬(LookAhead p TOKEN_SEMICOLON || LookAhead p TOKEN_RIGHT_PAREN ||
      LookAhead p TOKEN_RIGHT_BRACE || LookAhead p TOKEN_RIGHT_BRACKET) = true) :
    (LookAhead (insertBefore semi suf p) TOKEN_SEMICOLON ||
      LookAhead (insertBefore semi suf p) TOKEN_RIGHT_PAREN ||
      LookAhead (insertBefore semi suf p) TOKEN_RIGHT_BRACE ||
      LookAhead (insertBefore semi suf p) TOKEN_RIGHT_BRACKET) = false := by
  have h : Good suf p := hq.of_evolves ((evolvesAll n).assignment _ _ _ ha)
  obtain ⟨X, hp⟩ := h.eq_mk
  cases X with
  | nil =>
    exfalso
    have heof : LookAhead p TOKEN_EOF = true := by
      rw [hp] at hstop ⊢
      simp only [List.nil_append, LookAhead, Bool.or_eq_true, decide_eq_true_eq, not_or] at hstop ⊢
      have hc : peekType ⟨suf, false, p.errors, p.infinite⟩ 0 ∈ closers := hsuf
      simp only [closers, List.mem_cons, List.mem_singleton, List.not_mem_nil, or_false] at hc
      rcases hc with hc | hc | hc | hc
      · exact absurd hc hstop.1.1.2
      · exact absurd hc hstop.2
      · exact absurd hc hstop.1.2
      · simpa using hc
    have := Assignment_eof heof ha
    rw [hq.clean] at this
    cases this
  | cons t X =>
    have hs : Strict suf p := ⟨h.clean, h.suffix, by rw [hp]; simp; omega⟩
    simp only [LookAhead_insertBefore_strict _ hs]
    simpa using hstop

/-! ## Inserting a `;` in front of a closer

The parse of a stream that ends, without error, in front of the unread tokens
`suf` is reproduced when one `TOKEN_SEMICOLON` is inserted in front of `suf`. -/

theorem countNames_append (X Y : List Token) (h : countNames Y = 0) :
    countNames (X ++ Y) = countNames X := by
  induction X with
  | nil => simpa [countNames] using h
  | cons t X ih =>
    rw [List.cons_append]
    simp only [countNames]
    rw [ih]

theorem countNames_le (X : List Token) : countNames X ≤ X.length := by
  induction X with
  | nil => simp [countNames]
  | cons t X ih =>
    simp only [countNames, List.length_cons]
    split_ifs <;> omega

theorem countNames_closerHead {suf : List Token} (hsuf : closerHead suf) :
    countNames suf = 0 := by
  cases suf with
  | nil => rfl
  | cons t ts =>
    have : t.type ≠ TOKEN_NAME := by
      intro h
      simp [closerHead, peekType, closers, h] at hsuf
    simp [countNames, this]

theorem peekType_append_lt (X Y Z : List Token) (e e2 : Bool) (es es2 : List String)
    (i i2 : Bool) (k : Nat) (hk : k < X.length) :
    peekType ⟨X ++ Y, e, es, i⟩ k = peekType ⟨X ++ Z, e2, es2, i2⟩ k := by
  simp only [peekType, List.get?_eq_getElem?, List.getElem?_append_left hk]

theorem peekType_append_length (X Y : List Token) (e : Bool) (es : List String) (i : Bool) :
    peekType ⟨X ++ Y, e, es, i⟩ X.length = peekType ⟨Y, e, es, i⟩ 0 := by
  simp [peekType, List.getElem?_append_right]

theorem countNames_insertBefore {semi : Token} {suf : List Token} {p : Parser}
    (hsemi : semi.type = TOKEN_SEMICOLON) (hsuf : closerHead suf) (h : Good suf p) :
    countNames (insertBefore semi suf p).tokens = countNames p.tokens := by
  obtain ⟨X, hp⟩ := h.eq_mk
  rw [hp, insertBefore_mk]
  simp only
  rw [countNames_append _ _ (countNames_closerHead hsuf), countNames_append]
  simp [countNames, hsemi]

theorem LookAheadAt_insertBefore {semi : Token} {suf : List Token} {p : Parser}
    (hsemi : semi.type = TOKEN_SEMICOLON) (hsuf : closerHead suf) (h : Good suf p) :
    LookAheadAt (insertBefore semi suf p) (countNames p.tokens) TOKEN_ARROW =
      LookAheadAt p (countNames p.tokens) TOKEN_ARROW := by
  obtain ⟨X, hp⟩ := h.eq_mk
  rw [hp, insertBefore_mk]
  simp only
  rw [countNames_append _ _ (countNames_closerHead hsuf)]
  rcases Nat.lt_or_ge (countNames X) X.length with hlt | hge
  · simp only [LookAheadAt]
    rw [peekType_append_lt X (semi :: suf) suf _ false _ p.errors _ p.infinite _ hlt]
  · have heq : countNames X = X.length := le_antisymm (countNames_le X) hge
    have h1 := closerHead_lookAhead hsuf false p.errors p.infinite
      (show TOKEN_ARROW ∉ closers by decide)
    simp only [LookAheadAt, heq, peekType_append_length]
    simp only [LookAhead] at h1
    rw [h1]
    simp [peekType, hsemi]

theorem consumeParams_insertBefore {semi : Token} {suf : List Token} :
    ∀ (k : Nat) (p : Parser) (ps : List String), Strict suf (consumeParams k p ps).2 →
      consumeParams k (insertBefore semi suf p) ps =
        ((consumeParams k p ps).1, insertBefore semi suf (consumeParams k p ps).2) := by
  intro k
  induction k with
  | zero => intro p ps _; rfl
  | succ k ih =>
    intro p ps h
    simp only [consumeParams] at h ⊢
    have h1 : Strict suf (Consume p).2 := h.of_later ((Evolves.refl _).consumeParams _ _)
    have h2 : Strict suf p := h1.of_later ((Evolves.refl _).consume)
    rw [Consume_insertBefore h2]
    exact ih _ _ h

theorem Strict.of_consume_strict {suf : List Token} {p : Parser}
    (h : Strict suf (Consume p).2) : Strict suf p :=
  h.of_later ((Evolves.refl _).consume)

theorem ParseDefineParams_insertBefore {semi : Token} {suf : List Token}
    (hsemi : semi.type = TOKEN_SEMICOLON) (n : Nat) :
    ∀ p s ps s1 ps1 q, ParseDefineParams n p s ps = some (s1, ps1, q) → Good suf q →
      ParseDefineParams n (insertBefore semi suf p) s ps =
        some (s1, ps1, insertBefore semi suf q) := by
  induction n with
  | zero => intro p s ps s1 ps1 q h; simp [ParseDefineParams] at h
  | succ n ih =>
    intro p s ps s1 ps1 q h hq
    rw [ParseDefineParams] at h ⊢
    try dsimp only at h ⊢
    split at h
    · rename_i hm
      have e1 := ParseDefineParams_evolves _ _ _ _ _ _ _ h
      have g1 : Good suf (Match (ConsumeExpected p TOKEN_NAME
          "Expect parameter name after '('.").2 TOKEN_COMMA).2 := hq.of_evolves e1
      have g2 := g1.of_evolves ((Evolves.refl _).matchStep _)
      rw [ConsumeExpected_insertBefore TOKEN_NAME (by decide) g2]
      simp only
      rw [Match_insertBefore hsemi TOKEN_COMMA (by decide) (by decide) g1]
      simp only [hm, if_true]
      exact ih _ _ _ _ _ _ h hq
    · rename_i hm
      simp only [Option.some.injEq, Prod.mk.injEq] at h
      obtain ⟨rfl, rfl, rfl⟩ := h
      rw [ConsumeExpected_insertBefore TOKEN_NAME (by decide) hq]
      simp only
      rw [Match_insertBefore hsemi TOKEN_COMMA (by decide) (by decide) (Good.match_of_not hm hq)]
      simp only [hm, if_false, Bool.false_eq_true]

theorem ParseDefineMixfix_insertBefore {semi : Token} {suf : List Token}
    (hsemi : semi.type = TOKEN_SEMICOLON) (hsuf : closerHead suf) (n : Nat) :
    ∀ p s ps s1 ps1 q, ParseDefineMixfix n p s ps = some (s1, ps1, q) → Good suf q →
      ParseDefineMixfix n (insertBefore semi suf p) s ps =
        some (s1, ps1, insertBefore semi suf q) := by
  induction n with
  | zero => intro p s ps s1 ps1 q h; simp [ParseDefineMixfix] at h
  | succ n ih =>
    intro p s ps s1 ps1 q h hq
    rw [ParseDefineMixfix] at h ⊢
    try dsimp only at h ⊢
    split at h
    · rename_i hla
      split at h
      · cases h
      rename_i name1 params1 p2 heq
      have e3 := ParseDefineMixfix_evolves _ _ _ _ _ _ _ h
      have g3 := hq.of_evolves e3
      have e2 := ParseDefineParams_evolves _ _ _ _ _ _ _ heq
      have g2 := (g3.of_evolves ((Evolves.refl _).consumeExpected _ _)).of_evolves e2
      have g1 := g2.of_evolves ((Evolves.refl _).consumeExpected _ _)
      have s0 : Strict suf p := Strict.of_consume g1 (LookAhead_tokens_ne hla (by decide))
      rw [LookAhead_insertBefore_strict _ s0, Consume_insertBefore s0]
      simp only [hla, if_true]
      rw [ConsumeExpected_insertBefore TOKEN_LEFT_PAREN (by decide) g2]
      simp only
      rw [ParseDefineParams_insertBefore hsemi n _ _ _ _ _ _ heq
        (g3.of_evolves ((Evolves.refl _).consumeExpected _ _))]
      simp only
      rw [ConsumeExpected_insertBefore TOKEN_RIGHT_PAREN (by decide) g3]
      exact ih _ _ _ _ _ _ h hq
    · rename_i hla
      simp only [Option.some.injEq, Prod.mk.injEq] at h
      obtain ⟨rfl, rfl, rfl⟩ := h
      rw [LookAhead_insertBefore hsemi hsuf TOKEN_NAME (by decide) (by decide) hq]
      simp only [hla, if_false, Bool.false_eq_true]

set_option maxHeartbeats 4000000 in
theorem insert_succ_expression (semi : Token) (suf : List Token) (n : Nat)
    (hsemi : semi.type = TOKEN_SEMICOLON) (hsuf : closerHead suf)
    (ih : InsertAll semi suf n) :
    ∀ p e q, Expression (n + 1) p = some (e, q) → Strict suf q →
      Expression (n + 1) (insertBefore semi suf p)  =
        some (e, insertBefore semi suf q) := by
  intro p e q h hq
  have ev := evolvesAll n
  rw [Expression] at h
  try dsimp only at h
  repeat' split at h
  all_goals try (with_reducible cases h)
  all_goals try split_ifs at *
  all_goals try simp only [Option.some.injEq, Prod.mk.injEq] at *
  all_goals try cases_type* And
  all_goals try subst_vars
  all_goals try (with_reducible exact (Good.not_error hq).elim)
  all_goals try have := ev.expression _ _ _ (by with_reducible assumption)
  all_goals try have := ev.sequence _ _ _ (by with_reducible assumption)
  all_goals try have := ev.sequenceLoop _ _ _ _ (by with_reducible assumption)
  all_goals try have := ev.statement _ _ _ (by with_reducible assumption)
  all_goals try have := ev.assignment _ _ _ (by with_reducible assumption)
  all_goals try have := ev.operator _ _ _ (by with_reducible assumption)
  all_goals try have := ev.operatorLoop _ _ _ _ (by with_reducible assumption)
  all_goals try have := ev.message _ _ _ (by with_reducible assumption)
  all_goals try have := ev.messageLoop _ _ _ _ (by with_reducible assumption)
  all_goals try have := ev.primary _ _ _ (by with_reducible assumption)
  all_goals try have := ev.primaryArray _ _ _ _ (by with_reducible assumption)
  all_goals try have := ev.parseMessage _ _ _ _ (by with_reducible assumption)
  all_goals try have := ev.parseMessageParts _ _ _ _ _ _ (by with_reducible assumption)
  all_goals try have := ev.parseMessageArgs _ _ _ _ _ _ (by with_reducible assumption)
  all_goals try have := ev.parseBlock _ _ _ (by with_reducible assumption)
  all_goals try have := ev.parseDefines _ _ _ _ _ (by with_reducible assumption)
  all_goals try have := ev.parseDefine _ _ _ _ (by with_reducible assumption)
  all_goals try have := ev.parseDefineBody _ _ _ _ _ _ (by with_reducible assumption)
  all_goals try have := ParseDefineMixfix_evolves _ _ _ _ _ _ _ (by with_reducible assumption)
  all_goals rw [Expression]
  all_goals
    simp (disch := first
      | with_reducible (exfalso; assumption)
      | with_reducible assumption
      | with_reducible (apply keywordStart; assumption)
      | with_reducible (apply Strict.of_consumeExpected; assumption; decide)
      | with_reducible (apply Strict.of_later; apply Strict.of_consumeExpected; assumption; decide; (repeat (with_reducible first | exact Evolves.refl _ | apply Evolves.consumeExpected | apply Evolves.consume | apply Evolves.matchStep | apply Evolves.consumeParams | refine Evolves.trans ?_ (by assumption))); all_goals fail)
      | with_reducible (apply Good.of_evolves; apply Strict.good; assumption; (repeat (with_reducible first | exact Evolves.refl _ | apply Evolves.consumeExpected | apply Evolves.consume | apply Evolves.matchStep | apply Evolves.consumeParams | refine Evolves.trans ?_ (by assumption))); all_goals fail)
      | with_reducible (apply Strict.of_later; assumption; (repeat (with_reducible first | exact Evolves.refl _ | apply Evolves.consumeExpected | apply Evolves.consume | apply Evolves.matchStep | apply Evolves.consumeParams | refine Evolves.trans ?_ (by assumption))); all_goals fail)
      | with_reducible (apply Good.match_of_not; assumption; apply Good.of_evolves; apply Strict.good; assumption; (repeat (with_reducible first | exact Evolves.refl _ | apply Evolves.consumeExpected | apply Evolves.consume | apply Evolves.matchStep | apply Evolves.consumeParams | refine Evolves.trans ?_ (by assumption))); all_goals fail)
      | with_reducible (apply Strict.of_consume; (on_goal 2 => (apply LookAhead_tokens_ne; assumption; decide)); apply Good.of_evolves; apply Strict.good; assumption; (repeat (with_reducible first | exact Evolves.refl _ | apply Evolves.consumeExpected | apply Evolves.consume | apply Evolves.matchStep | apply Evolves.consumeParams | refine Evolves.trans ?_ (by assumption))); all_goals fail)
      | with_reducible (apply Strict.of_consume; (on_goal 2 => (apply LookAhead_tokens_ne; apply LookAhead2_fst; assumption; decide)); apply Good.of_evolves; apply Strict.good; assumption; (repeat (with_reducible first | exact Evolves.refl _ | apply Evolves.consumeExpected | apply Evolves.consume | apply Evolves.matchStep | apply Evolves.consumeParams | refine Evolves.trans ?_ (by assumption))); all_goals fail)
      | with_reducible (apply Strict.of_consume; (on_goal 2 => (apply LookAhead_tokens_ne; apply LookAhead2_snd; assumption; decide; decide)); apply Good.of_evolves; apply Strict.good; assumption; (repeat (with_reducible first | exact Evolves.refl _ | apply Evolves.consumeExpected | apply Evolves.consume | apply Evolves.matchStep | apply Evolves.consumeParams | refine Evolves.trans ?_ (by assumption))); all_goals fail)
      | with_reducible rfl
      | fail)
      only [LookAhead_insertBefore_strict, Match_insertBefore_strict, ih.expression, ih.sequence, ih.sequenceLoop, ih.statement, ih.assignment, ih.operator, ih.operatorLoop, ih.message, ih.messageLoop, ih.primary, ih.primaryArray, ih.parseMessage, ih.parseMessageParts, ih.parseMessageArgs, ih.parseBlock, ih.parseDefines, ih.parseDefine, ih.parseDefineBody, *, if_true, if_false, Bool.false_eq_true, Bool.true_eq_false, not_true_eq_false, not_false_eq_true]

set_option maxHeartbeats 4000000 in
theorem insert_succ_sequence (semi : Token) (suf : List Token) (n : Nat)
    (hsemi : semi.type = TOKEN_SEMICOLON) (hsuf : closerHead suf)
    (ih : InsertAll semi suf n) :
    ∀ p e q, Sequence (n + 1) p = some (e, q) → Strict suf q →
      Sequence (n + 1) (insertBefore semi suf p)  =
        some (e, insertBefore semi suf q) := by
  intro p e q h hq
  have ev := evolvesAll n
  rw [Sequence] at h
  try dsimp only at h
  repeat' split at h
  all_goals try (with_reducible cases h)
  all_goals try split_ifs at *
  all_goals try simp only [Option.some.injEq, Prod.mk.injEq] at *
  all_goals try cases_type* And
  all_goals try subst_vars
  all_goals try (with_reducible exact (Good.not_error hq).elim)
  all_goals try have := ev.expression _ _ _ (by with_reducible assumption)
  all_goals try have := ev.sequence _ _ _ (by with_reducible assumption)
  all_goals try have := ev.sequenceLoop _ _ _ _ (by with_reducible assumption)
  all_goals try have := ev.statement _ _ _ (by with_reducible assumption)
  all_goals try have := ev.assignment _ _ _ (by with_reducible assumption)
  all_goals try have := ev.operator _ _ _ (by with_reducible assumption)
  all_goals try have := ev.operatorLoop _ _ _ _ (by with_reducible assumption)
  all_goals try have := ev.message _ _ _ (by with_reducible assumption)
  all_goals try have := ev.messageLoop _ _ _ _ (by with_reducible assumption)
  all_goals try have := ev.primary _ _ _ (by with_reducible assumption)
  all_goals try have := ev.primaryArray _ _ _ _ (by with_reducible assumption)
  all_goals try have := ev.parseMessage _ _ _ _ (by with_reducible assumption)
  all_goals try have := ev.parseMessageParts _ _ _ _ _ _ (by with_reducible assumption)
  all_goals try have := ev.parseMessageArgs _ _ _ _ _ _ (by with_reducible assumption)
  all_goals try have := ev.parseBlock _ _ _ (by with_reducible assumption)
  all_goals try have := ev.parseDefines _ _ _ _ _ (by with_reducible assumption)
  all_goals try have := ev.parseDefine _ _ _ _ (by with_reducible assumption)
  all_goals try have := ev.parseDefineBody _ _ _ _ _ _ (by with_reducible assumption)
  all_goals try have := ParseDefineMixfix_evolves _ _ _ _ _ _ _ (by with_reducible assumption)
  all_goals rw [Sequence]
  all_goals
    simp (disch := first
      | with_reducible (exfalso; assumption)
      | with_reducible assumption
      | with_reducible (apply keywordStart; assumption)
      | with_reducible (apply Strict.of_consumeExpected; assumption; decide)
      | with_reducible (apply Strict.of_later; apply Strict.of_consumeExpected; assumption; decide; (repeat (with_reducible first | exact Evolves.refl _ | apply Evolves.consumeExpected | apply Evolves.consume | apply Evolves.matchStep | apply Evolves.consumeParams | refine Evolves.trans ?_ (by assumption))); all_goals fail)
      | with_reducible (apply Good.of_evolves; apply Strict.good; assumption; (repeat (with_reducible first | exact Evolves.refl _ | apply Evolves.consumeExpected | apply Evolves.consume | apply Evolves.matchStep | apply Evolves.consumeParams | refine Evolves.trans ?_ (by assumption))); all_goals fail)
      | with_reducible (apply Strict.of_later; assumption; (repeat (with_reducible first | exact Evolves.refl _ | apply Evolves.consumeExpected | apply Evolves.consume | apply Evolves.matchStep | apply Evolves.consumeParams | refine Evolves.trans ?_ (by assumption))); all_goals fail)
      | with_reducible (apply Good.match_of_not; assumption; apply Good.of_evolves; apply Strict.good; assumption; (repeat (with_reducible first | exact Evolves.refl _ | apply Evolves.consumeExpected | apply Evolves.consume | apply Evolves.matchStep | apply Evolves.consumeParams | refine Evolves.trans ?_ (by assumption))); all_goals fail)
      | with_reducible (apply Strict.of_consume; (on_goal 2 => (apply LookAhead_tokens_ne; assumption; decide)); apply Good.of_evolves; apply Strict.good; assumption; (repeat (with_reducible first | exact Evolves.refl _ | apply Evolves.consumeExpected | apply Evolves.consume | apply Evolves.matchStep | apply Evolves.consumeParams | refine Evolves.trans ?_ (by assumption))); all_goals fail)
      | with_reducible (apply Strict.of_consume; (on_goal 2 => (apply LookAhead_tokens_ne; apply LookAhead2_fst; assumption; decide)); apply Good.of_evolves; apply Strict.good; assumption; (repeat (with_reducible first | exact Evolves.refl _ | apply Evolves.consumeExpected | apply Evolves.consume | apply Evolves.matchStep | apply Evolves.consumeParams | refine Evolves.trans ?_ (by assumption))); all_goals fail)
      | with_reducible (apply Strict.of_consume; (on_goal 2 => (apply LookAhead_tokens_ne; apply LookAhead2_snd; assumption; decide; decide)); apply Good.of_evolves; apply Strict.good; assumption; (repeat (with_reducible first | exact Evolves.refl _ | apply Evolves.consumeExpected | apply Evolves.consume | apply Evolves.matchStep | apply Evolves.consumeParams | refine Evolves.trans ?_ (by assumption))); all_goals fail)
      | with_reducible rfl
      | fail)
      only [LookAhead_insertBefore_strict, Match_insertBefore_strict, ih.expression, ih.sequence, ih.sequenceLoop, ih.statement, ih.assignment, ih.operator, ih.operatorLoop, ih.message, ih.messageLoop, ih.primary, ih.primaryArray, ih.parseMessage, ih.parseMessageParts, ih.parseMessageArgs, ih.parseBlock, ih.parseDefines, ih.parseDefine, ih.parseDefineBody, *, if_true, if_false, Bool.false_eq_true, Bool.true_eq_false, not_true_eq_false, not_false_eq_true]

set_option maxHeartbeats 4000000 in
theorem insert_succ_sequenceLoop (semi : Token) (suf : List Token) (n : Nat)
    (hsemi : semi.type = TOKEN_SEMICOLON) (hsuf : closerHead suf)
    (ih : InsertAll semi suf n) :
    ∀ p es e q, SequenceLoop (n + 1) p es = some (e, q) → Strict suf q →
      SequenceLoop (n + 1) (insertBefore semi suf p) es =
        some (e, insertBefore semi suf q) := by
  intro p es e q h hq
  have ev := evolvesAll n
  rw [SequenceLoop] at h
  try dsimp only at h
  repeat' split at h
  all_goals try (with_reducible cases h)
  all_goals try split_ifs at *
  all_goals try simp only [Option.some.injEq, Prod.mk.injEq] at *
  all_goals try cases_type* And
  all_goals try subst_vars
  all_goals try (with_reducible exact (Good.not_error hq).elim)
  all_goals try have := ev.expression _ _ _ (by with_reducible assumption)
  all_goals try have := ev.sequence _ _ _ (by with_reducible assumption)
  all_goals try have := ev.sequenceLoop _ _ _ _ (by with_reducible assumption)
  all_goals try have := ev.statement _ _ _ (by with_reducible assumption)
  all_goals try have := ev.assignment _ _ _ (by with_reducible assumption)
  all_goals try have := ev.operator _ _ _ (by with_reducible assumption)
  all_goals try have := ev.operatorLoop _ _ _ _ (by with_reducible assumption)
  all_goals try have := ev.message _ _ _ (by with_reducible assumption)
  all_goals try have := ev.messageLoop _ _ _ _ (by with_reducible assumption)
  all_goals try have := ev.primary _ _ _ (by with_reducible assumption)
  all_goals try have := ev.primaryArray _ _ _ _ (by with_reducible assumption)
  all_goals try have := ev.parseMessage _ _ _ _ (by with_reducible assumption)
  all_goals try have := ev.parseMessageParts _ _ _ _ _ _ (by with_reducible assumption)
  all_goals try have := ev.parseMessageArgs _ _ _ _ _ _ (by with_reducible assumption)
  all_goals try have := ev.parseBlock _ _ _ (by with_reducible assumption)
  all_goals try have := ev.parseDefines _ _ _ _ _ (by with_reducible assumption)
  all_goals try have := ev.parseDefine _ _ _ _ (by with_reducible assumption)
  all_goals try have := ev.parseDefineBody _ _ _ _ _ _ (by with_reducible assumption)
  all_goals try have := ParseDefineMixfix_evolves _ _ _ _ _ _ _ (by with_reducible assumption)
  all_goals rw [SequenceLoop]
  all_goals
    simp (disch := first
      | with_reducible (exfalso; assumption)
      | with_reducible assumption
      | with_reducible (apply keywordStart; assumption)
      | with_reducible (apply Strict.of_consumeExpected; assumption; decide)
      | with_reducible (apply Strict.of_later; apply Strict.of_consumeExpected; assumption; decide; (repeat (with_reducible first | exact Evolves.refl _ | apply Evolves.consumeExpected | apply Evolves.consume | apply Evolves.matchStep | apply Evolves.consumeParams | refine Evolves.trans ?_ (by assumption))); all_goals fail)
      | with_reducible (apply Good.of_evolves; apply Strict.good; assumption; (repeat (with_reducible first | exact Evolves.refl _ | apply Evolves.consumeExpected | apply Evolves.consume | apply Evolves.matchStep | apply Evolves.consumeParams | refine Evolves.trans ?_ (by assumption))); all_goals fail)
      | with_reducible (apply Strict.of_later; assumption; (repeat (with_reducible first | exact Evolves.refl _ | apply Evolves.consumeExpected | apply Evolves.consume | apply Evolves.matchStep | apply Evolves.consumeParams | refine Evolves.trans ?_ (by assumption))); all_goals fail)
      | with_reducible (apply Good.match_of_not; assumption; apply Good.of_evolves; apply Strict.good; assumption; (repeat (with_reducible first | exact Evolves.refl _ | apply Evolves.consumeExpected | apply Evolves.consume | apply Evolves.matchStep | apply Evolves.consumeParams | refine Evolves.trans ?_ (by assumption))); all_goals fail)
      | with_reducible (apply Strict.of_consume; (on_goal 2 => (apply LookAhead_tokens_ne; assumption; decide)); apply Good.of_evolves; apply Strict.good; assumption; (repeat (with_reducible first | exact Evolves.refl _ | apply Evolves.consumeExpected | apply Evolves.consume | apply Evolves.matchStep | apply Evolves.consumeParams | refine Evolves.trans ?_ (by assumption))); all_goals fail)
      | with_reducible (apply Strict.of_consume; (on_goal 2 => (apply LookAhead_tokens_ne; apply LookAhead2_fst; assumption; decide)); apply Good.of_evolves; apply Strict.good; assumption; (repeat (with_reducible first | exact Evolves.refl _ | apply Evolves.consumeExpected | apply Evolves.consume | apply Evolves.matchStep | apply Evolves.consumeParams | refine Evolves.trans ?_ (by assumption))); all_goals fail)
      | with_reducible (apply Strict.of_consume; (on_goal 2 => (apply LookAhead_tokens_ne; apply LookAhead2_snd; assumption; decide; decide)); apply Good.of_evolves; apply Strict.good; assumption; (repeat (with_reducible first | exact Evolves.refl _ | apply Evolves.consumeExpected | apply Evolves.consume | apply Evolves.matchStep | apply Evolves.consumeParams | refine Evolves.trans ?_ (by assumption))); all_goals fail)
      | with_reducible rfl
      | fail)
      only [LookAhead_insertBefore_strict, Match_insertBefore_strict, ih.expression, ih.sequence, ih.sequenceLoop, ih.statement, ih.assignment, ih.operator, ih.operatorLoop, ih.message, ih.messageLoop, ih.primary, ih.primaryArray, ih.parseMessage, ih.parseMessageParts, ih.parseMessageArgs, ih.parseBlock, ih.parseDefines, ih.parseDefine, ih.parseDefineBody, *, if_true, if_false, Bool.false_eq_true, Bool.true_eq_false, not_true_eq_false, not_false_eq_true]

set_option maxHeartbeats 4000000 in
theorem insert_succ_statement (semi : Token) (suf : List Token) (n : Nat)
    (hsemi : semi.type = TOKEN_SEMICOLON) (hsuf : closerHead suf)
    (ih : InsertAll semi suf n) :
    ∀ p e q, Statement (n + 1) p = some (e, q) → Good suf q →
      Statement (n + 1) (insertBefore semi suf p)  =
        some (e, insertBefore semi suf q) := by
  intro p e q h hq
  have ev := evolvesAll n
  rw [Statement] at h
  try dsimp only at h
  repeat' split at h
  all_goals try (with_reducible cases h)
  all_goals try split_ifs at *
  all_goals try simp only [Option.some.injEq, Prod.mk.injEq] at *
  all_goals try cases_type* And
  all_goals try subst_vars
  all_goals try (with_reducible exact (Good.not_error hq).elim)
  all_goals try have := ev.expression _ _ _ (by with_reducible assumption)
  all_goals try have := ev.sequence _ _ _ (by with_reducible assumption)
  all_goals try have := ev.sequenceLoop _ _ _ _ (by with_reducible assumption)
  all_goals try have := ev.statement _ _ _ (by with_reducible assumption)
  all_goals try have := ev.assignment _ _ _ (by with_reducible assumption)
  all_goals try have := ev.operator _ _ _ (by with_reducible assumption)
  all_goals try have := ev.operatorLoop _ _ _ _ (by with_reducible assumption)
  all_goals try have := ev.message _ _ _ (by with_reducible assumption)
  all_goals try have := ev.messageLoop _ _ _ _ (by with_reducible assumption)
  all_goals try have := ev.primary _ _ _ (by with_reducible assumption)
  all_goals try have := ev.primaryArray _ _ _ _ (by with_reducible assumption)
  all_goals try have := ev.parseMessage _ _ _ _ (by with_reducible assumption)
  all_goals try have := ev.parseMessageParts _ _ _ _ _ _ (by with_reducible assumption)
  all_goals try have := ev.parseMessageArgs _ _ _ _ _ _ (by with_reducible assumption)
  all_goals try have := ev.parseBlock _ _ _ (by with_reducible assumption)
  all_goals try have := ev.parseDefines _ _ _ _ _ (by with_reducible assumption)
  all_goals try have := ev.parseDefine _ _ _ _ (by with_reducible assumption)
  all_goals try have := ev.parseDefineBody _ _ _ _ _ _ (by with_reducible assumption)
  all_goals try have := ParseDefineMixfix_evolves _ _ _ _ _ _ _ (by with_reducible assumption)
  all_goals rw [Statement]
  all_goals
    simp (disch := first
      | with_reducible (exfalso; assumption)
      | with_reducible assumption
      | with_reducible (apply keywordStart; assumption)
      | with_reducible (apply Strict.of_consumeExpected; assumption; decide)
      | with_reducible (apply Strict.of_later; apply Strict.of_consumeExpected; assumption; decide; (repeat (with_reducible first | exact Evolves.refl _ | apply Evolves.consumeExpected | apply Evolves.consume | apply Evolves.matchStep | apply Evolves.consumeParams | refine Evolves.trans ?_ (by assumption))); all_goals fail)
      | with_reducible (apply Good.of_evolves; assumption; (repeat (with_reducible first | exact Evolves.refl _ | apply Evolves.consumeExpected | apply Evolves.consume | apply Evolves.matchStep | apply Evolves.consumeParams | refine Evolves.trans ?_ (by assumption))); all_goals fail)
      | with_reducible (apply Good.match_of_not; assumption; apply Good.of_evolves; assumption; (repeat (with_reducible first | exact Evolves.refl _ | apply Evolves.consumeExpected | apply Evolves.consume | apply Evolves.matchStep | apply Evolves.consumeParams | refine Evolves.trans ?_ (by assumption))); all_goals fail)
      | with_reducible (apply Strict.of_consume; (on_goal 2 => (apply LookAhead_tokens_ne; assumption; decide)); apply Good.of_evolves; assumption; (repeat (with_reducible first | exact Evolves.refl _ | apply Evolves.consumeExpected | apply Evolves.consume | apply Evolves.matchStep | apply Evolves.consumeParams | refine Evolves.trans ?_ (by assumption))); all_goals fail)
      | with_reducible (apply Strict.of_consume; (on_goal 2 => (apply LookAhead_tokens_ne; apply LookAhead2_fst; assumption; decide)); apply Good.of_evolves; assumption; (repeat (with_reducible first | exact Evolves.refl _ | apply Evolves.consumeExpected | apply Evolves.consume | apply Evolves.matchStep | apply Evolves.consumeParams | refine Evolves.trans ?_ (by assumption))); all_goals fail)
      | with_reducible (apply Strict.of_consume; (on_goal 2 => (apply LookAhead_tokens_ne; apply LookAhead2_snd; assumption; decide; decide)); apply Good.of_evolves; assumption; (repeat (with_reducible first | exact Evolves.refl _ | apply Evolves.consumeExpected | apply Evolves.consume | apply Evolves.matchStep | apply Evolves.consumeParams | refine Evolves.trans ?_ (by assumption))); all_goals fail)
      | with_reducible rfl
      | fail)
      only [LookAhead_insertBefore_strict TOKEN_RIGHT_BRACE, LookAhead_insertBefore_strict TOKEN_RIGHT_BRACKET, LookAhead_insertBefore_strict TOKEN_RIGHT_PAREN, LookAhead2_insertBefore hsemi hsuf TOKEN_OBJ TOKEN_NAME (by decide) (by decide) (by decide) (by decide), Match_insertBefore hsemi TOKEN_ARROW (by decide) (by decide), Match_insertBefore hsemi TOKEN_DEF (by decide) (by decide), Match_insertBefore hsemi TOKEN_RETURN (by decide) (by decide), Match_insertBefore hsemi TOKEN_RIGHT_BRACE (by decide) (by decide), Match_insertBefore hsemi TOKEN_UNDEFINED (by decide) (by decide), Match_insertBefore hsemi TOKEN_VAR (by decide) (by decide), ConsumeExpected_insertBefore TOKEN_EQ (by decide), ConsumeExpected_insertBefore TOKEN_LEFT_BRACE (by decide), ConsumeExpected_insertBefore TOKEN_NAME (by decide), Consume_insertBefore, returnStops_insertBefore_true hsemi, returnStops_insertBefore_false hsuf, ParseDefineMixfix_insertBefore hsemi hsuf, ih.expression, ih.sequence, ih.sequenceLoop, ih.statement, ih.assignment, ih.operator, ih.operatorLoop, ih.message, ih.messageLoop, ih.primary, ih.primaryArray, ih.parseMessage, ih.parseMessageParts, ih.parseMessageArgs, ih.parseBlock, ih.parseDefines, ih.parseDefine, ih.parseDefineBody, *, if_true, if_false, Bool.false_eq_true, Bool.true_eq_false, not_true_eq_false, not_false_eq_true]

set_option maxHeartbeats 4000000 in
theorem insert_succ_assignment (semi : Token) (suf : List Token) (n : Nat)
    (hsemi : semi.type = TOKEN_SEMICOLON) (hsuf : closerHead suf)
    (ih : InsertAll semi suf n) :
    ∀ p e q, Assignment (n + 1) p = some (e, q) → Good suf q →
      Assignment (n + 1) (insertBefore semi suf p)  =
        some (e, insertBefore semi suf q) := by
  intro p e q h hq
  have ev := evolvesAll n
  rw [Assignment] at h
  try dsimp only at h
  repeat' split at h
  all_goals try (with_reducible cases h)
  all_goals try split_ifs at *
  all_goals try simp only [Option.some.injEq, Prod.mk.injEq] at *
  all_goals try cases_type* And
  all_goals try subst_vars
  all_goals try (with_reducible exact (Good.not_error hq).elim)
  all_goals try have := ev.expression _ _ _ (by with_reducible assumption)
  all_goals try have := ev.sequence _ _ _ (by with_reducible assumption)
  all_goals try have := ev.sequenceLoop _ _ _ _ (by with_reducible assumption)
  all_goals try have := ev.statement _ _ _ (by with_reducible assumption)
  all_goals try have := ev.assignment _ _ _ (by with_reducible assumption)
  all_goals try have := ev.operator _ _ _ (by with_reducible assumption)
  all_goals try have := ev.operatorLoop _ _ _ _ (by with_reducible assumption)
  all_goals try have := ev.message _ _ _ (by with_reducible assumption)
  all_goals try have := ev.messageLoop _ _ _ _ (by with_reducible assumption)
  all_goals try have := ev.primary _ _ _ (by with_reducible assumption)
  all_goals try have := ev.primaryArray _ _ _ _ (by with_reducible assumption)
  all_goals try have := ev.parseMessage _ _ _ _ (by with_reducible assumption)
  all_goals try have := ev.parseMessageParts _ _ _ _ _ _ (by with_reducible assumption)
  all_goals try have := ev.parseMessageArgs _ _ _ _ _ _ (by with_reducible assumption)
  all_goals try have := ev.parseBlock _ _ _ (by with_reducible assumption)
  all_goals try have := ev.parseDefines _ _ _ _ _ (by with_reducible assumption)
  all_goals try have := ev.parseDefine _ _ _ _ (by with_reducible assumption)
  all_goals try have := ev.parseDefineBody _ _ _ _ _ _ (by with_reducible assumption)
  all_goals try have := ParseDefineMixfix_evolves _ _ _ _ _ _ _ (by with_reducible assumption)
  all_goals rw [Assignment]
  all_goals
    simp (disch := first
      | with_reducible (exfalso; assumption)
      | with_reducible assumption
      | with_reducible (apply keywordStart; assumption)
      | with_reducible (apply Strict.of_consumeExpected; assumption; decide)
      | with_reducible (apply Strict.of_later; apply Strict.of_consumeExpected; assumption; decide; (repeat (with_reducible first | exact Evolves.refl _ | apply Evolves.consumeExpected | apply Evolves.consume | apply Evolves.matchStep | apply Evolves.consumeParams | refine Evolves.trans ?_ (by assumption))); all_goals fail)
      | with_reducible (apply Good.of_evolves; assumption; (repeat (with_reducible first | exact Evolves.refl _ | apply Evolves.consumeExpected | apply Evolves.consume | apply Evolves.matchStep | apply Evolves.consumeParams | refine Evolves.trans ?_ (by assumption))); all_goals fail)
      | with_reducible (apply Good.match_of_not; assumption; apply Good.of_evolves; assumption; (repeat (with_reducible first | exact Evolves.refl _ | apply Evolves.consumeExpected | apply Evolves.consume | apply Evolves.matchStep | apply Evolves.consumeParams | refine Evolves.trans ?_ (by assumption))); all_goals fail)
      | with_reducible (apply Strict.of_consume; (on_goal 2 => (apply LookAhead_tokens_ne; assumption; decide)); apply Good.of_evolves; assumption; (repeat (with_reducible first | exact Evolves.refl _ | apply Evolves.consumeExpected | apply Evolves.consume | apply Evolves.matchStep | apply Evolves.consumeParams | refine Evolves.trans ?_ (by assumption))); all_goals fail)
      | with_reducible (apply Strict.of_consume; (on_goal 2 => (apply LookAhead_tokens_ne; apply LookAhead2_fst; assumption; decide)); apply Good.of_evolves; assumption; (repeat (with_reducible first | exact Evolves.refl _ | apply Evolves.consumeExpected | apply Evolves.consume | apply Evolves.matchStep | apply Evolves.consumeParams | refine Evolves.trans ?_ (by assumption))); all_goals fail)
      | with_reducible (apply Strict.of_consume; (on_goal 2 => (apply LookAhead_tokens_ne; apply LookAhead2_snd; assumption; decide; decide)); apply Good.of_evolves; assumption; (repeat (with_reducible first | exact Evolves.refl _ | apply Evolves.consumeExpected | apply Evolves.consume | apply Evolves.matchStep | apply Evolves.consumeParams | refine Evolves.trans ?_ (by assumption))); all_goals fail)
      | with_reducible rfl
      | fail)
      only [LookAhead2_insertBefore hsemi hsuf TOKEN_NAME TOKEN_EQ (by decide) (by decide) (by decide) (by decide), Consume_insertBefore, returnStops_insertBefore_true hsemi, returnStops_insertBefore_false hsuf, ParseDefineMixfix_insertBefore hsemi hsuf, ih.expression, ih.sequence, ih.sequenceLoop, ih.statement, ih.assignment, ih.operator, ih.operatorLoop, ih.message, ih.messageLoop, ih.primary, ih.primaryArray, ih.parseMessage, ih.parseMessageParts, ih.parseMessageArgs, ih.parseBlock, ih.parseDefines, ih.parseDefine, ih.parseDefineBody, *, if_true, if_false, Bool.false_eq_true, Bool.true_eq_false, not_true_eq_false, not_false_eq_true]

set_option maxHeartbeats 4000000 in
theorem insert_succ_operator (semi : Token) (suf : List Token) (n : Nat)
    (hsemi : semi.type = TOKEN_SEMICOLON) (hsuf : closerHead suf)
    (ih : InsertAll semi suf n) :
    ∀ p e q, Operator (n + 1) p = some (e, q) → Good suf q →
      Operator (n + 1) (insertBefore semi suf p)  =
        some (e, insertBefore semi suf q) := by
  intro p e q h hq
  have ev := evolvesAll n
  rw [Operator] at h
  try dsimp only at h
  repeat' split at h
  all_goals try (with_reducible cases h)
  all_goals try split_ifs at *
  all_goals try simp only [Option.some.injEq, Prod.mk.injEq] at *
  all_goals try cases_type* And
  all_goals try subst_vars
  all_goals try (with_reducible exact (Good.not_error hq).elim)
  all_goals try have := ev.expression _ _ _ (by with_reducible assumption)
  all_goals try have := ev.sequence _ _ _ (by with_reducible assumption)
  all_goals try have := ev.sequenceLoop _ _ _ _ (by with_reducible assumption)
  all_goals try have := ev.statement _ _ _ (by with_reducible assumption)
  all_goals try have := ev.assignment _ _ _ (by with_reducible assumption)
  all_goals try have := ev.operator _ _ _ (by with_reducible assumption)
  all_goals try have := ev.operatorLoop _ _ _ _ (by with_reducible assumption)
  all_goals try have := ev.message _ _ _ (by with_reducible assumption)
  all_goals try have := ev.messageLoop _ _ _ _ (by with_reducible assumption)
  all_goals try have := ev.primary _ _ _ (by with_reducible assumption)
  all_goals try have := ev.primaryArray _ _ _ _ (by with_reducible assumption)
  all_goals try have := ev.parseMessage _ _ _ _ (by with_reducible assumption)
  all_goals try have := ev.parseMessageParts _ _ _ _ _ _ (by with_reducible assumption)
  all_goals try have := ev.parseMessageArgs _ _ _ _ _ _ (by with_reducible assumption)
  all_goals try have := ev.parseBlock _ _ _ (by with_reducible assumption)
  all_goals try have := ev.parseDefines _ _ _ _ _ (by with_reducible assumption)
  all_goals try have := ev.parseDefine _ _ _ _ (by with_reducible assumption)
  all_goals try have := ev.parseDefineBody _ _ _ _ _ _ (by with_reducible assumption)
  all_goals try have := ParseDefineMixfix_evolves _ _ _ _ _ _ _ (by with_reducible assumption)
  all_goals rw [Operator]
  all_goals
    simp (disch := first
      | with_reducible (exfalso; assumption)
      | with_reducible assumption
      | with_reducible (apply keywordStart; assumption)
      | with_reducible (apply Strict.of_consumeExpected; assumption; decide)
      | with_reducible (apply Strict.of_later; apply Strict.of_consumeExpected; assumption; decide; (repeat (with_reducible first | exact Evolves.refl _ | apply Evolves.consumeExpected | apply Evolves.consume | apply Evolves.matchStep | apply Evolves.consumeParams | refine Evolves.trans ?_ (by assumption))); all_goals fail)
      | with_reducible (apply Good.of_evolves; assumption; (repeat (with_reducible first | exact Evolves.refl _ | apply Evolves.consumeExpected | apply Evolves.consume | apply Evolves.matchStep | apply Evolves.consumeParams | refine Evolves.trans ?_ (by assumption))); all_goals fail)
      | with_reducible (apply Good.match_of_not; assumption; apply Good.of_evolves; assumption; (repeat (with_reducible first | exact Evolves.refl _ | apply Evolves.consumeExpected | apply Evolves.consume | apply Evolves.matchStep | apply Evolves.consumeParams | refine Evolves.trans ?_ (by assumption))); all_goals fail)
      | with_reducible (apply Strict.of_consume; (on_goal 2 => (apply LookAhead_tokens_ne; assumption; decide)); apply Good.of_evolves; assumption; (repeat (with_reducible first | exact Evolves.refl _ | apply Evolves.consumeExpected | apply Evolves.consume | apply Evolves.matchStep | apply Evolves.consumeParams | refine Evolves.trans ?_ (by assumption))); all_goals fail)
      | with_reducible (apply Strict.of_consume; (on_goal 2 => (apply LookAhead_tokens_ne; apply LookAhead2_fst; assumption; decide)); apply Good.of_evolves; assumption; (repeat (with_reducible first | exact Evolves.refl _ | apply Evolves.consumeExpected | apply Evolves.consume | apply Evolves.matchStep | apply Evolves.consumeParams | refine Evolves.trans ?_ (by assumption))); all_goals fail)
      | with_reducible (apply Strict.of_consume; (on_goal 2 => (apply LookAhead_tokens_ne; apply LookAhead2_snd; assumption; decide; decide)); apply Good.of_evolves; assumption; (repeat (with_reducible first | exact Evolves.refl _ | apply Evolves.consumeExpected | apply Evolves.consume | apply Evolves.matchStep | apply Evolves.consumeParams | refine Evolves.trans ?_ (by assumption))); all_goals fail)
      | with_reducible rfl
      | fail)
      only [Consume_insertBefore, returnStops_insertBefore_true hsemi, returnStops_insertBefore_false hsuf, ParseDefineMixfix_insertBefore hsemi hsuf, ih.expression, ih.sequence, ih.sequenceLoop, ih.statement, ih.assignment, ih.operator, ih.operatorLoop, ih.message, ih.messageLoop, ih.primary, ih.primaryArray, ih.parseMessage, ih.parseMessageParts, ih.parseMessageArgs, ih.parseBlock, ih.parseDefines, ih.parseDefine, ih.parseDefineBody, *, if_true, if_false, Bool.false_eq_true, Bool.true_eq_false, not_true_eq_false, not_false_eq_true]

set_option maxHeartbeats 4000000 in
theorem insert_succ_operatorLoop (semi : Token) (suf : List Token) (n : Nat)
    (hsemi : semi.type = TOKEN_SEMICOLON) (hsuf : closerHead suf)
    (ih : InsertAll semi suf n) :
    ∀ p o e q, OperatorLoop (n + 1) p o = some (e, q) → Good suf q →
      OperatorLoop (n + 1) (insertBefore semi suf p) o =
        some (e, insertBefore semi suf q) := by
  intro p o e q h hq
  have ev := evolvesAll n
  rw [OperatorLoop] at h
  try dsimp only at h
  repeat' split at h
  all_goals try (with_reducible cases h)
  all_goals try split_ifs at *
  all_goals try simp only [Option.some.injEq, Prod.mk.injEq] at *
  all_goals try cases_type* And
  all_goals try subst_vars
  all_goals try (with_reducible exact (Good.not_error hq).elim)
  all_goals try have := ev.expression _ _ _ (by with_reducible assumption)
  all_goals try have := ev.sequence _ _ _ (by with_reducible assumption)
  all_goals try have := ev.sequenceLoop _ _ _ _ (by with_reducible assumption)
  all_goals try have := ev.statement _ _ _ (by with_reducible assumption)
  all_goals try have := ev.assignment _ _ _ (by with_reducible assumption)
  all_goals try have := ev.operator _ _ _ (by with_reducible assumption)
  all_goals try have := ev.operatorLoop _ _ _ _ (by with_reducible assumption)
  all_goals try have := ev.message _ _ _ (by with_reducible assumption)
  all_goals try have := ev.messageLoop _ _ _ _ (by with_reducible assumption)
  all_goals try have := ev.primary _ _ _ (by with_reducible assumption)
  all_goals try have := ev.primaryArray _ _ _ _ (by with_reducible assumption)
  all_goals try have := ev.parseMessage _ _ _ _ (by with_reducible assumption)
  all_goals try have := ev.parseMessageParts _ _ _ _ _ _ (by with_reducible assumption)
  all_goals try have := ev.parseMessageArgs _ _ _ _ _ _ (by with_reducible assumption)
  all_goals try have := ev.parseBlock _ _ _ (by with_reducible assumption)
  all_goals try have := ev.parseDefines _ _ _ _ _ (by with_reducible assumption)
  all_goals try have := ev.parseDefine _ _ _ _ (by with_reducible assumption)
  all_goals try have := ev.parseDefineBody _ _ _ _ _ _ (by with_reducible assumption)
  all_goals try have := ParseDefineMixfix_evolves _ _ _ _ _ _ _ (by with_reducible assumption)
  all_goals rw [OperatorLoop]
  all_goals
    simp (disch := first
      | with_reducible (exfalso; assumption)
      | with_reducible assumption
      | with_reducible (apply keywordStart; assumption)
      | with_reducible (apply Strict.of_consumeExpected; assumption; decide)
      | with_reducible (apply Strict.of_later; apply Strict.of_consumeExpected; assumption; decide; (repeat (with_reducible first | exact Evolves.refl _ | apply Evolves.consumeExpected | apply Evolves.consume | apply Evolves.matchStep | apply Evolves.consumeParams | refine Evolves.trans ?_ (by assumption))); all_goals fail)
      | with_reducible (apply Good.of_evolves; assumption; (repeat (with_reducible first | exact Evolves.refl _ | apply Evolves.consumeExpected | apply Evolves.consume | apply Evolves.matchStep | apply Evolves.consumeParams | refine Evolves.trans ?_ (by assumption))); all_goals fail)
      | with_reducible (apply Good.match_of_not; assumption; apply Good.of_evolves; assumption; (repeat (with_reducible first | exact Evolves.refl _ | apply Evolves.consumeExpected | apply Evolves.consume | apply Evolves.matchStep | apply Evolves.consumeParams | refine Evolves.trans ?_ (by assumption))); all_goals fail)
      | with_reducible (apply Strict.of_consume; (on_goal 2 => (apply LookAhead_tokens_ne; assumption; decide)); apply Good.of_evolves; assumption; (repeat (with_reducible first | exact Evolves.refl _ | apply Evolves.consumeExpected | apply Evolves.consume | apply Evolves.matchStep | apply Evolves.consumeParams | refine Evolves.trans ?_ (by assumption))); all_goals fail)
      | with_reducible (apply Strict.of_consume; (on_goal 2 => (apply LookAhead_tokens_ne; apply LookAhead2_fst; assumption; decide)); apply Good.of_evolves; assumption; (repeat (with_reducible first | exact Evolves.refl _ | apply Evolves.consumeExpected | apply Evolves.consume | apply Evolves.matchStep | apply Evolves.consumeParams | refine Evolves.trans ?_ (by assumption))); all_goals fail)
      | with_reducible (apply Strict.of_consume; (on_goal 2 => (apply LookAhead_tokens_ne; apply LookAhead2_snd; assumption; decide; decide)); apply Good.of_evolves; assumption; (repeat (with_reducible first | exact Evolves.refl _ | apply Evolves.consumeExpected | apply Evolves.consume | apply Evolves.matchStep | apply Evolves.consumeParams | refine Evolves.trans ?_ (by assumption))); all_goals fail)
      | with_reducible rfl
      | fail)
      only [LookAhead_insertBefore hsemi hsuf TOKEN_OPERATOR (by decide) (by decide), Consume_insertBefore, returnStops_insertBefore_true hsemi, returnStops_insertBefore_false hsuf, ParseDefineMixfix_insertBefore hsemi hsuf, ih.expression, ih.sequence, ih.sequenceLoop, ih.statement, ih.assignment, ih.operator, ih.operatorLoop, ih.message, ih.messageLoop, ih.primary, ih.primaryArray, ih.parseMessage, ih.parseMessageParts, ih.parseMessageArgs, ih.parseBlock, ih.parseDefines, ih.parseDefine, ih.parseDefineBody, *, if_true, if_false, Bool.false_eq_true, Bool.true_eq_false, not_true_eq_false, not_false_eq_true]

set_option maxHeartbeats 4000000 in
theorem insert_succ_message (semi : Token) (suf : List Token) (n : Nat)
    (hsemi : semi.type = TOKEN_SEMICOLON) (hsuf : closerHead suf)
    (ih : InsertAll semi suf n) :
    ∀ p e q, Message (n + 1) p = some (e, q) → Good suf q →
      Message (n + 1) (insertBefore semi suf p)  =
        some (e, insertBefore semi suf q) := by
  intro p e q h hq
  have ev := evolvesAll n
  rw [Message] at h
  try dsimp only at h
  repeat' split at h
  all_goals try (with_reducible cases h)
  all_goals try split_ifs at *
  all_goals try simp only [Option.some.injEq, Prod.mk.injEq] at *
  all_goals try cases_type* And
  all_goals try subst_vars
  all_goals try (with_reducible exact (Good.not_error hq).elim)
  all_goals try have := ev.expression _ _ _ (by with_reducible assumption)
  all_goals try have := ev.sequence _ _ _ (by with_reducible assumption)
  all_goals try have := ev.sequenceLoop _ _ _ _ (by with_reducible assumption)
  all_goals try have := ev.statement _ _ _ (by with_reducible assumption)
  all_goals try have := ev.assignment _ _ _ (by with_reducible assumption)
  all_goals try have := ev.operator _ _ _ (by with_reducible assumption)
  all_goals try have := ev.operatorLoop _ _ _ _ (by with_reducible assumption)
  all_goals try have := ev.message _ _ _ (by with_reducible assumption)
  all_goals try have := ev.messageLoop _ _ _ _ (by with_reducible assumption)
  all_goals try have := ev.primary _ _ _ (by with_reducible assumption)
  all_goals try have := ev.primaryArray _ _ _ _ (by with_reducible assumption)
  all_goals try have := ev.parseMessage _ _ _ _ (by with_reducible assumption)
  all_goals try have := ev.parseMessageParts _ _ _ _ _ _ (by with_reducible assumption)
  all_goals try have := ev.parseMessageArgs _ _ _ _ _ _ (by with_reducible assumption)
  all_goals try have := ev.parseBlock _ _ _ (by with_reducible assumption)
  all_goals try have := ev.parseDefines _ _ _ _ _ (by with_reducible assumption)
  all_goals try have := ev.parseDefine _ _ _ _ (by with_reducible assumption)
  all_goals try have := ev.parseDefineBody _ _ _ _ _ _ (by with_reducible assumption)
  all_goals try have := ParseDefineMixfix_evolves _ _ _ _ _ _ _ (by with_reducible assumption)
  all_goals rw [Message]
  all_goals
    simp (disch := first
      | with_reducible (exfalso; assumption)
      | with_reducible assumption
      | with_reducible (apply keywordStart; assumption)
      | with_reducible (apply Strict.of_consumeExpected; assumption; decide)
      | with_reducible (apply Strict.of_later; apply Strict.of_consumeExpected; assumption; decide; (repeat (with_reducible first | exact Evolves.refl _ | apply Evolves.consumeExpected | apply Evolves.consume | apply Evolves.matchStep | apply Evolves.consumeParams | refine Evolves.trans ?_ (by assumption))); all_goals fail)
      | with_reducible (apply Good.of_evolves; assumption; (repeat (with_reducible first | exact Evolves.refl _ | apply Evolves.consumeExpected | apply Evolves.consume | apply Evolves.matchStep | apply Evolves.consumeParams | refine Evolves.trans ?_ (by assumption))); all_goals fail)
      | with_reducible (apply Good.match_of_not; assumption; apply Good.of_evolves; assumption; (repeat (with_reducible first | exact Evolves.refl _ | apply Evolves.consumeExpected | apply Evolves.consume | apply Evolves.matchStep | apply Evolves.consumeParams | refine Evolves.trans ?_ (by assumption))); all_goals fail)
      | with_reducible (apply Strict.of_consume; (on_goal 2 => (apply LookAhead_tokens_ne; assumption; decide)); apply Good.of_evolves; assumption; (repeat (with_reducible first | exact Evolves.refl _ | apply Evolves.consumeExpected | apply Evolves.consume | apply Evolves.matchStep | apply Evolves.consumeParams | refine Evolves.trans ?_ (by assumption))); all_goals fail)
      | with_reducible (apply Strict.of_consume; (on_goal 2 => (apply LookAhead_tokens_ne; apply LookAhead2_fst; assumption; decide)); apply Good.of_evolves; assumption; (repeat (with_reducible first | exact Evolves.refl _ | apply Evolves.consumeExpected | apply Evolves.consume | apply Evolves.matchStep | apply Evolves.consumeParams | refine Evolves.trans ?_ (by assumption))); all_goals fail)
      | with_reducible (apply Strict.of_consume; (on_goal 2 => (apply LookAhead_tokens_ne; apply LookAhead2_snd; assumption; decide; decide)); apply Good.of_evolves; assumption; (repeat (with_reducible first | exact Evolves.refl _ | apply Evolves.consumeExpected | apply Evolves.consume | apply Evolves.matchStep | apply Evolves.consumeParams | refine Evolves.trans ?_ (by assumption))); all_goals fail)
      | with_reducible rfl
      | fail)
      only [LookAhead2_insertBefore hsemi hsuf TOKEN_NAME TOKEN_LEFT_BRACE (by decide) (by decide) (by decide) (by decide), LookAhead2_insertBefore hsemi hsuf TOKEN_NAME TOKEN_LEFT_PAREN (by decide) (by decide) (by decide) (by decide), Consume_insertBefore, returnStops_insertBefore_true hsemi, returnStops_insertBefore_false hsuf, ParseDefineMixfix_insertBefore hsemi hsuf, ih.expression, ih.sequence, ih.sequenceLoop, ih.statement, ih.assignment, ih.operator, ih.operatorLoop, ih.message, ih.messageLoop, ih.primary, ih.primaryArray, ih.parseMessage, ih.parseMessageParts, ih.parseMessageArgs, ih.parseBlock, ih.parseDefines, ih.parseDefine, ih.parseDefineBody, *, if_true, if_false, Bool.false_eq_true, Bool.true_eq_false, not_true_eq_false, not_false_eq_true]

set_option maxHeartbeats 4000000 in
theorem insert_succ_messageLoop (semi : Token) (suf : List Token) (n : Nat)
    (hsemi : semi.type = TOKEN_SEMICOLON) (hsuf : closerHead suf)
    (ih : InsertAll semi suf n) :
    ∀ p o e q, MessageLoop (n + 1) p o = some (e, q) → Good suf q →
      MessageLoop (n + 1) (insertBefore semi suf p) o =
        some (e, insertBefore semi suf q) := by
  intro p o e q h hq
  have ev := evolvesAll n
  rw [MessageLoop] at h
  try dsimp only at h
  repeat' split at h
  all_goals try (with_reducible cases h)
  all_goals try split_ifs at *
  all_goals try simp only [Option.some.injEq, Prod.mk.injEq] at *
  all_goals try cases_type* And
  all_goals try subst_vars
  all_goals try (with_reducible exact (Good.not_error hq).elim)
  all_goals try have := ev.expression _ _ _ (by with_reducible assumption)
  all_goals try have := ev.sequence _ _ _ (by with_reducible assumption)
  all_goals try have := ev.sequenceLoop _ _ _ _ (by with_reducible assumption)
  all_goals try have := ev.statement _ _ _ (by with_reducible assumption)
  all_goals try have := ev.assignment _ _ _ (by with_reducible assumption)
  all_goals try have := ev.operator _ _ _ (by with_reducible assumption)
  all_goals try have := ev.operatorLoop _ _ _ _ (by with_reducible assumption)
  all_goals try have := ev.message _ _ _ (by with_reducible assumption)
  all_goals try have := ev.messageLoop _ _ _ _ (by with_reducible assumption)
  all_goals try have := ev.primary _ _ _ (by with_reducible assumption)
  all_goals try have := ev.primaryArray _ _ _ _ (by with_reducible assumption)
  all_goals try have := ev.parseMessage _ _ _ _ (by with_reducible assumption)
  all_goals try have := ev.parseMessageParts _ _ _ _ _ _ (by with_reducible assumption)
  all_goals try have := ev.parseMessageArgs _ _ _ _ _ _ (by with_reducible assumption)
  all_goals try have := ev.parseBlock _ _ _ (by with_reducible assumption)
  all_goals try have := ev.parseDefines _ _ _ _ _ (by with_reducible assumption)
  all_goals try have := ev.parseDefine _ _ _ _ (by with_reducible assumption)
  all_goals try have := ev.parseDefineBody _ _ _ _ _ _ (by with_reducible assumption)
  all_goals try have := ParseDefineMixfix_evolves _ _ _ _ _ _ _ (by with_reducible assumption)
  all_goals rw [MessageLoop]
  all_goals
    simp (disch := first
      | with_reducible (exfalso; assumption)
      | with_reducible assumption
      | with_reducible (apply keywordStart; assumption)
      | with_reducible (apply Strict.of_consumeExpected; assumption; decide)
      | with_reducible (apply Strict.of_later; apply Strict.of_consumeExpected; assumption; decide; (repeat (with_reducible first | exact Evolves.refl _ | apply Evolves.consumeExpected | apply Evolves.consume | apply Evolves.matchStep | apply Evolves.consumeParams | refine Evolves.trans ?_ (by assumption))); all_goals fail)
      | with_reducible (apply Good.of_evolves; assumption; (repeat (with_reducible first | exact Evolves.refl _ | apply Evolves.consumeExpected | apply Evolves.consume | apply Evolves.matchStep | apply Evolves.consumeParams | refine Evolves.trans ?_ (by assumption))); all_goals fail)
      | with_reducible (apply Good.match_of_not; assumption; apply Good.of_evolves; assumption; (repeat (with_reducible first | exact Evolves.refl _ | apply Evolves.consumeExpected | apply Evolves.consume | apply Evolves.matchStep | apply Evolves.consumeParams | refine Evolves.trans ?_ (by assumption))); all_goals fail)
      | with_reducible (apply Strict.of_consume; (on_goal 2 => (apply LookAhead_tokens_ne; assumption; decide)); apply Good.of_evolves; assumption; (repeat (with_reducible first | exact Evolves.refl _ | apply Evolves.consumeExpected | apply Evolves.consume | apply Evolves.matchStep | apply Evolves.consumeParams | refine Evolves.trans ?_ (by assumption))); all_goals fail)
      | with_reducible (apply Strict.of_consume; (on_goal 2 => (apply LookAhead_tokens_ne; apply LookAhead2_fst; assumption; decide)); apply Good.of_evolves; assumption; (repeat (with_reducible first | exact Evolves.refl _ | apply Evolves.consumeExpected | apply Evolves.consume | apply Evolves.matchStep | apply Evolves.consumeParams | refine Evolves.trans ?_ (by assumption))); all_goals fail)
      | with_reducible (apply Strict.of_consume; (on_goal 2 => (apply LookAhead_tokens_ne; apply LookAhead2_snd; assumption; decide; decide)); apply Good.of_evolves; assumption; (repeat (with_reducible first | exact Evolves.refl _ | apply Evolves.consumeExpected | apply Evolves.consume | apply Evolves.matchStep | apply Evolves.consumeParams | refine Evolves.trans ?_ (by assumption))); all_goals fail)
      | with_reducible rfl
      | fail)
      only [LookAhead2_insertBefore hsemi hsuf TOKEN_NAME TOKEN_LEFT_BRACE (by decide) (by decide) (by decide) (by decide), LookAhead2_insertBefore hsemi hsuf TOKEN_NAME TOKEN_LEFT_PAREN (by decide) (by decide) (by decide) (by decide), Match_insertBefore hsemi TOKEN_DOT (by decide) (by decide), ConsumeExpected_insertBefore TOKEN_NAME (by decide), Consume_insertBefore, returnStops_insertBefore_true hsemi, returnStops_insertBefore_false hsuf, ParseDefineMixfix_insertBefore hsemi hsuf, ih.expression, ih.sequence, ih.sequenceLoop, ih.statement, ih.assignment, ih.operator, ih.operatorLoop, ih.message, ih.messageLoop, ih.primary, ih.primaryArray, ih.parseMessage, ih.parseMessageParts, ih.parseMessageArgs, ih.parseBlock, ih.parseDefines, ih.parseDefine, ih.parseDefineBody, *, if_true, if_false, Bool.false_eq_true, Bool.true_eq_false, not_true_eq_false, not_false_eq_true]

set_option maxHeartbeats 4000000 in
theorem insert_succ_primary (semi : Token) (suf : List Token) (n : Nat)
    (hsemi : semi.type = TOKEN_SEMICOLON) (hsuf : closerHead suf)
    (ih : InsertAll semi suf n) :
    ∀ p e q, Primary (n + 1) p = some (e, q) → Good suf q →
      Primary (n + 1) (insertBefore semi suf p)  =
        some (e, insertBefore semi suf q) := by
  intro p e q h hq
  have ev := evolvesAll n
  rw [Primary] at h
  try dsimp only at h
  repeat' split at h
  all_goals try (with_reducible cases h)
  all_goals try split_ifs at *
  all_goals try simp only [Option.some.injEq, Prod.mk.injEq] at *
  all_goals try cases_type* And
  all_goals try subst_vars
  all_goals try (with_reducible exact (Good.not_error hq).elim)
  all_goals try have := ev.expression _ _ _ (by with_reducible assumption)
  all_goals try have := ev.sequence _ _ _ (by with_reducible assumption)
  all_goals try have := ev.sequenceLoop _ _ _ _ (by with_reducible assumption)
  all_goals try have := ev.statement _ _ _ (by with_reducible assumption)
  all_goals try have := ev.assignment _ _ _ (by with_reducible assumption)
  all_goals try have := ev.operator _ _ _ (by with_reducible assumption)
  all_goals try have := ev.operatorLoop _ _ _ _ (by with_reducible assumption)
  all_goals try have := ev.message _ _ _ (by with_reducible assumption)
  all_goals try have := ev.messageLoop _ _ _ _ (by with_reducible assumption)
  all_goals try have := ev.primary _ _ _ (by with_reducible assumption)
  all_goals try have := ev.primaryArray _ _ _ _ (by with_reducible assumption)
  all_goals try have := ev.parseMessage _ _ _ _ (by with_reducible assumption)
  all_goals try have := ev.parseMessageParts _ _ _ _ _ _ (by with_reducible assumption)
  all_goals try have := ev.parseMessageArgs _ _ _ _ _ _ (by with_reducible assumption)
  all_goals try have := ev.parseBlock _ _ _ (by with_reducible assumption)
  all_goals try have := ev.parseDefines _ _ _ _ _ (by with_reducible assumption)
  all_goals try have := ev.parseDefine _ _ _ _ (by with_reducible assumption)
  all_goals try have := ev.parseDefineBody _ _ _ _ _ _ (by with_reducible assumption)
  all_goals try have := ParseDefineMixfix_evolves _ _ _ _ _ _ _ (by with_reducible assumption)
  all_goals rw [Primary]
  all_goals
    simp (disch := first
      | with_reducible (exfalso; assumption)
      | with_reducible assumption
      | with_reducible (apply keywordStart; assumption)
      | with_reducible (apply Strict.of_consumeExpected; assumption; decide)
      | with_reducible (apply Strict.of_later; apply Strict.of_consumeExpected; assumption; decide; (repeat (with_reducible first | exact Evolves.refl _ | apply Evolves.consumeExpected | apply Evolves.consume | apply Evolves.matchStep | apply Evolves.consumeParams | refine Evolves.trans ?_ (by assumption))); all_goals fail)
      | with_reducible (apply Good.of_evolves; assumption; (repeat (with_reducible first | exact Evolves.refl _ | apply Evolves.consumeExpected | apply Evolves.consume | apply Evolves.matchStep | apply Evolves.consumeParams | refine Evolves.trans ?_ (by assumption))); all_goals fail)
      | with_reducible (apply Good.match_of_not; assumption; apply Good.of_evolves; assumption; (repeat (with_reducible first | exact Evolves.refl _ | apply Evolves.consumeExpected | apply Evolves.consume | apply Evolves.matchStep | apply Evolves.consumeParams | refine Evolves.trans ?_ (by assumption))); all_goals fail)
      | with_reducible (apply Strict.of_consume; (on_goal 2 => (apply LookAhead_tokens_ne; assumption; decide)); apply Good.of_evolves; assumption; (repeat (with_reducible first | exact Evolves.refl _ | apply Evolves.consumeExpected | apply Evolves.consume | apply Evolves.matchStep | apply Evolves.consumeParams | refine Evolves.trans ?_ (by assumption))); all_goals fail)
      | with_reducible (apply Strict.of_consume; (on_goal 2 => (apply LookAhead_tokens_ne; apply LookAhead2_fst; assumption; decide)); apply Good.of_evolves; assumption; (repeat (with_reducible first | exact Evolves.refl _ | apply Evolves.consumeExpected | apply Evolves.consume | apply Evolves.matchStep | apply Evolves.consumeParams | refine Evolves.trans ?_ (by assumption))); all_goals fail)
      | with_reducible (apply Strict.of_consume; (on_goal 2 => (apply LookAhead_tokens_ne; apply LookAhead2_snd; assumption; decide; decide)); apply Good.of_evolves; assumption; (repeat (with_reducible first | exact Evolves.refl _ | apply Evolves.consumeExpected | apply Evolves.consume | apply Evolves.matchStep | apply Evolves.consumeParams | refine Evolves.trans ?_ (by assumption))); all_goals fail)
      | with_reducible rfl
      | fail)
      only [LookAhead_insertBefore hsemi hsuf TOKEN_NAME (by decide) (by decide), LookAhead_insertBefore hsemi hsuf TOKEN_NUMBER (by decide) (by decide), LookAhead_insertBefore_strict TOKEN_RIGHT_BRACKET, LookAhead_insertBefore hsemi hsuf TOKEN_STRING (by decide) (by decide), Match_insertBefore hsemi TOKEN_ARROW (by decide) (by decide), Match_insertBefore hsemi TOKEN_LEFT_BRACE (by decide) (by decide), Match_insertBefore hsemi TOKEN_LEFT_BRACKET (by decide) (by decide), Match_insertBefore hsemi TOKEN_LEFT_PAREN (by decide) (by decide), Match_insertBefore hsemi TOKEN_OBJ (by decide) (by decide), Match_insertBefore hsemi TOKEN_RIGHT_BRACE (by decide) (by decide), Match_insertBefore hsemi TOKEN_SELF (by decide) (by decide), ConsumeExpected_insertBefore TOKEN_LEFT_BRACE (by decide), ConsumeExpected_insertBefore TOKEN_RIGHT_BRACKET (by decide), ConsumeExpected_insertBefore TOKEN_RIGHT_PAREN (by decide), Consume_insertBefore, returnStops_insertBefore_true hsemi, returnStops_insertBefore_false hsuf, ParseDefineMixfix_insertBefore hsemi hsuf, ih.expression, ih.sequence, ih.sequenceLoop, ih.statement, ih.assignment, ih.operator, ih.operatorLoop, ih.message, ih.messageLoop, ih.primary, ih.primaryArray, ih.parseMessage, ih.parseMessageParts, ih.parseMessageArgs, ih.parseBlock, ih.parseDefines, ih.parseDefine, ih.parseDefineBody, *, if_true, if_false, Bool.false_eq_true, Bool.true_eq_false, not_true_eq_false, not_false_eq_true]

set_option maxHeartbeats 4000000 in
theorem insert_succ_primaryArray (semi : Token) (suf : List Token) (n : Nat)
    (hsemi : semi.type = TOKEN_SEMICOLON) (hsuf : closerHead suf)
    (ih : InsertAll semi suf n) :
    ∀ p es e q, PrimaryArray (n + 1) p es = some (e, q) → Good suf q →
      PrimaryArray (n + 1) (insertBefore semi suf p) es =
        some (e, insertBefore semi suf q) := by
  intro p es e q h hq
  have ev := evolvesAll n
  rw [PrimaryArray] at h
  try dsimp only at h
  repeat' split at h
  all_goals try (with_reducible cases h)
  all_goals try split_ifs at *
  all_goals try simp only [Option.some.injEq, Prod.mk.injEq] at *
  all_goals try cases_type* And
  all_goals try subst_vars
  all_goals try (with_reducible exact (Good.not_error hq).elim)
  all_goals try have := ev.expression _ _ _ (by with_reducible assumption)
  all_goals try have := ev.sequence _ _ _ (by with_reducible assumption)
  all_goals try have := ev.sequenceLoop _ _ _ _ (by with_reducible assumption)
  all_goals try have := ev.statement _ _ _ (by with_reducible assumption)
  all_goals try have := ev.assignment _ _ _ (by with_reducible assumption)
  all_goals try have := ev.operator _ _ _ (by with_reducible assumption)
  all_goals try have := ev.operatorLoop _ _ _ _ (by with_reducible assumption)
  all_goals try have := ev.message _ _ _ (by with_reducible assumption)
  all_goals try have := ev.messageLoop _ _ _ _ (by with_reducible assumption)
  all_goals try have := ev.primary _ _ _ (by with_reducible assumption)
  all_goals try have := ev.primaryArray _ _ _ _ (by with_reducible assumption)
  all_goals try have := ev.parseMessage _ _ _ _ (by with_reducible assumption)
  all_goals try have := ev.parseMessageParts _ _ _ _ _ _ (by with_reducible assumption)
  all_goals try have := ev.parseMessageArgs _ _ _ _ _ _ (by with_reducible assumption)
  all_goals try have := ev.parseBlock _ _ _ (by with_reducible assumption)
  all_goals try have := ev.parseDefines _ _ _ _ _ (by with_reducible assumption)
  all_goals try have := ev.parseDefine _ _ _ _ (by with_reducible assumption)
  all_goals try have := ev.parseDefineBody _ _ _ _ _ _ (by with_reducible assumption)
  all_goals try have := ParseDefineMixfix_evolves _ _ _ _ _ _ _ (by with_reducible assumption)
  all_goals rw [PrimaryArray]
  all_goals
    simp (disch := first
      | with_reducible (exfalso; assumption)
      | with_reducible assumption
      | with_reducible (apply keywordStart; assumption)
      | with_reducible (apply Strict.of_consumeExpected; assumption; decide)
      | with_reducible (apply Strict.of_later; apply Strict.of_consumeExpected; assumption; decide; (repeat (with_reducible first | exact Evolves.refl _ | apply Evolves.consumeExpected | apply Evolves.consume | apply Evolves.matchStep | apply Evolves.consumeParams | refine Evolves.trans ?_ (by assumption))); all_goals fail)
      | with_reducible (apply Good.of_evolves; assumption; (repeat (with_reducible first | exact Evolves.refl _ | apply Evolves.consumeExpected | apply Evolves.consume | apply Evolves.matchStep | apply Evolves.consumeParams | refine Evolves.trans ?_ (by assumption))); all_goals fail)
      | with_reducible (apply Good.match_of_not; assumption; apply Good.of_evolves; assumption; (repeat (with_reducible first | exact Evolves.refl _ | apply Evolves.consumeExpected | apply Evolves.consume | apply Evolves.matchStep | apply Evolves.consumeParams | refine Evolves.trans ?_ (by assumption))); all_goals fail)
      | with_reducible (apply Strict.of_consume; (on_goal 2 => (apply LookAhead_tokens_ne; assumption; decide)); apply Good.of_evolves; assumption; (repeat (with_reducible first | exact Evolves.refl _ | apply Evolves.consumeExpected | apply Evolves.consume | apply Evolves.matchStep | apply Evolves.consumeParams | refine Evolves.trans ?_ (by assumption))); all_goals fail)
      | with_reducible (apply Strict.of_consume; (on_goal 2 => (apply LookAhead_tokens_ne; apply LookAhead2_fst; assumption; decide)); apply Good.of_evolves; assumption; (repeat (with_reducible first | exact Evolves.refl _ | apply Evolves.consumeExpected | apply Evolves.consume | apply Evolves.matchStep | apply Evolves.consumeParams | refine Evolves.trans ?_ (by assumption))); all_goals fail)
      | with_reducible (apply Strict.of_consume; (on_goal 2 => (apply LookAhead_tokens_ne; apply LookAhead2_snd; assumption; decide; decide)); apply Good.of_evolves; assumption; (repeat (with_reducible first | exact Evolves.refl _ | apply Evolves.consumeExpected | apply Evolves.consume | apply Evolves.matchStep | apply Evolves.consumeParams | refine Evolves.trans ?_ (by assumption))); all_goals fail)
      | with_reducible rfl
      | fail)
      only [Match_insertBefore hsemi TOKEN_COMMA (by decide) (by decide), Consume_insertBefore, returnStops_insertBefore_true hsemi, returnStops_insertBefore_false hsuf, ParseDefineMixfix_insertBefore hsemi hsuf, ih.expression, ih.sequence, ih.sequenceLoop, ih.statement, ih.assignment, ih.operator, ih.operatorLoop, ih.message, ih.messageLoop, ih.primary, ih.primaryArray, ih.parseMessage, ih.parseMessageParts, ih.parseMessageArgs, ih.parseBlock, ih.parseDefines, ih.parseDefine, ih.parseDefineBody, *, if_true, if_false, Bool.false_eq_true, Bool.true_eq_false, not_true_eq_false, not_false_eq_true]

set_option maxHeartbeats 4000000 in
theorem insert_succ_parseMessage (semi : Token) (suf : List Token) (n : Nat)
    (hsemi : semi.type = TOKEN_SEMICOLON) (hsuf : closerHead suf)
    (ih : InsertAll semi suf n) :
    ∀ p o e q, LookAhead p TOKEN_NAME = true → ParseMessage (n + 1) p o = some (e, q) → Good suf q →
      ParseMessage (n + 1) (insertBefore semi suf p) o =
        some (e, insertBefore semi suf q) := by
  intro p o e q hpre h hq
  have ev := evolvesAll n
  rw [ParseMessage] at h
  try dsimp only at h
  repeat' split at h
  all_goals try (with_reducible cases h)
  all_goals try split_ifs at *
  all_goals try simp only [Option.some.injEq, Prod.mk.injEq] at *
  all_goals try cases_type* And
  all_goals try subst_vars
  all_goals try (with_reducible exact (Good.not_error hq).elim)
  all_goals try have := ev.expression _ _ _ (by with_reducible assumption)
  all_goals try have := ev.sequence _ _ _ (by with_reducible assumption)
  all_goals try have := ev.sequenceLoop _ _ _ _ (by with_reducible assumption)
  all_goals try have := ev.statement _ _ _ (by with_reducible assumption)
  all_goals try have := ev.assignment _ _ _ (by with_reducible assumption)
  all_goals try have := ev.operator _ _ _ (by with_reducible assumption)
  all_goals try have := ev.operatorLoop _ _ _ _ (by with_reducible assumption)
  all_goals try have := ev.message _ _ _ (by with_reducible assumption)
  all_goals try have := ev.messageLoop _ _ _ _ (by with_reducible assumption)
  all_goals try have := ev.primary _ _ _ (by with_reducible assumption)
  all_goals try have := ev.primaryArray _ _ _ _ (by with_reducible assumption)
  all_goals try have := ev.parseMessage _ _ _ _ (by with_reducible assumption)
  all_goals try have := ev.parseMessageParts _ _ _ _ _ _ (by with_reducible assumption)
  all_goals try have := ev.parseMessageArgs _ _ _ _ _ _ (by with_reducible assumption)
  all_goals try have := ev.parseBlock _ _ _ (by with_reducible assumption)
  all_goals try have := ev.parseDefines _ _ _ _ _ (by with_reducible assumption)
  all_goals try have := ev.parseDefine _ _ _ _ (by with_reducible assumption)
  all_goals try have := ev.parseDefineBody _ _ _ _ _ _ (by with_reducible assumption)
  all_goals try have := ParseDefineMixfix_evolves _ _ _ _ _ _ _ (by with_reducible assumption)
  all_goals rw [ParseMessage]
  all_goals
    simp (disch := first
      | with_reducible (exfalso; assumption)
      | with_reducible assumption
      | with_reducible (apply keywordStart; assumption)
      | with_reducible (apply Strict.of_consumeExpected; assumption; decide)
      | with_reducible (apply Strict.of_later; apply Strict.of_consumeExpected; assumption; decide; (repeat (with_reducible first | exact Evolves.refl _ | apply Evolves.consumeExpected | apply Evolves.consume | apply Evolves.matchStep | apply Evolves.consumeParams | refine Evolves.trans ?_ (by assumption))); all_goals fail)
      | with_reducible (apply Good.of_evolves; assumption; (repeat (with_reducible first | exact Evolves.refl _ | apply Evolves.consumeExpected | apply Evolves.consume | apply Evolves.matchStep | apply Evolves.consumeParams | refine Evolves.trans ?_ (by assumption))); all_goals fail)
      | with_reducible (apply Good.match_of_not; assumption; apply Good.of_evolves; assumption; (repeat (with_reducible first | exact Evolves.refl _ | apply Evolves.consumeExpected | apply Evolves.consume | apply Evolves.matchStep | apply Evolves.consumeParams | refine Evolves.trans ?_ (by assumption))); all_goals fail)
      | with_reducible (apply Strict.of_consume; (on_goal 2 => (apply LookAhead_tokens_ne; assumption; decide)); apply Good.of_evolves; assumption; (repeat (with_reducible first | exact Evolves.refl _ | apply Evolves.consumeExpected | apply Evolves.consume | apply Evolves.matchStep | apply Evolves.consumeParams | refine Evolves.trans ?_ (by assumption))); all_goals fail)
      | with_reducible (apply Strict.of_consume; (on_goal 2 => (apply LookAhead_tokens_ne; apply LookAhead2_fst; assumption; decide)); apply Good.of_evolves; assumption; (repeat (with_reducible first | exact Evolves.refl _ | apply Evolves.consumeExpected | apply Evolves.consume | apply Evolves.matchStep | apply Evolves.consumeParams | refine Evolves.trans ?_ (by assumption))); all_goals fail)
      | with_reducible (apply Strict.of_consume; (on_goal 2 => (apply LookAhead_tokens_ne; apply LookAhead2_snd; assumption; decide; decide)); apply Good.of_evolves; assumption; (repeat (with_reducible first | exact Evolves.refl _ | apply Evolves.consumeExpected | apply Evolves.consume | apply Evolves.matchStep | apply Evolves.consumeParams | refine Evolves.trans ?_ (by assumption))); all_goals fail)
      | with_reducible rfl
      | fail)
      only [Consume_insertBefore, returnStops_insertBefore_true hsemi, returnStops_insertBefore_false hsuf, ParseDefineMixfix_insertBefore hsemi hsuf, ih.expression, ih.sequence, ih.sequenceLoop, ih.statement, ih.assignment, ih.operator, ih.operatorLoop, ih.message, ih.messageLoop, ih.primary, ih.primaryArray, ih.parseMessage, ih.parseMessageParts, ih.parseMessageArgs, ih.parseBlock, ih.parseDefines, ih.parseDefine, ih.parseDefineBody, *, if_true, if_false, Bool.false_eq_true, Bool.true_eq_false, not_true_eq_false, not_false_eq_true]

set_option maxHeartbeats 4000000 in
theorem insert_succ_parseMessageArgs (semi : Token) (suf : List Token) (n : Nat)
    (hsemi : semi.type = TOKEN_SEMICOLON) (hsuf : closerHead suf)
    (ih : InsertAll semi suf n) :
    ∀ p s as s1 as1 q, ParseMessageArgs (n + 1) p s as = some (s1, as1, q) → Good suf q →
      ParseMessageArgs (n + 1) (insertBefore semi suf p) s as =
        some (s1, as1, insertBefore semi suf q) := by
  intro p s as s1 as1 q h hq
  have ev := evolvesAll n
  rw [ParseMessageArgs] at h
  try dsimp only at h
  repeat' split at h
  all_goals try (with_reducible cases h)
  all_goals try split_ifs at *
  all_goals try simp only [Option.some.injEq, Prod.mk.injEq] at *
  all_goals try cases_type* And
  all_goals try subst_vars
  all_goals try (with_reducible exact (Good.not_error hq).elim)
  all_goals try have := ev.expression _ _ _ (by with_reducible assumption)
  all_goals try have := ev.sequence _ _ _ (by with_reducible assumption)
  all_goals try have := ev.sequenceLoop _ _ _ _ (by with_reducible assumption)
  all_goals try have := ev.statement _ _ _ (by with_reducible assumption)
  all_goals try have := ev.assignment _ _ _ (by with_reducible assumption)
  all_goals try have := ev.operator _ _ _ (by with_reducible assumption)
  all_goals try have := ev.operatorLoop _ _ _ _ (by with_reducible assumption)
  all_goals try have := ev.message _ _ _ (by with_reducible assumption)
  all_goals try have := ev.messageLoop _ _ _ _ (by with_reducible assumption)
  all_goals try have := ev.primary _ _ _ (by with_reducible assumption)
  all_goals try have := ev.primaryArray _ _ _ _ (by with_reducible assumption)
  all_goals try have := ev.parseMessage _ _ _ _ (by with_reducible assumption)
  all_goals try have := ev.parseMessageParts _ _ _ _ _ _ (by with_reducible assumption)
  all_goals try have := ev.parseMessageArgs _ _ _ _ _ _ (by with_reducible assumption)
  all_goals try have := ev.parseBlock _ _ _ (by with_reducible assumption)
  all_goals try have := ev.parseDefines _ _ _ _ _ (by with_reducible assumption)
  all_goals try have := ev.parseDefine _ _ _ _ (by with_reducible assumption)
  all_goals try have := ev.parseDefineBody _ _ _ _ _ _ (by with_reducible assumption)
  all_goals try have := ParseDefineMixfix_evolves _ _ _ _ _ _ _ (by with_reducible assumption)
  all_goals rw [ParseMessageArgs]
  all_goals
    simp (disch := first
      | with_reducible (exfalso; assumption)
      | with_reducible assumption
      | with_reducible (apply keywordStart; assumption)
      | with_reducible (apply Strict.of_consumeExpected; assumption; decide)
      | with_reducible (apply Strict.of_later; apply Strict.of_consumeExpected; assumption; decide; (repeat (with_reducible first | exact Evolves.refl _ | apply Evolves.consumeExpected | apply Evolves.consume | apply Evolves.matchStep | apply Evolves.consumeParams | refine Evolves.trans ?_ (by assumption))); all_goals fail)
      | with_reducible (apply Good.of_evolves; assumption; (repeat (with_reducible first | exact Evolves.refl _ | apply Evolves.consumeExpected | apply Evolves.consume | apply Evolves.matchStep | apply Evolves.consumeParams | refine Evolves.trans ?_ (by assumption))); all_goals fail)
      | with_reducible (apply Good.match_of_not; assumption; apply Good.of_evolves; assumption; (repeat (with_reducible first | exact Evolves.refl _ | apply Evolves.consumeExpected | apply Evolves.consume | apply Evolves.matchStep | apply Evolves.consumeParams | refine Evolves.trans ?_ (by assumption))); all_goals fail)
      | with_reducible (apply Strict.of_consume; (on_goal 2 => (apply LookAhead_tokens_ne; assumption; decide)); apply Good.of_evolves; assumption; (repeat (with_reducible first | exact Evolves.refl _ | apply Evolves.consumeExpected | apply Evolves.consume | apply Evolves.matchStep | apply Evolves.consumeParams | refine Evolves.trans ?_ (by assumption))); all_goals fail)
      | with_reducible (apply Strict.of_consume; (on_goal 2 => (apply LookAhead_tokens_ne; apply LookAhead2_fst; assumption; decide)); apply Good.of_evolves; assumption; (repeat (with_reducible first | exact Evolves.refl _ | apply Evolves.consumeExpected | apply Evolves.consume | apply Evolves.matchStep | apply Evolves.consumeParams | refine Evolves.trans ?_ (by assumption))); all_goals fail)
      | with_reducible (apply Strict.of_consume; (on_goal 2 => (apply LookAhead_tokens_ne; apply LookAhead2_snd; assumption; decide; decide)); apply Good.of_evolves; assumption; (repeat (with_reducible first | exact Evolves.refl _ | apply Evolves.consumeExpected | apply Evolves.consume | apply Evolves.matchStep | apply Evolves.consumeParams | refine Evolves.trans ?_ (by assumption))); all_goals fail)
      | with_reducible rfl
      | fail)
      only [Match_insertBefore hsemi TOKEN_COMMA (by decide) (by decide), Consume_insertBefore, returnStops_insertBefore_true hsemi, returnStops_insertBefore_false hsuf, ParseDefineMixfix_insertBefore hsemi hsuf, ih.expression, ih.sequence, ih.sequenceLoop, ih.statement, ih.assignment, ih.operator, ih.operatorLoop, ih.message, ih.messageLoop, ih.primary, ih.primaryArray, ih.parseMessage, ih.parseMessageParts, ih.parseMessageArgs, ih.parseBlock, ih.parseDefines, ih.parseDefine, ih.parseDefineBody, *, if_true, if_false, Bool.false_eq_true, Bool.true_eq_false, not_true_eq_false, not_false_eq_true]

set_option maxHeartbeats 4000000 in
theorem insert_succ_parseDefines (semi : Token) (suf : List Token) (n : Nat)
    (hsemi : semi.type = TOKEN_SEMICOLON) (hsuf : closerHead suf)
    (ih : InsertAll semi suf n) :
    ∀ p ds t ds1 q, t = TOKEN_RIGHT_BRACE → ParseDefines (n + 1) p ds t = some (ds1, q) → Good suf q →
      ParseDefines (n + 1) (insertBefore semi suf p) ds t =
        some (ds1, insertBefore semi suf q) := by
  intro p ds t ds1 q hpre h hq
  have ev := evolvesAll n
  subst hpre
  rw [ParseDefines] at h
  try dsimp only at h
  repeat' split at h
  all_goals try (with_reducible cases h)
  all_goals try split_ifs at *
  all_goals try simp only [Option.some.injEq, Prod.mk.injEq] at *
  all_goals try cases_type* And
  all_goals try subst_vars
  all_goals try (with_reducible exact (Good.not_error hq).elim)
  all_goals try have := ev.expression _ _ _ (by with_reducible assumption)
  all_goals try have := ev.sequence _ _ _ (by with_reducible assumption)
  all_goals try have := ev.sequenceLoop _ _ _ _ (by with_reducible assumption)
  all_goals try have := ev.statement _ _ _ (by with_reducible assumption)
  all_goals try have := ev.assignment _ _ _ (by with_reducible assumption)
  all_goals try have := ev.operator _ _ _ (by with_reducible assumption)
  all_goals try have := ev.operatorLoop _ _ _ _ (by with_reducible assumption)
  all_goals try have := ev.message _ _ _ (by with_reducible assumption)
  all_goals try have := ev.messageLoop _ _ _ _ (by with_reducible assumption)
  all_goals try have := ev.primary _ _ _ (by with_reducible assumption)
  all_goals try have := ev.primaryArray _ _ _ _ (by with_reducible assumption)
  all_goals try have := ev.parseMessage _ _ _ _ (by with_reducible assumption)
  all_goals try have := ev.parseMessageParts _ _ _ _ _ _ (by with_reducible assumption)
  all_goals try have := ev.parseMessageArgs _ _ _ _ _ _ (by with_reducible assumption)
  all_goals try have := ev.parseBlock _ _ _ (by with_reducible assumption)
  all_goals try have := ev.parseDefines _ _ _ _ _ (by with_reducible assumption)
  all_goals try have := ev.parseDefine _ _ _ _ (by with_reducible assumption)
  all_goals try have := ev.parseDefineBody _ _ _ _ _ _ (by with_reducible assumption)
  all_goals try have := ParseDefineMixfix_evolves _ _ _ _ _ _ _ (by with_reducible assumption)
  all_goals rw [ParseDefines]
  all_goals
    simp (disch := first
      | with_reducible (exfalso; assumption)
      | with_reducible assumption
      | with_reducible (apply keywordStart; assumption)
      | with_reducible (apply Strict.of_consumeExpected; assumption; decide)
      | with_reducible (apply Strict.of_later; apply Strict.of_consumeExpected; assumption; decide; (repeat (with_reducible first | exact Evolves.refl _ | apply Evolves.consumeExpected | apply Evolves.consume | apply Evolves.matchStep | apply Evolves.consumeParams | refine Evolves.trans ?_ (by assumption))); all_goals fail)
      | with_reducible (apply Good.of_evolves; assumption; (repeat (with_reducible first | exact Evolves.refl _ | apply Evolves.consumeExpected | apply Evolves.consume | apply Evolves.matchStep | apply Evolves.consumeParams | refine Evolves.trans ?_ (by assumption))); all_goals fail)
      | with_reducible (apply Good.match_of_not; assumption; apply Good.of_evolves; assumption; (repeat (with_reducible first | exact Evolves.refl _ | apply Evolves.consumeExpected | apply Evolves.consume | apply Evolves.matchStep | apply Evolves.consumeParams | refine Evolves.trans ?_ (by assumption))); all_goals fail)
      | with_reducible (apply Strict.of_consume; (on_goal 2 => (apply LookAhead_tokens_ne; assumption; decide)); apply Good.of_evolves; assumption; (repeat (with_reducible first | exact Evolves.refl _ | apply Evolves.consumeExpected | apply Evolves.consume | apply Evolves.matchStep | apply Evolves.consumeParams | refine Evolves.trans ?_ (by assumption))); all_goals fail)
      | with_reducible (apply Strict.of_consume; (on_goal 2 => (apply LookAhead_tokens_ne; apply LookAhead2_fst; assumption; decide)); apply Good.of_evolves; assumption; (repeat (with_reducible first | exact Evolves.refl _ | apply Evolves.consumeExpected | apply Evolves.consume | apply Evolves.matchStep | apply Evolves.consumeParams | refine Evolves.trans ?_ (by assumption))); all_goals fail)
      | with_reducible (apply Strict.of_consume; (on_goal 2 => (apply LookAhead_tokens_ne; apply LookAhead2_snd; assumption; decide; decide)); apply Good.of_evolves; assumption; (repeat (with_reducible first | exact Evolves.refl _ | apply Evolves.consumeExpected | apply Evolves.consume | apply Evolves.matchStep | apply Evolves.consumeParams | refine Evolves.trans ?_ (by assumption))); all_goals fail)
      | with_reducible rfl
      | fail)
      only [Match_insertBefore hsemi TOKEN_RIGHT_BRACE (by decide) (by decide), ConsumeExpected_insertBefore TOKEN_SEMICOLON (by decide), Consume_insertBefore, returnStops_insertBefore_true hsemi, returnStops_insertBefore_false hsuf, ParseDefineMixfix_insertBefore hsemi hsuf, ih.expression, ih.sequence, ih.sequenceLoop, ih.statement, ih.assignment, ih.operator, ih.operatorLoop, ih.message, ih.messageLoop, ih.primary, ih.primaryArray, ih.parseMessage, ih.parseMessageParts, ih.parseMessageArgs, ih.parseBlock, ih.parseDefines, ih.parseDefine, ih.parseDefineBody, *, if_true, if_false, Bool.false_eq_true, Bool.true_eq_false, not_true_eq_false, not_false_eq_true]

set_option maxHeartbeats 4000000 in
theorem insert_succ_parseDefine (semi : Token) (suf : List Token) (n : Nat)
    (hsemi : semi.type = TOKEN_SEMICOLON) (hsuf : closerHead suf)
    (ih : InsertAll semi suf n) :
    ∀ p ds ds1 q, ParseDefine (n + 1) p ds = some (ds1, q) → Good suf q →
      ParseDefine (n + 1) (insertBefore semi suf p) ds =
        some (ds1, insertBefore semi suf q) := by
  intro p ds ds1 q h hq
  have ev := evolvesAll n
  rw [ParseDefine] at h
  try dsimp only at h
  repeat' split at h
  all_goals try (with_reducible cases h)
  all_goals try split_ifs at *
  all_goals try simp only [Option.some.injEq, Prod.mk.injEq] at *
  all_goals try cases_type* And
  all_goals try subst_vars
  all_goals try (with_reducible exact (Good.not_error hq).elim)
  all_goals try have := ev.expression _ _ _ (by with_reducible assumption)
  all_goals try have := ev.sequence _ _ _ (by with_reducible assumption)
  all_goals try have := ev.sequenceLoop _ _ _ _ (by with_reducible assumption)
  all_goals try have := ev.statement _ _ _ (by with_reducible assumption)
  all_goals try have := ev.assignment _ _ _ (by with_reducible assumption)
  all_goals try have := ev.operator _ _ _ (by with_reducible assumption)
  all_goals try have := ev.operatorLoop _ _ _ _ (by with_reducible assumption)
  all_goals try have := ev.message _ _ _ (by with_reducible assumption)
  all_goals try have := ev.messageLoop _ _ _ _ (by with_reducible assumption)
  all_goals try have := ev.primary _ _ _ (by with_reducible assumption)
  all_goals try have := ev.primaryArray _ _ _ _ (by with_reducible assumption)
  all_goals try have := ev.parseMessage _ _ _ _ (by with_reducible assumption)
  all_goals try have := ev.parseMessageParts _ _ _ _ _ _ (by with_reducible assumption)
  all_goals try have := ev.parseMessageArgs _ _ _ _ _ _ (by with_reducible assumption)
  all_goals try have := ev.parseBlock _ _ _ (by with_reducible assumption)
  all_goals try have := ev.parseDefines _ _ _ _ _ (by with_reducible assumption)
  all_goals try have := ev.parseDefine _ _ _ _ (by with_reducible assumption)
  all_goals try have := ev.parseDefineBody _ _ _ _ _ _ (by with_reducible assumption)
  all_goals try have := ParseDefineMixfix_evolves _ _ _ _ _ _ _ (by with_reducible assumption)
  all_goals rw [ParseDefine]
  all_goals
    simp (disch := first
      | with_reducible (exfalso; assumption)
      | with_reducible assumption
      | with_reducible (apply keywordStart; assumption)
      | with_reducible (apply Strict.of_consumeExpected; assumption; decide)
      | with_reducible (apply Strict.of_later; apply Strict.of_consumeExpected; assumption; decide; (repeat (with_reducible first | exact Evolves.refl _ | apply Evolves.consumeExpected | apply Evolves.consume | apply Evolves.matchStep | apply Evolves.consumeParams | refine Evolves.trans ?_ (by assumption))); all_goals fail)
      | with_reducible (apply Good.of_evolves; assumption; (repeat (with_reducible first | exact Evolves.refl _ | apply Evolves.consumeExpected | apply Evolves.consume | apply Evolves.matchStep | apply Evolves.consumeParams | refine Evolves.trans ?_ (by assumption))); all_goals fail)
      | with_reducible (apply Good.match_of_not; assumption; apply Good.of_evolves; assumption; (repeat (with_reducible first | exact Evolves.refl _ | apply Evolves.consumeExpected | apply Evolves.consume | apply Evolves.matchStep | apply Evolves.consumeParams | refine Evolves.trans ?_ (by assumption))); all_goals fail)
      | with_reducible (apply Strict.of_consume; (on_goal 2 => (apply LookAhead_tokens_ne; assumption; decide)); apply Good.of_evolves; assumption; (repeat (with_reducible first | exact Evolves.refl _ | apply Evolves.consumeExpected | apply Evolves.consume | apply Evolves.matchStep | apply Evolves.consumeParams | refine Evolves.trans ?_ (by assumption))); all_goals fail)
      | with_reducible (apply Strict.of_consume; (on_goal 2 => (apply LookAhead_tokens_ne; apply LookAhead2_fst; assumption; decide)); apply Good.of_evolves; assumption; (repeat (with_reducible first | exact Evolves.refl _ | apply Evolves.consumeExpected | apply Evolves.consume | apply Evolves.matchStep | apply Evolves.consumeParams | refine Evolves.trans ?_ (by assumption))); all_goals fail)
      | with_reducible (apply Strict.of_consume; (on_goal 2 => (apply LookAhead_tokens_ne; apply LookAhead2_snd; assumption; decide; decide)); apply Good.of_evolves; assumption; (repeat (with_reducible first | exact Evolves.refl _ | apply Evolves.consumeExpected | apply Evolves.consume | apply Evolves.matchStep | apply Evolves.consumeParams | refine Evolves.trans ?_ (by assumption))); all_goals fail)
      | with_reducible rfl
      | fail)
      only [LookAhead_insertBefore hsemi hsuf TOKEN_NAME (by decide) (by decide), LookAhead_insertBefore hsemi hsuf TOKEN_OPERATOR (by decide) (by decide), LookAhead2_insertBefore hsemi hsuf TOKEN_NAME TOKEN_EQ (by decide) (by decide) (by decide) (by decide), LookAhead2_insertBefore hsemi hsuf TOKEN_NAME TOKEN_LEFT_BRACE (by decide) (by decide) (by decide) (by decide), ConsumeExpected_insertBefore TOKEN_NAME (by decide), Consume_insertBefore, returnStops_insertBefore_true hsemi, returnStops_insertBefore_false hsuf, ParseDefineMixfix_insertBefore hsemi hsuf, ih.expression, ih.sequence, ih.sequenceLoop, ih.statement, ih.assignment, ih.operator, ih.operatorLoop, ih.message, ih.messageLoop, ih.primary, ih.primaryArray, ih.parseMessage, ih.parseMessageParts, ih.parseMessageArgs, ih.parseBlock, ih.parseDefines, ih.parseDefine, ih.parseDefineBody, *, if_true, if_false, Bool.false_eq_true, Bool.true_eq_false, not_true_eq_false, not_false_eq_true]

set_option maxHeartbeats 4000000 in
theorem insert_succ_parseDefineBody (semi : Token) (suf : List Token) (n : Nat)
    (hsemi : semi.type = TOKEN_SEMICOLON) (hsuf : closerHead suf)
    (ih : InsertAll semi suf n) :
    ∀ p ds s ps ds1 q, ParseDefineBody (n + 1) p ds s ps = some (ds1, q) → Good suf q →
      ParseDefineBody (n + 1) (insertBefore semi suf p) ds s ps =
        some (ds1, insertBefore semi suf q) := by
  intro p ds s ps ds1 q h hq
  have ev := evolvesAll n
  rw [ParseDefineBody] at h
  try dsimp only at h
  repeat' split at h
  all_goals try (with_reducible cases h)
  all_goals try split_ifs at *
  all_goals try simp only [Option.some.injEq, Prod.mk.injEq] at *
  all_goals try cases_type* And
  all_goals try subst_vars
  all_goals try (with_reducible exact (Good.not_error hq).elim)
  all_goals try have := ev.expression _ _ _ (by with_reducible assumption)
  all_goals try have := ev.sequence _ _ _ (by with_reducible assumption)
  all_goals try have := ev.sequenceLoop _ _ _ _ (by with_reducible assumption)
  all_goals try have := ev.statement _ _ _ (by with_reducible assumption)
  all_goals try have := ev.assignment _ _ _ (by with_reducible assumption)
  all_goals try have := ev.operator _ _ _ (by with_reducible assumption)
  all_goals try have := ev.operatorLoop _ _ _ _ (by with_reducible assumption)
  all_goals try have := ev.message _ _ _ (by with_reducible assumption)
  all_goals try have := ev.messageLoop _ _ _ _ (by with_reducible assumption)
  all_goals try have := ev.primary _ _ _ (by with_reducible assumption)
  all_goals try have := ev.primaryArray _ _ _ _ (by with_reducible assumption)
  all_goals try have := ev.parseMessage _ _ _ _ (by with_reducible assumption)
  all_goals try have := ev.parseMessageParts _ _ _ _ _ _ (by with_reducible assumption)
  all_goals try have := ev.parseMessageArgs _ _ _ _ _ _ (by with_reducible assumption)
  all_goals try have := ev.parseBlock _ _ _ (by with_reducible assumption)
  all_goals try have := ev.parseDefines _ _ _ _ _ (by with_reducible assumption)
  all_goals try have := ev.parseDefine _ _ _ _ (by with_reducible assumption)
  all_goals try have := ev.parseDefineBody _ _ _ _ _ _ (by with_reducible assumption)
  all_goals try have := ParseDefineMixfix_evolves _ _ _ _ _ _ _ (by with_reducible assumption)
  all_goals rw [ParseDefineBody]
  all_goals
    simp (disch := first
      | with_reducible (exfalso; assumption)
      | with_reducible assumption
      | with_reducible (apply keywordStart; assumption)
      | with_reducible (apply Strict.of_consumeExpected; assumption; decide)
      | with_reducible (apply Strict.of_later; apply Strict.of_consumeExpected; assumption; decide; (repeat (with_reducible first | exact Evolves.refl _ | apply Evolves.consumeExpected | apply Evolves.consume | apply Evolves.matchStep | apply Evolves.consumeParams | refine Evolves.trans ?_ (by assumption))); all_goals fail)
      | with_reducible (apply Good.of_evolves; assumption; (repeat (with_reducible first | exact Evolves.refl _ | apply Evolves.consumeExpected | apply Evolves.consume | apply Evolves.matchStep | apply Evolves.consumeParams | refine Evolves.trans ?_ (by assumption))); all_goals fail)
      | with_reducible (apply Good.match_of_not; assumption; apply Good.of_evolves; assumption; (repeat (with_reducible first | exact Evolves.refl _ | apply Evolves.consumeExpected | apply Evolves.consume | apply Evolves.matchStep | apply Evolves.consumeParams | refine Evolves.trans ?_ (by assumption))); all_goals fail)
      | with_reducible (apply Strict.of_consume; (on_goal 2 => (apply LookAhead_tokens_ne; assumption; decide)); apply Good.of_evolves; assumption; (repeat (with_reducible first | exact Evolves.refl _ | apply Evolves.consumeExpected | apply Evolves.consume | apply Evolves.matchStep | apply Evolves.consumeParams | refine Evolves.trans ?_ (by assumption))); all_goals fail)
      | with_reducible (apply Strict.of_consume; (on_goal 2 => (apply LookAhead_tokens_ne; apply LookAhead2_fst; assumption; decide)); apply Good.of_evolves; assumption; (repeat (with_reducible first | exact Evolves.refl _ | apply Evolves.consumeExpected | apply Evolves.consume | apply Evolves.matchStep | apply Evolves.consumeParams | refine Evolves.trans ?_ (by assumption))); all_goals fail)
      | with_reducible (apply Strict.of_consume; (on_goal 2 => (apply LookAhead_tokens_ne; apply LookAhead2_snd; assumption; decide; decide)); apply Good.of_evolves; assumption; (repeat (with_reducible first | exact Evolves.refl _ | apply Evolves.consumeExpected | apply Evolves.consume | apply Evolves.matchStep | apply Evolves.consumeParams | refine Evolves.trans ?_ (by assumption))); all_goals fail)
      | with_reducible rfl
      | fail)
      only [ConsumeExpected_insertBefore TOKEN_LEFT_BRACE (by decide), ConsumeExpected_insertBefore TOKEN_RIGHT_BRACE (by decide), Consume_insertBefore, returnStops_insertBefore_true hsemi, returnStops_insertBefore_false hsuf, ParseDefineMixfix_insertBefore hsemi hsuf, ih.expression, ih.sequence, ih.sequenceLoop, ih.statement, ih.assignment, ih.operator, ih.operatorLoop, ih.message, ih.messageLoop, ih.primary, ih.primaryArray, ih.parseMessage, ih.parseMessageParts, ih.parseMessageArgs, ih.parseBlock, ih.parseDefines, ih.parseDefine, ih.parseDefineBody, *, if_true, if_false, Bool.false_eq_true, Bool.true_eq_false, not_true_eq_false, not_false_eq_true]

theorem insert_succ_parseBlock (semi : Token) (suf : List Token) (n : Nat)
    (hsemi : semi.type = TOKEN_SEMICOLON) (hsuf : closerHead suf)
    (ih : InsertAll semi suf n) :
    ∀ p e q, ParseBlock (n + 1) p = some (e, q) → Good suf q →
      ParseBlock (n + 1) (insertBefore semi suf p) = some (e, insertBefore semi suf q) := by
  intro p e q h hq
  have ev := evolvesAll n
  rw [ParseBlock] at h ⊢
  try dsimp only at h ⊢
  split at h
  · cases h
  rename_i body p1 heq
  simp only [Option.some.injEq, Prod.mk.injEq] at h
  obtain ⟨rfl, rfl⟩ := h
  have s1 : Strict suf p1 := Strict.of_consumeExpected hq (by decide)
  have s0 := s1.of_later (ev.expression _ _ _ heq)
  by_cases hc : (decide (countNames p.tokens > 0) &&
      LookAheadAt p (countNames p.tokens) TOKEN_ARROW) = true
  · rw [if_pos hc] at heq s0 ⊢
    simp only at heq s0
    have s2 : Strict suf (consumeParams (countNames p.tokens) p []).2 := s0.of_consume_strict
    have gp : Good suf p := s2.good.of_evolves ((Evolves.refl _).consumeParams _ _)
    rw [countNames_insertBefore hsemi hsuf gp, LookAheadAt_insertBefore hsemi hsuf gp,
      if_pos hc]
    simp only
    rw [consumeParams_insertBefore _ _ _ s2]
    simp only
    rw [Consume_insertBefore s2, ih.expression _ _ _ heq s1]
    simp only
    rw [ConsumeExpected_insertBefore TOKEN_RIGHT_BRACE (by decide) hq]
  · rw [if_neg hc] at heq s0 ⊢
    simp only at heq s0
    have gp : Good suf p := s0.good
    rw [countNames_insertBefore hsemi hsuf gp, LookAheadAt_insertBefore hsemi hsuf gp,
      if_neg hc]
    simp only
    rw [ih.expression _ _ _ heq s1]
    simp only
    rw [ConsumeExpected_insertBefore TOKEN_RIGHT_BRACE (by decide) hq]

theorem insert_succ_parseMessageParts (semi : Token) (suf : List Token) (n : Nat)
    (hsemi : semi.type = TOKEN_SEMICOLON) (hsuf : closerHead suf)
    (ih : InsertAll semi suf n) :
    ∀ p s as s1 as1 q, LookAhead p TOKEN_NAME = true →
      ParseMessageParts (n + 1) p s as = some (s1, as1, q) → Good suf q →
      ParseMessageParts (n + 1) (insertBefore semi suf p) s as =
        some (s1, as1, insertBefore semi suf q) := by
  intro p s as s1 as1 q hla h hq
  have ev := evolvesAll n
  rw [ParseMessageParts] at h ⊢
  split at h
  · cases h
  rename_i name3 args3 p3 heq
  -- the state after the part, and what is known once the loop went on
  have g3 : Good suf p3 := by
    split_ifs at h with hk
    · exact hq.of_evolves (ev.parseMessageParts _ _ _ _ _ _ h)
    · simp only [Option.some.injEq, Prod.mk.injEq] at h
      obtain ⟨-, -, rfl⟩ := h
      exact hq
  have tail : (if (LookAhead2 (insertBefore semi suf p3) TOKEN_NAME TOKEN_LEFT_PAREN ||
        LookAhead2 (insertBefore semi suf p3) TOKEN_NAME TOKEN_LEFT_BRACE) = true then
        ParseMessageParts n (insertBefore semi suf p3) name3 args3
      else some (name3, args3, insertBefore semi suf p3)) =
      some (s1, as1, insertBefore semi suf q) := by
    rw [LookAhead2_insertBefore hsemi hsuf TOKEN_NAME TOKEN_LEFT_PAREN (by decide) (by decide)
        (by decide) (by decide) g3,
      LookAhead2_insertBefore hsemi hsuf TOKEN_NAME TOKEN_LEFT_BRACE (by decide) (by decide)
        (by decide) (by decide) g3]
    split_ifs at h ⊢ with hk
    · exact ih.parseMessageParts _ _ _ _ _ _ (keywordStart hk) h hq
    · simp only [Option.some.injEq, Prod.mk.injEq] at h
      obtain ⟨rfl, rfl, rfl⟩ := h
      rfl
  split_ifs at heq with hm
  · split at heq
    · cases heq
    rename_i block p2 hb
    simp only [Option.some.injEq, Prod.mk.injEq] at heq
    obtain ⟨rfl, rfl, rfl⟩ := heq
    have gm : Good suf (Match (Consume p).2 TOKEN_LEFT_BRACE).2 :=
      g3.of_evolves (ev.parseBlock _ _ _ hb)
    have s0 : Strict suf p := Strict.of_consume
      (gm.of_evolves ((Evolves.refl _).matchStep _)) (LookAhead_tokens_ne hla (by decide))
    rw [Consume_insertBefore s0]
    simp only
    rw [Match_insertBefore hsemi TOKEN_LEFT_BRACE (by decide) (by decide) gm]
    simp only [hm, if_true]
    rw [ih.parseBlock _ _ _ hb g3]
    exact tail
  · split at heq
    · cases heq
    rename_i name2 args2 p2 hb
    simp only [Option.some.injEq, Prod.mk.injEq] at heq
    obtain ⟨rfl, rfl, rfl⟩ := heq
    have g2 : Good suf p2 := g3.of_evolves ((Evolves.refl _).consumeExpected _ _)
    have gc := g2.of_evolves (ev.parseMessageArgs _ _ _ _ _ _ hb)
    have g1 := gc.of_evolves ((Evolves.refl _).consumeExpected _ _)
    have s0 : Strict suf p := Strict.of_consume g1 (LookAhead_tokens_ne hla (by decide))
    rw [Consume_insertBefore s0]
    simp only
    rw [Match_insertBefore hsemi TOKEN_LEFT_BRACE (by decide) (by decide)
      (Good.match_of_not hm g1)]
    simp only [hm, if_false, Bool.false_eq_true]
    rw [ConsumeExpected_insertBefore TOKEN_LEFT_PAREN (by decide) gc]
    simp only
    rw [ih.parseMessageArgs _ _ _ _ _ _ hb g2]
    simp only
    rw [ConsumeExpected_insertBefore TOKEN_RIGHT_PAREN (by decide) g3]
    exact tail

theorem insertAll_zero (semi : Token) (suf : List Token) : InsertAll semi suf 0 := by
  constructor <;> intros <;>
    simp_all [Expression, Sequence, SequenceLoop, Statement, Assignment, Operator, OperatorLoop,
      Message, MessageLoop, Primary, PrimaryArray, ParseMessage, ParseMessageParts,
      ParseMessageArgs, ParseBlock, ParseDefines, ParseDefine, ParseDefineBody]

theorem insertAll_succ (semi : Token) (suf : List Token) (n : Nat)
    (hsemi : semi.type = TOKEN_SEMICOLON) (hsuf : closerHead suf)
    (ih : InsertAll semi suf n) : InsertAll semi suf (n + 1) :=
  ⟨insert_succ_expression semi suf n hsemi hsuf ih,
    insert_succ_sequence semi suf n hsemi hsuf ih,
    insert_succ_sequenceLoop semi suf n hsemi hsuf ih,
    insert_succ_statement semi suf n hsemi hsuf ih,
    insert_succ_assignment semi suf n hsemi hsuf ih,
    insert_succ_operator semi suf n hsemi hsuf ih,
    insert_succ_operatorLoop semi suf n hsemi hsuf ih,
    insert_succ_message semi suf n hsemi hsuf ih,
    insert_succ_messageLoop semi suf n hsemi hsuf ih,
    insert_succ_primary semi suf n hsemi hsuf ih,
    insert_succ_primaryArray semi suf n hsemi hsuf ih,
    insert_succ_parseMessage semi suf n hsemi hsuf ih,
    insert_succ_parseMessageParts semi suf n hsemi hsuf ih,
    insert_succ_parseMessageArgs semi suf n hsemi hsuf ih,
    insert_succ_parseBlock semi suf n hsemi hsuf ih,
    insert_succ_parseDefines semi suf n hsemi hsuf ih,
    insert_succ_parseDefine semi suf n hsemi hsuf ih,
    insert_succ_parseDefineBody semi suf n hsemi hsuf ih⟩

/-- Inserting a `;` in front of a closer that the parse leaves unread changes
neither the tree nor the state the parse ends in. -/
theorem insertAll (semi : Token) (suf : List Token) (hsemi : semi.type = TOKEN_SEMICOLON)
    (hsuf : closerHead suf) (n : Nat) : InsertAll semi suf n := by
  induction n with
  | zero => exact insertAll_zero semi suf
  | succ n ih => exact insertAll_succ semi suf n hsemi hsuf ih

/-! ## The end of the stream inside a definition body -/

theorem AtEnd.lookAhead {p : Parser} (h : AtEnd p) {type : TokenType}
    (hty : type ≠ TOKEN_EOF) : LookAhead p type = false := by
  obtain ⟨ts, e, es, i⟩ := p
  cases ts with
  | nil => simpa [LookAhead, peekType] using fun h2 => hty h2.symm
  | cons t ts =>
    have ht : t.type = TOKEN_EOF := h t (List.mem_cons_self _ _)
    simpa [ht] using fun h2 => hty h2.symm

theorem AtEnd.lookAhead2 {p : Parser} (h : AtEnd p) {a : TokenType} (b : TokenType)
    (hty : a ≠ TOKEN_EOF) : LookAhead2 p a b = false := by
  have := h.lookAhead hty
  simp only [LookAhead, decide_eq_false_iff_not] at this
  simp [LookAhead2, this]

theorem AtEnd.reported {p : Parser} (h : AtEnd p) (message : String) : AtEnd (Error p message) :=
  h

theorem AtEnd.consumed {p : Parser} (h : AtEnd p) : AtEnd (Consume p).2 := by
  obtain ⟨ts, e, es, i⟩ := p
  cases ts with
  | nil => exact h
  | cons t ts => exact fun u hu => h u (List.mem_cons_of_mem _ hu)

theorem AtEnd.expected {p : Parser} (h : AtEnd p) (type : TokenType) (message : String) :
    AtEnd (ConsumeExpected p type message).2 := by
  unfold ConsumeExpected
  split_ifs
  · exact h.consumed
  · exact (h.reported message).consumed

/-- At the end of the stream the loop of `ParseDefines` never ends: no entry
starts there, no closing brace is found, and the stream stays at its end. -/
theorem ParseDefines_atEnd (n : Nat) :
    ∀ (p : Parser) (defs : List Definition), AtEnd p →
      ParseDefines n p defs TOKEN_RIGHT_BRACE = none := by
  induction n with
  | zero => intro p defs _; simp [ParseDefines]
  | succ n ih =>
    intro p defs h
    rw [ParseDefines]
    cases n with
    | zero => simp [ParseDefine]
    | succ n =>
      have hdefine : ParseDefine (n + 1) p defs = some (defs, Error p "Expect definition.") := by
        rw [ParseDefine]
        simp only [h.lookAhead2 TOKEN_EQ (show TOKEN_NAME ≠ TOKEN_EOF by decide),
          h.lookAhead2 TOKEN_LEFT_BRACE (show TOKEN_NAME ≠ TOKEN_EOF by decide),
          h.lookAhead (show TOKEN_NAME ≠ TOKEN_EOF by decide),
          h.lookAhead (show TOKEN_OPERATOR ≠ TOKEN_EOF by decide), Bool.false_eq_true, if_false]
      rw [hdefine]
      have h1 : AtEnd (Error p "Expect definition.") := h.reported _
      have h2 := h1.expected TOKEN_SEMICOLON
        "Definitions should be separated by newlines (or ';')."
      simp only [not_LookAhead_match (h1.lookAhead (show TOKEN_RIGHT_BRACE ≠ TOKEN_EOF by decide)),
        not_LookAhead_match (h2.lookAhead (show TOKEN_RIGHT_BRACE ≠ TOKEN_EOF by decide)),
        Bool.false_eq_true, if_false]
      exact ih _ _ h2

/-- On `def Foo` with an opening brace that is not closed before the end of
the file, `Expression` does not return, whatever the fuel. -/
theorem Expression_unclosed_def (n : Nat) :
    Expression n (freshParser tokensUnclosedDef) = none := by
  have hend : AtEnd ⟨[⟨TOKEN_EOF, "", 0⟩], false, [], false⟩ := by
    intro t ht
    simp only [List.mem_singleton] at ht
    subst ht
    rfl
  rcases n with _ | _ | _ | _ | n
  · rfl
  · rfl
  · rfl
  · rfl
  · simp only [Expression, Sequence, SequenceLoop, Statement, freshParser, tokensUnclosedDef,
      Match, LookAhead_cons, Consume_cons, ConsumeExpected, decide_True, if_true,
      ParseDefines_atEnd n _ _ hend]

/-! ## Operators (C1) -/

/-- The operator loop on a stream `op1 m1 ... opn mn` builds the left-nested
tree on top of the tree built so far. -/
theorem OperatorLoop_operands (rest : List (String × Expr)) :
    ∀ (p q : Parser) (object : Expr), OperandsFrom p rest q →
      ∃ n, ∀ m, n ≤ m → OperatorLoop m p object = some (leftNested object rest, q) := by
  induction rest with
  | nil =>
    intro p q object h
    obtain ⟨rfl, hla⟩ := h
    refine ⟨1, fun m hm => ?_⟩
    obtain ⟨m, rfl⟩ : ∃ j, m = j + 1 := ⟨m - 1, by omega⟩
    simp [OperatorLoop, hla, leftNested]
  | cons pair rest ih =>
    intro p q object h
    obtain ⟨op, arg⟩ := pair
    obtain ⟨hla, hop, k, p1, hmsg, hrest⟩ := h
    obtain ⟨n, hn⟩ := ih p1 q (MessageExpr object op [arg]) hrest
    refine ⟨max k n + 1, fun m hm => ?_⟩
    obtain ⟨m, rfl⟩ : ∃ j, m = j + 1 := ⟨m - 1, by omega⟩
    have hk : k ≤ m := by omega
    have hn' : n ≤ m := by omega
    rw [OperatorLoop, if_pos hla, Message_fuel_le hk hmsg]
    simp only [hop]
    rw [hn m hn']
    rfl

/-- C1. On a token stream `m0 op1 m1 ... opn mn` (each `mi` parsed by
`Message`, each `opi` a `TOKEN_OPERATOR` of any text, the token after `mn` not
an operator), `Operator` returns, for every large enough fuel, the left-nested
tree in which every operator is a one-argument message whose selector is the
operator text. -/
theorem Operator_left_nested (p p1 q : Parser) (m0 : Expr) (rest : List (String × Expr))
    (k : Nat) (hfirst : Message k p = some (m0, p1)) (hrest : OperandsFrom p1 rest q) :
    ∃ n, ∀ m, n ≤ m → Operator m p = some (leftNested m0 rest, q) := by
  obtain ⟨n, hn⟩ := OperatorLoop_operands rest p1 q m0 hrest
  refine ⟨max k n + 1, fun m hm => ?_⟩
  obtain ⟨m, rfl⟩ : ∃ j, m = j + 1 := ⟨m - 1, by omega⟩
  have hk : k ≤ m := by omega
  have hn' : n ≤ m := by omega
  rw [Operator, Message_fuel_le hk hfirst]
  exact hn m hn'

/-- C1, at `1 + 2 * 3`: the tree is `(1 + 2) * 3`. -/
theorem Operator_left_nested_witness :
    ∃ n, ∀ m, n ≤ m →
      Operator m (freshParser [⟨TOKEN_NUMBER, "1", 1⟩, ⟨TOKEN_OPERATOR, "+", 0⟩,
          ⟨TOKEN_NUMBER, "2", 2⟩, ⟨TOKEN_OPERATOR, "*", 0⟩, ⟨TOKEN_NUMBER, "3", 3⟩]) =
        some (MessageExpr (MessageExpr (NumberExpr 1) "+" [NumberExpr 2]) "*" [NumberExpr 3],
          freshParser []) :=
  Operator_left_nested _ _ _ (NumberExpr 1) [("+", NumberExpr 2), ("*", NumberExpr 3)] 3 rfl
    ⟨rfl, rfl, 3, _, rfl, rfl, rfl, 3, _, rfl, rfl, rfl⟩

/-! ## Unary sends around an operator (C2) -/

/-- More fuel keeps a result of `Parse`. -/
theorem Parse_fuel_le {n m : Nat} {p : Parser} {r : Option Expr × Parser} (hnm : n ≤ m)
    (h : Parse n p = some r) : Parse m p = some r := by
  unfold Parse at h ⊢
  split_ifs at h ⊢ with hi
  · split at h
    · cases h
    · rename_i hs
      rw [Statement_fuel_le hnm hs]
      exact h
  · split at h
    · cases h
    · rename_i hs
      rw [Expression_fuel_le hnm hs]
      exact h

/-- C2, as stated, fails: on the tokens `a b + c d EOF` the parser stops after
`a` (a unary send needs a `.`), reports that the end of file was not reached
and returns the null reference; with no amount of fuel does it return a tree. -/
theorem Parse_unary_spaces_fails :
    Parse 8 (freshParser tokensUnarySpaces) =
        some (none, ⟨tokensUnarySpaces.tail, true,
          ["Parser ended unexpectedly before reaching end of file."], false⟩) ∧
      ¬ ∃ n e q, Parse n (freshParser tokensUnarySpaces) = some (some e, q) := by
  have h8 : Parse 8 (freshParser tokensUnarySpaces) =
      some (none, ⟨tokensUnarySpaces.tail, true,
        ["Parser ended unexpectedly before reaching end of file."], false⟩) := rfl
  refine ⟨h8, ?_⟩
  rintro ⟨n, e, q, h⟩
  have h1 := Parse_fuel_le (Nat.le_max_left n 8) h
  have h2 := Parse_fuel_le (Nat.le_max_right n 8) h8
  rw [h1] at h2
  simp at h2

/-- C2, amended: with the `.` of a unary send written out, `a.b + c.d EOF`
parses, for every fuel from 10 on, to the binary `+` message whose receiver is
the unary send of `b` to `a` and whose single argument is the unary send of `d`
to `c`; no error is reported and only the `TOKEN_EOF` is left. -/
theorem Parse_unary_dots (n : Nat) :
    Parse (n + 10) (freshParser tokensUnaryDots) =
      some (some treeUnaryPlusUnary, freshParser [⟨TOKEN_EOF, "", 0⟩]) :=
  Parse_fuel_le (Nat.le_add_left 10 n) rfl

/-! ## Keyword sends (C3) -/

/-- A space in front of a run of spaces is a space behind it. -/
theorem space_spaces (count : Nat) : " " ++ spaces count = spaces count ++ " " := by
  induction count with
  | zero => rfl
  | succ count ih => rw [spaces, ← String.append_assoc, ih]

/-- The argument loop on a comma-separated list adds one space per argument to
the selector and the arguments, in order, to the list. -/
theorem ParseMessageArgs_args (args : List Expr) :
    ∀ (p q : Parser) (name : String) (acc : List Expr), ArgsFrom p args q →
      ∃ n, ∀ m, n ≤ m →
        ParseMessageArgs m p name acc = some (name ++ spaces args.length, acc ++ args, q) := by
  induction args with
  | nil => intro p q name acc h; exact h.elim
  | cons arg rest ih =>
    intro p q name acc h
    obtain ⟨k, p1, ha, hrest⟩ := h
    rcases hrest with ⟨rfl, hla, rfl⟩ | ⟨hla, hrest⟩
    · refine ⟨k + 1, fun m hm => ?_⟩
      obtain ⟨m, rfl⟩ : ∃ j, m = j + 1 := ⟨m - 1, by omega⟩
      rw [ParseMessageArgs, Assignment_fuel_le (by omega) ha]
      simp [not_LookAhead_match hla, spaces]
    · obtain ⟨n, hn⟩ := ih (Consume p1).2 q (name ++ " ") (acc ++ [arg]) hrest
      refine ⟨max k n + 1, fun m hm => ?_⟩
      obtain ⟨m, rfl⟩ : ∃ j, m = j + 1 := ⟨m - 1, by omega⟩
      rw [ParseMessageArgs, Assignment_fuel_le (by omega) ha]
      simp only [LookAhead_match hla, if_true]
      rw [hn m (by omega)]
      simp only [List.length_cons, spaces, List.append_assoc, List.singleton_append,
        String.append_assoc, space_spaces]

/-- The parts loop on the parts of one keyword send appends the selector of
the parts to the selector built so far, and their arguments to the list. -/
theorem ParseMessageParts_parts (parts : List (String × List Expr)) :
    ∀ (p q : Parser) (name : String) (acc : List Expr), PartsFrom p parts q →
      ∃ n, ∀ m, n ≤ m →
        ParseMessageParts m p name acc =
          some (name ++ keywordSelector parts, acc ++ keywordArgs parts, q) := by
  induction parts with
  | nil => intro p q name acc h; exact h.elim
  | cons part parts ih =>
    intro p q name acc h
    obtain ⟨pname, pargs⟩ := part
    obtain ⟨p1, ⟨_, hname, hpart⟩, hparts⟩ := h
    dsimp only at hname hpart
    -- what the loop does once the part is read
    have hcont : ∃ n, ∀ m, n ≤ m →
        (if (LookAhead2 p1 TOKEN_NAME TOKEN_LEFT_PAREN ||
            LookAhead2 p1 TOKEN_NAME TOKEN_LEFT_BRACE) = true then
          ParseMessageParts m p1 (name ++ pname ++ spaces pargs.length) (acc ++ pargs)
        else some (name ++ pname ++ spaces pargs.length, acc ++ pargs, p1)) =
        some (name ++ keywordSelector ((pname, pargs) :: parts),
          acc ++ keywordArgs ((pname, pargs) :: parts), q) := by
      rcases hparts with ⟨rfl, hla, rfl⟩ | ⟨hla, hparts⟩
      · refine ⟨0, fun m _ => ?_⟩
        simp [hla, keywordSelector, keywordArgs, String.append_assoc]
      · obtain ⟨n2, hn2⟩ :=
          ih p1 q (name ++ pname ++ spaces pargs.length) (acc ++ pargs) hparts
        refine ⟨n2, fun m hm => ?_⟩
        rw [if_pos hla, hn2 m hm]
        simp [keywordSelector, keywordArgs, String.append_assoc]
    obtain ⟨n2, hn2⟩ := hcont
    rcases hpart with ⟨hlb, k, block, hblock, rfl⟩ | ⟨hlp, q1, hargs, hrp, rfl⟩
    · refine ⟨max k n2 + 1, fun m hm => ?_⟩
      obtain ⟨m, rfl⟩ : ∃ j, m = j + 1 := ⟨m - 1, by omega⟩
      rw [ParseMessageParts, LookAhead_match hlb]
      simp only [if_true]
      rw [ParseBlock_fuel_le (by omega) hblock, hname]
      exact hn2 m (by omega)
    · obtain ⟨n1, hn1⟩ := ParseMessageArgs_args pargs _ q1 (name ++ pname) acc hargs
      refine ⟨max n1 n2 + 1, fun m hm => ?_⟩
      obtain ⟨m, rfl⟩ : ∃ j, m = j + 1 := ⟨m - 1, by omega⟩
      rw [ParseMessageParts, not_LookAhead_match (LookAhead_ne hlp (by decide))]
      simp only [Bool.false_eq_true, if_false]
      rw [LookAhead_consumeExpected _ hlp, hname, hn1 m (by omega)]
      simp only [LookAhead_consumeExpected _ hrp]
      exact hn2 m (by omega)

/-- C3. On a keyword send made of parts `name_i` with `a_i >= 1` arguments
each, `ParseMessage` returns, for every large enough fuel, one `MessageExpr`
on the given receiver whose selector is the concatenation of every name
followed by one space per argument and whose arguments are those of all parts
in source order. -/
theorem ParseMessage_keyword (p q : Parser) (receiver : Expr)
    (parts : List (String × List Expr)) (hparts : PartsFrom p parts q) :
    ∃ n, ∀ m, n ≤ m →
      ParseMessage m p receiver =
        some (MessageExpr receiver (keywordSelector parts) (keywordArgs parts), q) := by
  obtain ⟨n, hn⟩ := ParseMessageParts_parts parts p q "" [] hparts
  refine ⟨n + 1, fun m hm => ?_⟩
  obtain ⟨m, rfl⟩ : ∃ j, m = j + 1 := ⟨m - 1, by omega⟩
  rw [ParseMessage, hn m (by omega)]
  simp

/-- C3, at the keyword part of `x.foo(1) bar(2)`: the selector is `"foo bar "`
and the arguments are `[1, 2]`. -/
theorem ParseMessage_keyword_witness :
    ∃ n, ∀ m, n ≤ m →
      ParseMessage m (freshParser tokensFooBar) (NameExpr "x") =
        some (MessageExpr (NameExpr "x") "foo bar " [NumberExpr 1, NumberExpr 2],
          freshParser []) :=
  ParseMessage_keyword (freshParser tokensFooBar) (freshParser []) (NameExpr "x")
    [("foo", [NumberExpr 1]), ("bar", [NumberExpr 2])]
    ⟨_, ⟨rfl, rfl, Or.inr ⟨rfl, _, ⟨5, _, rfl, Or.inl ⟨rfl, rfl, rfl⟩⟩, rfl, rfl⟩⟩,
      Or.inr ⟨rfl, _, ⟨rfl, rfl, Or.inr ⟨rfl, _, ⟨5, _, rfl, Or.inl ⟨rfl, rfl, rfl⟩⟩, rfl, rfl⟩⟩,
        Or.inl ⟨rfl, rfl, rfl⟩⟩⟩

/-! ## Field definitions (C4) -/

/-- C4. For an entry `NAME = value` whose value `Assignment` parses to `body`:
when NAME does not begin with an underscore, `ParseDefine` adds exactly two
entries, the method NAME whose value is the parameterless block returning the
name expression `_NAME`, then the field `_NAME` holding the value; when NAME
begins with an underscore it adds exactly one entry, the field NAME holding the
value. Nothing else changes in the list of definitions. -/
theorem ParseDefine_field (n : Nat) (p p1 : Parser) (defs : List Definition) (body : Expr)
    (hentry : LookAhead2 p TOKEN_NAME TOKEN_EQ = true)
    (hvalue : Assignment n (Consume (Consume p).2).2 = some (body, p1)) :
    ((Consume p).1.text.data.head? ≠ some '_' →
        ParseDefine (n + 1) p defs =
          some (defs ++ [(true, (Consume p).1.text,
              BlockExpr [] (NameExpr ("_" ++ (Consume p).1.text))),
            (false, "_" ++ (Consume p).1.text, body)], p1)) ∧
      ((Consume p).1.text.data.head? = some '_' →
        ParseDefine (n + 1) p defs = some (defs ++ [(false, (Consume p).1.text, body)], p1)) := by
  constructor
  · intro hname
    have hfield : IsField (Consume p).1.text = false := by
      unfold IsField
      cases hd : (Consume p).1.text.data with
      | nil => rfl
      | cons c cs =>
        rw [hd] at hname
        simpa using hname
    rw [ParseDefine, if_pos hentry]
    simp only [hvalue, hfield, if_true, List.append_assoc, List.singleton_append]
  · intro hname
    have hfield : IsField (Consume p).1.text = true := by
      unfold IsField
      cases hd : (Consume p).1.text.data with
      | nil => rw [hd] at hname; simp at hname
      | cons c cs =>
        rw [hd] at hname
        simpa using hname
    rw [ParseDefine, if_pos hentry]
    simp only [hvalue, hfield, Bool.true_eq_false, if_false]

/-- C4, at `x = 0`: the accessor `x` returning `_x`, then the field `_x`. -/
theorem ParseDefine_field_witness :
    ParseDefine 6 (freshParser tokensDefineX) [] =
      some ([(true, "x", BlockExpr [] (NameExpr "_x")), (false, "_x", NumberExpr 0)],
        freshParser [⟨TOKEN_RIGHT_BRACE, "\x7d", 0⟩]) :=
  (ParseDefine_field 5 (freshParser tokensDefineX) (freshParser [⟨TOKEN_RIGHT_BRACE, "\x7d", 0⟩])
    [] (NumberExpr 0) rfl rfl).1 (by decide)

/-! ## One trailing `;` (C5) -/

theorem NoSemicolonBefore.later {suf : List Token} {p q : Parser}
    (h : NoSemicolonBefore suf p) (e : Evolves p q) : NoSemicolonBefore suf q := by
  intro X t hq
  obtain ⟨Y, hY⟩ := e.tokens
  exact h (Y ++ X) t (by rw [← hY, hq, List.append_assoc])

/-- A state whose unread tokens are exactly `suf`, a closer first, shows a
closer to the checks at the end of a round of `Sequence`. -/
theorem closerHead_cases {suf : List Token} (hsuf : closerHead suf) {q : Parser}
    (hq : q.tokens = suf) :
    LookAhead q TOKEN_RIGHT_PAREN = true ∨ LookAhead q TOKEN_RIGHT_BRACKET = true ∨
      LookAhead q TOKEN_RIGHT_BRACE = true ∨ LookAhead q TOKEN_EOF = true := by
  rw [closers_lookAhead]
  obtain ⟨ts, e, es, i⟩ := q
  simp only at hq
  subst hq
  exact hsuf

theorem Good.strict_of_not_closer {suf : List Token} (hsuf : closerHead suf) {q : Parser}
    (h : Good suf q)
    (hno : ¬(LookAhead q TOKEN_RIGHT_PAREN = true ∨ LookAhead q TOKEN_RIGHT_BRACKET = true ∨
      LookAhead q TOKEN_RIGHT_BRACE = true ∨ LookAhead q TOKEN_EOF = true)) :
    Strict suf q := by
  refine ⟨h.clean, h.suffix, ?_⟩
  obtain ⟨X, hX⟩ := h.suffix
  cases X with
  | nil => exact (hno (closerHead_cases hsuf hX.symm)).elim
  | cons t X => rw [← hX]; simp only [List.cons_append, List.length_cons, List.length_append]; omega

theorem insertBefore_boundary {semi : Token} {suf : List Token} {q : Parser}
    (hq : q.tokens = suf) :
    insertBefore semi suf q = { q with tokens := semi :: suf } := by
  obtain ⟨ts, e, es, i⟩ := q
  simp only at hq
  subst hq
  simp [insertBefore]

/-- The loop of `Sequence` on a stream with one `;` inserted in front of the
closer it stops at: the `;` is consumed, and the loop ends in the same state
with the same statements. -/
theorem SequenceLoop_insert (semi : Token) (suf : List Token)
    (hsemi : semi.type = TOKEN_SEMICOLON) (hsuf : closerHead suf) (n : Nat) :
    ∀ p exprs e q, SequenceLoop n p exprs = some (e, q) → q.tokens = suf →
      q.hadError = false → NoSemicolonBefore suf p →
      SequenceLoop n (insertBefore semi suf p) exprs = some (e, q) := by
  induction n with
  | zero => intro p exprs e q h; simp [SequenceLoop] at h
  | succ n ih =>
    intro p exprs e q h hq herr hno
    have hg : Good suf q := ⟨herr, by rw [hq]⟩
    have ins := insertAll semi suf hsemi hsuf n
    have ev := evolvesAll n
    rw [SequenceLoop] at h ⊢
    split at h
    · cases h
    rename_i expr p1 hs
    have e1 := ev.statement _ _ _ hs
    by_cases hm : (Match p1 TOKEN_SEMICOLON).1 = false
    · -- no `;` in the original: the inserted one is consumed and a closer follows
      rw [if_pos hm] at h
      simp only [Option.some.injEq, Prod.mk.injEq] at h
      obtain ⟨rfl, rfl⟩ := h
      rw [ins.statement _ _ _ hs hg]
      simp only
      have hb : insertBefore semi suf p1 = { p1 with tokens := semi :: suf } :=
        insertBefore_boundary hq
      have hmm : Match (insertBefore semi suf p1) TOKEN_SEMICOLON = (true, p1) := by
        rw [hb]
        obtain ⟨ts, e, es, i⟩ := p1
        simp only at hq
        subst hq
        simp [Match, LookAhead, peekType, hsemi, Consume]
      rw [hmm]
      simp only [Bool.true_eq_false, if_false]
      rcases closerHead_cases hsuf hq with h1 | h1 | h1 | h1
      · simp [h1]
      · simp [h1]
      · simp [h1]
      · simp [h1]
    · rw [if_neg hm] at h
      simp only at h
      have hm1 : (Match p1 TOKEN_SEMICOLON).1 = true := by simpa using hm
      have hla : LookAhead p1 TOKEN_SEMICOLON = true := by
        by_contra hc
        rw [not_LookAhead_match (by simpa using hc)] at hm1
        simp at hm1
      by_cases hc : LookAhead (Match p1 TOKEN_SEMICOLON).2 TOKEN_RIGHT_PAREN = true ∨
          LookAhead (Match p1 TOKEN_SEMICOLON).2 TOKEN_RIGHT_BRACKET = true ∨
          LookAhead (Match p1 TOKEN_SEMICOLON).2 TOKEN_RIGHT_BRACE = true ∨
          LookAhead (Match p1 TOKEN_SEMICOLON).2 TOKEN_EOF = true
      · -- the original ends just after a `;`: excluded
        exfalso
        have hq2 : q = (Match p1 TOKEN_SEMICOLON).2 := by
          split_ifs at h with a b c d
          all_goals first
            | (simp only [Option.some.injEq, Prod.mk.injEq] at h; exact h.2.symm)
            | (exfalso; rcases hc with hc | hc | hc | hc <;> contradiction)
        rw [LookAhead_match hla] at hq2
        obtain ⟨ts, e', es, i⟩ := p1
        cases ts with
        | nil => simp [LookAhead, peekType] at hla
        | cons t ts =>
          have ht : t.type = TOKEN_SEMICOLON := by simpa [LookAhead, peekType] using hla
          subst hq2
          simp only [Consume] at hq
          exact (hno.later e1) [] t (by simp [hq]) ht
      · have hc1 : ¬LookAhead (Match p1 TOKEN_SEMICOLON).2 TOKEN_RIGHT_PAREN = true :=
          fun a => hc (Or.inl a)
        have hc2 : ¬LookAhead (Match p1 TOKEN_SEMICOLON).2 TOKEN_RIGHT_BRACKET = true :=
          fun a => hc (Or.inr (Or.inl a))
        have hc3 : ¬LookAhead (Match p1 TOKEN_SEMICOLON).2 TOKEN_RIGHT_BRACE = true :=
          fun a => hc (Or.inr (Or.inr (Or.inl a)))
        have hc4 : ¬LookAhead (Match p1 TOKEN_SEMICOLON).2 TOKEN_EOF = true :=
          fun a => hc (Or.inr (Or.inr (Or.inr a)))
        rw [if_neg hc1, if_neg hc2, if_neg hc3, if_neg hc4] at h
        have e2 := ev.sequenceLoop _ _ _ _ h
        have g2 : Good suf (Match p1 TOKEN_SEMICOLON).2 := hg.of_evolves e2
        have s2 : Strict suf (Match p1 TOKEN_SEMICOLON).2 := g2.strict_of_not_closer hsuf hc
        have s1 : Strict suf p1 := s2.of_later ((Evolves.refl _).matchStep _)
        rw [ins.statement _ _ _ hs s1.good]
        simp only
        rw [Match_insertBefore_strict _ s1]
        simp only
        rw [if_neg hm, LookAhead_insertBefore_strict _ s2, LookAhead_insertBefore_strict _ s2,
          LookAhead_insertBefore_strict _ s2, LookAhead_insertBefore_strict _ s2,
          if_neg hc1, if_neg hc2, if_neg hc3, if_neg hc4]
        exact ih _ _ _ _ h hq herr
          ((hno.later e1).later ((Evolves.refl _).matchStep _))

/-- Where `Sequence` stops, no `;` is next: it consumes every `;` that follows a
statement. -/
theorem SequenceLoop_no_semicolon (n : Nat) :
    ∀ p exprs e q, SequenceLoop n p exprs = some (e, q) →
      LookAhead q TOKEN_SEMICOLON = false := by
  induction n with
  | zero => intro p exprs e q h; simp [SequenceLoop] at h
  | succ n ih =>
    intro p exprs e q h
    rw [SequenceLoop] at h
    split at h
    · cases h
    rename_i expr p1 hs
    split_ifs at h with hm
    · simp only [Option.some.injEq, Prod.mk.injEq] at h
      obtain ⟨-, rfl⟩ := h
      by_contra hc
      rw [LookAhead_match (by simpa using hc)] at hm
      simp at hm
    · simp only at h
      split_ifs at h with h1 h2 h3 h4
      · simp only [Option.some.injEq, Prod.mk.injEq] at h
        obtain ⟨-, rfl⟩ := h
        exact LookAhead_ne h1 (by decide)
      · simp only [Option.some.injEq, Prod.mk.injEq] at h
        obtain ⟨-, rfl⟩ := h
        exact LookAhead_ne h2 (by decide)
      · simp only [Option.some.injEq, Prod.mk.injEq] at h
        obtain ⟨-, rfl⟩ := h
        exact LookAhead_ne h3 (by decide)
      · simp only [Option.some.injEq, Prod.mk.injEq] at h
        obtain ⟨-, rfl⟩ := h
        exact LookAhead_ne h4 (by decide)
      · exact ih _ _ _ _ h

/-- One `;` inserted in front of the closer at which `Sequence` stops is
consumed by `Sequence`; the tree and the final state are unchanged. -/
theorem Sequence_insert (semi : Token) (suf : List Token)
    (hsemi : semi.type = TOKEN_SEMICOLON) (hsuf : closerHead suf) (n : Nat)
    (p : Parser) (e : Expr) (q : Parser) (h : Sequence n p = some (e, q))
    (hq : q.tokens = suf) (herr : q.hadError = false) (hno : NoSemicolonBefore suf p) :
    Sequence n (insertBefore semi suf p) = some (e, q) := by
  cases n with
  | zero => simp [Sequence] at h
  | succ n =>
    rw [Sequence] at h ⊢
    exact SequenceLoop_insert semi suf hsemi hsuf n _ _ _ _ h hq herr hno

theorem Sequence_no_semicolon (n : Nat) (p : Parser) (e : Expr) (q : Parser)
    (h : Sequence n p = some (e, q)) : LookAhead q TOKEN_SEMICOLON = false := by
  cases n with
  | zero => simp [Sequence] at h
  | succ n =>
    rw [Sequence] at h
    exact SequenceLoop_no_semicolon n _ _ _ _ h

theorem noSemicolonBefore_mk (pre suf : List Token) (e : Bool) (es : List String) (i : Bool)
    (hlast : ∀ t ∈ pre.getLast?, t.type ≠ TOKEN_SEMICOLON) :
    NoSemicolonBefore suf ⟨pre ++ suf, e, es, i⟩ := by
  intro X t hX
  simp only at hX
  have hX2 : pre ++ suf = (X ++ [t]) ++ suf := by rw [hX]; simp
  have hpre : pre = X ++ [t] := List.append_cancel_right hX2
  apply hlast
  rw [hpre]
  simp

/-- `Expression` on a stream with one `;` inserted in front of the closer it
stops at. -/
theorem Expression_insert (semi : Token) (suf : List Token)
    (hsemi : semi.type = TOKEN_SEMICOLON) (hsuf : closerHead suf) (n : Nat)
    (p : Parser) (e : Expr) (q : Parser) (h : Expression n p = some (e, q))
    (hq : q.tokens = suf) (herr : q.hadError = false) (hno : NoSemicolonBefore suf p) :
    Expression n (insertBefore semi suf p) = some (e, q) := by
  cases n with
  | zero => simp [Expression] at h
  | succ n =>
    rw [Expression] at h ⊢
    split at h
    · cases h
    rename_i expr p1 hs
    have hns := Sequence_no_semicolon n _ _ _ hs
    rw [not_LookAhead_match hns] at h
    simp only [Option.some.injEq, Prod.mk.injEq] at h
    obtain ⟨rfl, rfl⟩ := h
    rw [Sequence_insert semi suf hsemi hsuf n _ _ _ hs hq herr hno]
    simp only
    rw [not_LookAhead_match hns]

/-- The same at the entry point, in file mode: when `Parse` returns a tree and
stops with `suf` unread, one `;` inserted in front of `suf` changes nothing. -/
theorem Parse_insert_semicolon (n : Nat) (pre suf : List Token) (semi : Token)
    (es : List String) (tree : Expr) (q : Parser)
    (hsemi : semi.type = TOKEN_SEMICOLON)
    (hlast : ∀ t ∈ pre.getLast?, t.type ≠ TOKEN_SEMICOLON) (hq : q.tokens = suf)
    (h : Parse n ⟨pre ++ suf, false, es, false⟩ = some (some tree, q)) :
    Parse n ⟨pre ++ semi :: suf, false, es, false⟩ = some (some tree, q) := by
  unfold Parse at h ⊢
  simp only [IsInfinite, Bool.false_eq_true, if_false] at h ⊢
  split at h
  · cases h
  rename_i expr p1 hs
  by_cases hla : LookAhead p1 TOKEN_EOF = true
  · have hex : Expect p1 TOKEN_EOF
        "Parser ended unexpectedly before reaching end of file." = p1 := by
      simp [Expect, hla]
    rw [hex] at h
    split_ifs at h with herr
    · simp at h
    simp only [Option.some.injEq, Prod.mk.injEq] at h
    obtain ⟨rfl, rfl⟩ := h
    have hsuf : closerHead suf := by
      obtain ⟨ts, e, es1, i⟩ := p1
      simp only at hq
      subst hq
      have := (closers_lookAhead ⟨ts, e, es1, i⟩).mp (Or.inr (Or.inr (Or.inr hla)))
      exact this
    have hins := Expression_insert semi suf hsemi hsuf n _ _ _ hs hq
      (by simpa [HadError] using herr) (noSemicolonBefore_mk pre suf false es false hlast)
    rw [insertBefore_mk] at hins
    rw [hins]
    simp only [hex, herr, if_false, Bool.false_eq_true]
  · exfalso
    have hex : HadError (Expect p1 TOKEN_EOF
        "Parser ended unexpectedly before reaching end of file.") = true := by
      simp [Expect, hla, HadError, Error]
    rw [hex] at h
    simp at h

/-! ## A `;` that is not discarded (C5) -/

theorem LookAhead2_of_ne {p : Parser} {a b : TokenType} (c : TokenType)
    (ha : LookAhead p a = true) (hab : a ≠ b) : LookAhead2 p b c = false := by
  have := LookAhead_ne ha hab
  simp only [LookAhead, decide_eq_false_iff_not] at this
  simp [LookAhead2, this]

/-- Where a statement is expected and a `;` comes next, `Statement` consumes
nothing, reports "Unexpected token." and returns the placeholder. -/
theorem Statement_at_semicolon (p : Parser) (h : LookAhead p TOKEN_SEMICOLON = true) :
    ∀ m, 5 ≤ m →
      Statement m p = some (StringExpr "ERROR", Error p "Unexpected token.") := by
  intro m hm
  obtain ⟨j, rfl⟩ : ∃ j, m = j + 1 + 1 + 1 + 1 + 1 := ⟨m - 5, by omega⟩
  have hk : ∀ type, TOKEN_SEMICOLON ≠ type → LookAhead p type = false := fun type hty =>
    LookAhead_ne h hty
  have hk2 : ∀ type, TOKEN_SEMICOLON ≠ type →
      LookAhead (Error p "Unexpected token.") type = false := fun type hty => hk type hty
  have h2 : ∀ a b, TOKEN_SEMICOLON ≠ a → LookAhead2 p a b = false := fun a b ha =>
    LookAhead2_of_ne b h ha
  have hprimary : Primary (j + 1) p = some (StringExpr "ERROR", Error p "Unexpected token.") := by
    rw [Primary]
    simp only [hk TOKEN_NAME (by decide), hk TOKEN_NUMBER (by decide),
      hk TOKEN_STRING (by decide), not_LookAhead_match (hk TOKEN_SELF (by decide)),
      not_LookAhead_match (hk TOKEN_LEFT_PAREN (by decide)),
      not_LookAhead_match (hk TOKEN_OBJ (by decide)),
      not_LookAhead_match (hk TOKEN_LEFT_BRACKET (by decide)),
      not_LookAhead_match (hk TOKEN_LEFT_BRACE (by decide)),
      Bool.false_eq_true, if_false]
  have hmessage : Message (j + 1 + 1) p =
      some (StringExpr "ERROR", Error p "Unexpected token.") := by
    rw [Message, h2 _ _ (by decide), h2 _ _ (by decide)]
    simp only [Bool.or_self, Bool.false_eq_true, if_false, hprimary]
    rw [MessageLoop]
    simp only [not_LookAhead_match (hk2 TOKEN_DOT (by decide)), Bool.false_eq_true, if_false]
  have hoperator : Operator (j + 1 + 1 + 1) p =
      some (StringExpr "ERROR", Error p "Unexpected token.") := by
    rw [Operator, hmessage]
    simp only
    rw [OperatorLoop]
    simp only [hk2 TOKEN_OPERATOR (by decide), Bool.false_eq_true, if_false]
  have hassignment : Assignment (j + 1 + 1 + 1 + 1) p =
      some (StringExpr "ERROR", Error p "Unexpected token.") := by
    rw [Assignment, h2 _ _ (by decide)]
    simp only [Bool.false_eq_true, if_false, hoperator]
  rw [Statement]
  simp only [not_LookAhead_match (hk TOKEN_DEF (by decide)),
    h2 TOKEN_OBJ TOKEN_NAME (by decide), not_LookAhead_match (hk TOKEN_VAR (by decide)),
    not_LookAhead_match (hk TOKEN_RETURN (by decide)), Bool.false_eq_true, if_false,
    hassignment]

/-- A statement followed by two `;`: the loop of `Sequence` takes the first as
the separator, records the placeholder for the second, takes the second as the
next separator and stops there in front of a closer or goes on behind it. -/
theorem SequenceLoop_two_semicolons (k : Nat) (p p1 : Parser) (s1 : Expr)
    (hs : Statement k p = some (s1, p1)) (h1 : LookAhead p1 TOKEN_SEMICOLON = true)
    (h2 : LookAhead (Consume p1).2 TOKEN_SEMICOLON = true) (m : Nat) (exprs : List Expr)
    (hk : k ≤ m) (hm : 5 ≤ m) :
    SequenceLoop (m + 2) p exprs =
      if atCloser (afterTwoSemicolons p1) then
        some (finishSequence (exprs ++ [s1] ++ [StringExpr "ERROR"]), afterTwoSemicolons p1)
      else
        SequenceLoop m (afterTwoSemicolons p1) (exprs ++ [s1] ++ [StringExpr "ERROR"]) := by
  unfold atCloser afterTwoSemicolons
  have hno : ∀ type, TOKEN_SEMICOLON ≠ type → LookAhead (Consume p1).2 type = false :=
    fun type hty => LookAhead_ne h2 hty
  have h3 : LookAhead (Error (Consume p1).2 "Unexpected token.") TOKEN_SEMICOLON = true := h2
  rw [SequenceLoop, Statement_fuel_le (show k ≤ m + 1 by omega) hs]
  simp only [LookAhead_match h1, Bool.true_eq_false, if_false, hno TOKEN_RIGHT_PAREN (by decide),
    hno TOKEN_RIGHT_BRACKET (by decide), hno TOKEN_RIGHT_BRACE (by decide),
    hno TOKEN_EOF (by decide), Bool.false_eq_true]
  rw [SequenceLoop, Statement_at_semicolon _ h2 m hm]
  simp only [LookAhead_match h3, Bool.true_eq_false, if_false]
  by_cases c1 : LookAhead (Consume (Error (Consume p1).2 "Unexpected token.")).2
      TOKEN_RIGHT_PAREN = true
  · simp [c1]
  by_cases c2 : LookAhead (Consume (Error (Consume p1).2 "Unexpected token.")).2
      TOKEN_RIGHT_BRACKET = true
  · simp [c1, c2]
  by_cases c3 : LookAhead (Consume (Error (Consume p1).2 "Unexpected token.")).2
      TOKEN_RIGHT_BRACE = true
  · simp [c1, c2, c3]
  by_cases c4 : LookAhead (Consume (Error (Consume p1).2 "Unexpected token.")).2
      TOKEN_EOF = true
  · simp [c1, c2, c3, c4]
  · simp [c1, c2, c3, c4]

theorem Consume_hadError (p : Parser) : (Consume p).2.hadError = p.hadError := by
  obtain ⟨ts, e, es, i⟩ := p
  cases ts <;> rfl

/-- A statement followed by two `;`: every result of the loop of `Sequence`
carries the error flag. -/
theorem SequenceLoop_two_semicolons_error (k : Nat) (p p1 : Parser) (s1 : Expr)
    (hs : Statement k p = some (s1, p1)) (h1 : LookAhead p1 TOKEN_SEMICOLON = true)
    (h2 : LookAhead (Consume p1).2 TOKEN_SEMICOLON = true) (j : Nat) (exprs : List Expr)
    (e : Expr) (q : Parser) (h : SequenceLoop j p exprs = some (e, q)) :
    q.hadError = true := by
  have hflag : (Consume (Error (Consume p1).2 "Unexpected token.")).2.hadError = true := by
    rw [Consume_hadError]
    rfl
  have hbig : SequenceLoop (max j (max k 5) + 2) p exprs = some (e, q) :=
    fuel_le (fun n => SequenceLoop n p exprs) (fun n r => (fuelMono n).sequenceLoop p exprs r)
      (by omega) h
  rw [SequenceLoop_two_semicolons k p p1 s1 hs h1 h2 _ exprs (by omega) (by omega)] at hbig
  unfold afterTwoSemicolons at hbig
  split_ifs at hbig
  · cases hbig
    exact hflag
  · exact ((evolvesAll _).sequenceLoop _ _ _ _ hbig).hadError hflag

/-- A `;` in front of the `)` of a parenthesised expression: `Primary` parses
the inside with `Assignment`, reports the missing `)` and consumes the `;` in
its place. -/
theorem Primary_paren_semicolon (k : Nat) (p p1 : Parser) (e : Expr)
    (hp : LookAhead p TOKEN_LEFT_PAREN = true)
    (ha : Assignment k (Consume p).2 = some (e, p1))
    (h1 : LookAhead p1 TOKEN_SEMICOLON = true) (m : Nat) (hm : k < m) :
    Primary m p = some (e, (Consume (Error p1 "Expect closing ')'.")).2) := by
  obtain ⟨m, rfl⟩ : ∃ j, m = j + 1 := ⟨m - 1, by omega⟩
  have hk : ∀ type, TOKEN_LEFT_PAREN ≠ type → LookAhead p type = false := fun type hty =>
    LookAhead_ne hp hty
  rw [Primary]
  simp only [hk TOKEN_NAME (by decide), hk TOKEN_NUMBER (by decide),
    hk TOKEN_STRING (by decide), not_LookAhead_match (hk TOKEN_SELF (by decide)),
    LookAhead_match hp, Bool.false_eq_true, if_false, if_true,
    Assignment_fuel_le (show k ≤ m by omega) ha]
  simp only [ConsumeExpected, LookAhead_ne h1 (show TOKEN_SEMICOLON ≠ TOKEN_RIGHT_PAREN by decide),
    Bool.false_eq_true, if_false]

/-- A statement followed by two `;`, in file mode: `Parse` never returns a
tree. -/
theorem Parse_two_semicolons_absent (k : Nat) (p p1 : Parser) (s1 : Expr)
    (hs : Statement k p = some (s1, p1)) (h1 : LookAhead p1 TOKEN_SEMICOLON = true)
    (h2 : LookAhead (Consume p1).2 TOKEN_SEMICOLON = true) (hmode : IsInfinite p = false)
    (j : Nat) (r : Option Expr) (q : Parser) (h : Parse j p = some (r, q)) : r = none := by
  unfold Parse at h
  rw [hmode] at h
  simp only [Bool.false_eq_true, if_false] at h
  split at h
  · cases h
  · rename_i e pe he
    have hflag : pe.hadError = true := by
      cases j with
      | zero => simp [Expression] at he
      | succ j =>
        rw [Expression] at he
        split at he
        · cases he
        · rename_i e0 q0 hseq
          cases he
          have hq0 : q0.hadError = true := by
            cases j with
            | zero => simp [Sequence] at hseq
            | succ j =>
              rw [Sequence] at hseq
              exact SequenceLoop_two_semicolons_error k p p1 s1 hs h1 h2 j [] _ _ hseq
          exact ((Evolves.refl q0).matchStep TOKEN_SEMICOLON).hadError hq0
    have herr : HadError (Expect pe TOKEN_EOF
        "Parser ended unexpectedly before reaching end of file.") = true :=
      ((Evolves.refl pe).expect _ _).hadError hflag
    simp only [herr, if_true, Option.some.injEq, Prod.mk.injEq] at h
    exact h.1.symm

/-- A statement followed by two `;`, in file mode: once the loop of `Sequence`
returns from behind the second `;`, `Parse` returns the null reference. -/
theorem Parse_two_semicolons (k : Nat) (p p1 : Parser) (s1 : Expr)
    (hs : Statement k p = some (s1, p1)) (h1 : LookAhead p1 TOKEN_SEMICOLON = true)
    (h2 : LookAhead (Consume p1).2 TOKEN_SEMICOLON = true) (hmode : IsInfinite p = false)
    (k2 : Nat) (e : Expr) (q : Parser)
    (hrest : (if atCloser (afterTwoSemicolons p1) then
        some (finishSequence [s1, StringExpr "ERROR"], afterTwoSemicolons p1)
      else SequenceLoop k2 (afterTwoSemicolons p1) [s1, StringExpr "ERROR"]) = some (e, q))
    (m : Nat) (hk : k ≤ m) (hm : 5 ≤ m) (hk2 : k2 ≤ m) :
    Parse (m + 4) p = some (none, Expect (Match q TOKEN_SEMICOLON).2 TOKEN_EOF
      "Parser ended unexpectedly before reaching end of file.") := by
  have hloop : SequenceLoop (m + 2) p [] = some (e, q) := by
    rw [SequenceLoop_two_semicolons k p p1 s1 hs h1 h2 m [] hk hm]
    split_ifs at hrest ⊢
    · exact hrest
    · exact fuel_le (fun n => SequenceLoop n (afterTwoSemicolons p1) [s1, StringExpr "ERROR"])
        (fun n r => (fuelMono n).sequenceLoop _ _ r) hk2 hrest
  have hq : q.hadError = true :=
    SequenceLoop_two_semicolons_error k p p1 s1 hs h1 h2 _ [] e q hloop
  have herr : HadError (Expect (Match q TOKEN_SEMICOLON).2 TOKEN_EOF
      "Parser ended unexpectedly before reaching end of file.") = true :=
    (((Evolves.refl q).matchStep TOKEN_SEMICOLON).expect _ _).hadError hq
  unfold Parse
  rw [hmode]
  simp only [Bool.false_eq_true, if_false, Expression, Sequence, hloop, herr, if_true]

/-- C5, amended. (1) Exactly one `TOKEN_SEMICOLON` in front of a closer is
discarded: when `Expression` parses the tokens `pre` without error and stops
with exactly `suf` unread, where `suf` begins with `)`, `]`, the closing brace
or `TOKEN_EOF` (or is empty) and `pre` does not end with a `;`, then with one
`;` inserted between `pre` and `suf` it returns the same tree and ends in the
same state. (2) A further `;` is not skipped but parsed as a statement: where a
`;` comes next, `Statement` consumes nothing, reports "Unexpected token." and
returns the placeholder. (3) So when the statement that the loop of `Sequence`
parses at `p` is followed by two `;`, the loop takes the first as the
separator, records the placeholder, takes the second as the next separator and
stops there in front of a closer or goes on behind it; every result the loop
returns from `p` carries the error flag; in file mode `Parse` from `p` never
returns a tree, and it returns the null reference as soon as the loop returns
from behind the second `;`. (4) A `;` in front of the `)` of a parenthesised
expression is an error too: `Primary` parses the inside with `Assignment`, and
when that stops in front of a `;` it reports "Expect closing ')'.", consumes
the `;` in place of the `)` and ends with the error flag raised. -/
theorem Expression_trailing_semicolon :
    (∀ (n : Nat) (pre suf : List Token) (semi : Token) (es : List String) (i : Bool)
        (tree : Expr) (q : Parser),
        semi.type = TOKEN_SEMICOLON → closerHead suf →
        (∀ t ∈ pre.getLast?, t.type ≠ TOKEN_SEMICOLON) →
        q.tokens = suf → q.hadError = false →
        Expression n ⟨pre ++ suf, false, es, i⟩ = some (tree, q) →
        Expression n ⟨pre ++ semi :: suf, false, es, i⟩ = some (tree, q)) ∧
      (∀ (p : Parser) (m : Nat), LookAhead p TOKEN_SEMICOLON = true → 5 ≤ m →
        Statement m p = some (StringExpr "ERROR", Error p "Unexpected token.")) ∧
      (∀ (k : Nat) (p p1 : Parser) (s1 : Expr), Statement k p = some (s1, p1) →
        LookAhead p1 TOKEN_SEMICOLON = true →
        LookAhead (Consume p1).2 TOKEN_SEMICOLON = true →
        (∀ (m : Nat) (exprs : List Expr), k ≤ m → 5 ≤ m →
          SequenceLoop (m + 2) p exprs =
            if atCloser (afterTwoSemicolons p1) then
              some (finishSequence (exprs ++ [s1] ++ [StringExpr "ERROR"]),
                afterTwoSemicolons p1)
            else
              SequenceLoop m (afterTwoSemicolons p1)
                (exprs ++ [s1] ++ [StringExpr "ERROR"])) ∧
        (∀ (j : Nat) (exprs : List Expr) (e : Expr) (q : Parser),
          SequenceLoop j p exprs = some (e, q) → q.hadError = true) ∧
        (IsInfinite p = false →
          (∀ (j : Nat) (r : Option Expr) (q : Parser), Parse j p = some (r, q) → r = none) ∧
          ∀ (k2 : Nat) (e : Expr) (q : Parser),
            (if atCloser (afterTwoSemicolons p1) then
              some (finishSequence [s1, StringExpr "ERROR"], afterTwoSemicolons p1)
            else SequenceLoop k2 (afterTwoSemicolons p1) [s1, StringExpr "ERROR"]) =
              some (e, q) →
            ∀ m, k ≤ m → 5 ≤ m → k2 ≤ m →
              Parse (m + 4) p = some (none, Expect (Match q TOKEN_SEMICOLON).2 TOKEN_EOF
                "Parser ended unexpectedly before reaching end of file."))) ∧
      (∀ (k : Nat) (p p1 : Parser) (e : Expr), LookAhead p TOKEN_LEFT_PAREN = true →
        Assignment k (Consume p).2 = some (e, p1) → LookAhead p1 TOKEN_SEMICOLON = true →
        ∀ m, k < m →
          Primary m p = some (e, (Consume (Error p1 "Expect closing ')'.")).2) ∧
            (Consume (Error p1 "Expect closing ')'.")).2.hadError = true) := by
  refine ⟨?_, ?_, ?_, ?_⟩
  · intro n pre suf semi es i tree q hsemi hsuf hlast hq herr h
    have := Expression_insert semi suf hsemi hsuf n _ _ _ h hq herr
      (noSemicolonBefore_mk pre suf false es i hlast)
    rwa [insertBefore_mk] at this
  · intro p m h hm
    exact Statement_at_semicolon p h m hm
  · intro k p p1 s1 hs h1 h2
    refine ⟨fun m exprs hk hm => SequenceLoop_two_semicolons k p p1 s1 hs h1 h2 m exprs hk hm,
      fun j exprs e q h => SequenceLoop_two_semicolons_error k p p1 s1 hs h1 h2 j exprs e q h,
      fun hmode => ⟨fun j r q h => Parse_two_semicolons_absent k p p1 s1 hs h1 h2 hmode j r q h,
        fun k2 e q hrest m hk hm hk2 =>
          Parse_two_semicolons k p p1 s1 hs h1 h2 hmode k2 e q hrest m hk hm hk2⟩⟩
  · intro k p p1 e hp ha h1 m hm
    refine ⟨Primary_paren_semicolon k p p1 e hp ha h1 m hm, ?_⟩
    rw [Consume_hadError]
    rfl

/-- C5, at `a ; b` with one `;` inserted in front of `TOKEN_EOF`: the same
sequence of `a` and `b`, the same final state. -/
theorem Expression_trailing_semicolon_witness :
    Expression 9 ⟨[⟨TOKEN_NAME, "a", 0⟩, ⟨TOKEN_SEMICOLON, ";", 0⟩, ⟨TOKEN_NAME, "b", 0⟩] ++
        ⟨TOKEN_SEMICOLON, ";", 0⟩ :: [⟨TOKEN_EOF, "", 0⟩], false, [], false⟩ =
      some (SequenceExpr [NameExpr "a", NameExpr "b"], freshParser [⟨TOKEN_EOF, "", 0⟩]) :=
  Expression_trailing_semicolon.1 9
    [⟨TOKEN_NAME, "a", 0⟩, ⟨TOKEN_SEMICOLON, ";", 0⟩, ⟨TOKEN_NAME, "b", 0⟩]
    [⟨TOKEN_EOF, "", 0⟩] ⟨TOKEN_SEMICOLON, ";", 0⟩ [] false
    (SequenceExpr [NameExpr "a", NameExpr "b"]) (freshParser [⟨TOKEN_EOF, "", 0⟩])
    rfl (by simp [closerHead, peekType, closers]) (by decide) rfl rfl rfl

/-- C5, as stated, fails. In file mode `a ; b` parses to the sequence of `a`
and `b`, but with a second `;` between the statements, with two `;` before the
end of the file, or with a `;` before the `)` of a parenthesised expression,
the parser reports an error and returns the null reference, whatever the
fuel. -/
theorem Parse_repeated_semicolon_fails :
    Parse 12 (freshParser tokensOneSeparator) =
        some (some (SequenceExpr [NameExpr "a", NameExpr "b"]),
          freshParser [⟨TOKEN_EOF, "", 0⟩]) ∧
      Parse 12 (freshParser tokensTwoSeparators) =
        some (none, ⟨[⟨TOKEN_EOF, "", 0⟩], true, ["Unexpected token."], false⟩) ∧
      (¬ ∃ n e q, Parse n (freshParser tokensTwoSeparators) = some (some e, q)) ∧
      (¬ ∃ n e q, Parse n (freshParser tokensTwoTrailing) = some (some e, q)) ∧
      Parse 12 (freshParser tokensParen) =
        some (some (NameExpr "a"), freshParser [⟨TOKEN_EOF, "", 0⟩]) ∧
      (¬ ∃ n e q, Parse n (freshParser tokensParenSemicolon) = some (some e, q)) := by
  have key : ∀ ts r, Parse 12 (freshParser ts) = some (none, r) →
      ¬ ∃ n e q, Parse n (freshParser ts) = some (some e, q) := by
    rintro ts r h12 ⟨n, e, q, h⟩
    have h1 := Parse_fuel_le (Nat.le_max_left n 12) h
    have h2 := Parse_fuel_le (Nat.le_max_right n 12) h12
    rw [h1] at h2
    simp at h2
  have h2 : Parse 12 (freshParser tokensTwoSeparators) =
      some (none, ⟨[⟨TOKEN_EOF, "", 0⟩], true, ["Unexpected token."], false⟩) := rfl
  have h3 : Parse 12 (freshParser tokensTwoTrailing) =
      some (none, ⟨[⟨TOKEN_EOF, "", 0⟩], true, ["Unexpected token."], false⟩) := rfl
  have h5 : Parse 12 (freshParser tokensParenSemicolon) =
      some (none, ⟨[⟨TOKEN_RIGHT_PAREN, ")", 0⟩, ⟨TOKEN_EOF, "", 0⟩], true,
        ["Expect closing ')'.", "Parser ended unexpectedly before reaching end of file."],
        false⟩) := rfl
  exact ⟨rfl, h2, key _ _ h2, key _ _ h3, rfl, key _ _ h5⟩

/-! ## The result of `Parse` and the error flag (C6) -/

/-- The rest of an object literal, read by the code shared by `Statement` and
`Primary`: the parent clause, the opening brace, the body. -/
theorem objectLiteral_steps {p q : Parser} {parent : Expr} {defs : List Definition}
    (h : ObjectLiteralFrom p parent defs q) (wrap : Expr → Expr) :
    ∃ n, ∀ m, n ≤ m →
      (match (if (Match p TOKEN_ARROW).1 then Primary m (Match p TOKEN_ARROW).2
              else some (NameExpr "Object", p)) with
        | none => none
        | some (parent, p2) =>
          if (Match (ConsumeExpected p2 TOKEN_LEFT_BRACE "Expect '\x7b' after 'obj'.").2
              TOKEN_RIGHT_BRACE).1 then
            some (wrap (ObjectExpr parent []),
              (Match (ConsumeExpected p2 TOKEN_LEFT_BRACE "Expect '\x7b' after 'obj'.").2
                TOKEN_RIGHT_BRACE).2)
          else
            match ParseDefines m
                (ConsumeExpected p2 TOKEN_LEFT_BRACE "Expect '\x7b' after 'obj'.").2 []
                TOKEN_RIGHT_BRACE with
            | none => none
            | some (defs, p4) => some (wrap (ObjectExpr parent defs), p4)) =
        some (wrap (ObjectExpr parent defs), q) := by
  obtain ⟨p2, hparent, hbrace, hbody⟩ := h
  -- the body, once the parent is known
  have hrest : ∃ n, ∀ m, n ≤ m →
      (if (Match (ConsumeExpected p2 TOKEN_LEFT_BRACE "Expect '\x7b' after 'obj'.").2
            TOKEN_RIGHT_BRACE).1 then
          some (wrap (ObjectExpr parent []),
            (Match (ConsumeExpected p2 TOKEN_LEFT_BRACE "Expect '\x7b' after 'obj'.").2
              TOKEN_RIGHT_BRACE).2)
        else
          match ParseDefines m
              (ConsumeExpected p2 TOKEN_LEFT_BRACE "Expect '\x7b' after 'obj'.").2 []
              TOKEN_RIGHT_BRACE with
          | none => none
          | some (defs, p4) => some (wrap (ObjectExpr parent defs), p4)) =
        some (wrap (ObjectExpr parent defs), q) := by
    rw [LookAhead_consumeExpected _ hbrace]
    rcases hbody with ⟨hclose, rfl, rfl⟩ | ⟨hopen, k, hdefs⟩
    · exact ⟨0, fun m _ => by simp [LookAhead_match hclose]⟩
    · refine ⟨k, fun m hm => ?_⟩
      simp [not_LookAhead_match hopen, ParseDefines_fuel_le hm hdefs]
  obtain ⟨n, hn⟩ := hrest
  rcases hparent with ⟨harrow, k, hprim⟩ | ⟨harrow, rfl, rfl⟩
  · refine ⟨max k n, fun m hm => ?_⟩
    rw [LookAhead_match harrow]
    simp only [if_true]
    rw [Primary_fuel_le (by omega) hprim]
    exact hn m (by omega)
  · refine ⟨n, fun m hm => ?_⟩
    rw [not_LookAhead_match harrow]
    simp only [Bool.false_eq_true, if_false]
    exact hn m hm

/-- C7. On a named-object statement `obj NAME [-> parent] { defines? }`,
`Statement` returns, for every large enough fuel, `VarExpr(NAME, object)` where
`object = ObjectExpr(parent, defines)` is exactly what `Primary` returns for
the anonymous literal obtained by dropping the name, with the same final state;
the parent is the parsed primary after `->`, or `NameExpr("Object")` without an
arrow, and the empty body gives no definitions. -/
theorem Statement_named_object (o nm : Token) (rest : List Token) (e : Bool)
    (es : List String) (i : Bool) (parent : Expr) (defs : List Definition) (q : Parser)
    (ho : o.type = TOKEN_OBJ) (hnm : nm.type = TOKEN_NAME)
    (hrest : ObjectLiteralFrom ⟨rest, e, es, i⟩ parent defs q) :
    ∃ n, ∀ m, n ≤ m →
      Statement m ⟨o :: nm :: rest, e, es, i⟩ =
          some (VarExpr nm.text (ObjectExpr parent defs), q) ∧
        Primary m ⟨o :: rest, e, es, i⟩ = some (ObjectExpr parent defs, q) := by
  obtain ⟨n1, hn1⟩ := objectLiteral_steps hrest (VarExpr nm.text)
  obtain ⟨n2, hn2⟩ := objectLiteral_steps hrest id
  refine ⟨max n1 n2 + 1, fun m hm => ?_⟩
  obtain ⟨m, rfl⟩ : ∃ j, m = j + 1 := ⟨m - 1, by omega⟩
  constructor
  · rw [Statement]
    simp only [Match, LookAhead_cons, LookAhead2_cons, Consume_cons, ho, hnm]
    simp only [reduceCtorEq, decide_False, decide_True, Bool.false_eq_true, if_false,
      Bool.and_self, if_true]
    exact hn1 m (by omega)
  · rw [Primary]
    simp only [Match, LookAhead_cons, Consume_cons, ho]
    simp only [reduceCtorEq, decide_False, decide_True, Bool.false_eq_true, if_false,
      if_true]
    exact hn2 m (by omega)

/-- C7, at `obj Dog -> Animal { }`: the statement is `var Dog = ` the object
literal `obj -> Animal { }`, with parent `Animal` and no definitions. -/
theorem Statement_named_object_witness :
    ∃ n, ∀ m, n ≤ m →
      Statement m (freshParser (⟨TOKEN_OBJ, "obj", 0⟩ :: ⟨TOKEN_NAME, "Dog", 0⟩ ::
          tokensArrowAnimal)) =
          some (VarExpr "Dog" (ObjectExpr (NameExpr "Animal") []), freshParser []) ∧
        Primary m (freshParser (⟨TOKEN_OBJ, "obj", 0⟩ :: tokensArrowAnimal)) =
          some (ObjectExpr (NameExpr "Animal") [], freshParser []) :=
  Statement_named_object ⟨TOKEN_OBJ, "obj", 0⟩ ⟨TOKEN_NAME, "Dog", 0⟩ tokensArrowAnimal
    false [] false (NameExpr "Animal") [] (freshParser []) rfl rfl
    ⟨_, Or.inl ⟨rfl, 1, rfl⟩, rfl, Or.inl ⟨rfl, rfl, rfl⟩⟩

/-! ## Return statements (C8) -/

/-- C8. After a `return` token: when the next token is `;`, `)`, the closing
brace or `]`, `Statement` returns `ReturnExpr(NameExpr("nil"))` and leaves the
state just behind the `return` (that next token unconsumed, error flag and
reports untouched); when the next token is anything else, `Statement` returns
`ReturnExpr(e)` for the `e`, and in the state, that `Assignment` produces from
that token on (and runs out of fuel exactly when `Assignment` does). -/
theorem Statement_return (n : Nat) (t : Token) (rest : List Token) (e : Bool)
    (es : List String) (i : Bool) (ht : t.type = TOKEN_RETURN) :
    (peekType ⟨rest, e, es, i⟩ 0 ∈ returnStops →
        Statement (n + 1) ⟨t :: rest, e, es, i⟩ =
          some (ReturnExpr (NameExpr "nil"), ⟨rest, e, es, i⟩)) ∧
      (peekType ⟨rest, e, es, i⟩ 0 ∉ returnStops →
        Statement (n + 1) ⟨t :: rest, e, es, i⟩ =
          (Assignment n ⟨rest, e, es, i⟩).map (fun r => (ReturnExpr r.1, r.2))) := by
  have hdef : (Match ⟨t :: rest, e, es, i⟩ TOKEN_DEF).1 = false := by
    simp [Match, ht]
  have hobj : LookAhead2 ⟨t :: rest, e, es, i⟩ TOKEN_OBJ TOKEN_NAME = false := by
    simp [LookAhead2, peekType, ht]
  have hvar : (Match ⟨t :: rest, e, es, i⟩ TOKEN_VAR).1 = false := by
    simp [Match, ht]
  have hret : Match ⟨t :: rest, e, es, i⟩ TOKEN_RETURN = (true, ⟨rest, e, es, i⟩) := by
    simp [Match, ht]
  have hstops : (LookAhead ⟨rest, e, es, i⟩ TOKEN_SEMICOLON ||
      LookAhead ⟨rest, e, es, i⟩ TOKEN_RIGHT_PAREN ||
      LookAhead ⟨rest, e, es, i⟩ TOKEN_RIGHT_BRACE ||
      LookAhead ⟨rest, e, es, i⟩ TOKEN_RIGHT_BRACKET) = true ↔
      peekType ⟨rest, e, es, i⟩ 0 ∈ returnStops := by
    simp [LookAhead, returnStops, or_assoc]
  constructor
  · intro hstop
    rw [Statement]
    simp only [hdef, hobj, hvar, hret, Bool.false_eq_true, if_false, if_true]
    rw [if_pos (hstops.mpr hstop)]
  · intro hstop
    rw [Statement]
    simp only [hdef, hobj, hvar, hret, Bool.false_eq_true, if_false, if_true]
    rw [if_neg (fun h => hstop (hstops.mp h))]
    cases Assignment n ⟨rest, e, es, i⟩ with
    | none => rfl
    | some r => rfl

/-- C8, at `return ;`: the value is `nil` and the `;` is still the next
token. -/
theorem Statement_return_witness :
    Statement 1 (freshParser [⟨TOKEN_RETURN, "return", 0⟩, ⟨TOKEN_SEMICOLON, ";", 0⟩]) =
      some (ReturnExpr (NameExpr "nil"), freshParser [⟨TOKEN_SEMICOLON, ";", 0⟩]) :=
  (Statement_return 0 ⟨TOKEN_RETURN, "return", 0⟩ [⟨TOKEN_SEMICOLON, ";", 0⟩] false [] false
    rfl).1 (by decide)

/-! ## Sequences (C9) -/

/-- The loop of `Sequence` at its exit: the statement just parsed is the last
one when no `;` follows, or when the `;` that follows stands before a closer. -/
theorem SequenceLoop_last (n : Nat) (p p1 final : Parser) (exprs : List Expr) (s : Expr)
    (hs : Statement n p = some (s, p1))
    (hend : (LookAhead p1 TOKEN_SEMICOLON = false ∧ final = p1) ∨
      (LookAhead p1 TOKEN_SEMICOLON = true ∧ peekType (Consume p1).2 0 ∈ closers ∧
        final = (Consume p1).2)) :
    SequenceLoop (n + 1) p exprs = some (finishSequence (exprs ++ [s]), final) := by
  rw [SequenceLoop, hs]
  rcases hend with ⟨hsemi, rfl⟩ | ⟨hsemi, hclose, rfl⟩
  · simp [not_LookAhead_match hsemi]
  · simp only [LookAhead_match hsemi, Bool.true_eq_false, if_false]
    rcases (closers_lookAhead _).mpr hclose with h | h | h | h
    · simp [h]
    · simp [h]
    · simp [h]
    · simp [h]

/-- The loop of `Sequence` on `s1 ; ... ; sn` followed by the end described by
`hend` collects the statements behind those it already holds. -/
theorem SequenceLoop_statements (ss : List Expr) :
    ∀ (p q final : Parser) (exprs : List Expr), StatementsFrom p ss q →
      ((LookAhead q TOKEN_SEMICOLON = false ∧ final = q) ∨
        (LookAhead q TOKEN_SEMICOLON = true ∧ peekType (Consume q).2 0 ∈ closers ∧
          final = (Consume q).2)) →
      ∃ n, ∀ m, n ≤ m → SequenceLoop m p exprs = some (finishSequence (exprs ++ ss), final) := by
  induction ss with
  | nil => intro p q final exprs h; exact h.elim
  | cons s rest ih =>
    intro p q final exprs h hend
    obtain ⟨k, p1, hs, hrest⟩ := h
    rcases hrest with ⟨rfl, rfl⟩ | ⟨hsemi, hnext, hrest⟩
    · refine ⟨k + 1, fun m hm => ?_⟩
      obtain ⟨m, rfl⟩ : ∃ j, m = j + 1 := ⟨m - 1, by omega⟩
      exact SequenceLoop_last m p _ final exprs s (Statement_fuel_le (by omega) hs) hend
    · obtain ⟨n, hn⟩ := ih (Consume p1).2 q final (exprs ++ [s]) hrest hend
      refine ⟨max k n + 1, fun m hm => ?_⟩
      obtain ⟨m, rfl⟩ : ∃ j, m = j + 1 := ⟨m - 1, by omega⟩
      rw [SequenceLoop, Statement_fuel_le (by omega) hs]
      simp only [LookAhead_match hsemi, Bool.true_eq_false, if_false]
      have hno := (not_congr (closers_lookAhead (Consume p1).2)).mpr hnext
      simp only [not_or, Bool.not_eq_true] at hno
      simp only [hno.1, hno.2.1, hno.2.2.1, hno.2.2.2, Bool.false_eq_true, if_false]
      rw [hn m (by omega)]
      simp

/-- C9. On `s1 ; s2 ; ... ; sn` (`n >= 1`, each statement parsed by
`Statement`), optionally followed by one trailing `;`, and then `)`, `]`, the
closing brace or the end of the stream, `Sequence` returns for every large
enough fuel: the statement `s1` itself when `n = 1`, and a `SequenceExpr` with
exactly the children `s1 .. sn` in source order when `n >= 2`. The parser is
left at the closer: the trailing `;` is consumed and adds no child. -/
theorem Sequence_statements (p q final : Parser) (ss : List Expr)
    (hss : StatementsFrom p ss q)
    (hend : (peekType q 0 ∈ closers ∧ final = q) ∨
      (LookAhead q TOKEN_SEMICOLON = true ∧ peekType (Consume q).2 0 ∈ closers ∧
        final = (Consume q).2)) :
    ∃ n, ∀ m, n ≤ m →
      ∃ result, Sequence m p = some (result, final) ∧ peekType final 0 ∈ closers ∧
        (∀ s, ss = [s] → result = s) ∧ (2 ≤ ss.length → result = SequenceExpr ss) := by
  have hend' : (LookAhead q TOKEN_SEMICOLON = false ∧ final = q) ∨
      (LookAhead q TOKEN_SEMICOLON = true ∧ peekType (Consume q).2 0 ∈ closers ∧
        final = (Consume q).2) := by
    rcases hend with ⟨hclose, rfl⟩ | h
    · refine Or.inl ⟨?_, rfl⟩
      simp only [closers, List.mem_cons, List.mem_singleton, List.not_mem_nil,
        or_false] at hclose
      rcases hclose with h | h | h | h <;> simp [LookAhead, h]
    · exact Or.inr h
  have hfinal : peekType final 0 ∈ closers := by
    rcases hend with ⟨hclose, rfl⟩ | ⟨_, hclose, rfl⟩ <;> exact hclose
  obtain ⟨n, hn⟩ := SequenceLoop_statements ss p q final [] hss hend'
  refine ⟨n + 1, fun m hm => ?_⟩
  obtain ⟨m, rfl⟩ : ∃ j, m = j + 1 := ⟨m - 1, by omega⟩
  refine ⟨finishSequence ss, ?_, hfinal, ?_, ?_⟩
  · rw [Sequence, hn m (by omega)]
    simp
  · rintro s rfl
    rfl
  · intro hlen
    match ss, hlen with
    | _ :: _ :: _, _ => rfl

/-- C9, at `a ; b ;` before the end of the stream: a `SequenceExpr` of the two
statements, the trailing `;` consumed. -/
theorem Sequence_statements_witness :
    ∃ n, ∀ m, n ≤ m →
      ∃ result, Sequence m (freshParser tokensTwoStatements) = some (result, freshParser []) ∧
        peekType (freshParser []) 0 ∈ closers ∧
        (∀ s, [NameExpr "a", NameExpr "b"] = [s] → result = s) ∧
        (2 ≤ [NameExpr "a", NameExpr "b"].length →
          result = SequenceExpr [NameExpr "a", NameExpr "b"]) :=
  Sequence_statements (freshParser tokensTwoStatements)
    (freshParser [⟨TOKEN_SEMICOLON, ";", 0⟩]) (freshParser [])
    [NameExpr "a", NameExpr "b"]
    ⟨6, _, rfl, Or.inr ⟨rfl, by decide, 6, _, rfl, Or.inl ⟨rfl, rfl⟩⟩⟩
    (Or.inr ⟨rfl, by decide, rfl⟩)

/-! ## The message opcodes (C10) -/

/-- Popping as many arguments as were pushed last returns them in the order of
popping, the last one pushed first, and leaves the stack below them. -/
theorem popArguments_pushAll (args : List ObjRef) :
    ∀ (operands : Operands) (acc : List ObjRef),
      popArguments args.length acc (pushAll operands args) =
        some (acc ++ args.reverse, operands) := by
  induction args using List.reverseRecOn with
  | nil => intro operands acc; simp [popArguments, pushAll]
  | append_singleton args a ih =>
    intro operands acc
    have hpush : pushAll operands (args ++ [a]) = a :: pushAll operands args := by
      simp [pushAll, PushOperand]
    rw [hpush, List.length_append, List.length_singleton, popArguments]
    simp only [PopOperand]
    rw [ih]
    simp

/-- C10. For every `N` in `0..10` and every operand stack obtained by pushing
the receiver `r` and then the arguments `a1 .. aN` on a stack `S`, executing
`MESSAGE_N` with selector id `sel` leaves exactly `S` and calls `Receive` on
`r` with `thisRef = r`, the string interned under `sel`, and the argument list
`[a1, ..., aN]` in push order. -/
theorem ExecuteMessage_dispatch (strings : Nat → String) (N : Nat) (op : OpCode) (sel : Nat)
    (S : Operands) (r : ObjRef) (args : List ObjRef)
    (hop : messageOps.get? N = some op) (hargs : args.length = N) :
    ExecuteMessage strings op sel (pushAll S (r :: args)) =
      some (⟨r, r, strings sel, args⟩, S) := by
  have hcount : op.value - OP_MESSAGE_0.value = args.length := by
    rw [hargs]
    have hN : N < 11 := by
      by_contra hN
      rw [List.get?_eq_none.mpr (by simpa [messageOps] using hN)] at hop
      cases hop
    interval_cases N <;> simp [messageOps] at hop <;> subst hop <;> rfl
  have hpush : pushAll S (r :: args) = pushAll (r :: S) args := rfl
  rw [ExecuteMessage, hcount, hpush, popArguments_pushAll]
  simp [PopOperand]

/-- C10, at `MESSAGE_2` on the stack `S = [7]` with receiver `1` and arguments
`2, 3` pushed in this order. -/
theorem ExecuteMessage_dispatch_witness :
    ExecuteMessage (fun _ => "at:put:") OP_MESSAGE_2 0 (pushAll [7] [1, 2, 3]) =
      some (⟨1, 1, "at:put:", [2, 3]⟩, [7]) :=
  ExecuteMessage_dispatch (fun _ => "at:put:") 2 OP_MESSAGE_2 0 [7] 1 [2, 3] rfl rfl

/-! ## Messages nobody handles (C11) -/

/-- What a message opcode does once the arguments and the receiver are popped:
it is `Send` on the call made. -/
theorem ExecuteInstruction_message (t : Tables) (s : Interpreter) (slot : Nat)
    (instruction : Instruction) (call : ReceiveCall) (rest : Operands)
    (hstack : s.callStack ≠ []) (hop : instruction.op ∈ messageOps)
    (hpop : ExecuteMessage t.strings instruction.op instruction.id s.operands =
      some (call, rest)) :
    ExecuteInstruction t s slot instruction = Send t { s with operands := rest } call := by
  obtain ⟨stack, operands, scopes, objects, output, g, n, tr, fa, np, sp, bp⟩ := s
  cases stack with
  | nil => exact absurd rfl hstack
  | cons top below =>
    obtain ⟨op, id, number⟩ := instruction
    simp only [messageOps, List.mem_cons, List.mem_singleton, List.not_mem_nil, or_false] at hop
    simp only at hpop
    rcases hop with h | h | h | h | h | h | h | h | h | h | h <;> subst h <;>
      simp only [ExecuteInstruction, PeekFrame, hpop]

/-- C11, the code at the failing input. When no object of the receiver's
prototype chain handles the selector, a message opcode pops the arguments and
the receiver and does nothing else: no runtime error is written, `Nil` is not
pushed, and the operand stack is left one short of what the claim says. -/
theorem ExecuteInstruction_unhandled (t : Tables) (s : Interpreter) (slot : Nat)
    (instruction : Instruction) (call : ReceiveCall) (rest : Operands)
    (hstack : s.callStack ≠ []) (hop : instruction.op ∈ messageOps)
    (hpop : ExecuteMessage t.strings instruction.op instruction.id s.operands =
      some (call, rest))
    (hnone : Receive s.objects.length s.objects call.receiver call.thisRef call.message
      call.args = Except.ok Handler.unhandled) :
    ExecuteInstruction t s slot instruction = Except.ok { s with operands := rest } := by
  rw [ExecuteInstruction_message t s slot instruction call rest hstack hop hpop]
  simp only [Send, hnone]

theorem ExecuteInstruction_unhandled_witness :
    ExecuteInstruction sampleTables
        { sampleInterpreter with
          callStack := [⟨sampleMain, 1, 0, some 0⟩], operands := [8, 7] }
        0 ⟨OP_MESSAGE_0, 0, 0⟩ =
      Except.ok { sampleInterpreter with
        callStack := [⟨sampleMain, 1, 0, some 0⟩], operands := [7] } :=
  ExecuteInstruction_unhandled sampleTables
    { sampleInterpreter with callStack := [⟨sampleMain, 1, 0, some 0⟩], operands := [8, 7] }
    0 ⟨OP_MESSAGE_0, 0, 0⟩ ⟨8, 8, "foo", []⟩ [7] (by decide) (by decide) rfl rfl

/-! ## Dispatch along the prototype chain (C12, C13) -/

/-- A silent object hands the message, with the same `thisRef`, to its
prototype. -/
theorem Receive_silent (objects : List Object) (message : String) (o next thisRef : ObjRef)
    (args : List ObjRef) (n : Nat) (h : Silent objects message o next) :
    Receive (n + 1) objects o thisRef message args =
      Receive n objects next thisRef message args := by
  obtain ⟨object, hget, hproto, htables⟩ := h
  rw [Receive, hget]
  simp only [hproto]
  cases hv : object.variant with
  | dynamic d =>
    obtain ⟨hm, hp⟩ := htables d hv
    simp only [hm, hp]
  | number v => rfl
  | string v => rfl
  | block b => rfl

/-- Along a chain of silent objects the message reaches the last object of the
chain, one unit of fuel per object passed. -/
theorem Receive_chain (objects : List Object) (message : String) (thisRef : ObjRef)
    (args : List ObjRef) (last : ObjRef) :
    ∀ (front : List ObjRef) (n : Nat), Delegates objects message (front ++ [last]) →
      Receive (n + front.length) objects ((front ++ [last]).headD last) thisRef message args =
        Receive n objects last thisRef message args := by
  intro front
  induction front with
  | nil => intro n _; rfl
  | cons o front ih =>
    intro n h
    cases front with
    | nil =>
      simp only [List.cons_append, List.nil_append, Delegates] at h
      exact Receive_silent objects message o last thisRef args n h.1
    | cons o1 front =>
      simp only [List.cons_append, Delegates] at h
      have := ih n (by simpa [Delegates] using h.2)
      simp only [List.cons_append, List.headD_cons, List.length_cons] at this ⊢
      rw [← this]
      exact Receive_silent objects message o o1 thisRef args _ h.1

/-- What the object that has the selector does with it: its method table comes
first, its primitive table second. -/
theorem Receive_handler (objects : List Object) (message : String) (o thisRef : ObjRef)
    (args : List ObjRef) (prototype : Option ObjRef) (d : DynamicObject) (n : Nat)
    (hget : objects.get? o = some ⟨prototype, Variant.dynamic d⟩) :
    (∀ block, dictFind d.methods message = some block → (AsBlock objects block).isSome →
        Receive (n + 1) objects o thisRef message args =
          Except.ok (Handler.method thisRef block args)) ∧
      (dictFind d.methods message = none →
        ∀ method, dictFind d.primitives message = some method →
          Receive (n + 1) objects o thisRef message args =
            Except.ok (Handler.primitive thisRef method message args)) := by
  constructor
  · intro block hm hb
    obtain ⟨b, hb⟩ := Option.isSome_iff_exists.mp hb
    rw [Receive, hget]
    simp only [hm, hb]
  · intro hm method hp
    rw [Receive, hget]
    simp only [hm, hp]

/-- C12. Along a prototype chain `o0 -> ... -> oj` whose objects before `oj` do
not have the selector, `Receive` on `o0` is answered by `oj`, for every fuel
larger than the number of objects passed: by the block in the method table of
`oj` when there is one (also when its primitive table has the selector too),
else by the primitive in its primitive table; the `thisRef` handed to the
method or the primitive is the one `Receive` was called with on `o0`, not
`oj`. -/
theorem Receive_first_handler (objects : List Object) (message : String) (thisRef : ObjRef)
    (args : List ObjRef) (front : List ObjRef) (last : ObjRef) (prototype : Option ObjRef)
    (d : DynamicObject) (fuel : Nat)
    (hchain : Delegates objects message (front ++ [last]))
    (hlast : objects.get? last = some ⟨prototype, Variant.dynamic d⟩)
    (hfuel : front.length < fuel) :
    (∀ block, dictFind d.methods message = some block → (AsBlock objects block).isSome →
        Receive fuel objects ((front ++ [last]).headD last) thisRef message args =
          Except.ok (Handler.method thisRef block args)) ∧
      (dictFind d.methods message = none →
        ∀ method, dictFind d.primitives message = some method →
          Receive fuel objects ((front ++ [last]).headD last) thisRef message args =
            Except.ok (Handler.primitive thisRef method message args)) := by
  obtain ⟨n, rfl⟩ : ∃ n, fuel = (n + 1) + front.length := ⟨fuel - front.length - 1, by omega⟩
  rw [Receive_chain objects message thisRef args last front (n + 1) hchain]
  exact Receive_handler objects message last thisRef args prototype d n hlast

theorem Receive_first_handler_witness :
    Receive 2 sampleInterpreter.objects 8 8 "copy" [] = Except.ok (Handler.method 8 7 []) :=
  (Receive_first_handler sampleInterpreter.objects "copy" 8 [] [8] 6 none
    ⟨"Object", [("copy", 7)], [("length", 1)], some 1⟩ 2
    ⟨⟨dynamicObject (some 6) "point" [] [] (some 2), rfl, rfl,
      fun d h => by cases h; exact ⟨rfl, rfl⟩⟩, trivial⟩ rfl (by decide)).1 7 rfl rfl

/-- C13, as stated, fails: an object that has both a method and a primitive
under the selector `m`, whichever was installed first, answers `m` with the
method and not with the primitive. -/
theorem Receive_primitive_not_first :
    (dictFind sampleMethodThenPrimitive.methods "m" = some 1 ∧
      dictFind sampleMethodThenPrimitive.primitives "m" = some 5 ∧
      Receive 1 (sampleHeap sampleMethodThenPrimitive) 0 0 "m" [] =
        Except.ok (Handler.method 0 1 [])) ∧
    (dictFind samplePrimitiveThenMethod.methods "m" = some 1 ∧
      dictFind samplePrimitiveThenMethod.primitives "m" = some 5 ∧
      Receive 1 (sampleHeap samplePrimitiveThenMethod) 0 0 "m" [] =
        Except.ok (Handler.method 0 1 [])) :=
  ⟨⟨rfl, rfl, rfl⟩, ⟨rfl, rfl, rfl⟩⟩

theorem dictFind_dictInsert {α : Type} (table : List (String × α)) (key : String) (value : α) :
    dictFind (dictInsert table key value) key = some value := by
  simp [dictInsert, dictFind]

/-- C13, amended. When a dynamic object has both a method (installed with
`AddMethod`, so under a non-empty name and with a block as body) and a primitive
(installed with `RegisterPrimitive`) under the same selector, whichever was
installed first, sending the selector to the object runs the method, with the
`thisRef` of the call: the method table is consulted before the primitive
table. -/
theorem Receive_method_first (objects : List Object) (o thisRef : ObjRef)
    (prototype : Option ObjRef) (d0 d : DynamicObject) (name : String) (body : ObjRef)
    (method : PrimitiveMethod) (args : List ObjRef) (n : Nat)
    (hname : name.length ≠ 0) (hbody : (AsBlock objects body).isSome)
    (ho : objects.get? o = some ⟨prototype, Variant.dynamic d0⟩)
    (hd : d = RegisterPrimitive (AddMethod objects d0 name body).1 name method ∨
      d = (AddMethod objects (RegisterPrimitive d0 name method) name body).1) :
    dictFind d.primitives name = some method ∧
      Receive (n + 1) (objects.set o ⟨prototype, Variant.dynamic d⟩) o thisRef name args =
        Except.ok (Handler.method thisRef body args) := by
  have hb : (AsBlock objects body).isNone = false := by
    cases h : AsBlock objects body with
    | none => simp [h] at hbody
    | some b => rfl
  have hmeth : dictFind d.methods name = some body ∧ dictFind d.primitives name = some method := by
    rcases hd with rfl | rfl
    · simp only [AddMethod, hname, hb, if_false, Bool.false_eq_true, RegisterPrimitive]
      exact ⟨dictFind_dictInsert _ _ _, dictFind_dictInsert _ _ _⟩
    · simp only [AddMethod, hname, hb, if_false, Bool.false_eq_true, RegisterPrimitive]
      exact ⟨dictFind_dictInsert _ _ _, dictFind_dictInsert _ _ _⟩
  have hlt : o < objects.length := by
    by_contra hge
    rw [List.get?_eq_none.mpr (Nat.le_of_not_lt hge)] at ho
    cases ho
  have hne : o ≠ body := by
    rintro rfl
    unfold AsBlock at hbody
    rw [ho] at hbody
    simp at hbody
  have hbody2 : (AsBlock (objects.set o ⟨prototype, Variant.dynamic d⟩) body).isSome := by
    simpa [AsBlock, List.getElem?_set_ne hne] using hbody
  have ho2 : (objects.set o ⟨prototype, Variant.dynamic d⟩).get? o =
      some ⟨prototype, Variant.dynamic d⟩ := by
    simp [hlt]
  exact ⟨hmeth.2, (Receive_handler _ name o thisRef args prototype d n ho2).1 body hmeth.1 hbody2⟩

theorem Receive_method_first_witness :
    dictFind (RegisterPrimitive (AddMethod (sampleHeap ⟨"o", [], [], none⟩)
        ⟨"o", [], [], none⟩ "m" 1).1 "m" 5).primitives "m" = some 5 ∧
      Receive 1 ((sampleHeap ⟨"o", [], [], none⟩).set 0 ⟨none, Variant.dynamic
        (RegisterPrimitive (AddMethod (sampleHeap ⟨"o", [], [], none⟩)
          ⟨"o", [], [], none⟩ "m" 1).1 "m" 5)⟩) 0 0 "m" [] =
        Except.ok (Handler.method 0 1 []) :=
  Receive_method_first (sampleHeap ⟨"o", [], [], none⟩) 0 0 none ⟨"o", [], [], none⟩ _ "m" 1 5
    [] 0 (by decide) rfl rfl (Or.inl rfl)

/-! ## Calling a block (C14, C15, C16) -/

/-- C14. With a number of arguments other than the number of parameters,
`CallMethod` writes one runtime error, pushes `Nil` and nothing else, and leaves
the call stack, the scopes and the objects as they were: no frame, no scope, no
binding. -/
theorem CallMethod_arity_mismatch (s : Interpreter) (self : Option ObjRef)
    (block : BlockObject) (args : List ObjRef)
    (harity : args.length ≠ block.code.params.length) :
    CallMethod s self block args =
      { s with
        operands := s.nilObject :: s.operands
        output := s.output ++ ["Runtime error: Block expects " ++
          toString block.code.params.length ++ " arguments, but was passed " ++
          toString args.length ++ "."] } := by
  unfold CallMethod
  rw [if_pos (Ne.symm harity)]
  rfl

theorem CallMethod_arity_mismatch_witness :
    CallMethod { sampleInterpreter with callStack := [⟨sampleMain, 1, 0, some 0⟩] }
        (some 8) ⟨sampleUnary, 0⟩ [] =
      { sampleInterpreter with
        callStack := [⟨sampleMain, 1, 0, some 0⟩]
        operands := [0]
        output := ["Runtime error: Block expects 1 arguments, but was passed 0."] } :=
  CallMethod_arity_mismatch { sampleInterpreter with callStack := [⟨sampleMain, 1, 0, some 0⟩] }
    (some 8) ⟨sampleUnary, 0⟩ [] (by decide)

theorem dictFind_filter_ne {α : Type} (table : List (String × α)) (key name : String)
    (hne : name ≠ key) :
    dictFind (table.filter (fun entry => decide (entry.1 ≠ key))) name = dictFind table name := by
  induction table with
  | nil => rfl
  | cons entry rest ih =>
    obtain ⟨k, v⟩ := entry
    by_cases hk : k = key
    · subst hk
      have hkn : ¬k = name := fun h => hne h.symm
      simp only [List.filter, ne_eq, not_true_eq_false, decide_False, dictFind, hkn, if_false]
      exact ih
    · simp only [List.filter, ne_eq, hk, not_false_eq_true, decide_True, dictFind]
      rw [ih]

theorem dictFind_dictInsert_ne {α : Type} (table : List (String × α)) (key name : String)
    (value : α) (hne : name ≠ key) :
    dictFind (dictInsert table key value) name = dictFind table name := by
  have hkn : ¬key = name := fun h => hne h.symm
  simp only [dictInsert, dictFind, hkn, if_false]
  exact dictFind_filter_ne table key name hne

/-- A name that is not a parameter keeps the binding it had. -/
theorem dictFind_boundVars_other (name : String) :
    ∀ (params : List String) (args : List ObjRef) (table : List (String × ObjRef)),
      name ∉ params → dictFind (boundVars table params args) name = dictFind table name := by
  intro params
  induction params with
  | nil => intro args table _; cases args <;> rfl
  | cons param params ih =>
    intro args table hnot
    cases args with
    | nil => rfl
    | cons arg args =>
      simp only [List.mem_cons, not_or] at hnot
      rw [boundVars, ih args _ hnot.2, dictFind_dictInsert_ne _ _ _ _ hnot.1]

/-- A parameter that is not named again later is bound to its own argument. -/
theorem dictFind_boundVars (name : String) (a : ObjRef) :
    ∀ (params : List String) (args : List ObjRef) (table : List (String × ObjRef)) (i : Nat),
      params.get? i = some name → args.get? i = some a → name ∉ params.drop (i + 1) →
      dictFind (boundVars table params args) name = some a := by
  intro params
  induction params with
  | nil => intro args table i hp; simp at hp
  | cons param params ih =>
    intro args table i hp ha hlater
    cases args with
    | nil => simp at ha
    | cons arg args =>
      cases i with
      | zero =>
        simp only [List.get?_cons_zero, Option.some.injEq] at hp ha
        subst hp ha
        simp only [zero_add, List.drop_succ_cons, List.drop_zero] at hlater
        rw [boundVars, dictFind_boundVars_other _ _ _ _ hlater, dictFind_dictInsert]
      | succ i =>
        simp only [List.get?_cons_succ] at hp ha
        simp only [List.drop_succ_cons] at hlater
        rw [boundVars]
        exact ih args _ i hp ha hlater

theorem modifyAt_append_length {α : Type} (f : α → α) (xs : List α) (x : α) :
    modifyAt f xs.length (xs ++ [x]) = xs ++ [f x] := by
  induction xs with
  | nil => rfl
  | cons y ys ih =>
    rw [List.length_cons, List.cons_append, modifyAt, ih]
    rfl

/-- The binding loop of `CallMethod` writes into the new scope only. -/
theorem bindArguments_new (scopes : List Scope) (parent : Option ScopeRef) :
    ∀ (params : List String) (args : List ObjRef) (table : List (String × ObjRef)),
      bindArguments (scopes ++ [⟨parent, table⟩]) scopes.length params args =
        scopes ++ [⟨parent, boundVars table params args⟩] := by
  intro params
  induction params with
  | nil => intro args table; cases args <;> rfl
  | cons param params ih =>
    intro args table
    cases args with
    | nil => rfl
    | cons arg args =>
      rw [bindArguments, Scope.Define, modifyAt_append_length, boundVars]
      exact ih args _

/-- What `CallMethod` does when the numbers of parameters and arguments agree. -/
theorem CallMethod_call (s : Interpreter) (self : Option ObjRef) (block : BlockObject)
    (args : List ObjRef) (harity : args.length = block.code.params.length) :
    CallMethod s self block args =
      { s with
        scopes := s.scopes ++ [⟨some block.closure, boundVars [] block.code.params args⟩]
        callStack := ⟨block.code, 0, s.scopes.length, self⟩ :: s.callStack } := by
  unfold CallMethod
  rw [if_neg (by simpa using harity.symm)]
  simp only [bindArguments_new]

/-- C15, as stated, fails for a block that names two parameters alike
(`{ x x -> x }` parses to such a block): called with the arguments 7 and 8,
`CallMethod` leaves `x` bound to 8 in the new scope, so it is not true that
every parameter is bound to the argument at its position. -/
theorem CallMethod_repeated_parameter :
    CallMethod sampleInterpreter none ⟨sampleTwice, 0⟩ [7, 8] =
        { sampleInterpreter with
          scopes := sampleInterpreter.scopes ++ [⟨some 0, [("x", 8)]⟩]
          callStack := [⟨sampleTwice, 0, 3, none⟩] } ∧
      ¬ (∀ i name a, sampleTwice.params.get? i = some name → [7, 8].get? i = some a →
        Binds (CallMethod sampleInterpreter none ⟨sampleTwice, 0⟩ [7, 8]).scopes 3 name a) := by
  have h : CallMethod sampleInterpreter none ⟨sampleTwice, 0⟩ [7, 8] =
      { sampleInterpreter with
        scopes := sampleInterpreter.scopes ++ [⟨some 0, [("x", 8)]⟩]
        callStack := [⟨sampleTwice, 0, 3, none⟩] } := rfl
  refine ⟨h, ?_⟩
  rw [h]
  intro hall
  obtain ⟨sc, hget, hfind⟩ := hall 0 "x" 7 rfl rfl
  have hsc : sc = ⟨some 0, [("x", 8)]⟩ := by
    have : (some sc : Option Scope) = some ⟨some 0, [("x", 8)]⟩ := hget.symm.trans rfl
    exact Option.some.inj this
  subst hsc
  revert hfind
  decide

/-- C15, amended. With as many arguments as parameters, `CallMethod` leaves the
operand stack and every existing scope as they are and pushes exactly one frame
`(block.code, 0, scope, self)`, where `scope` is a new scope whose parent is the
closure of the block and in which every parameter that is not named again later
in the parameter list is bound to the argument at its position, and no other
name is bound. -/
theorem CallMethod_frame (s : Interpreter) (self : Option ObjRef) (block : BlockObject)
    (args : List ObjRef) (harity : args.length = block.code.params.length) :
    ∃ table,
      CallMethod s self block args =
        { s with
          scopes := s.scopes ++ [⟨some block.closure, table⟩]
          callStack := ⟨block.code, 0, s.scopes.length, self⟩ :: s.callStack } ∧
      (∀ i name a, block.code.params.get? i = some name → args.get? i = some a →
        name ∉ block.code.params.drop (i + 1) → dictFind table name = some a) ∧
      (∀ name, name ∉ block.code.params → dictFind table name = none) :=
  ⟨boundVars [] block.code.params args, CallMethod_call s self block args harity,
    fun i name a hp ha hl => dictFind_boundVars name a _ _ _ i hp ha hl,
    fun name hn => dictFind_boundVars_other name _ _ _ hn⟩

theorem CallMethod_frame_witness :
    ∃ table,
      CallMethod sampleInterpreter (some 8) ⟨sampleUnary, 0⟩ [7] =
        { sampleInterpreter with
          scopes := sampleInterpreter.scopes ++ [⟨some 0, table⟩]
          callStack := [⟨sampleUnary, 0, 3, some 8⟩] } ∧
      (∀ i name a, sampleUnary.params.get? i = some name → [7].get? i = some a →
        name ∉ sampleUnary.params.drop (i + 1) → dictFind table name = some a) ∧
      (∀ name, name ∉ sampleUnary.params → dictFind table name = none) :=
  CallMethod_frame sampleInterpreter (some 8) ⟨sampleUnary, 0⟩ [7] rfl

/-- A scope allocated later does not change what an existing scope sees, as
long as parents are scopes allocated earlier. -/
theorem LookUpFrom_append (scopes : List Scope) (new : Scope) (name : String)
    (hordered : ScopesOrdered scopes) :
    ∀ (n : Nat) (scope : ScopeRef), scope < scopes.length →
      Scope.LookUpFrom n (scopes ++ [new]) scope name = Scope.LookUpFrom n scopes scope name := by
  intro n
  induction n with
  | zero => intro scope _; rfl
  | succ n ih =>
    intro scope hlt
    have hget : (scopes ++ [new]).get? scope = scopes.get? scope := by
      simp [List.getElem?_append_left hlt]
    rw [Scope.LookUpFrom, Scope.LookUpFrom, hget]
    cases hs : scopes.get? scope with
    | none => rfl
    | some s =>
      simp only
      cases dictFind s.vars name with
      | some value => rfl
      | none =>
        simp only
        cases hp : s.parent with
        | none => rfl
        | some parent =>
          simp only
          exact ih parent (lt_trans (hordered scope s parent hs hp) hlt)

/-- In the scope that `CallMethod` creates, a name that is not a parameter is
looked up in the closure of the block. -/
theorem LookUp_called (s : Interpreter) (self : Option ObjRef) (block : BlockObject)
    (args : List ObjRef) (name : String) (harity : args.length = block.code.params.length)
    (hordered : ScopesOrdered s.scopes) (hclosure : block.closure < s.scopes.length)
    (hfree : name ∉ block.code.params) :
    Scope.LookUp (CallMethod s self block args).scopes s.scopes.length name =
      Scope.LookUp s.scopes block.closure name := by
  rw [CallMethod_call s self block args harity]
  simp only [Scope.LookUp, List.length_append, List.length_singleton]
  rw [Scope.LookUpFrom]
  have hget : (s.scopes ++ [Scope.mk (some block.closure)
      (boundVars [] block.code.params args)]).get? s.scopes.length =
      some (Scope.mk (some block.closure) (boundVars [] block.code.params args)) := by
    simp
  rw [hget]
  simp only [dictFind_boundVars_other name _ _ _ hfree, dictFind]
  exact LookUpFrom_append s.scopes _ name hordered _ _ hclosure

/-- C16. `BLOCK_LITERAL id` allocates one block object, whose code is the block
interned under `id` and whose closure is the scope of the frame on top of the
call stack, and pushes it; nothing else changes. Whenever that block is called
later with `CallMethod`, in any state and so from any frame, the scope of the
new frame has the captured scope as its parent, and a name that is not a
parameter is looked up in the captured scope, not in the scope of the caller. -/
theorem BlockLiteral_closure (t : Tables) (s : Interpreter) (slot id : Nat) (number : Int)
    (top : CallFrame) (below : List CallFrame) (hstack : s.callStack = top :: below) :
    ExecuteInstruction t s slot ⟨OP_BLOCK_LITERAL, id, number⟩ =
        Except.ok { s with
          operands := s.objects.length :: s.operands
          objects := s.objects ++ [⟨some s.blockProto,
            Variant.block ⟨t.blocks id, top.scope⟩⟩] } ∧
      AsBlock (s.objects ++ [⟨some s.blockProto, Variant.block ⟨t.blocks id, top.scope⟩⟩])
        s.objects.length = some ⟨t.blocks id, top.scope⟩ ∧
      ∀ (later : Interpreter) (self : Option ObjRef) (args : List ObjRef),
        args.length = (t.blocks id).params.length →
        (CallMethod later self ⟨t.blocks id, top.scope⟩ args).callStack =
            ⟨t.blocks id, 0, later.scopes.length, self⟩ :: later.callStack ∧
          (∃ table, (CallMethod later self ⟨t.blocks id, top.scope⟩ args).scopes.get?
            later.scopes.length = some ⟨some top.scope, table⟩) ∧
          (ScopesOrdered later.scopes → top.scope < later.scopes.length →
            ∀ name, name ∉ (t.blocks id).params →
              Scope.LookUp (CallMethod later self ⟨t.blocks id, top.scope⟩ args).scopes
                  later.scopes.length name =
                Scope.LookUp later.scopes top.scope name) := by
  refine ⟨?_, ?_, ?_⟩
  · simp only [ExecuteInstruction, PeekFrame, hstack, NewBlock, allocate, Push, PushOperand]
  · simp [AsBlock]
  · intro later self args harity
    refine ⟨?_, ?_, ?_⟩
    · rw [CallMethod_call later self _ args harity]
    · rw [CallMethod_call later self _ args harity]
      exact ⟨boundVars [] (t.blocks id).params args, by simp⟩
    · intro hordered hclosure name hfree
      exact LookUp_called later self ⟨t.blocks id, top.scope⟩ args name harity hordered
        hclosure hfree

theorem BlockLiteral_closure_witness :
    ExecuteInstruction sampleTables
        { sampleInterpreter with callStack := [⟨sampleMain, 3, 2, some 0⟩] } 0
        ⟨OP_BLOCK_LITERAL, 1, 0⟩ =
      Except.ok { sampleInterpreter with
        callStack := [⟨sampleMain, 3, 2, some 0⟩]
        operands := [9]
        objects := sampleInterpreter.objects ++ [⟨some 5, Variant.block ⟨sampleUnary, 2⟩⟩] } :=
  (BlockLiteral_closure sampleTables
    { sampleInterpreter with callStack := [⟨sampleMain, 3, 2, some 0⟩] } 0 1 0
    ⟨sampleMain, 3, 2, some 0⟩ [] rfl).1

/-! ## Loading and defining names (C17, C18) -/

/-- C17, the code at the failing input. `LOAD_OBJECT id` with a `self` that has
an object-scope pushes one object, the binding of the name seen from that scope
or `Nil` when there is none; but when the `self` of the frame on top is null it
hands the null reference to `PushOperand`, whose assertion stops the run:
nothing is pushed, and `Nil` in particular is not. -/
theorem LoadObject_self (t : Tables) (s : Interpreter) (slot id : Nat) (number : Int)
    (top : CallFrame) (below : List CallFrame) (hstack : s.callStack = top :: below) :
    (∀ self scope, top.self = some self → ObjectScope s.objects self = some scope →
        ExecuteInstruction t s slot ⟨OP_LOAD_OBJECT, id, number⟩ =
          Except.ok { s with
            operands := orNil s (Scope.LookUp s.scopes scope (t.strings id)) :: s.operands }) ∧
      (top.self = none →
        ExecuteInstruction t s slot ⟨OP_LOAD_OBJECT, id, number⟩ =
          Except.error
            (Fault.assertion "Cannot push a null object. (Should be Nil instead.)")) := by
  constructor
  · intro self scope hself hscope
    simp only [ExecuteInstruction, PeekFrame, hstack, hself, hscope, Push, PushOperand]
  · intro hself
    simp only [ExecuteInstruction, PeekFrame, hstack, hself, PushOperandRef]

theorem LoadObject_self_witness :
    ExecuteInstruction sampleTables
        { sampleInterpreter with callStack := [⟨sampleMain, 0, 0, none⟩] } 0
        ⟨OP_LOAD_OBJECT, 4, 0⟩ =
      Except.error (Fault.assertion "Cannot push a null object. (Should be Nil instead.)") :=
  (LoadObject_self sampleTables { sampleInterpreter with callStack := [⟨sampleMain, 0, 0, none⟩] }
    0 4 0 ⟨sampleMain, 0, 0, none⟩ [] rfl).2 rfl

theorem modifyAt_get {α : Type} (f : α → α) :
    ∀ (xs : List α) (i : Nat) (x : α), xs.get? i = some x →
      (modifyAt f i xs).get? i = some (f x) := by
  intro xs
  induction xs with
  | nil => intro i x h; simp at h
  | cons y ys ih =>
    intro i x h
    cases i with
    | zero =>
      simp only [List.get?_cons_zero, Option.some.injEq] at h
      subst h
      rfl
    | succ i =>
      simp only [List.get?_cons_succ] at h
      simp only [modifyAt, List.get?_cons_succ]
      exact ih i x h

/-- After `Define` the scope itself binds the name to the value. -/
theorem Binds_Define (scopes : List Scope) (scope : ScopeRef) (name : String) (value : ObjRef)
    (hscope : scope < scopes.length) :
    Binds (Scope.Define scopes scope name value) scope name value := by
  obtain ⟨s, hs⟩ : ∃ s, scopes.get? scope = some s :=
    ⟨scopes.get ⟨scope, hscope⟩, List.get?_eq_get hscope⟩
  exact ⟨_, modifyAt_get _ scopes scope s hs, dictFind_dictInsert _ _ _⟩

/-- `Set` writes, with `Define`, into the nearest scope of the chain that binds
the name; when no scope of the chain binds it, `Set` ends in its error. -/
theorem SetFrom_nearest (scopes : List Scope) (name : String) (value : ObjRef) :
    ∀ (n : Nat) (scope : ScopeRef),
      Scope.SetFrom n scopes scope name value =
        (nearestFrom n scopes scope name).map (fun k => Scope.Define scopes k name value) := by
  intro n
  induction n with
  | zero => intro scope; rfl
  | succ n ih =>
    intro scope
    rw [nearestFrom, Scope.SetFrom]
    cases hs : scopes.get? scope with
    | none => rfl
    | some s =>
      simp only
      split_ifs
      · rfl
      · cases hp : s.parent with
        | none => rfl
        | some parent => exact ih parent

/-- C18, amended. With a value on top of the operand stack, `DEF_GLOBAL`,
`DEF_LOCAL`, `DEF_OBJECT` with a `self` that has an object-scope and `SET_LOCAL`
of a name that some scope of the chain of the current scope binds change the
scopes only: the operand stack, with the value on top, and the call stack stay
as they are, and the name interned under `id` is defined, with that value, in
the global scope, in the scope of the frame on top, in the object-scope of
`self`, and in the nearest scope of the chain that binds it. `DEF_OBJECT` with
a null `self` changes nothing at all. `DEF_OBJECT` with a `self` that has no
object-scope (a number, a string, a block) dereferences the null scope, and
`SET_LOCAL` of a name bound nowhere in the chain ends in the error of `Set`: in
both cases nothing is defined. After a `Define` the scope written binds the
name to the value. -/
theorem Define_opcodes (t : Tables) (s : Interpreter) (slot id : Nat) (number : Int)
    (top : CallFrame) (below : List CallFrame) (value : ObjRef) (rest : Operands)
    (hstack : s.callStack = top :: below) (hoperands : s.operands = value :: rest) :
    ExecuteInstruction t s slot ⟨OP_DEF_GLOBAL, id, number⟩ =
        Except.ok { s with scopes := Scope.Define s.scopes s.globals (t.strings id) value } ∧
      (∀ self scope, top.self = some self → ObjectScope s.objects self = some scope →
        ExecuteInstruction t s slot ⟨OP_DEF_OBJECT, id, number⟩ =
          Except.ok { s with scopes := Scope.Define s.scopes scope (t.strings id) value }) ∧
      (∀ self, top.self = some self → ObjectScope s.objects self = none →
        ExecuteInstruction t s slot ⟨OP_DEF_OBJECT, id, number⟩ =
          Except.error Fault.nullReference) ∧
      (top.self = none →
        ExecuteInstruction t s slot ⟨OP_DEF_OBJECT, id, number⟩ = Except.ok s) ∧
      ExecuteInstruction t s slot ⟨OP_DEF_LOCAL, id, number⟩ =
        Except.ok { s with scopes := Scope.Define s.scopes top.scope (t.strings id) value } ∧
      (∀ k, nearestFrom s.scopes.length s.scopes top.scope (t.strings id) = some k →
        ExecuteInstruction t s slot ⟨OP_SET_LOCAL, id, number⟩ =
          Except.ok { s with scopes := Scope.Define s.scopes k (t.strings id) value }) ∧
      (nearestFrom s.scopes.length s.scopes top.scope (t.strings id) = none →
        ExecuteInstruction t s slot ⟨OP_SET_LOCAL, id, number⟩ =
          Except.error Fault.undefinedName) ∧
      (∀ scope, scope < s.scopes.length →
        Binds (Scope.Define s.scopes scope (t.strings id) value) scope (t.strings id) value) := by
  refine ⟨?_, ?_, ?_, ?_, ?_, ?_, ?_, ?_⟩
  · simp only [ExecuteInstruction, PeekFrame, hstack, PeekOperand, hoperands]
  · intro self scope hself hscope
    simp only [ExecuteInstruction, PeekFrame, hstack, PeekOperand, hoperands, hself, hscope]
  · intro self hself hscope
    simp only [ExecuteInstruction, PeekFrame, hstack, PeekOperand, hoperands, hself, hscope]
  · intro hself
    simp only [ExecuteInstruction, PeekFrame, hstack, PeekOperand, hoperands, hself]
  · simp only [ExecuteInstruction, PeekFrame, hstack, PeekOperand, hoperands]
  · intro k hk
    simp only [ExecuteInstruction, PeekFrame, hstack, PeekOperand, hoperands, Scope.Set,
      SetFrom_nearest, hk, Option.map_some']
  · intro hk
    simp only [ExecuteInstruction, PeekFrame, hstack, PeekOperand, hoperands, Scope.Set,
      SetFrom_nearest, hk, Option.map_none']
  · intro scope hscope
    exact Binds_Define s.scopes scope (t.strings id) value hscope

/-- C18, at `SET_LOCAL x` in a frame whose scope is the object-scope of `point`:
the chain leads to the global scope, the nearest scope that binds `x`. -/
theorem Define_opcodes_witness :
    ExecuteInstruction sampleTables
        { sampleInterpreter with callStack := [⟨sampleMain, 0, 2, some 8⟩], operands := [7] }
        0 ⟨OP_SET_LOCAL, 1, 0⟩ =
      Except.ok { sampleInterpreter with
        callStack := [⟨sampleMain, 0, 2, some 8⟩]
        operands := [7]
        scopes := Scope.Define sampleInterpreter.scopes 0 "x" 7 } :=
  (Define_opcodes sampleTables
    { sampleInterpreter with callStack := [⟨sampleMain, 0, 2, some 8⟩], operands := [7] }
    0 1 0 ⟨sampleMain, 0, 2, some 8⟩ [] 7 [] rfl rfl).2.2.2.2.2.1 0 rfl

/-- C18, as stated, fails. With a value on top of the operand stack,
`DEF_OBJECT` in a frame whose `self` is a number object, which has no
object-scope, defines nothing: the run stops at the null scope. And `SET_LOCAL`
of `foo`, which no scope of the chain binds, ends in the error of `Set` and
binds nothing. -/
theorem Define_opcodes_unbound :
    ExecuteInstruction sampleTables
        { sampleInterpreter with
          callStack := [⟨sampleMain, 0, 0, some 9⟩]
          operands := [7]
          objects := sampleInterpreter.objects ++ [⟨some 3, Variant.number 3⟩] }
        0 ⟨OP_DEF_OBJECT, 4, 0⟩ = Except.error Fault.nullReference ∧
      ExecuteInstruction sampleTables
        { sampleInterpreter with callStack := [⟨sampleMain, 0, 2, some 8⟩], operands := [7] }
        0 ⟨OP_SET_LOCAL, 0, 0⟩ = Except.error Fault.undefinedName :=
  ⟨rfl, rfl⟩

/-! ## The instruction loop (C19, C20) -/

theorem modifyAt_append {α : Type} (f : α → α) (x : α) (rest : List α) :
    ∀ front : List α, modifyAt f front.length (front ++ x :: rest) = front ++ f x :: rest := by
  intro front
  induction front with
  | nil => rfl
  | cons y ys ih =>
    rw [List.length_cons, List.cons_append, modifyAt, ih]
    rfl

/-- The frame in a slot that is still on the stack: the frames pushed since are
above it, the frames below it are as many as the slot number. -/
theorem modifySlot_pushed (f : CallFrame → CallFrame) (pushed : List CallFrame)
    (frame : CallFrame) (below : List CallFrame) :
    modifySlot f below.length (pushed ++ frame :: below) = pushed ++ f frame :: below := by
  unfold modifySlot
  have hlen : (pushed ++ frame :: below).length - 1 - below.length = pushed.length := by
    simp only [List.length_append, List.length_cons]
    omega
  rw [if_pos (by simp only [List.length_append, List.length_cons]; omega), hlen]
  exact modifyAt_append f frame below pushed

/-- A slot that the stack no longer reaches: nothing is changed. -/
theorem modifySlot_popped (f : CallFrame → CallFrame) (slot : Nat) (stack : List CallFrame)
    (h : stack.length ≤ slot) : modifySlot f slot stack = stack := by
  unfold modifySlot
  rw [if_neg (by omega)]

/-- One round of the loop: the instruction of the frame on top is executed, and
the address in the slot of that frame is incremented. -/
theorem Step_slot (t : Tables) (s s1 : Interpreter) (frame : CallFrame)
    (below : List CallFrame) (instruction : Instruction)
    (hstack : s.callStack = frame :: below) (hfetch : fetch frame = Except.ok instruction)
    (hexec : ExecuteInstruction t s below.length instruction = Except.ok s1) :
    Step t s = Except.ok { s1 with
      callStack := modifySlot (fun f => { f with address := f.address + 1 }) below.length
        s1.callStack } := by
  simp only [Step, PeekFrame, hstack, hfetch, List.length_cons, Nat.add_sub_cancel, hexec]

/-- C19, as stated, fails. A `MESSAGE_0` that lands on a method block pushes the
frame of the block and advances the address of the caller at once, from 2 to 3,
while the new frame on top stays at address 0; the `END_BLOCK` of the block then
pops its frame and leaves the address of the caller, uncovered beneath, at 3. -/
theorem Step_caller_advanced_at_once :
    Step sampleTables
        { sampleInterpreter with callStack := [⟨sampleMain, 2, 0, some 0⟩], operands := [8] } =
      Except.ok { sampleInterpreter with
        callStack := [⟨sampleBody, 0, 3, some 8⟩, ⟨sampleMain, 3, 0, some 0⟩]
        scopes := sampleInterpreter.scopes ++ [⟨some 0, []⟩] } ∧
    Step sampleTables
        { sampleInterpreter with
          callStack := [⟨sampleBody, 0, 3, some 8⟩, ⟨sampleMain, 3, 0, some 0⟩]
          scopes := sampleInterpreter.scopes ++ [⟨some 0, []⟩] } =
      Except.ok { sampleInterpreter with
        callStack := [⟨sampleMain, 3, 0, some 0⟩]
        scopes := sampleInterpreter.scopes ++ [⟨some 0, []⟩] } :=
  ⟨rfl, rfl⟩

/-- C19, amended. In every round of the loop the address incremented after the
dispatch is that of the frame whose instruction was fetched, the frame on top
before the opcode ran. When the opcode leaves frames pushed above it, it is the
caller, not the new frame on top, that is advanced, at once; when the opcode
has popped it, no frame is advanced: the frame uncovered beneath keeps its
address. -/
theorem Step_advances_fetched_frame (t : Tables) (s s1 : Interpreter) (frame : CallFrame)
    (below : List CallFrame) (instruction : Instruction)
    (hstack : s.callStack = frame :: below) (hfetch : fetch frame = Except.ok instruction)
    (hexec : ExecuteInstruction t s below.length instruction = Except.ok s1) :
    (∀ pushed f rest, s1.callStack = pushed ++ f :: rest → rest.length = below.length →
        Step t s = Except.ok { s1 with
          callStack := pushed ++ { f with address := f.address + 1 } :: rest }) ∧
      (s1.callStack.length ≤ below.length → Step t s = Except.ok s1) := by
  have hstep := Step_slot t s s1 frame below instruction hstack hfetch hexec
  constructor
  · intro pushed f rest hs1 hrest
    rw [hstep, hs1, ← hrest, modifySlot_pushed]
  · intro hle
    rw [hstep, modifySlot_popped _ _ _ hle]

theorem Step_advances_fetched_frame_witness :
    Step sampleTables
        { sampleInterpreter with callStack := [⟨sampleMain, 2, 0, some 0⟩], operands := [8] } =
      Except.ok { sampleInterpreter with
        callStack := [⟨sampleBody, 0, 3, some 8⟩] ++
          { (⟨sampleMain, 2, 0, some 0⟩ : CallFrame) with address := 2 + 1 } :: []
        scopes := sampleInterpreter.scopes ++ [⟨some 0, []⟩] } :=
  (Step_advances_fetched_frame sampleTables
    { sampleInterpreter with callStack := [⟨sampleMain, 2, 0, some 0⟩], operands := [8] }
    { sampleInterpreter with
      callStack := [⟨sampleBody, 0, 3, some 8⟩, ⟨sampleMain, 2, 0, some 0⟩]
      scopes := sampleInterpreter.scopes ++ [⟨some 0, []⟩] }
    ⟨sampleMain, 2, 0, some 0⟩ [] ⟨OP_MESSAGE_0, 2, 0⟩ rfl rfl rfl).1
    [⟨sampleBody, 0, 3, some 8⟩] ⟨sampleMain, 2, 0, some 0⟩ [] rfl rfl

/-- C20. With the loop frame on top, at `LOOP_2`, and the operands `body`,
`condition` and the result `r` of the condition on top of a stack `S`: when `r`
is not the `True` singleton the round leaves `Nil` on `S` and pops the loop
frame (the frame beneath is not touched); when `r` is the `True` singleton it
leaves `body` and `condition` on `S` and keeps the loop frame, whose next
instruction is `LOOP_3`. -/
theorem Step_loop2 (t : Tables) (s : Interpreter) (frame : CallFrame)
    (below : List CallFrame) (r condition body : ObjRef) (S : Operands)
    (hstack : s.callStack = frame :: below) (hcode : frame.code = loopCode)
    (haddress : frame.address = 1) (hoperands : s.operands = r :: condition :: body :: S) :
    (r ≠ s.trueObject →
        Step t s = Except.ok { s with operands := s.nilObject :: S, callStack := below }) ∧
      (r = s.trueObject →
        Step t s = Except.ok { s with
          operands := condition :: body :: S
          callStack := { frame with address := 2 } :: below } ∧
        fetch { frame with address := 2 } = Except.ok ⟨OP_LOOP_3, 0, 0⟩) := by
  have hfetch : fetch frame = Except.ok ⟨OP_LOOP_2, 0, 0⟩ := by
    simp [fetch, hcode, haddress, loopCode]
  constructor
  · intro hr
    have hexec : ExecuteInstruction t s below.length ⟨OP_LOOP_2, 0, 0⟩ =
        Except.ok { s with operands := s.nilObject :: S, callStack := below } := by
      simp only [ExecuteInstruction, PeekFrame, hstack, Pop, PopOperand, hoperands, ne_eq, hr,
        not_false_eq_true, if_true, List.tail_cons, PushNil, Push, PushOperand]
    rw [Step_slot t s _ frame below _ hstack hfetch hexec]
    simp only
    rw [modifySlot_popped _ _ _ (le_refl _)]
  · intro hr
    have hexec : ExecuteInstruction t s below.length ⟨OP_LOOP_2, 0, 0⟩ =
        Except.ok { s with operands := condition :: body :: S } := by
      simp only [ExecuteInstruction, PeekFrame, hstack, Pop, PopOperand, hoperands, ne_eq, hr,
        not_true_eq_false, if_false]
    constructor
    · rw [Step_slot t s _ frame below _ hstack hfetch hexec]
      simp only [hstack]
      rw [show frame :: below = [] ++ frame :: below from rfl, modifySlot_pushed]
      simp [haddress]
    · simp [fetch, hcode, loopCode]

theorem Step_loop2_witness :
    Step sampleTables
        { sampleInterpreter with
          callStack := [⟨loopCode, 1, 0, some 0⟩, ⟨sampleMain, 3, 0, some 0⟩]
          operands := [2, 7, 7, 8] } =
      Except.ok { sampleInterpreter with
        callStack := [⟨sampleMain, 3, 0, some 0⟩]
        operands := [0, 8] } :=
  (Step_loop2 sampleTables
    { sampleInterpreter with
      callStack := [⟨loopCode, 1, 0, some 0⟩, ⟨sampleMain, 3, 0, some 0⟩]
      operands := [2, 7, 7, 8] }
    ⟨loopCode, 1, 0, some 0⟩ [⟨sampleMain, 3, 0, some 0⟩] 2 7 7 [8] rfl rfl rfl rfl).1
    (by decide)

/-! ## Installing a method (C21) -/

theorem filter_ne_filter_eq {α : Type} (table : List (String × α)) (key : String) :
    (table.filter (fun entry => decide (entry.1 ≠ key))).filter
      (fun entry => decide (entry.1 = key)) = [] := by
  induction table with
  | nil => rfl
  | cons entry rest ih =>
    by_cases h : entry.1 = key
    · simp only [List.filter, ne_eq, h, not_true_eq_false, decide_False]
      exact ih
    · simp only [List.filter, ne_eq, h, not_false_eq_true, decide_True, decide_False]
      exact ih

/-- C21. `AddMethod` with an empty name or with a body that is not a block
leaves the object as it was and writes one line. With a non-empty name and a
block as body it writes nothing, the method table then has exactly one entry for
the name, which is the body, every other name finds what it found before, and
the primitive table, the name and the object-scope are unchanged. -/
theorem AddMethod_table (objects : List Object) (d : DynamicObject) (name : String)
    (body : ObjRef) :
    (name.length = 0 ∨ (AsBlock objects body).isNone = true →
        (AddMethod objects d name body).1 = d ∧
          (AddMethod objects d name body).2.length = 1) ∧
      (name.length ≠ 0 → (AsBlock objects body).isSome = true →
        dictFind (AddMethod objects d name body).1.methods name = some body ∧
          (AddMethod objects d name body).1.methods.filter
            (fun entry => decide (entry.1 = name)) = [(name, body)] ∧
          (∀ other, other ≠ name →
            dictFind (AddMethod objects d name body).1.methods other =
              dictFind d.methods other) ∧
          (AddMethod objects d name body).1.primitives = d.primitives ∧
          (AddMethod objects d name body).1.name = d.name ∧
          (AddMethod objects d name body).1.scope = d.scope ∧
          (AddMethod objects d name body).2 = []) := by
  constructor
  · intro h
    unfold AddMethod
    by_cases hn : name.length = 0
    · simp only [hn, if_true, List.length_singleton, and_self]
    · rcases h with h | h
      · exact absurd h hn
      · simp only [hn, if_false, h, if_true, List.length_singleton, and_self]
  · intro hn hb
    have hb2 : (AsBlock objects body).isNone = false := by
      cases h : AsBlock objects body with
      | none => simp [h] at hb
      | some b => rfl
    have hadd : AddMethod objects d name body =
        ({ d with methods := dictInsert d.methods name body }, []) := by
      simp only [AddMethod, hn, hb2, if_false, Bool.false_eq_true]
    rw [hadd]
    refine ⟨dictFind_dictInsert _ _ _, ?_, fun other ho => dictFind_dictInsert_ne _ _ _ _ ho,
      rfl, rfl, rfl, rfl⟩
    simp only [dictInsert, List.filter, decide_True]
    rw [filter_ne_filter_eq]

/-! ## The unhandled-message sentinel (C23) -/

/-- A silent object without prototype returns the null reference. -/
theorem Receive_root (objects : List Object) (message : String) (o thisRef : ObjRef)
    (args : List ObjRef) (n : Nat) (h : SilentRoot objects message o) :
    Receive (n + 1) objects o thisRef message args = Except.ok Handler.unhandled := by
  obtain ⟨object, hget, hproto, htables⟩ := h
  rw [Receive, hget]
  simp only [hproto]
  cases hv : object.variant with
  | dynamic d =>
    obtain ⟨hm, hp⟩ := htables d hv
    simp only [hm, hp]
  | number v => rfl
  | string v => rfl
  | block b => rfl

/-- C23. Along a prototype chain `o0 -> ... -> ok` in which no object has the
selector in its method table or its primitive table and the last object has no
prototype, `Receive` on `o0` returns the null reference, for every fuel larger
than the number of objects passed: it ends neither in a method nor in a
primitive. An object without prototype and without the selector returns it at
once. -/
theorem Receive_sentinel (objects : List Object) (message : String) (thisRef : ObjRef)
    (args : List ObjRef) (front : List ObjRef) (last : ObjRef) (fuel : Nat)
    (hchain : Delegates objects message (front ++ [last]))
    (hlast : SilentRoot objects message last) (hfuel : front.length < fuel) :
    Receive fuel objects ((front ++ [last]).headD last) thisRef message args =
        Except.ok Handler.unhandled ∧
      Receive 1 objects last thisRef message args = Except.ok Handler.unhandled := by
  obtain ⟨n, rfl⟩ : ∃ n, fuel = (n + 1) + front.length := ⟨fuel - front.length - 1, by omega⟩
  rw [Receive_chain objects message thisRef args last front (n + 1) hchain]
  exact ⟨Receive_root objects message last thisRef args n hlast,
    Receive_root objects message last thisRef args 0 hlast⟩

theorem Receive_sentinel_witness :
    Receive 2 sampleInterpreter.objects 8 8 "foo" [] = Except.ok Handler.unhandled ∧
      Receive 1 sampleInterpreter.objects 6 8 "foo" [] = Except.ok Handler.unhandled :=
  Receive_sentinel sampleInterpreter.objects "foo" 8 [] [8] 6 2
    ⟨⟨dynamicObject (some 6) "point" [] [] (some 2), rfl, rfl,
      fun d h => by cases h; exact ⟨rfl, rfl⟩⟩, trivial⟩
    ⟨dynamicObject none "Object" [("copy", 7)] [("length", 1)] (some 1), rfl, rfl,
      fun d h => by cases h; exact ⟨rfl, rfl⟩⟩ (by decide)

/-! ## The while loop (C25) -/

theorem Steps_add (t : Tables) :
    ∀ (a b : Nat) (s s1 : Interpreter), Steps t a s = Except.ok s1 →
      Steps t (a + b) s = Steps t b s1 := by
  intro a
  induction a with
  | zero =>
    intro b s s1 h
    simp only [Steps, Except.ok.injEq] at h
    subst h
    simp
  | succ a ih =>
    intro b s s1 h
    rw [show a + 1 + b = (a + b) + 1 by omega, Steps]
    rw [Steps] at h
    cases hs : Step t s with
    | error fault => rw [hs] at h; cases h
    | ok s2 =>
      rw [hs] at h
      exact ih b s2 s1 h

theorem Steps_one (t : Tables) (s s1 : Interpreter) (h : Step t s = Except.ok s1) :
    Steps t 1 s = Except.ok s1 := by
  simp only [Steps, h]

/-- A round whose instruction is a send: the address in the slot of the frame
on top is incremented in whatever state the send leaves. -/
theorem Step_send (t : Tables) (s : Interpreter) (frame : CallFrame)
    (below : List CallFrame) (instruction : Instruction) (call : ReceiveCall)
    (hstack : s.callStack = frame :: below) (hfetch : fetch frame = Except.ok instruction)
    (hexec : ExecuteInstruction t s below.length instruction = Send t s call) :
    Step t s = (Send t s call).map (fun s1 => { s1 with
      callStack := modifySlot (fun f => { f with address := f.address + 1 }) below.length
        s1.callStack }) := by
  simp only [Step, PeekFrame, hstack, hfetch, List.length_cons, Nat.add_sub_cancel, hexec]
  cases Send t s call <;> rfl

/-- C25. `WhileLoop(condition, body)` pushes the body, then the condition, then
a frame on the loop code with the scope and the `self` of the caller. With that
frame on top at `LOOP_1`: the round sends `call` to the condition. Assume the
rounds that follow return to the loop frame, now at `LOOP_2`, with one result,
the `True` singleton, pushed: then `LOOP_2` pops it, `LOOP_3` sends `call` to
the body (the operand one below the top, not the condition). Assume again that
the rounds that follow return to the loop frame, now at `LOOP_4`, with one
result pushed: then `LOOP_4` pops it, and the loop frame is at `LOOP_1` again,
address 0, over the same call stack, with the operand stack exactly as
`WhileLoop` left it. -/
theorem WhileLoop_iteration (t : Tables) (s : Interpreter) (top : CallFrame)
    (below : List CallFrame) (condition body : ObjRef)
    (hstack : s.callStack = top :: below) :
    WhileLoop s condition body =
        Except.ok { s with
          operands := condition :: body :: s.operands
          callStack := ⟨loopCode, 0, top.scope, top.self⟩ :: s.callStack } ∧
      ∀ s0 : Interpreter,
        s0.callStack = ⟨loopCode, 0, top.scope, top.self⟩ :: s.callStack →
        s0.operands = condition :: body :: s.operands →
        Step t s0 = (Send t s0 ⟨condition, condition, "call", []⟩).map (fun s1 => { s1 with
          callStack := modifySlot (fun f => { f with address := f.address + 1 })
            s.callStack.length s1.callStack }) ∧
        ∀ (sA : Interpreter) (k1 : Nat), Steps t (k1 + 1) s0 = Except.ok sA →
          sA.callStack = ⟨loopCode, 1, top.scope, top.self⟩ :: s.callStack →
          sA.operands = sA.trueObject :: condition :: body :: s.operands →
          Step t sA = Except.ok { sA with
              operands := condition :: body :: s.operands
              callStack := ⟨loopCode, 2, top.scope, top.self⟩ :: s.callStack } ∧
            Step t { sA with
                operands := condition :: body :: s.operands
                callStack := ⟨loopCode, 2, top.scope, top.self⟩ :: s.callStack } =
              (Send t { sA with
                  operands := condition :: body :: s.operands
                  callStack := ⟨loopCode, 2, top.scope, top.self⟩ :: s.callStack }
                ⟨body, body, "call", []⟩).map (fun s1 => { s1 with
                  callStack := modifySlot (fun f => { f with address := f.address + 1 })
                    s.callStack.length s1.callStack }) ∧
            ∀ (sC : Interpreter) (k2 : Nat) (result : ObjRef),
              Steps t (k2 + 1) { sA with
                operands := condition :: body :: s.operands
                callStack := ⟨loopCode, 2, top.scope, top.self⟩ :: s.callStack } =
                  Except.ok sC →
              sC.callStack = ⟨loopCode, 3, top.scope, top.self⟩ :: s.callStack →
              sC.operands = result :: condition :: body :: s.operands →
              Steps t ((k1 + 1) + 1 + (k2 + 1) + 1) s0 = Except.ok { sC with
                operands := condition :: body :: s.operands
                callStack := ⟨loopCode, 0, top.scope, top.self⟩ :: s.callStack } := by
  refine ⟨?_, ?_⟩
  · simp only [WhileLoop, PeekFrame, hstack, Push, PushOperand]
  intro s0 h0stack h0operands
  refine ⟨?_, ?_⟩
  · refine Step_send t s0 _ _ ⟨OP_LOOP_1, 0, 0⟩ _ h0stack (by simp [fetch, loopCode]) ?_
    simp only [ExecuteInstruction, PeekFrame, h0stack, PeekOperand, h0operands]
  intro sA k1 hA hAstack hAoperands
  have hstepA : Step t sA = Except.ok { sA with
      operands := condition :: body :: s.operands
      callStack := ⟨loopCode, 2, top.scope, top.self⟩ :: s.callStack } := by
    have hexec : ExecuteInstruction t sA s.callStack.length ⟨OP_LOOP_2, 0, 0⟩ =
        Except.ok { sA with operands := condition :: body :: s.operands } := by
      simp only [ExecuteInstruction, PeekFrame, hAstack, Pop, PopOperand, hAoperands, ne_eq,
        not_true_eq_false, if_false]
    rw [Step_slot t sA _ _ s.callStack ⟨OP_LOOP_2, 0, 0⟩ hAstack (by simp [fetch, loopCode])
      hexec]
    simp only [hAstack]
    rw [show (⟨loopCode, 1, top.scope, top.self⟩ : CallFrame) :: s.callStack =
      [] ++ ⟨loopCode, 1, top.scope, top.self⟩ :: s.callStack from rfl, modifySlot_pushed]
    simp
  refine ⟨hstepA, ?_, ?_⟩
  · refine Step_send t _ _ _ ⟨OP_LOOP_3, 0, 0⟩ _ rfl (by simp [fetch, loopCode]) ?_
    simp only [ExecuteInstruction, PeekFrame, List.get?_cons_succ, List.get?_cons_zero]
  intro sC k2 result hC hCstack hCoperands
  have hstepC : Step t sC = Except.ok { sC with
      operands := condition :: body :: s.operands
      callStack := ⟨loopCode, 0, top.scope, top.self⟩ :: s.callStack } := by
    have hexec : ExecuteInstruction t sC s.callStack.length ⟨OP_LOOP_4, 0, 0⟩ =
        Except.ok { sC with
          operands := condition :: body :: s.operands
          callStack := ⟨loopCode, -1, top.scope, top.self⟩ :: s.callStack } := by
      simp only [ExecuteInstruction, PeekFrame, hCstack, Pop, PopOperand, hCoperands]
      rw [show (⟨loopCode, 3, top.scope, top.self⟩ : CallFrame) :: s.callStack =
        [] ++ ⟨loopCode, 3, top.scope, top.self⟩ :: s.callStack from rfl, modifySlot_pushed]
      rfl
    rw [Step_slot t sC _ _ s.callStack ⟨OP_LOOP_4, 0, 0⟩ hCstack (by simp [fetch, loopCode])
      hexec]
    simp only
    rw [show (⟨loopCode, -1, top.scope, top.self⟩ : CallFrame) :: s.callStack =
      [] ++ ⟨loopCode, -1, top.scope, top.self⟩ :: s.callStack from rfl, modifySlot_pushed]
    simp
  rw [show (k1 + 1) + 1 + (k2 + 1) + 1 = (k1 + 1) + (1 + ((k2 + 1) + 1)) by omega,
    Steps_add t _ _ _ _ hA, Steps_add t _ _ _ _ (Steps_one t _ _ hstepA),
    Steps_add t _ _ _ _ hC]
  exact Steps_one t _ _ hstepC

theorem WhileLoop_iteration_witness :
    Steps sampleLoopTables 8 sampleLoop =
      Except.ok { sampleLoop with scopes := sampleLoop.scopes ++ [⟨some 0, []⟩, ⟨some 0, []⟩] } :=
  (((WhileLoop_iteration sampleLoopTables
    { sampleLoop with callStack := [⟨sampleMain, 3, 0, some 0⟩], operands := [9] }
    ⟨sampleMain, 3, 0, some 0⟩ [] 6 7 rfl).2 sampleLoop rfl rfl).2
    { sampleLoop with
      callStack := [⟨loopCode, 1, 0, some 0⟩, ⟨sampleMain, 3, 0, some 0⟩]
      operands := [1, 6, 7, 9]
      scopes := sampleLoop.scopes ++ [⟨some 0, []⟩] } 2 rfl rfl rfl).2.2
    { sampleLoop with
      callStack := [⟨loopCode, 3, 0, some 0⟩, ⟨sampleMain, 3, 0, some 0⟩]
      operands := [1, 6, 7, 9]
      scopes := sampleLoop.scopes ++ [⟨some 0, []⟩, ⟨some 0, []⟩] } 2 1 rfl rfl rfl

/-! ## The primitive `StringAt` (C29) -/

/-- C27. For every parser state, `Expression` returns what `Sequence` returns,
the same expression and the same final state (with one unit of fuel less, and no
result when `Sequence` has none): the `Match(TOKEN_SEMICOLON)` behind `Sequence`
never consumes a token, because `Sequence` stops only in front of a token that
is not a `;`. -/
theorem Expression_eq_Sequence (n : Nat) (p : Parser) :
    Expression (n + 1) p = Sequence n p ∧
      ∀ e q, Sequence n p = some (e, q) → Match q TOKEN_SEMICOLON = (false, q) := by
  have hno : ∀ e q, Sequence n p = some (e, q) → Match q TOKEN_SEMICOLON = (false, q) :=
    fun e q h => not_LookAhead_match (Sequence_no_semicolon n p e q h)
  refine ⟨?_, hno⟩
  rw [Expression]
  cases h : Sequence n p with
  | none => rfl
  | some r =>
    obtain ⟨e, q⟩ := r
    simp only [hno e q h]

/-- C24. In REPL mode `Parse` returns, for every fuel that lets `Statement`
return, the one statement that `Statement` parses, or the null reference when an
error has been reported by then; behind the statement it consumes one
`TOKEN_SEMICOLON` when that is the next token and nothing otherwise, and it
leaves every later token unread, whatever it is: no `TOKEN_EOF` is required. -/
theorem Parse_repl (n : Nat) (p p1 : Parser) (s1 : Expr)
    (hmode : IsInfinite p = true) (hs : Statement n p = some (s1, p1)) :
    ∀ m, n ≤ m →
      Parse m p = some (if p1.hadError then none else some s1,
          (Match p1 TOKEN_SEMICOLON).2) ∧
        (Match p1 TOKEN_SEMICOLON).2.tokens =
          (if LookAhead p1 TOKEN_SEMICOLON then p1.tokens.tail else p1.tokens) ∧
        (Match p1 TOKEN_SEMICOLON).2.hadError = p1.hadError ∧
        (Match p1 TOKEN_SEMICOLON).2.errors = p1.errors := by
  intro m hm
  have hmatch : (Match p1 TOKEN_SEMICOLON).2.tokens =
        (if LookAhead p1 TOKEN_SEMICOLON then p1.tokens.tail else p1.tokens) ∧
      (Match p1 TOKEN_SEMICOLON).2.hadError = p1.hadError ∧
      (Match p1 TOKEN_SEMICOLON).2.errors = p1.errors := by
    obtain ⟨ts, e, es, i⟩ := p1
    cases ts with
    | nil => simp [Match, LookAhead, peekType, Consume]
    | cons t ts =>
      by_cases ht : t.type = TOKEN_SEMICOLON
      · simp [Match, ht]
      · simp [Match, ht]
  refine ⟨?_, hmatch⟩
  unfold Parse
  rw [if_pos hmode, Statement_fuel_le hm hs]
  simp only [HadError, hmatch.2.1]
  split_ifs <;> rfl

theorem Parse_repl_witness :
    Parse 9 ⟨[⟨TOKEN_NAME, "a", 0⟩, ⟨TOKEN_SEMICOLON, ";", 0⟩, ⟨TOKEN_NAME, "b", 0⟩,
        ⟨TOKEN_EOF, "", 0⟩], false, [], true⟩ =
      some (some (NameExpr "a"),
        ⟨[⟨TOKEN_NAME, "b", 0⟩, ⟨TOKEN_EOF, "", 0⟩], false, [], true⟩) :=
  (Parse_repl 9 ⟨[⟨TOKEN_NAME, "a", 0⟩, ⟨TOKEN_SEMICOLON, ";", 0⟩, ⟨TOKEN_NAME, "b", 0⟩,
      ⟨TOKEN_EOF, "", 0⟩], false, [], true⟩
    ⟨[⟨TOKEN_SEMICOLON, ";", 0⟩, ⟨TOKEN_NAME, "b", 0⟩, ⟨TOKEN_EOF, "", 0⟩], false, [], true⟩
    (NameExpr "a") rfl rfl 9 (le_refl 9)).1

/-! ## A definition body that is never closed (C28) -/

/-- C28, the code at the failing input. On `def Foo` with an opening brace that
is not closed before the end of the file, `Parse` does not return, whatever the
fuel: `ParseDefine` reports "Expect definition." without consuming anything, no
closing brace is matched, and at the end of the stream the loop of
`ParseDefines` goes round for ever. -/
theorem Parse_unclosed_def (n : Nat) : Parse n (freshParser tokensUnclosedDef) = none := by
  have hexpr := Expression_unclosed_def n
  simp only [Parse, IsInfinite, freshParser, Bool.false_eq_true, if_false]
  simp only [freshParser] at hexpr
  rw [hexpr]

/-! ## The parameter list of a block literal (C22) -/

theorem countNames_names {names : List Token} (hnames : ∀ t ∈ names, t.type = TOKEN_NAME) :
    countNames names = names.length := by
  induction names with
  | nil => rfl
  | cons t ts ih =>
    have ht : t.type = TOKEN_NAME := hnames t (List.mem_cons_self _ _)
    simp only [countNames, ht, if_true, List.length_cons]
    rw [ih (fun u hu => hnames u (List.mem_cons_of_mem _ hu))]

theorem countNames_head {rest : List Token} {e : Bool} {es : List String} {i : Bool}
    (h : peekType ⟨rest, e, es, i⟩ 0 ≠ TOKEN_NAME) : countNames rest = 0 := by
  cases rest with
  | nil => rfl
  | cons t ts =>
    have : t.type ≠ TOKEN_NAME := by simpa [peekType] using h
    simp [countNames, this]

/-- The `for` loop of `ParseBlock` on a run of tokens takes their texts in
order and stops behind the run. -/
theorem consumeParams_names (names : List Token) :
    ∀ (rest : List Token) (e : Bool) (es : List String) (i : Bool) (acc : List String),
      consumeParams names.length ⟨names ++ rest, e, es, i⟩ acc =
        (acc ++ names.map Token.text, ⟨rest, e, es, i⟩) := by
  induction names with
  | nil => intro rest e es i acc; simp [consumeParams]
  | cons t ts ih =>
    intro rest e es i acc
    simp only [List.length_cons, List.cons_append, consumeParams, Consume_cons]
    rw [ih]
    simp

/-- C22. Let `names` be a run of `TOKEN_NAME` tokens at the start of a block
literal. (1) When the run is not empty and a `->` follows it, `ParseBlock`
returns, for every fuel above that of the body, the `BlockExpr` whose
parameters are the texts of `names` in source order and whose body is what
`Expression` parses behind the `->`. (2) When the run is followed by a token
that is neither a name nor, unless the run is empty, a `->`, no token is taken
as a parameter: the body is what `Expression` parses from the very first token
of the block and the `BlockExpr` has no parameters. (3) In both cases the only
thing `ParseBlock` does behind the body is to consume the closing brace; when
the brace is there no error is reported. -/
theorem ParseBlock_params (k : Nat) (names rest : List Token) (e : Bool) (es : List String)
    (i : Bool) (body : Expr) (q : Parser) (hnames : ∀ t ∈ names, t.type = TOKEN_NAME) :
    (∀ arrow : Token, names ≠ [] → arrow.type = TOKEN_ARROW →
      Expression k ⟨rest, e, es, i⟩ = some (body, q) →
      ∀ m, k < m →
        ParseBlock m ⟨names ++ arrow :: rest, e, es, i⟩ =
          some (BlockExpr (names.map Token.text) body,
            (ConsumeExpected q TOKEN_RIGHT_BRACE "Expect closing '\x7d' after block.").2)) ∧
    (peekType ⟨rest, e, es, i⟩ 0 ≠ TOKEN_NAME →
      (names = [] ∨ peekType ⟨rest, e, es, i⟩ 0 ≠ TOKEN_ARROW) →
      Expression k ⟨names ++ rest, e, es, i⟩ = some (body, q) →
      ∀ m, k < m →
        ParseBlock m ⟨names ++ rest, e, es, i⟩ =
          some (BlockExpr [] body,
            (ConsumeExpected q TOKEN_RIGHT_BRACE "Expect closing '\x7d' after block.").2)) ∧
    (LookAhead q TOKEN_RIGHT_BRACE = true →
      (ConsumeExpected q TOKEN_RIGHT_BRACE "Expect closing '\x7d' after block.").2 =
        ⟨q.tokens.tail, q.hadError, q.errors, q.infinite⟩) := by
  refine ⟨?_, ?_, ?_⟩
  · intro arrow hne harrow hbody m hm
    obtain ⟨m, rfl⟩ : ∃ j, m = j + 1 := ⟨m - 1, by omega⟩
    have hcount : countNames (names ++ arrow :: rest) = names.length := by
      rw [countNames_append _ _ (by simp [countNames, harrow]), countNames_names hnames]
    have hpos : 0 < names.length := List.length_pos.mpr hne
    have hla : LookAheadAt ⟨names ++ arrow :: rest, e, es, i⟩ names.length TOKEN_ARROW = true := by
      rw [LookAheadAt, peekType_append_length]
      simp [peekType, harrow]
    rw [ParseBlock]
    simp only [hcount, hla, gt_iff_lt, hpos, decide_True, Bool.and_self, if_true,
      consumeParams_names, List.nil_append, Consume_cons]
    rw [Expression_fuel_le (by omega) hbody]
  · intro hname harrow hbody m hm
    obtain ⟨m, rfl⟩ : ∃ j, m = j + 1 := ⟨m - 1, by omega⟩
    have hcount : countNames (names ++ rest) = names.length := by
      rw [countNames_append _ _ (countNames_head hname), countNames_names hnames]
    have hno : (decide (names.length > 0) &&
        LookAheadAt ⟨names ++ rest, e, es, i⟩ names.length TOKEN_ARROW) = false := by
      rcases harrow with rfl | harrow
      · simp
      · rw [LookAheadAt, peekType_append_length]
        simp [harrow]
    rw [ParseBlock]
    simp only [hcount, hno, Bool.false_eq_true, if_false]
    rw [Expression_fuel_le (by omega) hbody]
  · intro hla
    rw [LookAhead_consumeExpected _ hla]
    obtain ⟨ts, e2, es2, i2⟩ := q
    cases ts with
    | nil => simp [LookAhead, peekType] at hla
    | cons t ts => rfl

/-- C22, on the block `x y -> x` and its closing brace: the parameters are
`x` and `y`, the body is `x`, and nothing is left. -/
theorem ParseBlock_params_witness :
    ParseBlock 9 (freshParser tokensBlockXY) =
      some (BlockExpr ["x", "y"] (NameExpr "x"), freshParser []) :=
  (ParseBlock_params 8 [⟨TOKEN_NAME, "x", 0⟩, ⟨TOKEN_NAME, "y", 0⟩]
    [⟨TOKEN_NAME, "x", 0⟩, ⟨TOKEN_RIGHT_BRACE, "\x7d", 0⟩] false [] false (NameExpr "x")
    (freshParser [⟨TOKEN_RIGHT_BRACE, "\x7d", 0⟩]) (by decide)).1
    ⟨TOKEN_ARROW, "->", 0⟩ (by decide) rfl rfl 9 (by decide)

/-! ## Mixfix definitions and keyword sends (C26) -/

/-- The parameter loop of a mixfix definition on a comma-separated list of
names adds one space per name to the selector and the names, in order, to the
parameters. -/
theorem ParseDefineParams_params (ps : List String) :
    ps ≠ [] → ∀ (X : List Token) (e : Bool) (es : List String) (i : Bool) (name : String)
      (acc : List String), LookAhead ⟨X, e, es, i⟩ TOKEN_COMMA = false →
      ParseDefineParams ps.length ⟨paramTokens ps ++ X, e, es, i⟩ name acc =
        some (name ++ spaces ps.length, acc ++ ps, ⟨X, e, es, i⟩) := by
  induction ps with
  | nil => intro h; exact (h rfl).elim
  | cons a ps ih =>
    intro _ X e es i name acc hX
    cases ps with
    | nil =>
      simp only [paramTokens, List.length_singleton, List.singleton_append, ParseDefineParams]
      rw [LookAhead_consumeExpected _ (by simp)]
      simp [not_LookAhead_match hX, spaces]
    | cons b ps =>
      have hrec := ih (by simp) X e es i (name ++ " ") (acc ++ [a]) hX
      simp only [paramTokens, List.length_cons, List.cons_append] at hrec ⊢
      rw [ParseDefineParams]
      rw [LookAhead_consumeExpected _ (by simp)]
      simp only [Consume_cons]
      rw [LookAhead_match (by simp)]
      simp only [if_true, Consume_cons]
      rw [hrec, String.append_assoc, space_spaces]
      simp only [spaces, List.append_assoc, List.singleton_append]

/-- The parts loop of a mixfix definition on the parts `name(params)` appends
the selector of the parts to the selector built so far, and their parameters
to the list. -/
theorem ParseDefineMixfix_parts (parts : List (String × List String)) :
    (∀ part ∈ parts, part.2 ≠ []) →
    ∀ (rest : List Token) (e : Bool) (es : List String) (i : Bool) (name : String)
      (acc : List String), LookAhead ⟨rest, e, es, i⟩ TOKEN_NAME = false →
      ∃ n, ∀ m, n ≤ m →
        ParseDefineMixfix m ⟨defineTokens parts ++ rest, e, es, i⟩ name acc =
          some (name ++ defineSelector parts, acc ++ defineParams parts,
            ⟨rest, e, es, i⟩) := by
  induction parts with
  | nil =>
    intro _ rest e es i name acc hrest
    refine ⟨1, fun m hm => ?_⟩
    obtain ⟨m, rfl⟩ : ∃ j, m = j + 1 := ⟨m - 1, by omega⟩
    simp [ParseDefineMixfix, defineTokens, defineSelector, defineParams, hrest]
  | cons part parts ih =>
    intro harity rest e es i name acc hrest
    obtain ⟨pname, ps⟩ := part
    have hps : ps ≠ [] := harity (pname, ps) (List.mem_cons_self _ _)
    obtain ⟨n, hn⟩ := ih (fun part hpart => harity part (List.mem_cons_of_mem _ hpart))
      rest e es i (name ++ pname ++ spaces ps.length) (acc ++ ps) hrest
    refine ⟨max n ps.length + 1, fun m hm => ?_⟩
    obtain ⟨m, rfl⟩ : ∃ j, m = j + 1 := ⟨m - 1, by omega⟩
    have hparams : ParseDefineParams m
        ⟨paramTokens ps ++ ⟨TOKEN_RIGHT_PAREN, ")", 0⟩ :: (defineTokens parts ++ rest), e, es, i⟩
        (name ++ pname) acc =
        some (name ++ pname ++ spaces ps.length, acc ++ ps,
          ⟨⟨TOKEN_RIGHT_PAREN, ")", 0⟩ :: (defineTokens parts ++ rest), e, es, i⟩) := fuel_le
      (fun j => ParseDefineParams j
        ⟨paramTokens ps ++ ⟨TOKEN_RIGHT_PAREN, ")", 0⟩ :: (defineTokens parts ++ rest), e, es, i⟩
        (name ++ pname) acc)
      (fun j r => ParseDefineParams_mono j _ _ _ r) (show ps.length ≤ m by omega)
      (ParseDefineParams_params ps hps _ e es i (name ++ pname) acc (by simp))
    simp only [defineTokens, List.cons_append, List.append_assoc]
    rw [ParseDefineMixfix]
    simp only [LookAhead_cons, decide_True, if_true, Consume_cons]
    rw [LookAhead_consumeExpected _ (by simp)]
    simp only [Consume_cons]
    rw [hparams]
    simp only
    rw [LookAhead_consumeExpected _ (by simp)]
    simp only [Consume_cons]
    rw [hn m (by omega)]
    simp only [defineSelector, defineParams, String.append_assoc, List.append_assoc]

/-- A definition and a send of the same shape have the same selector and as
many parameters as arguments. -/
theorem defineSelector_eq_keywordSelector :
    ∀ (defined : List (String × List String)) (sent : List (String × List Expr)),
      SameShape defined sent →
      defineSelector defined = keywordSelector sent ∧
        (defineParams defined).length = (keywordArgs sent).length
  | [], [], _ => ⟨rfl, rfl⟩
  | [], _ :: _, h => h.elim
  | _ :: _, [], h => h.elim
  | d :: ds, s :: ss, h => by
    obtain ⟨hname, harity, hrest⟩ := h
    obtain ⟨hsel, hlen⟩ := defineSelector_eq_keywordSelector ds ss hrest
    simp only [defineSelector, keywordSelector, defineParams, keywordArgs, hname, harity,
      hsel, List.length_append, hlen, and_self]

/-- C26. Take a non-empty list of definition parts `name_i(p, ...)`, each with
at least one parameter, followed by a braced body, and a keyword send whose
parts have the same names and the same arities. For every large enough fuel,
`ParseDefine` records the definition as a method under exactly the selector
that `ParseMessage` gives the send, with the declared parameters of all parts
in order, and the number of these parameters is the number of arguments of the
send. -/
theorem ParseDefine_mixfix_selector (defined : List (String × List String))
    (sent : List (String × List Expr)) (lbrace : Token) (bodyTokens : List Token) (e : Bool)
    (es : List String) (i : Bool) (k : Nat) (body : Expr) (q1 p q : Parser) (receiver : Expr)
    (defs : List Definition)
    (hne : defined ≠ []) (harity : ∀ part ∈ defined, part.2 ≠ [])
    (hshape : SameShape defined sent) (hbrace : lbrace.type = TOKEN_LEFT_BRACE)
    (hbody : Expression k ⟨bodyTokens, e, es, i⟩ = some (body, q1))
    (hsend : PartsFrom p sent q) :
    ∃ n, ∀ m, n ≤ m →
      ParseDefine m ⟨defineTokens defined ++ lbrace :: bodyTokens, e, es, i⟩ defs =
          some (defs ++ [(true, keywordSelector sent, BlockExpr (defineParams defined) body)],
            (ConsumeExpected q1 TOKEN_RIGHT_BRACE "Expect '\x7d' to close block.").2) ∧
        ParseMessage m p receiver =
          some (MessageExpr receiver (keywordSelector sent) (keywordArgs sent), q) ∧
        (defineParams defined).length = (keywordArgs sent).length := by
  obtain ⟨hsel, hlen⟩ := defineSelector_eq_keywordSelector defined sent hshape
  obtain ⟨n1, hn1⟩ := ParseDefineMixfix_parts defined harity (lbrace :: bodyTokens) e es i "" []
    (by simp [hbrace])
  obtain ⟨n2, hn2⟩ := ParseMessageParts_parts sent p q "" [] hsend
  refine ⟨max (max n1 n2) (k + 1) + 1, fun m hm => ⟨?_, ?_, hlen⟩⟩
  · obtain ⟨m, rfl⟩ : ∃ j, m = j + 1 := ⟨m - 1, by omega⟩
    have hmix := hn1 m (by omega)
    obtain ⟨m, rfl⟩ : ∃ j, m = j + 1 := ⟨m - 1, by omega⟩
    cases defined with
    | nil => exact (hne rfl).elim
    | cons part parts =>
      rw [ParseDefine]
      simp only [defineTokens, List.cons_append, LookAhead2_cons, LookAhead_cons] at hmix ⊢
      simp only [decide_True, Bool.true_and, Bool.and_true, if_true,
        show decide (TOKEN_LEFT_PAREN = TOKEN_EQ) = false by decide,
        show decide (TOKEN_LEFT_PAREN = TOKEN_LEFT_BRACE) = false by decide,
        Bool.false_eq_true, if_false]
      rw [hmix]
      simp only
      rw [ParseDefineBody, LookAhead_consumeExpected _ (by simp [hbrace])]
      simp only [Consume_cons]
      rw [Expression_fuel_le (by omega) hbody]
      simp [hsel]
  · obtain ⟨m, rfl⟩ : ∃ j, m = j + 1 := ⟨m - 1, by omega⟩
    rw [ParseMessage, hn2 m (by omega)]
    simp

/-- C26, on the definition `foo(a) bar(b)` with the body `a` and the send
`foo(1) bar(2)`: both selectors are `"foo bar "`, with two parameters and two
arguments. -/
theorem ParseDefine_mixfix_selector_witness :
    ∃ n, ∀ m, n ≤ m →
      ParseDefine m (freshParser tokensDefineFooBar) [] =
          some ([(true, "foo bar ", BlockExpr ["a", "b"] (NameExpr "a"))], freshParser []) ∧
        ParseMessage m (freshParser tokensFooBar) (NameExpr "x") =
          some (MessageExpr (NameExpr "x") "foo bar " [NumberExpr 1, NumberExpr 2],
            freshParser []) ∧
        (2 : Nat) = 2 :=
  ParseDefine_mixfix_selector [("foo", ["a"]), ("bar", ["b"])]
    [("foo", [NumberExpr 1]), ("bar", [NumberExpr 2])] ⟨TOKEN_LEFT_BRACE, "\x7b", 0⟩
    [⟨TOKEN_NAME, "a", 0⟩, ⟨TOKEN_RIGHT_BRACE, "\x7d", 0⟩] false [] false 8 (NameExpr "a")
    (freshParser [⟨TOKEN_RIGHT_BRACE, "\x7d", 0⟩]) (freshParser tokensFooBar) (freshParser [])
    (NameExpr "x") [] (by simp) (by simp) ⟨rfl, rfl, rfl, rfl, trivial⟩ rfl rfl
    ⟨_, ⟨rfl, rfl, Or.inr ⟨rfl, _, ⟨5, _, rfl, Or.inl ⟨rfl, rfl, rfl⟩⟩, rfl, rfl⟩⟩,
      Or.inr ⟨rfl, _, ⟨rfl, rfl, Or.inr ⟨rfl, _, ⟨5, _, rfl, Or.inl ⟨rfl, rfl, rfl⟩⟩, rfl, rfl⟩⟩,
        Or.inl ⟨rfl, rfl, rfl⟩⟩⟩

end Finch
